import Mathlib

/-!
# workflow-connector: formatting of query results, descriptor checks, SQL backends

A shallow embedding of `internal/pkg/formatting/jsonForWorkflowAccelerator.go`,
`internal/pkg/descriptor/descriptor.go`, the lookups of
`internal/pkg/util/util.go`, the type classifiers and query templates of
`internal/pkg/sql/sqlite/sqlite.go`, `internal/pkg/sql/sqlserver/sqlserver.go`
and `pkg/sql/pgsql/pgsql.go`, and the request parsing and table introspection
of `pkg/sql/backend.go`, followed by theorems about them.

Conventions of the embedding

* A Go `interface{}` is a `Value`; the nil interface is `Value.null`.
* A Go `map[string]interface{}` is an association list (`GoMap`): `GoMap.get`
  is the Go index expression `m[k]` (nil when the key is missing) and
  `GoMap.set` is the assignment `m[k] = v`. Keys appear in insertion order.
* A Go run-time panic (failed type assertion, nil dereference, index out of
  range) is `Except.error Fault.panic`.
* The mutual recursion between `formatAsAWorkflowType` and the relationship
  resolvers is unrolled with a call-depth budget; exhausting it is
  `Except.error Fault.outOfFuel`, which no Go run produces.
* The process-wide `config.Options.Descriptor.TypeDescriptors` is passed
  explicitly as `tds`.
* A Go slice of pointers (`[]*TypeDescriptor`, `[]*Field`) is the list of the
  structs pointed to where the code is studied on slices without nil entry
  (`TypeDescriptor`, `Descriptor`), and a list of options, `none` being the
  nil pointer, where a nil entry matters (`Pointer.TypeDescriptor`,
  `Pointer.Descriptor`); reading a member through a nil entry panics.
* A Go function returning `(value, err)` returns an `Except String` (the
  error's message, or the value); where the function can also panic this is
  wrapped in `Except Fault`.
* A Go `map[string]string` of templates is the list of its entries in source
  order. A template that is executed is given a second time as parsed nodes
  (`List Node`), with a theorem that its source text is the table entry.
-/

namespace WorkflowConnector

/-! ## Go library model: `time` and `fmt` -/

/-- Go `time.Time` without monotonic reading: an instant (seconds and
nanoseconds since the Unix epoch) together with the zone it is presented in
(offset in seconds east of UTC and the zone abbreviation). -/
structure Time where
  unixSec : Int
  nsec : Nat := 0
  zoneOffset : Int := 0
  zoneName : String := "UTC"
deriving DecidableEq, Repr

/-- Civil date of a day count relative to 1970-01-01 (proleptic Gregorian
calendar), as `(year, month, day)`. -/
def civilFromDays (z : Int) : Int × Int × Int :=
  let z1 := z + 719468
  let era := z1 / 146097
  let doe := z1 - era * 146097
  let yoe := (doe - doe / 1460 + doe / 36524 - doe / 146096) / 365
  let y := yoe + era * 400
  let doy := doe - (365 * yoe + yoe / 4 - yoe / 100)
  let mp := (5 * doy + 2) / 153
  let d := doy - (153 * mp + 2) / 5 + 1
  let m := if mp < 10 then mp + 3 else mp - 9
  (if m ≤ 2 then y + 1 else y, m, d)

/-- Seconds since the epoch shifted to the wall clock of the zone of `t`. -/
def Time.wallSec (t : Time) : Int := t.unixSec + t.zoneOffset

/-- Calendar date `(year, month, day)` shown by the wall clock of `t`. -/
def Time.date (t : Time) : Int × Int × Int := civilFromDays (t.wallSec / 86400)

/-- Wall-clock time of day `(hour, minute, second)` of `t`. -/
def Time.clock (t : Time) : Int × Int × Int :=
  let s := t.wallSec % 86400
  (s / 3600, s % 3600 / 60, s % 60)

/-- Go `Time.UTC`: the same instant presented in UTC. -/
def Time.UTC (t : Time) : Time :=
  { unixSec := t.unixSec, nsec := t.nsec, zoneOffset := 0, zoneName := "UTC" }

/-- Decimal digits of `n`, left-padded with zeros to `width` characters. -/
def padZeros (n width : Nat) : String :=
  let s := toString n
  String.mk (List.replicate (width - s.length) '0') ++ s

/-- Go `time.appendInt`: a sign for negative numbers, then zero padding. -/
def appendInt (x : Int) (width : Nat) : String :=
  (if x < 0 then "-" else "") ++ padZeros x.natAbs width

/-- Go `Time.Format("2006-01-02T15:04:05.000Z")`: the wall-clock fields of
`t`, three digits of the fractional second (truncated), and a literal `Z`
(a `Z` not followed by `07` is plain text in a Go layout). -/
def Time.formatMillisZ (t : Time) : String :=
  let (y, mo, d) := t.date
  let (h, mi, s) := t.clock
  appendInt y 4 ++ "-" ++ appendInt mo 2 ++ "-" ++ appendInt d 2 ++ "T" ++
    appendInt h 2 ++ ":" ++ appendInt mi 2 ++ ":" ++ appendInt s 2 ++ "." ++
    String.mk ((padZeros t.nsec 9).toList.take 3) ++ "Z"

/-- Drop the trailing zeros of a digit list. -/
def trimZeros (cs : List Char) : List Char :=
  (cs.reverse.dropWhile (fun c => c == '0')).reverse

/-- Numeric zone `±hhmm` of a Go layout (`-0700`). -/
def zoneNumeric (offset : Int) : String :=
  let zone := Int.tdiv offset 60
  (if zone < 0 then "-" else "+") ++
    padZeros (zone.natAbs / 60) 2 ++ padZeros (zone.natAbs % 60) 2

/-- Go `Time.String` for a value without monotonic reading, that is
`Format("2006-01-02 15:04:05.999999999 -0700 MST")`. -/
def Time.String (t : Time) : String :=
  let (y, mo, d) := t.date
  let (h, mi, s) := t.clock
  appendInt y 4 ++ "-" ++ appendInt mo 2 ++ "-" ++ appendInt d 2 ++ " " ++
    appendInt h 2 ++ ":" ++ appendInt mi 2 ++ ":" ++ appendInt s 2 ++
    (if t.nsec = 0 then "" else "." ++ String.mk (trimZeros (padZeros t.nsec 9).toList)) ++
    " " ++ zoneNumeric t.zoneOffset ++ " " ++
    (if t.zoneName = "" then zoneNumeric t.zoneOffset else t.zoneName)

/-- Go `float64`: a finite value `(-1)^neg * mant * 2^exp`, an infinity or
a NaN. -/
inductive Float64 where
  | finite (neg : Bool) (mant : Nat) (exp : Int)
  | inf (neg : Bool)
  | nan
deriving DecidableEq, Repr

/-- The magnitude `mant * 2^exp` times `10^6`, rounded half-to-even to a
natural number. -/
def scaledMicros (mant : Nat) (exp : Int) : Nat :=
  match exp with
  | Int.ofNat e => mant * 2 ^ e * 1000000
  | Int.negSucc e =>
    let q := mant * 1000000
    let d := 2 ^ (e + 1)
    let n := q / d
    let r := q % d
    if 2 * r > d ∨ (2 * r = d ∧ n % 2 = 1) then n + 1 else n

/-- Go `fmt.Sprintf("%f", v)`: six digits after the decimal point. -/
def sprintfF : Float64 → String
  | .nan => "NaN"
  | .inf false => "+Inf"
  | .inf true => "-Inf"
  | .finite neg mant exp =>
    let n := scaledMicros mant exp
    (if neg then "-" else "") ++ toString (n / 1000000) ++ "." ++ padZeros (n % 1000000) 6

/-- Go `fmt.Sprintf("%d", v)` for an `int64`. -/
def sprintfD (i : Int) : String := toString i

/-! ## Values and maps -/

/-- Dynamic Go values that flow through the formatter. `map` is
`map[string]interface{}`, `slice` is `[]interface{}` and `mapSlice` is
`[]map[string]interface{}`; `bool` stands for the scalar types the
formatter has no case for. -/
inductive Value where
  | null
  | int64 (i : Int)
  | float64 (f : Float64)
  | str (s : String)
  | time (t : Time)
  | bool (b : Bool)
  | map (kvs : List (String × Value))
  | slice (xs : List Value)
  | mapSlice (xs : List (List (String × Value)))

instance : Inhabited Value := ⟨Value.null⟩

/-- Go `map[string]interface{}` as an association list. -/
abbrev GoMap := List (String × Value)

/-- Index expression `m[k]`: the nil interface when `k` is missing. -/
def GoMap.get : GoMap → String → Value
  | [], _ => Value.null
  | (k1, v) :: rest, k => if k1 = k then v else GoMap.get rest k

/-- Assignment `m[k] = v`: overwrite the entry of `k` or add one. -/
def GoMap.set : GoMap → String → Value → GoMap
  | [], k, v => [(k, v)]
  | (k1, v1) :: rest, k, v =>
    if k1 = k then (k, v) :: rest else (k1, v1) :: GoMap.set rest k v

/-- Whether the map has an entry for `k`. -/
def GoMap.hasKey : GoMap → String → Bool
  | [], _ => false
  | (k1, _) :: rest, k => if k1 = k then true else GoMap.hasKey rest k

/-- Comparison `v == nil` of an interface value. -/
def Value.isNil : Value → Bool
  | Value.null => true
  | _ => false

/-- Whether the value is a Go string. -/
def Value.isStr : Value → Bool
  | Value.str _ => true
  | _ => false

/-- Faults of the embedding: a Go run-time panic, or the call-depth budget
of the model running out. -/
inductive Fault where
  | panic
  | outOfFuel
deriving DecidableEq, Repr

/-- Type assertion `v.(map[string]interface{})`. -/
def Value.asMap : Value → Except Fault GoMap
  | Value.map m => .ok m
  | _ => .error Fault.panic

/-- Type assertion `v.([]map[string]interface{})`. -/
def Value.asMapSlice : Value → Except Fault (List GoMap)
  | Value.mapSlice xs => .ok xs
  | _ => .error Fault.panic

/-- Type assertion `v.(time.Time)`. -/
def Value.asTime : Value → Except Fault Time
  | Value.time t => .ok t
  | _ => .error Fault.panic

/-- Dereference of a pointer that may be nil. -/
def deref {α : Type} : Option α → Except Fault α
  | some a => .ok a
  | none => .error Fault.panic

/-! ## Descriptor model (`descriptor.go`) -/

/-- Go `descriptor.Amount`. -/
structure Amount where
  Key : String := ""
  FromColumn : String := ""
deriving DecidableEq, Repr

/-- Go `descriptor.Currency`. -/
structure Currency where
  Key : String := ""
  FromColumn : String := ""
  Value : String := ""
deriving DecidableEq, Repr

/-- Go `descriptor.WorkflowType` (the members the formatter and the
validator read; `Amount` and `Currency` are pointers). -/
structure WorkflowType where
  Name : String := ""
  Kind : String := ""
  Amount : Option Amount := none
  Currency : Option Currency := none
deriving DecidableEq, Repr

/-- Go `descriptor.Relationship`. -/
structure Relationship where
  Kind : String := ""
  WithTable : String := ""
  ForeignTableUniqueIdColumn : String := ""
  LocalTableUniqueIdColumn : String := ""
deriving DecidableEq, Repr

/-- Go `descriptor.Field`; `Typ` is the member `Type` and, like
`Relationship`, a pointer. -/
structure Field where
  Key : String := ""
  Name : String := ""
  Typ : Option WorkflowType := none
  FromColumn : String := ""
  Relationship : Option Relationship := none
deriving DecidableEq, Repr

/-- Go `descriptor.TypeDescriptor` with the slice `Fields []*Field` given by
the fields pointed to, that is a slice none of whose entries is nil;
`Pointer.TypeDescriptor` below has the slice with its nil entries. -/
structure TypeDescriptor where
  Key : String := ""
  Name : String := ""
  TableName : String := ""
  ColumnAsOptionName : String := ""
  UniqueIdColumn : String := ""
  Fields : List Field := []
deriving DecidableEq, Repr

/-! ## Lookups (`util.go`) -/

/-- Go `util.GetTypeDescriptorUsingDBTableName` on a slice none of whose
entries is nil: the loop overwrites `td` at every match, so the last match
is returned; `none` is the nil pointer. On a slice with a nil entry the Go
function panics, see `Pointer.GetTypeDescriptorUsingDBTableName`. -/
def GetTypeDescriptorUsingDBTableName (typeDescriptors : List TypeDescriptor)
    (tableName : String) : Option TypeDescriptor :=
  typeDescriptors.foldl
    (fun td typeDescriptor => if tableName = typeDescriptor.TableName then some typeDescriptor else td)
    none

/-- Go `util.TypeDescriptorRelationships` on a type descriptor that is not
nil and whose field slice has no nil entry; for the other inputs, on which
the Go function panics, see `Pointer.TypeDescriptorRelationships`. -/
def TypeDescriptorRelationships (td : TypeDescriptor) : List Field :=
  td.Fields.filter (fun field => field.Relationship.isSome)

/-! ## Request context -/

/-- The three values the formatter reads from the request context. `none`
means that `ctx.Value(key)` holds no string, so that the type assertion
`.(string)` panics. -/
structure Ctx where
  table : Option String := none
  currentRoute : Option String := none
  denormalize : Option String := none
deriving DecidableEq, Repr

/-! ## The formatter (`jsonForWorkflowAccelerator.go`) -/

mutual
/-- Go `stringify`: `%d` for `int64`, `%f` for `float64`, `String()` for
`time.Time`, identity on strings, entry-wise on maps; the type switch has
no other case, so every other value yields nil. -/
def stringify : Value → Value
  | Value.null => Value.null
  | Value.int64 v => Value.str (sprintfD v)
  | Value.float64 v => Value.str (sprintfF v)
  | Value.time v => Value.str v.String
  | Value.str v => Value.str v
  | Value.map v => Value.map (stringifyEntries v)
  | Value.bool _ => Value.null
  | Value.slice _ => Value.null
  | Value.mapSlice _ => Value.null
/-- The loop `for ki, vi := range v` of `stringify`. -/
def stringifyEntries : List (String × Value) → List (String × Value)
  | [] => []
  | (ki, vi) :: rest => (ki, stringify vi) :: stringifyEntries rest
end

/-- Go `clientWantsDenormalizedResultSet`. -/
def clientWantsDenormalizedResultSet (queryValue : String) : Bool :=
  queryValue != ""

/-- Go `subsetForPerformance`. -/
def subsetForPerformance (xs : List Value) : List Value :=
  if xs.length > 42 then xs.take 42 else xs

/-- Go `withRelationshipFieldsOmitted` on slices without nil entry;
dereferencing the looked-up type descriptor panics when the table is
unknown. `Pointer.withRelationshipFieldsOmitted` has the slices with their
nil entries. -/
def withRelationshipFieldsOmitted (tds : List TypeDescriptor) (table : String) :
    Except Fault (List Field) := do
  let typeDescriptor ← deref (GetTypeDescriptorUsingDBTableName tds table)
  pure (typeDescriptor.Fields.filter (fun field => field.Relationship.isNone))

/-- The expression `queryResults[table].(map[string]interface{})`. -/
def rowOf (queryResults : GoMap) (table : String) : Except Fault GoMap :=
  (queryResults.get table).asMap

/-- Go `tableHasRelationships`; `&&` does not look at the row when the
field has no relationship. -/
def tableHasRelationships (queryResults : GoMap) (table : String) (field : Field) :
    Except Fault Bool :=
  match field.Relationship with
  | none => pure false
  | some _ => do
    let row ← rowOf queryResults table
    pure (!(row.get field.Key).isNil)

/-- The expression
`queryResults[table].(map[string]interface{})[field.Key].(map[string]interface{})[field.Relationship.WithTable].([]map[string]interface{})`. -/
def relatedResultsOf (queryResults : GoMap) (table : String) (field : Field) :
    Except Fault (List GoMap) := do
  let row ← rowOf queryResults table
  let fieldKey ← (row.get field.Key).asMap
  let relationship ← deref field.Relationship
  (fieldKey.get relationship.WithTable).asMapSlice

/-- Go `relatedTablesResultSetNotEmpty`. -/
def relatedTablesResultSetNotEmpty (queryResults : GoMap) (table : String) (field : Field) :
    Except Fault Bool := do
  let fieldKeyRelationshipWithTable ← relatedResultsOf queryResults table field
  pure (decide (fieldKeyRelationshipWithTable.length > 0))

/-- Go `resultAsWorkflowMoneyType`. -/
def resultAsWorkflowMoneyType (field : Field) (queryResults : GoMap) (table : String) :
    Except Fault GoMap := do
  let typ ← deref field.Typ
  let cur ← deref typ.Currency
  let row ← rowOf queryResults table
  let currency : Value :=
    if cur.FromColumn = "" then
      if cur.Value = "" then Value.str "EUR" else Value.str cur.Value
    else row.get cur.FromColumn
  let amount ← deref typ.Amount
  pure [("amount", row.get amount.FromColumn), ("currency", currency)]

/-- Go `buildForFieldTypeMoney`. -/
def buildForFieldTypeMoney (formatted queryResults : GoMap) (table : String) (field : Field) :
    Except Fault GoMap := do
  let typ ← deref field.Typ
  let row ← rowOf queryResults table
  let amount ← deref typ.Amount
  let cur ← deref typ.Currency
  if !(row.get amount.FromColumn).isNil || !(row.get cur.FromColumn).isNil then
    let money ← resultAsWorkflowMoneyType field queryResults table
    pure (formatted.set field.Key (Value.map money))
  else
    pure (formatted.set field.Key Value.null)

/-- Go `buildForFieldTypeText`. -/
def buildForFieldTypeText (formatted queryResults : GoMap) (table : String) (field : Field) :
    Except Fault GoMap := do
  let row ← rowOf queryResults table
  if !(row.get field.FromColumn).isNil then
    pure (formatted.set field.Key (stringify (row.get field.FromColumn)))
  else
    pure (formatted.set field.Key Value.null)

/-- Go `buildForFieldTypeDateOrTime`: no conversion to UTC. -/
def buildForFieldTypeDateOrTime (formatted queryResults : GoMap) (table : String) (field : Field) :
    Except Fault GoMap := do
  let row ← rowOf queryResults table
  if !(row.get field.FromColumn).isNil then
    let dateTime ← (row.get field.FromColumn).asTime
    pure (formatted.set field.Key (Value.str dateTime.formatMillisZ))
  else
    pure (formatted.set field.Key Value.null)

/-- Go `buildForFieldTypeDateTime`: converts to UTC first. -/
def buildForFieldTypeDateTime (formatted queryResults : GoMap) (table : String) (field : Field) :
    Except Fault GoMap := do
  let row ← rowOf queryResults table
  if !(row.get field.FromColumn).isNil then
    let dateTime ← (row.get field.FromColumn).asTime
    pure (formatted.set field.Key (Value.str dateTime.UTC.formatMillisZ))
  else
    pure (formatted.set field.Key Value.null)

/-- Go `buildForFieldTypeOther`: the native value is passed through. -/
def buildForFieldTypeOther (formatted queryResults : GoMap) (table : String) (field : Field) :
    Except Fault GoMap := do
  let row ← rowOf queryResults table
  if !(row.get field.FromColumn).isNil then
    pure (formatted.set field.Key (row.get field.FromColumn))
  else
    pure (formatted.set field.Key Value.null)

/-- Go `buildResultFromQueryResultsWithoutRelationships`. The cases of the
`switch` are tried in source order: option-name column, unique-id column,
money, datetime, date or time, text, default. -/
def buildResultFromQueryResultsWithoutRelationships (tds : List TypeDescriptor)
    (formatted queryResults : GoMap) (table : String) (field : Field) : Except Fault GoMap := do
  let typeDescriptor ← deref (GetTypeDescriptorUsingDBTableName tds table)
  if field.FromColumn = typeDescriptor.ColumnAsOptionName then
    let row ← rowOf queryResults table
    pure (formatted.set "name" (stringify (row.get field.FromColumn)))
  else if field.FromColumn = typeDescriptor.UniqueIdColumn then
    let row ← rowOf queryResults table
    pure (formatted.set "id" (stringify (row.get field.FromColumn)))
  else
    let typ ← deref field.Typ
    if typ.Name = "money" then
      buildForFieldTypeMoney formatted queryResults table field
    else if typ.Kind = "datetime" then
      buildForFieldTypeDateTime formatted queryResults table field
    else if typ.Kind = "date" ∨ typ.Kind = "time" then
      buildForFieldTypeDateOrTime formatted queryResults table field
    else if typ.Name = "text" then
      buildForFieldTypeText formatted queryResults table field
    else
      buildForFieldTypeOther formatted queryResults table field

/-- Type of `formatAsAWorkflowType`: context, query results, table and
fields to the formatted object. The relationship resolvers below receive the
function they call back as `self`. -/
abbrev FormatFn := Ctx → GoMap → String → List Field → Except Fault GoMap

/-- Go `denormalizeResultSet`: every related row is formatted with the
related table's fields that carry no relationship. -/
def denormalizeResultSet (self : FormatFn) (tds : List TypeDescriptor) (ctx : Ctx) :
    List GoMap → Field → String → Except Fault (List GoMap)
  | [], _, _ => pure []
  | r :: rest, field, uniqueIdColumn => do
    let relationship ← deref field.Relationship
    let fields ← withRelationshipFieldsOmitted tds relationship.WithTable
    let resolvedRelationship ←
      self ctx [(relationship.WithTable, Value.map r)] relationship.WithTable fields
    let results ← denormalizeResultSet self tds ctx rest field uniqueIdColumn
    pure (resolvedRelationship :: results)

/-- Go `normalizeResultSet`: as `denormalizeResultSet`, but only the entry
of the formatted object under the key `uniqueIdColumn` is kept. -/
def normalizeResultSet (self : FormatFn) (tds : List TypeDescriptor) (ctx : Ctx) :
    List GoMap → Field → String → Except Fault (List Value)
  | [], _, _ => pure []
  | r :: rest, field, uniqueIdColumn => do
    let relationship ← deref field.Relationship
    let fields ← withRelationshipFieldsOmitted tds relationship.WithTable
    let resolvedRelationship ←
      self ctx [(relationship.WithTable, Value.map r)] relationship.WithTable fields
    let results ← normalizeResultSet self tds ctx rest field uniqueIdColumn
    pure (resolvedRelationship.get uniqueIdColumn :: results)

/-- Go `relationshipKindIsOneToMany`. -/
def relationshipKindIsOneToMany (self : FormatFn) (tds : List TypeDescriptor) (ctx : Ctx)
    (formatted queryResults : GoMap) (table : String) (field : Field) : Except Fault GoMap := do
  let relationship ← deref field.Relationship
  let typeDescriptor := GetTypeDescriptorUsingDBTableName tds relationship.WithTable
  if ← relatedTablesResultSetNotEmpty queryResults table field then
    let relatedResults ← relatedResultsOf queryResults table field
    let denormalize ← deref ctx.denormalize
    let td ← deref typeDescriptor
    if clientWantsDenormalizedResultSet denormalize then
      let results ← denormalizeResultSet self tds ctx relatedResults field td.UniqueIdColumn
      pure (formatted.set field.Key (Value.mapSlice results))
    else
      let results ← normalizeResultSet self tds ctx relatedResults field td.UniqueIdColumn
      pure (formatted.set field.Key (Value.slice results))
  else
    pure (formatted.set field.Key (Value.slice []))

/-- Go `relationshipKindIsXToOne`: element `[0]` of the resolved list. -/
def relationshipKindIsXToOne (self : FormatFn) (tds : List TypeDescriptor) (ctx : Ctx)
    (formatted queryResults : GoMap) (table : String) (field : Field) : Except Fault GoMap := do
  let relationship ← deref field.Relationship
  let typeDescriptor := GetTypeDescriptorUsingDBTableName tds relationship.WithTable
  if ← relatedTablesResultSetNotEmpty queryResults table field then
    let relatedResults ← relatedResultsOf queryResults table field
    let denormalize ← deref ctx.denormalize
    let td ← deref typeDescriptor
    if clientWantsDenormalizedResultSet denormalize then
      let results ← denormalizeResultSet self tds ctx relatedResults field td.UniqueIdColumn
      let first ← deref results.head?
      pure (formatted.set field.Key (Value.map first))
    else
      let results ← normalizeResultSet self tds ctx relatedResults field td.UniqueIdColumn
      let first ← deref results.head?
      pure (formatted.set field.Key first)
  else
    pure (formatted.set field.Key Value.null)

/-- Go `buildAndRecursivelyResolveRelationships`; an unknown kind returns
a fresh empty map. -/
def buildAndRecursivelyResolveRelationships (self : FormatFn) (tds : List TypeDescriptor)
    (ctx : Ctx) (formatted queryResults : GoMap) (table : String) (field : Field) :
    Except Fault GoMap := do
  let relationship ← deref field.Relationship
  if relationship.Kind = "oneToMany" then
    relationshipKindIsOneToMany self tds ctx formatted queryResults table field
  else if relationship.Kind = "manyToOne" ∨ relationship.Kind = "oneToOne" then
    relationshipKindIsXToOne self tds ctx formatted queryResults table field
  else
    pure []

/-- Go `buildResultFromQueryResultsUsingField`. -/
def buildResultFromQueryResultsUsingField (self : FormatFn) (tds : List TypeDescriptor)
    (ctx : Ctx) (formatted queryResults : GoMap) (table : String) (field : Field) :
    Except Fault GoMap := do
  if ← tableHasRelationships queryResults table field then
    buildAndRecursivelyResolveRelationships self tds ctx formatted queryResults table field
  else
    buildResultFromQueryResultsWithoutRelationships tds formatted queryResults table field

/-- Body of the loop of `formatAsAWorkflowType`: the route is read from the
context for every field. -/
def formatField (self : FormatFn) (tds : List TypeDescriptor) (ctx : Ctx)
    (queryResults : GoMap) (table : String) (formatted : GoMap) (field : Field) :
    Except Fault GoMap := do
  let currentRoute ← deref ctx.currentRoute
  if currentRoute = "GetCollection" then
    buildResultFromQueryResultsWithoutRelationships tds formatted queryResults table field
  else
    buildResultFromQueryResultsUsingField self tds ctx formatted queryResults table field

/-- The loop `for _, field := range fields` over an accumulator. -/
def formatFields (step : GoMap → Field → Except Fault GoMap) :
    List Field → GoMap → Except Fault GoMap
  | [], formatted => pure formatted
  | field :: rest, formatted => do
    let formatted ← step formatted field
    formatFields step rest formatted

/-- Go `formatAsAWorkflowType`. The first argument bounds the depth of
calls of this function: each call hands the remaining budget to the
relationship resolvers it invokes. -/
def formatAsAWorkflowType (tds : List TypeDescriptor) : Nat → FormatFn
  | 0 => fun _ _ _ _ => .error Fault.outOfFuel
  | fuel + 1 => fun ctx queryResults table fields =>
    formatFields (formatField (formatAsAWorkflowType tds fuel) tds ctx queryResults table)
      fields []

/-! ## The exported formatters -/

/-- Go `json.MarshalIndent(v, "", "  ")`, taken as a parameter: the JSON
text or the encoder's error. -/
abbrev Marshal := Value → Except String String

/-- The loop that formats every element of `results` in order. -/
def formatAll (tds : List TypeDescriptor) (fuel : Nat) (ctx : Ctx) (tableName : String)
    (fields : List Field) : List Value → Except Fault (List Value)
  | [] => pure []
  | result :: rest => do
    let queryResults ← result.asMap
    let formattedResult ← formatAsAWorkflowType tds fuel ctx queryResults tableName fields
    let formattedResults ← formatAll tds fuel ctx tableName fields rest
    pure (Value.map formattedResult :: formattedResults)

/-- Go `(*standardFormatter).Format`. The outer result is a panic or a
return; a return is the pair `(JSONResults, err)` as `Except`. -/
def standardFormatter.Format (marshalIndent : Marshal) (tds : List TypeDescriptor)
    (fuel : Nat) (ctx : Ctx) (results : List Value) : Except Fault (Except String String) :=
  if results.length = 0 then pure (.ok "\x7b\x7d") else do
    let tableName ← deref ctx.table
    let typeDescriptor ← deref (GetTypeDescriptorUsingDBTableName tds tableName)
    let fields := typeDescriptor.Fields
    match results with
    | [result] =>
      let queryResults ← result.asMap
      let formattedResult ← formatAsAWorkflowType tds fuel ctx queryResults tableName fields
      pure (marshalIndent (Value.map formattedResult))
    | _ =>
      let formattedResults ← formatAll tds fuel ctx tableName fields results
      pure (marshalIndent (Value.slice formattedResults))

/-- Go `(*getCollectionFormatter).Format`. -/
def getCollectionFormatter.Format (marshalIndent : Marshal) (tds : List TypeDescriptor)
    (fuel : Nat) (ctx : Ctx) (results : List Value) : Except Fault (Except String String) :=
  if results.length = 0 then pure (.ok "[]") else do
    let tableName ← deref ctx.table
    let fields ← withRelationshipFieldsOmitted tds tableName
    let formattedResults ← formatAll tds fuel ctx tableName fields results
    pure (marshalIndent (Value.slice formattedResults))

/-- The loop of `(*getCollectionAsOptionsFormatter).Format`. -/
def stringifyAll (tableName : String) : List Value → Except Fault (List Value)
  | [] => pure []
  | result :: rest => do
    let row ← result.asMap
    let formattedResults ← stringifyAll tableName rest
    pure (stringify (row.get tableName) :: formattedResults)

/-- Go `(*getSingleAsOptionFormatter).Format`. -/
def getSingleAsOptionFormatter.Format (marshalIndent : Marshal) (ctx : Ctx)
    (results : List Value) : Except Fault (Except String String) := do
  let tableName ← deref ctx.table
  match results with
  | [] => pure (.ok "\x7b\x7d")
  | [result] =>
    let row ← result.asMap
    pure (marshalIndent (stringify (row.get tableName)))
  | _ => pure (.error "formatting: expected result set to contain only one resource")

/-- Go `(*getCollectionAsOptionsFormatter).Format`. -/
def getCollectionAsOptionsFormatter.Format (marshalIndent : Marshal) (ctx : Ctx)
    (results : List Value) : Except Fault (Except String String) := do
  let tableName ← deref ctx.table
  if results.length = 0 then pure (.ok "[]") else
    let formattedResults ← stringifyAll tableName results
    pure (marshalIndent (Value.slice (subsetForPerformance formattedResults)))

/-- The formatter types of the package. -/
inductive Formatter where
  | standardFormatter
  | getCollectionFormatter
  | getSingleAsOptionFormatter
  | getCollectionAsOptionsFormatter
deriving DecidableEq, Repr

/-- Method dispatch of the `Format` method on a formatter value. -/
def Formatter.Format (f : Formatter) (marshalIndent : Marshal) (tds : List TypeDescriptor)
    (fuel : Nat) (ctx : Ctx) (results : List Value) : Except Fault (Except String String) :=
  match f with
  | .standardFormatter => standardFormatter.Format marshalIndent tds fuel ctx results
  | .getCollectionFormatter => getCollectionFormatter.Format marshalIndent tds fuel ctx results
  | .getSingleAsOptionFormatter => getSingleAsOptionFormatter.Format marshalIndent ctx results
  | .getCollectionAsOptionsFormatter =>
    getCollectionAsOptionsFormatter.Format marshalIndent ctx results

/-- Go `var Standard = &standardFormatter{}`. -/
def Standard : Formatter := Formatter.standardFormatter

/-- Go `var GetCollection = &standardFormatter{}`. -/
def GetCollection : Formatter := Formatter.standardFormatter

/-- Go `var GetSingleAsOption = &getSingleAsOptionFormatter{}`. -/
def GetSingleAsOption : Formatter := Formatter.getSingleAsOptionFormatter

/-- Go `var GetCollectionAsOptions = &getCollectionAsOptionsFormatter{}`. -/
def GetCollectionAsOptions : Formatter := Formatter.getCollectionAsOptionsFormatter

/-- Go `var GetCollectionAsOptionsFilterable = &getCollectionAsOptionsFormatter{}`. -/
def GetCollectionAsOptionsFilterable : Formatter := Formatter.getCollectionAsOptionsFormatter

/-! ## The descriptor of the test suite (`sqlBackend_test.go`) -/

/-- Fields of `commonEquipmentDescriptorFields`. -/
def commonEquipmentDescriptorFields : List Field :=
  [ { Key := "id", Name := "ID", FromColumn := "id", Typ := some { Name := "text" } },
    { Key := "name", Name := "Equipment Name", FromColumn := "name",
      Typ := some { Name := "text" } },
    { Key := "acquisitionCost", Name := "Acquisition Cost",
      Typ := some { Name := "money",
                    Amount := some { Key := "acquisitionCost", FromColumn := "acquisition_cost" },
                    Currency := some { Value := "EUR" } } },
    { Key := "purchaseDate", Name := "Purchase Date", FromColumn := "purchase_date",
      Typ := some { Name := "date", Kind := "date" } },
    { Key := "recipes", Name := "Associated recipes", Typ := some { Name := "text" },
      Relationship := some { Kind := "oneToMany", WithTable := "recipes",
                             LocalTableUniqueIdColumn := "id",
                             ForeignTableUniqueIdColumn := "equipment_id" } } ]

/-- Fields of `commonRecipesDescriptorFields`. -/
def commonRecipesDescriptorFields : List Field :=
  [ { Key := "id", Name := "Recipe ID", FromColumn := "id", Typ := some { Name := "text" } },
    { Key := "name", Name := "Recipe name", FromColumn := "name",
      Typ := some { Name := "text" } },
    { Key := "instructions", Name := "Instructions", FromColumn := "instructions",
      Typ := some { Name := "text" } },
    { Key := "equipmentId", Name := "Equipment ID", FromColumn := "equipment_id",
      Typ := some { Name := "text" } },
    { Key := "equipment", Name := "Equipment", Typ := some { Name := "text" },
      Relationship := some { Kind := "manyToOne", WithTable := "equipment",
                             LocalTableUniqueIdColumn := "equipment_id",
                             ForeignTableUniqueIdColumn := "id" } } ]

/-- Type descriptors of `descriptorFileBase` filled with the two field
lists above. -/
def testTypeDescriptors : List TypeDescriptor :=
  [ { Key := "equipment", Name := "Equipment", TableName := "equipment",
      ColumnAsOptionName := "name", UniqueIdColumn := "id",
      Fields := commonEquipmentDescriptorFields },
    { Key := "recipes", Name := "Recipes", TableName := "recipes",
      ColumnAsOptionName := "name", UniqueIdColumn := "id",
      Fields := commonRecipesDescriptorFields } ]

/-! ## Specification-side definitions and well-formedness -/

/-- Whether the value is a `time.Time`. -/
def Value.isTime : Value → Bool
  | Value.time _ => true
  | _ => false

/-- Currency of a money field as the specification words it: the first
available of the row value of `Currency.fromColumn`, the static
`Currency.value`, and the literal `EUR`. -/
def currencyByAvailability (cur : Currency) (row : GoMap) : Value :=
  if cur.FromColumn ≠ "" ∧ (row.get cur.FromColumn).isNil = false then row.get cur.FromColumn
  else if cur.Value ≠ "" then Value.str cur.Value
  else Value.str "EUR"

/-- Currency of a money field as `resultAsWorkflowMoneyType` selects it:
by configuration, not by availability. -/
def currencyByConfiguration (cur : Currency) (row : GoMap) : Value :=
  if cur.FromColumn = "" then
    if cur.Value = "" then Value.str "EUR" else Value.str cur.Value
  else row.get cur.FromColumn

/-- A row fits a relationship-free field: the field is the option-name or
unique-id column, or it has a type such that a money type has its amount
and currency sub-mappings and a date, time or datetime column holds no
value or a timestamp. These are the conditions under which formatting the
field performs no failing dereference or type assertion. -/
def rowFitsField (td : TypeDescriptor) (row : GoMap) (field : Field) : Bool :=
  field.FromColumn == td.ColumnAsOptionName || field.FromColumn == td.UniqueIdColumn ||
  match field.Typ with
  | none => false
  | some typ =>
    if typ.Name = "money" then typ.Amount.isSome && typ.Currency.isSome
    else if typ.Kind = "datetime" ∨ typ.Kind = "date" ∨ typ.Kind = "time" then
      (row.get field.FromColumn).isNil || (row.get field.FromColumn).isTime
    else true

/-- Element `[0]` of a formatted list, as a value: an object of a
`[]map[string]interface{}`, an element of a `[]interface{}`. -/
def firstElement : Value → Except Fault Value
  | Value.slice (x :: _) => pure x
  | Value.mapSlice (x :: _) => pure (Value.map x)
  | _ => .error Fault.panic

/-- A result that is not the exhaustion of the call-depth budget: the Go
call returns or panics. -/
def Terminates {α : Type} (r : Except Fault α) : Prop := r ≠ .error Fault.outOfFuel

/-- Two candidates for the recursive call agree on every field list that
carries no relationship. -/
def AgreeOnScalarFields (self1 self2 : FormatFn) : Prop :=
  ∀ (ctx : Ctx) (queryResults : GoMap) (table : String) (fields : List Field),
    (∀ f ∈ fields, f.Relationship = none) →
    self1 ctx queryResults table fields = self2 ctx queryResults table fields

/-- A candidate for the recursive call terminates on every field list that
carries no relationship. -/
def TerminatesOnScalarFields (self : FormatFn) : Prop :=
  ∀ (ctx : Ctx) (queryResults : GoMap) (table : String) (fields : List Field),
    (∀ f ∈ fields, f.Relationship = none) → Terminates (self ctx queryResults table fields)

/-! ## Example data -/

/-- The equipment row `id 1, Oven, 500, 2020-01-02T00:00:00Z`. -/
def ovenRow : GoMap :=
  [("id", Value.int64 1), ("name", Value.str "Oven"), ("acquisition_cost", Value.int64 500),
   ("purchase_date", Value.time { unixSec := 1577923200 })]

/-- The fields id, name, acquisitionCost and purchaseDate of the equipment
type descriptor. -/
def ovenFields : List Field := commonEquipmentDescriptorFields.take 4

/-- The formatted oven. -/
def ovenFormatted : GoMap :=
  [("id", Value.str "1"), ("name", Value.str "Oven"),
   ("acquisitionCost", Value.map [("amount", Value.int64 500), ("currency", Value.str "EUR")]),
   ("purchaseDate", Value.str "2020-01-02T00:00:00.000Z")]

/-- The relationship field `recipes` (oneToMany) of the equipment type
descriptor. -/
def recipesField : Field :=
  { Key := "recipes", Name := "Associated recipes", Typ := some { Name := "text" },
    Relationship := some { Kind := "oneToMany", WithTable := "recipes",
                           LocalTableUniqueIdColumn := "id",
                           ForeignTableUniqueIdColumn := "equipment_id" } }

/-- The relationship field `equipment` (manyToOne) of the recipes type
descriptor. -/
def equipmentField : Field :=
  { Key := "equipment", Name := "Equipment", Typ := some { Name := "text" },
    Relationship := some { Kind := "manyToOne", WithTable := "equipment",
                           LocalTableUniqueIdColumn := "equipment_id",
                           ForeignTableUniqueIdColumn := "id" } }

/-- A recipes row. -/
def recipeRow (id : Int) (name : String) : GoMap :=
  [("id", Value.int64 id), ("equipment_id", Value.int64 1), ("name", Value.str name),
   ("instructions", Value.str "Knead")]

/-- Query results of one oven joined with the given recipes rows. -/
def ovenWithRecipes (recipes : List GoMap) : GoMap :=
  [("equipment", Value.map (ovenRow ++
      [("recipes", Value.map [("recipes", Value.mapSlice recipes)])]))]

/-- Query results of one recipe joined with the given equipment rows. -/
def recipeWithEquipment (equipment : List GoMap) : GoMap :=
  [("recipes", Value.map (recipeRow 7 "Bread" ++
      [("equipment", Value.map [("equipment", Value.mapSlice equipment)])]))]

/-- A request context of the single-resource route, denormalize unset. -/
def getSingleCtx (table : String) : Ctx :=
  { table := some table, currentRoute := some "GetSingle", denormalize := some "" }

/-- A descriptor whose recipes table has the unique-id column `recipe_id`,
mapped by the field `recipeId`. -/
def recipeIdTypeDescriptors : List TypeDescriptor :=
  [ { Key := "equipment", TableName := "equipment", ColumnAsOptionName := "name",
      UniqueIdColumn := "id", Fields := commonEquipmentDescriptorFields },
    { Key := "recipes", TableName := "recipes", ColumnAsOptionName := "name",
      UniqueIdColumn := "recipe_id",
      Fields := [ { Key := "recipeId", FromColumn := "recipe_id", Typ := some { Name := "text" } },
                  { Key := "name", FromColumn := "name", Typ := some { Name := "text" } } ] } ]

/-- A recipes row of `recipeIdTypeDescriptors`. -/
def recipeIdRow : GoMap := [("recipe_id", Value.int64 7), ("name", Value.str "Bread")]

/-- A descriptor whose one table uses the column `id` both as unique id and
as option name. -/
def sameColumnTypeDescriptors : List TypeDescriptor :=
  [ { Key := "people", TableName := "people", ColumnAsOptionName := "id", UniqueIdColumn := "id",
      Fields := [ { Key := "id", FromColumn := "id", Typ := some { Name := "text" } } ] } ]

/-- A money field whose currency is read from the column `price_currency`. -/
def priceField : Field :=
  { Key := "price",
    Typ := some { Name := "money", Amount := some { Key := "price", FromColumn := "price" },
                  Currency := some { Key := "priceCurrency", FromColumn := "price_currency" } } }

/-- A descriptor whose recipes table declares the key `equipment` twice:
for a column and for the relationship to the equipment table. -/
def clashTypeDescriptors : List TypeDescriptor :=
  [ { Key := "equipment", TableName := "equipment", ColumnAsOptionName := "name",
      UniqueIdColumn := "id", Fields := commonEquipmentDescriptorFields },
    { Key := "recipes", TableName := "recipes", ColumnAsOptionName := "name",
      UniqueIdColumn := "id",
      Fields := [ { Key := "id", FromColumn := "id", Typ := some { Name := "text" } },
                  { Key := "equipment", FromColumn := "equipment_id",
                    Typ := some { Name := "text" } },
                  equipmentField ] } ]

/-! ## Descriptor validation (`descriptor.go`) -/

/-- Go `descriptor.Descriptor` (the members read by the validator and the
lookups) with the slice `TypeDescriptors []*TypeDescriptor` given by the
type descriptors pointed to, that is a slice none of whose entries is nil;
`Pointer.Descriptor` below has the slice with its nil entries. -/
structure Descriptor where
  Key : String := ""
  Name : String := ""
  Description : String := ""
  TypeDescriptors : List TypeDescriptor := []
deriving DecidableEq, Repr

/-- Message of `errUniqueIdColumnAndIdColumnDiffer` for the type descriptor
key `td`. -/
def uniqueIdColumnMessage (td : String) : String :=
  "The \x60uniqueIdColumn\x60 property for type descriptor \x60" ++ td ++ "\x60 must be set " ++
    "to \x60id\x60 when the type descriptor contains a field called \x60id\x60"

/-- Message of `errColumnAsOptionNameAndNameColumnDiffer` for the type
descriptor key `td`. -/
def columnAsOptionNameMessage (td : String) : String :=
  "The \x60columnAsOptionName\x60 property for type descriptor \x60" ++ td ++
    "\x60 must be set " ++
    "to \x60name\x60 when the type descriptor contains a field called \x60name\x60"

/-- Message of `errTypeNameIsMissing` for the field key `key`. -/
def typeNameMessage (key : String) : String :=
  "Unable to parse descriptor.json: " ++ key ++ " should not have an empty type name"

/-- Message of `errCurrencyHasDefaultValue` for the type descriptor key
`td` and the field key `key`. -/
def currencyMessage (td key : String) : String :=
  "Unable to parse descriptor.json: " ++ td ++ "." ++ key ++
    " specifies a default currency value" ++
    "*and* a fromColumn. You must specify *only* one."

/-- Message of `errFromColumnPropertyIsMissing` for the type name
`typeName`. -/
def fromColumnMessage (typeName : String) : String :=
  "Unable to parse descriptor.json: " ++
    "field of type \x27" ++ typeName ++ "\x27 should contain a fromColumn property"

/-- The loop of `errUniqueIdColumnAndIdColumnDiffer` over the fields. -/
def errUniqueIdColumnAndIdColumnDiffer.loop (td : TypeDescriptor) : List Field → Option String
  | [] => none
  | field :: rest =>
    if field.Key = "id" ∧ td.UniqueIdColumn ≠ "id" then some (uniqueIdColumnMessage td.Key)
    else errUniqueIdColumnAndIdColumnDiffer.loop td rest

/-- Go `errUniqueIdColumnAndIdColumnDiffer`; `none` is the nil error. -/
def errUniqueIdColumnAndIdColumnDiffer (td : TypeDescriptor) : Option String :=
  errUniqueIdColumnAndIdColumnDiffer.loop td td.Fields

/-- The loop of `errColumnAsOptionNameAndNameColumnDiffer` over the fields. -/
def errColumnAsOptionNameAndNameColumnDiffer.loop (td : TypeDescriptor) :
    List Field → Option String
  | [] => none
  | field :: rest =>
    if field.Key = "name" ∧ td.ColumnAsOptionName ≠ "name" then
      some (columnAsOptionNameMessage td.Key)
    else errColumnAsOptionNameAndNameColumnDiffer.loop td rest

/-- Go `errColumnAsOptionNameAndNameColumnDiffer`. -/
def errColumnAsOptionNameAndNameColumnDiffer (td : TypeDescriptor) : Option String :=
  errColumnAsOptionNameAndNameColumnDiffer.loop td td.Fields

/-- Go `errTypeNameIsMissing`; `len(field.Type.Name) == 0` is the test for
the empty string, and `field.Type` is dereferenced without a nil check. -/
def errTypeNameIsMissing (field : Field) : Except Fault (Option String) := do
  let typ ← deref field.Typ
  if typ.Name = "" then pure (some (typeNameMessage field.Key)) else pure none

/-- Go `errCurrencyHasDefaultValue`; `field.Type` and, for a money type,
`field.Type.Currency` are dereferenced without a nil check. -/
def errCurrencyHasDefaultValue (field : Field) (td : String) : Except Fault (Option String) := do
  let typ ← deref field.Typ
  if typ.Name = "money" then
    let cur ← deref typ.Currency
    if cur.Value ≠ "" ∧ cur.FromColumn ≠ "" then pure (some (currencyMessage td field.Key))
    else pure none
  else pure none

/-- Go `errFromColumnPropertyIsMissing`. -/
def errFromColumnPropertyIsMissing (field : Field) : Except Fault (Option String) := do
  let typ ← deref field.Typ
  if typ.Name ≠ "money" ∧ field.Relationship = none then
    if field.FromColumn = "" then pure (some (fromColumnMessage typ.Name)) else pure none
  else pure none

/-- Body of the inner loop of `performSanityChecks`: the currency rule, the
fromColumn rule and the type-name rule of one field, in this order. -/
def checkField (field : Field) (td : String) : Except Fault (Option String) := do
  match ← errCurrencyHasDefaultValue field td with
  | some err => pure (some err)
  | none =>
    match ← errFromColumnPropertyIsMissing field with
    | some err => pure (some err)
    | none => errTypeNameIsMissing field

/-- The inner loop `for _, field := range td.Fields` of
`performSanityChecks` on a slice without nil entry; `Pointer.checkFields`
is the loop on a slice with nil entries. -/
def checkFields (td : String) : List Field → Except Fault (Option String)
  | [] => pure none
  | field :: rest => do
    match ← checkField field td with
    | some err => pure (some err)
    | none => checkFields td rest

/-- The outer loop `for _, td := range descriptor.TypeDescriptors` of
`performSanityChecks` on slices without nil entry;
`Pointer.checkTypeDescriptors` is the loop on slices with nil entries. -/
def checkTypeDescriptors : List TypeDescriptor → Except Fault (Option String)
  | [] => pure none
  | td :: rest =>
    match errUniqueIdColumnAndIdColumnDiffer td with
    | some err => pure (some err)
    | none =>
      match errColumnAsOptionNameAndNameColumnDiffer td with
      | some err => pure (some err)
      | none => do
        match ← checkFields td.Key td.Fields with
        | some err => pure (some err)
        | none => checkTypeDescriptors rest

/-- Go `performSanityChecks` on a descriptor whose slices have no nil
entry: `.ok none` is the nil error (the descriptor is accepted),
`.ok (some msg)` an error with that message, `.error Fault.panic` a nil
dereference (of a missing type or currency). On the descriptor as decoded,
where a slice may hold a nil entry, the function is
`Pointer.performSanityChecks`; the two agree when no entry is nil
(`pointer_performSanityChecks_eq`). -/
def performSanityChecks (descriptor : Descriptor) : Except Fault (Option String) :=
  checkTypeDescriptors descriptor.TypeDescriptors

/-- The field has a type and, when that is a money type, a currency. -/
def Field.hasType (field : Field) : Bool :=
  match field.Typ with
  | none => false
  | some typ => typ.Name != "money" || typ.Currency.isSome

/-- Every field has a type and every money type has a currency. -/
def Descriptor.HasTypes (descriptor : Descriptor) : Prop :=
  ∀ td ∈ descriptor.TypeDescriptors, ∀ field ∈ td.Fields, field.hasType = true

/-- The message `msg` contains the text `key`. -/
def NamesKey (msg key : String) : Prop := ∃ pre post : String, msg = pre ++ key ++ post

/-- The four scalar kinds `stringify` has a case for: integer, float,
string and timestamp. -/
def Value.isHandledScalar : Value → Bool
  | Value.int64 _ => true
  | Value.float64 _ => true
  | Value.str _ => true
  | Value.time _ => true
  | _ => false

/-- The descriptor of the test suite. -/
def testDescriptor : Descriptor :=
  { Key := "test", Name := "Test", Description := "Just a test",
    TypeDescriptors := testTypeDescriptors }

/-- The instant 2006-01-02T00:00:00+01:00. -/
def januarySecondCET : Time :=
  { unixSec := 1136156400, nsec := 0, zoneOffset := 3600, zoneName := "CET" }

/-- A descriptor that breaks the id rule in its type descriptor and, later,
the currency rule in the field `budget`. -/
def twoViolationsDescriptor : Descriptor :=
  { TypeDescriptors :=
      [ { Key := "t", TableName := "t", UniqueIdColumn := "uid", ColumnAsOptionName := "name",
          Fields := [ { Key := "id", FromColumn := "uid", Typ := some { Name := "text" } },
                      { Key := "budget",
                        Typ := some { Name := "money",
                                      Amount := some { Key := "budget", FromColumn := "budget" },
                                      Currency := some { Value := "EUR",
                                                         FromColumn := "cur" } } } ] } ] }

/-- A descriptor whose money field sets neither a static currency nor a
currency column. -/
def noCurrencyDescriptor : Descriptor :=
  { TypeDescriptors :=
      [ { Key := "t", TableName := "t", UniqueIdColumn := "id", ColumnAsOptionName := "name",
          Fields := [ { Key := "cost",
                        Typ := some { Name := "money",
                                      Amount := some { Key := "cost", FromColumn := "cost" },
                                      Currency := some { } } } ] } ] }

/-- A descriptor whose first field declares no type and whose second field
is a text field without `fromColumn`. -/
def missingTypeDescriptor : Descriptor :=
  { TypeDescriptors :=
      [ { Key := "t", TableName := "t", UniqueIdColumn := "id", ColumnAsOptionName := "name",
          Fields := [ { Key := "a", FromColumn := "a" },
                      { Key := "b", Typ := some { Name := "text" } } ] } ] }

/-- One hundred option rows `id i, name ni`, keyed by the table. -/
def optionRows (table : String) (n : Nat) : List GoMap :=
  (List.range n).map (fun i =>
    [(table, Value.map [("id", Value.int64 i), ("name", Value.str (toString i))])])

/-- A descriptor whose first field declares no type at all and whose second
field declares a type with an empty name. -/
def untypedFieldDescriptor : Descriptor :=
  { TypeDescriptors :=
      [ { Key := "t", TableName := "t", UniqueIdColumn := "id", ColumnAsOptionName := "name",
          Fields := [ { Key := "a", FromColumn := "a" },
                      { Key := "b", FromColumn := "b", Typ := some { } } ] } ] }

/-- A descriptor whose only field declares an empty type object,
`"type": {}`. -/
def emptyTypeNameDescriptor : Descriptor :=
  { TypeDescriptors :=
      [ { Key := "t", TableName := "t", UniqueIdColumn := "id", ColumnAsOptionName := "name",
          Fields := [ { Key := "a", FromColumn := "a", Typ := some { } } ] } ] }

/-- A table with a boolean column `active` mapped as a text field and a
boolean column `verified` mapped as a field of another type. -/
def flagsTypeDescriptors : List TypeDescriptor :=
  [ { Key := "users", TableName := "users", UniqueIdColumn := "id", ColumnAsOptionName := "name",
      Fields := [ { Key := "active", FromColumn := "active", Typ := some { Name := "text" } },
                  { Key := "verified", FromColumn := "verified",
                    Typ := some { Name := "boolean" } } ] } ]

/-- A row of the table of `flagsTypeDescriptors`. -/
def flagsRow : GoMap := [("active", Value.bool true), ("verified", Value.bool true)]

/-! ## Fail-fast validation, as the specification words it -/

/-- The three checks `performSanityChecks` applies to one field, in source
order. -/
def fieldChecks (td : String) (field : Field) : List (Except Fault (Option String)) :=
  [errCurrencyHasDefaultValue field td, errFromColumnPropertyIsMissing field,
   errTypeNameIsMissing field]

/-- The checks of one type descriptor in traversal order: the id rule, the
name rule, then the three checks of each field in declaration order. -/
def typeDescriptorChecks (td : TypeDescriptor) : List (Except Fault (Option String)) :=
  [.ok (errUniqueIdColumnAndIdColumnDiffer td),
   .ok (errColumnAsOptionNameAndNameColumnDiffer td)] ++
    td.Fields.flatMap (fieldChecks td.Key)

/-- All checks of a descriptor in traversal order. -/
def allChecks (descriptor : Descriptor) : List (Except Fault (Option String)) :=
  descriptor.TypeDescriptors.flatMap typeDescriptorChecks

/-- The outcome of the first check in the list that does not pass (returns
an error or panics); no error when every check passes. -/
def firstFailure : List (Except Fault (Option String)) → Except Fault (Option String)
  | [] => .ok none
  | .ok none :: rest => firstFailure rest
  | outcome :: _ => outcome

/-! ## Loading the descriptor (`descriptor.go`) -/

/-- Go `ParseDescriptorFile`. `readAll` is the outcome of `ioutil.ReadAll`
on the file and `unmarshal` is `json.Unmarshal` into the descriptor pointer
(`none` when the document is `null` and the pointer stays nil); every error
ends in `panic`, and a nil descriptor is dereferenced by
`performSanityChecks`. The descriptor that was decoded is returned. -/
def ParseDescriptorFile (unmarshal : String → Except String (Option Descriptor))
    (readAll : Except String String) : Except Fault Descriptor :=
  match readAll with
  | .error _ => .error Fault.panic
  | .ok content =>
    match unmarshal content with
    | .error _ => .error Fault.panic
    | .ok none => .error Fault.panic
    | .ok (some descriptor) =>
      match performSanityChecks descriptor with
      | .error fault => .error fault
      | .ok (some _) => .error Fault.panic
      | .ok none => .ok descriptor

/-- A valid descriptor whose only type descriptor has no field keyed
`id`. -/
def noIdFieldDescriptor : Descriptor :=
  { Key := "test", Name := "Test",
    TypeDescriptors :=
      [ { Key := "recipes", Name := "Recipes", TableName := "recipes",
          ColumnAsOptionName := "name", UniqueIdColumn := "id",
          Fields := [ { Key := "name", Name := "Recipe name", FromColumn := "name",
                        Typ := some { Name := "text" } } ] } ] }

/-! ## Type classification (`sqlite.go`, `sqlserver.go`, `pgsql.go`) -/

/-- The scan containers the classifiers return a pointer to. -/
inductive Container where
  | NullInt64
  | NullString
  | NullFloat64
  | NullTime
  | NullBool
deriving DecidableEq, Repr

/-- Go `unicode.ToUpper` as far as comparisons with ASCII text go: the
letters `a`–`z`, the dotless i (U+0131) and the long s (U+017F) are the
runes whose upper case is an ASCII letter; every other rune has a
non-ASCII upper case or none and is left in place here. -/
def toUpperRune (c : Char) : Char :=
  if 97 ≤ c.toNat ∧ c.toNat ≤ 122 then Char.ofNat (c.toNat - 32)
  else if c.toNat = 0x131 then 'I'
  else if c.toNat = 0x17F then 'S'
  else c

/-- Go `unicode.ToLower` as far as comparisons with ASCII text go: the
letters `A`–`Z`, the dotted capital I (U+0130) and the Kelvin sign (U+212A)
are the runes whose lower case is an ASCII letter. -/
def toLowerRune (c : Char) : Char :=
  if 65 ≤ c.toNat ∧ c.toNat ≤ 90 then Char.ofNat (c.toNat + 32)
  else if c.toNat = 0x130 then 'i'
  else if c.toNat = 0x212A then 'k'
  else c

/-- Go `strings.ToUpper`, rune by rune. -/
def ToUpper (s : String) : String := String.mk (s.data.map toUpperRune)

/-- Go `strings.ToLower`, rune by rune. -/
def ToLower (s : String) : String := String.mk (s.data.map toLowerRune)

/-- Whether the character list `t` is an initial segment of `s`. -/
def startsWithChars : List Char → List Char → Bool
  | _, [] => true
  | [], _ :: _ => false
  | c :: s, d :: t => c == d && startsWithChars s t

/-- Go `strings.HasPrefix(s, t)`. -/
def startsWith (s t : String) : Bool := startsWithChars s.data t.data

/-- Go `isOfDataType` (the same function in the packages `sqlite` and
`sqlserver`): some entry of `ts` is an initial segment of the upper-cased
type name. -/
def isOfDataType : List String → String → Bool
  | [], _ => false
  | t :: ts, fieldDataType =>
    if startsWith (ToUpper fieldDataType) t then true else isOfDataType ts fieldDataType

/-- Go `sqlite.integer`. -/
def sqlite.integer : List String :=
  ["BIGINT", "INT", "INT2", "INT8", "INTEGER", "MEDIUMINT", "SMALLINT", "TINYINT", "UNSIGNED"]

/-- Go `sqlite.text`. -/
def sqlite.text : List String :=
  ["CHARACTER", "CLOB", "NATIVE CHARACTER", "NCHAR", "NVARCHAR", "TEXT", "VARCHAR",
   "VARYING CHARACTER"]

/-- Go `sqlite.real`. -/
def sqlite.real : List String := ["DOUBLE PRECISION", "DOUBLE", "FLOAT", "REAL"]

/-- Go `sqlite.numeric`. -/
def sqlite.numeric : List String := ["BOOLEAN", "DECIMAL", "NUMERIC"]

/-- Go `sqlite.dateTime`. -/
def sqlite.dateTime : List String := ["DATE", "DATETIME"]

/-- Go `convertFromSqliteDataType`. -/
def sqlite.convertFromSqliteDataType (fieldDataType : String) : Container :=
  if isOfDataType sqlite.integer fieldDataType then Container.NullInt64
  else if isOfDataType sqlite.text fieldDataType then Container.NullString
  else if isOfDataType sqlite.real fieldDataType then Container.NullFloat64
  else if isOfDataType sqlite.numeric fieldDataType then Container.NullFloat64
  else if isOfDataType sqlite.dateTime fieldDataType then Container.NullTime
  else Container.NullString

/-- Go `sqlserver.integer`. -/
def sqlserver.integer : List String := ["TINYINT", "SMALLINT", "INT", "BIGINT"]

/-- Go `sqlserver.text`. -/
def sqlserver.text : List String :=
  ["CHAR", "VARCHAR", "TEXT", "NCHAR", "NVARCHAR", "NTEXT", "BINARY", "VARBINARY", "IMAGE"]

/-- Go `sqlserver.numeric`. -/
def sqlserver.numeric : List String :=
  ["DECIMAL", "NUMERIC", "SMALLMONEY", "MONEY", "FLOAT", "REAL"]

/-- Go `sqlserver.dateTime`. -/
def sqlserver.dateTime : List String :=
  ["DATETIME", "DATETIME2", "DATETIMEOFFSET", "SMALLDATETIME", "DATE", "TIME"]

/-- Go `ConvertFromSqlserverDataType`. -/
def sqlserver.ConvertFromSqlserverDataType (fieldDataType : String) : Container :=
  if isOfDataType sqlserver.integer fieldDataType then Container.NullInt64
  else if isOfDataType sqlserver.text fieldDataType then Container.NullString
  else if isOfDataType sqlserver.numeric fieldDataType then Container.NullFloat64
  else if isOfDataType sqlserver.dateTime fieldDataType then Container.NullTime
  else Container.NullString

/-- The names `convertFromPgsqlDataType` has a case for. -/
def pgsql.listed : List String :=
  ["CHAR", "VARCHAR", "TEXT", "BYTEA", "INT2", "INT4", "INT8", "NUMERIC", "MONEY", "TIMESTAMP",
   "TIMESTAMPTZ", "DATE", "TIME", "TIMETZ", "BOOL"]

/-- Go `convertFromPgsqlDataType`: a `switch` on the exact name. -/
def pgsql.convertFromPgsqlDataType (fieldDataType : String) : Container :=
  if fieldDataType = "CHAR" then Container.NullString
  else if fieldDataType = "VARCHAR" then Container.NullString
  else if fieldDataType = "TEXT" then Container.NullString
  else if fieldDataType = "BYTEA" then Container.NullString
  else if fieldDataType = "INT2" then Container.NullInt64
  else if fieldDataType = "INT4" then Container.NullInt64
  else if fieldDataType = "INT8" then Container.NullInt64
  else if fieldDataType = "NUMERIC" then Container.NullFloat64
  else if fieldDataType = "MONEY" then Container.NullFloat64
  else if fieldDataType = "TIMESTAMP" then Container.NullTime
  else if fieldDataType = "TIMESTAMPTZ" then Container.NullTime
  else if fieldDataType = "DATE" then Container.NullTime
  else if fieldDataType = "TIME" then Container.NullTime
  else if fieldDataType = "TIMETZ" then Container.NullTime
  else if fieldDataType = "BOOL" then Container.NullBool
  else Container.NullString

/-- The four canonical containers of the specification: Integer, Float,
String and Timestamp. -/
def Container.isCanonical : Container → Bool
  | Container.NullBool => false
  | _ => true

/-- Some entry of `ts`, preceded by `s`, is longer than `s`: a suffix
appended to `s` can complete it to the entry. -/
def extendsTo (ts : List String) (s : String) : Bool :=
  ts.any (fun t => startsWithChars t.data s.data && !startsWithChars s.data t.data)

/-- A chain of `switch` cases `case isOfDataType(family, name): return
container` with a default. -/
def classifyChain : List (List String × Container) → Container → String → Container
  | [], dflt, _ => dflt
  | (family, container) :: rest, dflt, fieldDataType =>
    if isOfDataType family fieldDataType then container
    else classifyChain rest dflt fieldDataType

/-- The cases of `convertFromSqliteDataType` in source order. -/
def sqlite.cases : List (List String × Container) :=
  [(sqlite.integer, Container.NullInt64), (sqlite.text, Container.NullString),
   (sqlite.real, Container.NullFloat64), (sqlite.numeric, Container.NullFloat64),
   (sqlite.dateTime, Container.NullTime)]

/-- The cases of `ConvertFromSqlserverDataType` in source order. -/
def sqlserver.cases : List (List String × Container) :=
  [(sqlserver.integer, Container.NullInt64), (sqlserver.text, Container.NullString),
   (sqlserver.numeric, Container.NullFloat64), (sqlserver.dateTime, Container.NullTime)]

/-- No case tried before the one that classifies `name` has an entry that
`name` is a proper initial segment of. -/
def stableUnderSuffix : List (List String × Container) → String → Bool
  | [], _ => true
  | (family, _) :: rest, name =>
    if isOfDataType family name then true
    else !extendsTo family name && stableUnderSuffix rest name

/-- All family entries of a chain of cases. -/
def familyNames (cases : List (List String × Container)) : List String :=
  cases.flatMap (fun c => c.1)

/-! ## Query templates (`sqlite.go`, `sqlserver.go`, `pgsql.go`) -/

/-- Go `sqlite.QueryTemplates`: name and template text, the pieces joined as
in the source; the braces of the action delimiters are written as the
escapes `\x7b` and `\x7d`. -/
def sqlite.QueryTemplates : List (String × String) :=
  [ ("GetSingle",
     "SELECT * " ++
     "FROM \"\x7b\x7b.TableName\x7d\x7d\" AS \"_\x7b\x7b.TableName\x7d\x7d\"" ++
     "\x7b\x7brange .Relations\x7d\x7d" ++
     "   LEFT JOIN \"\x7b\x7b.Relationship.WithTable\x7d\x7d\"" ++
     "   ON \"\x7b\x7b.Relationship.WithTable\x7d\x7d\".\"\x7b\x7b.Relationship." ++
       "ForeignTableUniqueIdColumn\x7d\x7d\"" ++
     "   = \"_\x7b\x7b$.TableName\x7d\x7d\".\"\x7b\x7b.Relationship." ++
       "LocalTableUniqueIdColumn\x7d\x7d\"" ++
     "\x7b\x7bend\x7d\x7d" ++
     " WHERE \"_\x7b\x7b$.TableName\x7d\x7d\".\"\x7b\x7b.UniqueIdColumn\x7d\x7d\" = ?"),
    ("GetSingleAsOption",
     "SELECT \"\x7b\x7b.UniqueIdColumn\x7d\x7d\", \"\x7b\x7b.ColumnAsOptionName\x7d\x7d\" " ++
     "FROM \"\x7b\x7b.TableName\x7d\x7d\" " ++
     "WHERE \"\x7b\x7b.UniqueIdColumn\x7d\x7d\" = ?"),
    ("GetCollection",
     "SELECT * " ++
     "FROM \"\x7b\x7b.TableName\x7d\x7d\" " ++
     "ORDER BY \"\x7b\x7b.UniqueIdColumn\x7d\x7d\" ASC"),
    ("GetCollectionFilterable",
     "SELECT * " ++
     "FROM \"\x7b\x7b.TableName\x7d\x7d\" AS \"_\x7b\x7b.TableName\x7d\x7d\"" ++
     "\x7b\x7brange .Relations\x7d\x7d" ++
     "   LEFT JOIN \"\x7b\x7b.Relationship.WithTable\x7d\x7d\"" ++
     "   ON \"\x7b\x7b.Relationship.WithTable\x7d\x7d\".\"\x7b\x7b.Relationship." ++
       "ForeignTableUniqueIdColumn\x7d\x7d\"" ++
     "   = \"_\x7b\x7b$.TableName\x7d\x7d\".\"\x7b\x7b.Relationship." ++
       "LocalTableUniqueIdColumn\x7d\x7d\"" ++
     "\x7b\x7bend\x7d\x7d" ++
     " WHERE \"_\x7b\x7b$.TableName\x7d\x7d\".\"\x7b\x7b.FilterOnColumn\x7d\x7d\" \x7b\x7b." ++
       "Operator\x7d\x7d ?"),
    ("GetCollectionAsOptions",
     "SELECT \"\x7b\x7b.UniqueIdColumn\x7d\x7d\", \"\x7b\x7b.ColumnAsOptionName\x7d\x7d\" " ++
     "FROM \"\x7b\x7b.TableName\x7d\x7d\" " ++
     "ORDER BY \"\x7b\x7b.UniqueIdColumn\x7d\x7d\" ASC"),
    ("GetCollectionAsOptionsFilterable",
     "SELECT \"\x7b\x7b.UniqueIdColumn\x7d\x7d\", \"\x7b\x7b.ColumnAsOptionName\x7d\x7d\" " ++
     "FROM \"\x7b\x7b.TableName\x7d\x7d\" " ++
     "WHERE \"\x7b\x7b.ColumnAsOptionName\x7d\x7d\" LIKE ?"),
    ("GetCollectionAsOptionsWithParams",
     "SELECT \"\x7b\x7b.UniqueIdColumn\x7d\x7d\", \"\x7b\x7b.ColumnAsOptionName\x7d\x7d\" " ++
     "FROM \"\x7b\x7b.TableName\x7d\x7d\" " ++
     "WHERE \"\x7b\x7b.ColumnAsOptionName\x7d\x7d\" LIKE ? " ++
     "\x7b\x7brange $index, $element := .ColumnNames\x7d\x7d" ++
     "AND \"\x7b\x7b$element\x7d\x7d\" = ?" ++
     "\x7b\x7bend\x7d\x7d"),
    ("UpdateSingle",
     "UPDATE \"\x7b\x7b.TableName\x7d\x7d\" SET \"\x7b\x7b.ColumnNames | head\x7d\x7d\"" ++
     " = ?\x7b\x7brange .ColumnNames | tail\x7d\x7d," ++
     " \"\x7b\x7b.\x7d\x7d\" = ?\x7b\x7bend\x7d\x7d" ++
     " WHERE \"\x7b\x7b.UniqueIdColumn\x7d\x7d\" = ?"),
    ("CreateSingle",
     "INSERT INTO \"\x7b\x7b.TableName\x7d\x7d\"" ++
     "(\"\x7b\x7b.ColumnNames | head\x7d\x7d\"" ++
     "\x7b\x7brange .ColumnNames | tail\x7d\x7d," ++
     " \"\x7b\x7b.\x7d\x7d\"" ++
     "\x7b\x7bend\x7d\x7d) " ++
     "VALUES(?\x7b\x7brange .ColumnNames | tail\x7d\x7d, ?\x7b\x7bend\x7d\x7d)"),
    ("DeleteSingle",
     "DELETE FROM \"\x7b\x7b.TableName\x7d\x7d\" WHERE \"\x7b\x7b.UniqueIdColumn\x7d\x7d\" = ?"),
    ("GetTableSchema",
     "SELECT * " ++
     "FROM \"\x7b\x7b.TableName\x7d\x7d\" " ++
     "LIMIT 1"),
    ("GetTableWithRelationshipsSchema",
     "SELECT * FROM \"\x7b\x7b.TableName\x7d\x7d\" AS \"_\x7b\x7b.TableName\x7d\x7d\" " ++
     "\x7b\x7brange .Relations\x7d\x7d" ++
     " LEFT JOIN \"\x7b\x7b.Relationship.WithTable\x7d\x7d\"" ++
     " ON \"\x7b\x7b.Relationship.WithTable\x7d\x7d\".\"\x7b\x7b.Relationship." ++
       "ForeignTableUniqueIdColumn\x7d\x7d\"" ++
     " = \"_\x7b\x7b$.TableName\x7d\x7d\".\"\x7b\x7b.Relationship." ++
       "LocalTableUniqueIdColumn\x7d\x7d\"\x7b\x7bend\x7d\x7d LIMIT 1") ]

/-- Go `sqlserver.QueryTemplates`: name and template text, the pieces joined
as in the source. -/
def sqlserver.QueryTemplates : List (String × String) :=
  [ ("GetSingle",
     "SELECT * " ++
     "FROM \"\x7b\x7b.TableName\x7d\x7d\" AS \"_\x7b\x7b.TableName\x7d\x7d\" " ++
     "\x7b\x7brange .Relations\x7d\x7d" ++
     "   LEFT JOIN \"\x7b\x7b.Relationship.WithTable\x7d\x7d\"" ++
     "   ON \"\x7b\x7b.Relationship.WithTable\x7d\x7d\".\"\x7b\x7b.Relationship." ++
       "ForeignTableUniqueIDColumn\x7d\x7d\"" ++
     "   = \"_\x7b\x7b$.TableName\x7d\x7d\".\"\x7b\x7b.Relationship." ++
       "LocalTableUniqueIDColumn\x7d\x7d\"" ++
     "\x7b\x7bend\x7d\x7d" ++
     "WHERE \"_\x7b\x7b$.TableName\x7d\x7d\".\"\x7b\x7b.UniqueIDColumn\x7d\x7d\" = @p1"),
    ("GetSingleAsOption",
     "SELECT \"\x7b\x7b.UniqueIDColumn\x7d\x7d\", \"\x7b\x7b.ColumnAsOptionName\x7d\x7d\" " ++
     "FROM \"\x7b\x7b.TableName\x7d\x7d\" " ++
     "WHERE \"\x7b\x7b.UniqueIDColumn\x7d\x7d\" = @p1"),
    ("GetCollection",
     "SELECT * " ++
     "FROM \"\x7b\x7b.TableName\x7d\x7d\""),
    ("GetCollectionFilterable",
     "SELECT * " ++
     "FROM \"\x7b\x7b.TableName\x7d\x7d " ++
     "WHERE \"\x7b\x7b.FilterOnColumn\x7d\x7d\" \x7b\x7b.Operator\x7d\x7d @p1"),
    ("GetCollectionAsOptions",
     "SELECT \"\x7b\x7b.UniqueIDColumn\x7d\x7d\", \"\x7b\x7b.ColumnAsOptionName\x7d\x7d\" " ++
     "FROM \"\x7b\x7b.TableName\x7d\x7d\""),
    ("GetCollectionAsOptionsFilterable",
     "SELECT \"\x7b\x7b.UniqueIDColumn\x7d\x7d\", \"\x7b\x7b.ColumnAsOptionName\x7d\x7d\" " ++
     "FROM \"\x7b\x7b.TableName\x7d\x7d\" " ++
     "WHERE CAST (\"\x7b\x7b.ColumnAsOptionName\x7d\x7d\" AS TEXT) LIKE @p1"),
    ("GetCollectionAsOptionsWithParams",
     "SELECT \"\x7b\x7b.UniqueIDColumn\x7d\x7d\", \"\x7b\x7b.ColumnAsOptionName\x7d\x7d\" " ++
     "FROM \"\x7b\x7b.TableName\x7d\x7d\" " ++
     "WHERE CAST (\"\x7b\x7b.ColumnAsOptionName\x7d\x7d\" AS TEXT) LIKE @p1 " ++
     "\x7b\x7brange $key, $value := .ParamsWithValues\x7d\x7d" ++
     "AND \"\x7b\x7b$key\x7d\x7d\" = \x27\x7b\x7b$value\x7d\x7d\x27" ++
     "\x7b\x7bend\x7d\x7d"),
    ("UpdateSingle",
     "UPDATE \"\x7b\x7b.TableName\x7d\x7d\" " ++
     "SET \"\x7b\x7b.ColumnNames | head\x7d\x7d\" = @p1" ++
     "\x7b\x7brange $index, $element := .ColumnNames | tail\x7d\x7d," ++
     "  \"\x7b\x7b$element\x7d\x7d\" = @p\x7b\x7b(add2 $index)\x7d\x7d" ++
     "\x7b\x7bend\x7d\x7d " ++
     "WHERE \"\x7b\x7b.UniqueIDColumn\x7d\x7d\"= @p\x7b\x7b(lenPlus1 .ColumnNames)\x7d\x7d"),
    ("CreateSingle",
     "INSERT INTO \"\x7b\x7b.TableName\x7d\x7d\"" ++
     "(\"\x7b\x7b.ColumnNames | head\x7d\x7d\"" ++
     "\x7b\x7brange .ColumnNames | tail\x7d\x7d," ++
     "  \"\x7b\x7b.\x7d\x7d\"" ++
     "\x7b\x7bend\x7d\x7d) " ++
     "VALUES(@p1" ++
     "\x7b\x7brange $index, $element := .ColumnNames | tail\x7d\x7d," ++
     "  @p\x7b\x7b$index | add2\x7d\x7d" ++
     "\x7b\x7bend\x7d\x7d) " ++
     "RETURNING \"\x7b\x7b.UniqueIDColumn\x7d\x7d\""),
    ("DeleteSingle",
     "DELETE FROM \"\x7b\x7b.TableName\x7d\x7d\" WHERE \"\x7b\x7b.UniqueIDColumn\x7d\x7d\" = ?"),
    ("GetTableSchema",
     "SELECT TOP 1 * " ++
     "FROM \"\x7b\x7b.TableName\x7d\x7d\""),
    ("GetTableWithRelationshipsSchema",
     "SELECT TOP 1 * FROM \"\x7b\x7b.TableName\x7d\x7d\" AS \"_\x7b\x7b.TableName\x7d\x7d\"" ++
     "\x7b\x7brange .Relations\x7d\x7d" ++
     " LEFT JOIN \"\x7b\x7b.Relationship.WithTable\x7d\x7d\"" ++
     " ON \"\x7b\x7b.Relationship.WithTable\x7d\x7d\".\"\x7b\x7b.Relationship." ++
       "ForeignTableUniqueIDColumn\x7d\x7d\"" ++
     " = \"_\x7b\x7b$.TableName\x7d\x7d\".\"\x7b\x7b.Relationship." ++
       "LocalTableUniqueIDColumn\x7d\x7d\"\x7b\x7bend\x7d\x7d") ]

/-- Go `b.Queries` of `NewPgsqlBackend`. -/
def pgsql.Queries : List (String × String) :=
  [ ("Get",
     "SELECT * FROM %s WHERE id = $1"),
    ("GetCollection",
     "SELECT * FROM %s"),
    ("GetRelation",
     "SELECT * FROM %s WHERE %s = $1"),
    ("GetSingleAsOption",
     "SELECT id, %s FROM %s WHERE id = $1"),
    ("GetCollectionAsOptions",
     "SELECT id, %s FROM %s"),
    ("GetCollectionAsOptionsFilterable",
     "SELECT id, %s FROM %s WHERE %s LIKE $1"),
    ("GetTableSchema",
     "SELECT * FROM %s LIMIT 1") ]

/-- Go `b.Templates` of `NewPgsqlBackend`. -/
def pgsql.Templates : List (String × String) :=
  [ ("GetCollectionWithRelationships",
     "SELECT * FROM \x7b\x7b.Name\x7d\x7d AS _\x7b\x7b.Name\x7d\x7d " ++
     "\x7b\x7brange $index, $element := \x7b\x7b.Relations\x7d\x7d\x7d\x7d " ++
     "join \x7b\x7b.TableName\x7d\x7d" ++
     "on _\x7b\x7b.TableName\x7d\x7d.\x7b\x7b.ForeignKey\x7d\x7d = _\x7b\x7b.Name\x7d\x7d." ++
       "id\x7b\x7bend\x7d\x7d"),
    ("UpdateSingle",
     "UPDATE \x7b\x7b.Table\x7d\x7d SET \x7b\x7b.ColumnNames | head\x7d\x7d" ++
     " = $1\x7b\x7brange $index, $Element := .ColumnNames | tail\x7d\x7d," ++
     " \x7b\x7b$element\x7d\x7d = $\x7b\x7b(add2 $index)\x7d\x7d\x7b\x7bend\x7d\x7d" ++
     " WHERE id = $\x7b\x7b(lenPlus1 .ColumnNames)\x7d\x7d"),
    ("CreateSingle",
     "INSERT INTO \x7b\x7b.Table\x7d\x7d(\x7b\x7b.ColumnNames | head\x7d\x7d" ++
     "\x7b\x7brange .ColumnNames | tail\x7d\x7d, \x7b\x7b.\x7d\x7d\x7b\x7bend\x7d\x7d) " ++
       "VALUES($1\x7b\x7brange $index," ++
     " $element := .ColumnNames | tail\x7d\x7d, $\x7b\x7b$index | " ++
       "add2\x7d\x7d\x7b\x7bend\x7d\x7d)") ]

/-- The positional-parameter syntaxes of the backends: `?`, `@pN` and
`$N`. -/
inductive Placeholder where
  | question
  | atP
  | dollar
deriving DecidableEq, Repr

/-- Whether the text begins with a parameter number: a digit, or an action
that prints the number (as in `@p` followed by an `add2` action). -/
def numberFollows : List Char → Bool
  | [] => false
  | c :: rest => c.isDigit || (c == Char.ofNat 0x7b && rest.head? == some (Char.ofNat 0x7b))

/-- The placeholders of a template text in order of appearance. Text
between the action delimiters is skipped (`inAction`); outside of actions a
`?` is a placeholder, and so are `@p` and `$` when a parameter number
follows. -/
def scanPlaceholders : Bool → List Char → List Placeholder
  | _, [] => []
  | true, c :: rest =>
    if c == Char.ofNat 0x7d && rest.head? == some (Char.ofNat 0x7d) then
      scanPlaceholders false rest
    else scanPlaceholders true rest
  | false, c :: rest =>
    if c == Char.ofNat 0x7b && rest.head? == some (Char.ofNat 0x7b) then
      scanPlaceholders true rest
    else if c == '?' then Placeholder.question :: scanPlaceholders false rest
    else if c == '@' && rest.head? == some 'p' && numberFollows rest.tail then
      Placeholder.atP :: scanPlaceholders false rest
    else if c == '$' && numberFollows rest then
      Placeholder.dollar :: scanPlaceholders false rest
    else scanPlaceholders false rest

/-- The placeholders of a template. -/
def placeholders (template : String) : List Placeholder :=
  scanPlaceholders false template.data

/-- Every placeholder of every text of the table has the syntax `p`. -/
def usesOnly (p : Placeholder) (templates : List (String × String)) : Bool :=
  templates.all (fun t => (placeholders t.2).all (fun q => q == p))

/-! ## Go library model: `text/template`

The part of the template language the query templates without function
calls are written in: text, the actions `.`, `.A.B`, `$.A.B` and `$x`, and
`range` with or without the two loop variables. -/

/-- Go values as the template engine sees them. `nil` is a nil pointer,
`noValue` the result of indexing a map with a key it does not have. -/
inductive Data where
  | nil
  | noValue
  | str (s : String)
  | int (n : Nat)
  | list (xs : List Data)
  | struct (fields : List (String × Data))
  | map (entries : List (String × Data))

/-- The ways the execution of a template fails. -/
inductive ExecError where
  | cannotEvaluateField (name : String)
  | nilPointer (name : String)
  | undefinedVariable (name : String)
  | cannotIterate
  | printNotModelled
deriving DecidableEq, Repr

/-- Evaluation of `.name` on a value: a struct must have the field, a map
yields no value for a key it does not have, a nil pointer and every other
value are an error. -/
def Data.field (d : Data) (name : String) : Except ExecError Data :=
  match d with
  | Data.struct fields =>
    match fields.lookup name with
    | some v => .ok v
    | none => .error (ExecError.cannotEvaluateField name)
  | Data.map entries =>
    match entries.lookup name with
    | some v => .ok v
    | none => .ok Data.noValue
  | Data.nil => .error (ExecError.nilPointer name)
  | _ => .error (ExecError.cannotEvaluateField name)

/-- Evaluation of a chain `.A.B.C`. -/
def Data.path : List String → Data → Except ExecError Data
  | [], d => .ok d
  | name :: rest, d =>
    match d.field name with
    | .ok v => Data.path rest v
    | .error e => .error e

/-- What an action prints: strings as they are, integers in decimal, a nil
pointer as `<nil>`, a missing map entry as `<no value>`. The print form of
lists, structs and maps is not modelled. -/
def Data.print : Data → Except ExecError String
  | Data.str s => .ok s
  | Data.int n => .ok (toString n)
  | Data.nil => .ok "<nil>"
  | Data.noValue => .ok "<no value>"
  | _ => .error ExecError.printNotModelled

/-- Insertion of a map entry in key order. -/
def insertByKey (e : String × Data) : List (String × Data) → List (String × Data)
  | [] => [e]
  | x :: rest => if e.1 < x.1 then e :: x :: rest else x :: insertByKey e rest

/-- Index and element of the list elements from index `i` on. -/
def indexed (i : Nat) : List Data → List (Data × Data)
  | [] => []
  | x :: rest => (Data.int i, x) :: indexed (i + 1) rest

/-- The iterations of `range` over a value, each with its index or key and
its element: a list is visited in order, a map in the order of its keys;
nil and a missing value have no elements. -/
def Data.iterations : Data → Except ExecError (List (Data × Data))
  | Data.list xs => .ok (indexed 0 xs)
  | Data.map entries =>
    .ok ((entries.foldr insertByKey []).map (fun e => (Data.str e.1, e.2)))
  | Data.nil => .ok []
  | Data.noValue => .ok []
  | _ => .error ExecError.cannotIterate

/-- The argument of an action: `.`, `.A.B`, `$.A.B` or `$x`. -/
inductive Pipe where
  | dot
  | field (path : List String)
  | rootField (path : List String)
  | var (name : String)
deriving DecidableEq, Repr

/-- A parsed template: text, an action that prints its argument, or a
`range` (with the names of the loop variables when it declares them) up to
its `end`. -/
inductive Node where
  | text (s : String)
  | action (p : Pipe)
  | range (vars : Option (String × String)) (p : Pipe) (body : List Node)

/-- The source text of an action argument. -/
def Pipe.source : Pipe → String
  | Pipe.dot => "."
  | Pipe.field path => "." ++ ".".intercalate path
  | Pipe.rootField path => "$." ++ ".".intercalate path
  | Pipe.var name => "$" ++ name

mutual
/-- The source text of a node. -/
def Node.source : Node → String
  | Node.text s => s
  | Node.action p => "\x7b\x7b" ++ p.source ++ "\x7d\x7d"
  | Node.range none p body =>
    "\x7b\x7brange " ++ p.source ++ "\x7d\x7d" ++ Node.sourceList body ++ "\x7b\x7bend\x7d\x7d"
  | Node.range (some (index, element)) p body =>
    "\x7b\x7brange $" ++ index ++ ", $" ++ element ++ " := " ++ p.source ++ "\x7d\x7d" ++
      Node.sourceList body ++ "\x7b\x7bend\x7d\x7d"
/-- The source text of a sequence of nodes. -/
def Node.sourceList : List Node → String
  | [] => ""
  | n :: rest => n.source ++ Node.sourceList rest
end

/-- Evaluation of an action argument with `$` bound to `root`, `.` to `dot`
and the loop variables in `vars`. -/
def Pipe.eval (root dot : Data) (vars : List (String × Data)) : Pipe → Except ExecError Data
  | Pipe.dot => .ok dot
  | Pipe.field path => Data.path path dot
  | Pipe.rootField path => Data.path path root
  | Pipe.var name =>
    match vars.lookup name with
    | some v => .ok v
    | none => .error (ExecError.undefinedVariable name)

/-- The loop variables of an iteration, in front of the enclosing ones. -/
def bindLoopVars (names : Option (String × String)) (item : Data × Data)
    (vars : List (String × Data)) : List (String × Data) :=
  match names with
  | none => vars
  | some (index, element) => (index, item.1) :: (element, item.2) :: vars

mutual
/-- Go `Template.Execute` on one node: text is copied, an action prints its
argument, `range` runs its body once per element with `.` set to the
element. The first error ends the execution. -/
def Node.exec (root : Data) : Node → Data → List (String × Data) → Except ExecError String
  | Node.text s, _, _ => .ok s
  | Node.action p, dot, vars =>
    match p.eval root dot vars with
    | .ok v => v.print
    | .error e => .error e
  | Node.range names p body, dot, vars =>
    match p.eval root dot vars with
    | .error e => .error e
    | .ok v =>
      match v.iterations with
      | .error e => .error e
      | .ok items =>
        items.foldlM
          (fun out item =>
            match Node.execList root body item.2 (bindLoopVars names item vars) with
            | .ok s => .ok (out ++ s)
            | .error e => .error e)
          ""
/-- Go `Template.Execute` on a sequence of nodes. -/
def Node.execList (root : Data) : List Node → Data → List (String × Data) →
    Except ExecError String
  | [], _, _ => .ok ""
  | n :: rest, dot, vars =>
    match n.exec root dot vars with
    | .error e => .error e
    | .ok s =>
      match Node.execList root rest dot vars with
      | .ok t => .ok (s ++ t)
      | .error e => .error e
end

/-- Go `Template.Execute`: the template run on `data`. -/
def execute (template : List Node) (data : Data) : Except ExecError String :=
  Node.execList data template data []

/-! ## Rendering of the templates -/

/-- The template `GetCollectionAsOptionsWithParams` of `sqlite.go`,
parsed. -/
def sqlite.getCollectionAsOptionsWithParams : List Node :=
  [ Node.text "SELECT \"", Node.action (Pipe.field ["UniqueIdColumn"]),
    Node.text "\", \"", Node.action (Pipe.field ["ColumnAsOptionName"]),
    Node.text "\" FROM \"", Node.action (Pipe.field ["TableName"]),
    Node.text "\" WHERE \"", Node.action (Pipe.field ["ColumnAsOptionName"]),
    Node.text "\" LIKE ? ",
    Node.range (some ("index", "element")) (Pipe.field ["ColumnNames"])
      [ Node.text "AND \"", Node.action (Pipe.var "element"), Node.text "\" = ?" ] ]

/-- The template `GetCollectionAsOptionsWithParams` of `sqlserver.go`,
parsed. -/
def sqlserver.getCollectionAsOptionsWithParams : List Node :=
  [ Node.text "SELECT \"", Node.action (Pipe.field ["UniqueIDColumn"]),
    Node.text "\", \"", Node.action (Pipe.field ["ColumnAsOptionName"]),
    Node.text "\" FROM \"", Node.action (Pipe.field ["TableName"]),
    Node.text "\" WHERE CAST (\"", Node.action (Pipe.field ["ColumnAsOptionName"]),
    Node.text "\" AS TEXT) LIKE @p1 ",
    Node.range (some ("key", "value")) (Pipe.field ["ParamsWithValues"])
      [ Node.text "AND \"", Node.action (Pipe.var "key"), Node.text "\" = \x27",
        Node.action (Pipe.var "value"), Node.text "\x27" ] ]

/-- Go `descriptor.Relationship` as template data. -/
def Relationship.toData (r : Relationship) : Data :=
  Data.struct
    [ ("Kind", Data.str r.Kind), ("WithTable", Data.str r.WithTable),
      ("ForeignTableUniqueIdColumn", Data.str r.ForeignTableUniqueIdColumn),
      ("LocalTableUniqueIdColumn", Data.str r.LocalTableUniqueIdColumn) ]

/-- Go `descriptor.WorkflowType` as template data. -/
def WorkflowType.toData (t : WorkflowType) : Data :=
  Data.struct
    [ ("Name", Data.str t.Name), ("Kind", Data.str t.Kind),
      ("Amount",
        match t.Amount with
        | none => Data.nil
        | some a => Data.struct [("Key", Data.str a.Key), ("FromColumn", Data.str a.FromColumn)]),
      ("Currency",
        match t.Currency with
        | none => Data.nil
        | some c =>
          Data.struct [("Key", Data.str c.Key), ("FromColumn", Data.str c.FromColumn),
            ("Value", Data.str c.Value)]) ]

/-- Go `descriptor.Field` as template data; `Type` and `Relationship` are
pointers. -/
def Field.toData (f : Field) : Data :=
  Data.struct
    [ ("Key", Data.str f.Key), ("Name", Data.str f.Name),
      ("Type", match f.Typ with | none => Data.nil | some t => t.toData),
      ("FromColumn", Data.str f.FromColumn),
      ("Relationship", match f.Relationship with | none => Data.nil | some r => r.toData) ]

/-- Modelled from the spec: the rendering context of §4.2, "table name,
unique-id column, option-name column, an ordered column-name list, an
ordered list of relationship Fields requiring a join, a filter
column/operator pair, and an optional map of extra equality filters", under
the member names the templates read. The values of `ParamsWithValues` are
the values to be bound; every other member is a name. -/
structure RenderContext where
  TableName : String := ""
  UniqueIdColumn : String := ""
  ColumnAsOptionName : String := ""
  ColumnNames : List String := []
  Relations : List Field := []
  FilterOnColumn : String := ""
  Operator : String := ""
  ParamsWithValues : List (String × String) := []
deriving DecidableEq, Repr

/-- Modelled from the spec: the context as template data. The SQLite
templates read the unique-id column as `.UniqueIdColumn`, the SQL Server
templates as `.UniqueIDColumn`; the data offers it under both names. -/
def RenderContext.toData (c : RenderContext) : Data :=
  Data.struct
    [ ("TableName", Data.str c.TableName),
      ("UniqueIdColumn", Data.str c.UniqueIdColumn),
      ("UniqueIDColumn", Data.str c.UniqueIdColumn),
      ("ColumnAsOptionName", Data.str c.ColumnAsOptionName),
      ("ColumnNames", Data.list (c.ColumnNames.map Data.str)),
      ("Relations", Data.list (c.Relations.map Field.toData)),
      ("FilterOnColumn", Data.str c.FilterOnColumn),
      ("Operator", Data.str c.Operator),
      ("ParamsWithValues",
        Data.map (c.ParamsWithValues.map (fun e => (e.1, Data.str e.2)))) ]

/-- Modelled from the spec: rendering, the template executed on the
context. -/
def render (template : List Node) (c : RenderContext) : Except ExecError String :=
  execute template c.toData

/-- Modelled from the spec: two contexts "agree on table, column and
relationship names" when they differ at most in the values of
`ParamsWithValues`. -/
def RenderContext.agreeOnNames (c1 c2 : RenderContext) : Bool :=
  decide ({ c1 with ParamsWithValues := [] } = { c2 with ParamsWithValues := [] }) &&
    c1.ParamsWithValues.map (fun e => e.1) == c2.ParamsWithValues.map (fun e => e.1)

/-- A request for the options of `equipment` with the extra equality
filter `name = value`. -/
def filterContext (value : String) : RenderContext :=
  { TableName := "equipment", UniqueIdColumn := "id", ColumnAsOptionName := "name",
    ColumnNames := ["name"], ParamsWithValues := [("name", value)] }

/-! ## Example data for the safety of validation and formatting -/

/-- A money field with a static currency and no `amount` object. -/
def costWithoutAmountField : Field :=
  { Key := "cost", Typ := some { Name := "money", Currency := some { Value := "EUR" } } }

/-- A descriptor whose money field has a currency and no `amount`
object. -/
def noAmountDescriptor : Descriptor :=
  { Key := "shop", Name := "Shop",
    TypeDescriptors :=
      [ { Key := "item", Name := "Item", TableName := "item", UniqueIdColumn := "id",
          ColumnAsOptionName := "name",
          Fields := [ { Key := "id", FromColumn := "id", Typ := some { Name := "text" } },
                      costWithoutAmountField ] } ] }

/-- Query results with one row of the table `item`. -/
def itemRow : GoMap := [("item", Value.map [("id", Value.int64 1), ("cost", Value.int64 5)])]

/-- A descriptor whose money type declares no `currency` object. -/
def moneyWithoutCurrencyDescriptor : Descriptor :=
  { TypeDescriptors :=
      [ { Key := "t", TableName := "t", UniqueIdColumn := "id", ColumnAsOptionName := "name",
          Fields := [ { Key := "cost",
                        Typ := some { Name := "money",
                                      Amount := some { Key := "cost",
                                                       FromColumn := "cost" } } } ] } ] }

/-- The formatter values the package exports. -/
def exportedFormatters : List Formatter :=
  [Standard, GetCollection, GetSingleAsOption, GetCollectionAsOptions,
   GetCollectionAsOptionsFilterable]

/-! ## Scanning timestamps (`NullTime` of `util.go` and `backend.go`) -/

/-- Go `time.Time{}`, the zero time: January 1 of year 1, 00:00:00 UTC. -/
def Time.zero : Time := { unixSec := -62135596800 }

/-- Go `NullTime` (declared alike in `util.go` and in `backend.go`). -/
structure NullTime where
  Time : Time := Time.zero
  Valid : Bool := false
deriving DecidableEq, Repr

/-- Go `(*NullTime).Scan` (the same body in `util.go` and in `backend.go`):
the two-valued type assertion `value.(time.Time)` yields the zero time and
`false` for every value that is not a `time.Time`; the function returns the
receiver as assigned and its error, which is always nil (`none`). -/
def NullTime.Scan (_nt : NullTime) (value : Value) : NullTime × Option String :=
  match value with
  | Value.time t => ({ Time := t, Valid := true }, none)
  | _ => ({ Time := Time.zero, Valid := false }, none)

/-! ## Request data (`util.go`, `backend.go`) -/

/-- The part of `*http.Request` that `parseFormURLEncoded` reads: the error
of `req.ParseForm()`, the parsed `req.Form` and `req.PostForm` (each a Go
map from a key to its values, given as the list of entries in the order in
which `range` visits them) and what `ioutil.ReadAll(req.Body)` yields. -/
structure Request where
  parseFormError : Option String := none
  Form : List (String × List String) := []
  PostForm : List (String × List String) := []
  Body : String := ""
deriving DecidableEq, Repr

/-- Go `ErrCardinalityMany` (the same message in both packages). -/
def ErrCardinalityMany : String :=
  "Form data contained multiple input values for a single column"

/-- Go `ErrPostFormEmpty` of `backend.go`. -/
def ErrPostFormEmpty : String :=
  "Form data sent was either empty, incomplete or of an unsupported type"

/-- The loop `for k, v := range form` of `parseFormURLEncoded` (the same in
both packages): a key with more than one value ends the function with
`ErrCardinalityMany`; `v[0]` panics on an empty value list. -/
def parseFormURLEncoded.loop :
    List (String × List String) → GoMap → Except Fault (Except String GoMap)
  | [], data => pure (.ok data)
  | (k, v) :: rest, data =>
    if v.length > 1 then pure (.error ErrCardinalityMany)
    else do
      let first ← deref v.head?
      parseFormURLEncoded.loop rest (data.set k (Value.str first))

/-- Go `parseFormURLEncoded` of `internal/pkg/util/util.go`. The result is
a panic or the returned pair `(data, err)`, as `Except`. -/
def util.parseFormURLEncoded (req : Request) : Except Fault (Except String GoMap) :=
  match req.parseFormError with
  | some err => pure (.error err)
  | none =>
    if req.Form.length = 0 then
      pure (.error ("Unable to parse the request body:\n" ++ req.Body ++ "\n"))
    else parseFormURLEncoded.loop req.Form []

/-- Go `parseFormURLEncoded` of `pkg/sql/backend.go`. -/
def backend.parseFormURLEncoded (req : Request) : Except Fault (Except String GoMap) :=
  match req.parseFormError with
  | some err => pure (.error err)
  | none =>
    if req.PostForm.length = 0 then pure (.error ErrPostFormEmpty)
    else parseFormURLEncoded.loop req.PostForm []

/-- What `req.ParseForm()` guarantees about a form: every key occurs once
and carries at least one value. -/
def wellFormedForm (form : List (String × List String)) : Bool :=
  decide (form.map (fun e => e.1)).Nodup && form.all (fun e => !e.2.isEmpty)

/-- A relationship field of a kind the formatter does not know. -/
def unknownKindField : Field :=
  { Key := "recipes", Typ := some { Name := "text" },
    Relationship := some { Kind := "manyToMany", WithTable := "recipes" } }

/-! ## The templates with joins, parsed -/

/-- The nodes of one join clause between `range .Relations` and `end`:
`gap` is the white space in front of `LEFT JOIN`, `ON` and `=`, and
`foreignColumn` and `localColumn` are the member names of
`.Relationship` the template reads. -/
def leftJoinNodes (gap foreignColumn localColumn : String) : List Node :=
  [ Node.text (gap ++ "LEFT JOIN \""), Node.action (Pipe.field ["Relationship", "WithTable"]),
    Node.text ("\"" ++ gap ++ "ON \""), Node.action (Pipe.field ["Relationship", "WithTable"]),
    Node.text "\".\"", Node.action (Pipe.field ["Relationship", foreignColumn]),
    Node.text ("\"" ++ gap ++ "= \"_"), Node.action (Pipe.rootField ["TableName"]),
    Node.text "\".\"", Node.action (Pipe.field ["Relationship", localColumn]),
    Node.text "\"" ]

/-- The template `GetSingle` of `sqlite.go`, parsed. -/
def sqlite.getSingle : List Node :=
  [ Node.text "SELECT * FROM \"", Node.action (Pipe.field ["TableName"]),
    Node.text "\" AS \"_", Node.action (Pipe.field ["TableName"]), Node.text "\"",
    Node.range none (Pipe.field ["Relations"])
      (leftJoinNodes "   " "ForeignTableUniqueIdColumn" "LocalTableUniqueIdColumn"),
    Node.text " WHERE \"_", Node.action (Pipe.rootField ["TableName"]), Node.text "\".\"",
    Node.action (Pipe.field ["UniqueIdColumn"]), Node.text "\" = ?" ]

/-- The template `GetTableWithRelationshipsSchema` of `sqlite.go`,
parsed. -/
def sqlite.getTableWithRelationshipsSchema : List Node :=
  [ Node.text "SELECT * FROM \"", Node.action (Pipe.field ["TableName"]),
    Node.text "\" AS \"_", Node.action (Pipe.field ["TableName"]), Node.text "\" ",
    Node.range none (Pipe.field ["Relations"])
      (leftJoinNodes " " "ForeignTableUniqueIdColumn" "LocalTableUniqueIdColumn"),
    Node.text " LIMIT 1" ]

/-- The template `GetSingle` of `sqlserver.go`, parsed. -/
def sqlserver.getSingle : List Node :=
  [ Node.text "SELECT * FROM \"", Node.action (Pipe.field ["TableName"]),
    Node.text "\" AS \"_", Node.action (Pipe.field ["TableName"]), Node.text "\" ",
    Node.range none (Pipe.field ["Relations"])
      (leftJoinNodes "   " "ForeignTableUniqueIDColumn" "LocalTableUniqueIDColumn"),
    Node.text "WHERE \"_", Node.action (Pipe.rootField ["TableName"]), Node.text "\".\"",
    Node.action (Pipe.field ["UniqueIDColumn"]), Node.text "\" = @p1" ]

/-- The template `GetTableWithRelationshipsSchema` of `sqlserver.go`,
parsed. -/
def sqlserver.getTableWithRelationshipsSchema : List Node :=
  [ Node.text "SELECT TOP 1 * FROM \"", Node.action (Pipe.field ["TableName"]),
    Node.text "\" AS \"_", Node.action (Pipe.field ["TableName"]), Node.text "\"",
    Node.range none (Pipe.field ["Relations"])
      (leftJoinNodes " " "ForeignTableUniqueIDColumn" "LocalTableUniqueIDColumn") ]

/-- The join clause the specification asks for, for the relationship `rel`
of the base table `table`: the related table joined on
`relatedTable.foreignTableUniqueIdColumn = baseTable.localTableUniqueIdColumn`,
in the quoting and spacing of the templates. -/
def joinClause (gap table : String) (rel : Relationship) : String :=
  gap ++ "LEFT JOIN \"" ++ rel.WithTable ++ "\"" ++ gap ++ "ON \"" ++ rel.WithTable ++
    "\".\"" ++ rel.ForeignTableUniqueIdColumn ++ "\"" ++ gap ++ "= \"_" ++ table ++ "\".\"" ++
    rel.LocalTableUniqueIdColumn ++ "\""

/-- The context of a request for one equipment with its relationship
fields, as `TypeDescriptorRelationships` returns them for the equipment type
descriptor of the test suite. -/
def joinContext : RenderContext :=
  { TableName := "equipment", UniqueIdColumn := "id", ColumnAsOptionName := "name",
    Relations := [recipesField] }

/-! ## Table introspection (`pkg/sql/backend.go`) -/

/-- What `fmt.Sprintf` prints at the end of the format for the arguments
no verb consumed. -/
def sprintfExtra : List String → List Char
  | [] => []
  | a :: extra =>
    ("%!(EXTRA " ++ ", ".intercalate ((a :: extra).map (fun x => "string=" ++ x)) ++ ")").data

/-- The scan of `fmt.Sprintf` over the format; the flag holds when the
previous character was a `%` that starts a verb. -/
def sprintfChars : Bool → List Char → List String → List Char
  | false, [], args => sprintfExtra args
  | true, [], args => "%!(NOVERB)".data ++ sprintfExtra args
  | false, c :: rest, args =>
    if c = '%' then sprintfChars true rest args else c :: sprintfChars false rest args
  | true, c :: rest, args =>
    if c = 's' then
      match args with
      | a :: more => a.data ++ sprintfChars false rest more
      | [] => "%!s(MISSING)".data ++ sprintfChars false rest []
    else if c = '%' then '%' :: sprintfChars false rest args
    else '%' :: c :: sprintfChars false rest args

/-- Go `fmt.Sprintf` with string arguments, for formats whose verbs are
`%s` and `%%`: a `%s` without argument prints `%!s(MISSING)`, arguments
left over print `%!(EXTRA ...)`. Other verbs are not modelled (they are
copied and consume no argument). -/
def Sprintf (format : String) (args : List String) : String :=
  String.mk (sprintfChars false format.data args)

/-- Modelled from the spec: the type `config.TableSchema` of the package
`pkg/config`, which is not part of the sources at hand: the "column-name
list prefixed by table name" and the "parallel column-type list", in the
order of the literal `config.TableSchema{columnNames, dataTypes}`. -/
structure TableSchema where
  ColumnNames : List String := []
  DataTypes : List Container := []
deriving DecidableEq, Repr

/-- Go `*sql.Rows` as far as introspection reads it: for every column of
the result its name and the database type name, and the errors of
`Columns()` and `ColumnTypes()` if they fail. -/
structure Rows where
  columns : List (String × String) := []
  columnsError : Option String := none
  columnTypesError : Option String := none
deriving DecidableEq, Repr

/-- Go `rows.Columns()`. -/
def Rows.Columns (rows : Rows) : Except String (List String) :=
  match rows.columnsError with
  | some err => .error err
  | none => .ok (rows.columns.map (fun column => column.1))

/-- Go `rows.ColumnTypes()`, each column type given by its
`DatabaseTypeName()`. -/
def Rows.ColumnTypes (rows : Rows) : Except String (List String) :=
  match rows.columnTypesError with
  | some err => .error err
  | none => .ok (rows.columns.map (fun column => column.2))

/-- Go `Backend` with the members and collaborators introspection uses.
`Tables` are the names of `b.Cfg.Database.Tables`, `TableSchemas` is
`b.Cfg.TableSchemas` (a map to pointers, `none` being nil), `Query` is
`b.DB.Query`. The functions of the package `pkg/util` and the method
`interpolateGetTemplate`, which are not part of the sources at hand, are
members as well: `tableHasRelationships` is
`util.TableHasRelationships(b.Cfg, table)`, `relationships` is
`util.TypeDescriptorRelationships(util.TypeDescriptorForCurrentTable(..., table))`
and `interpolateGetTemplate` takes the template text and the table. -/
structure Backend where
  Tables : List String := []
  Queries : List (String × String) := []
  Templates : List (String × String) := []
  TableSchemas : List (String × Option TableSchema) := []
  ConvertDBSpecificDataType : String → Container
  Query : String → Except String Rows
  tableHasRelationships : String → Bool
  relationships : String → List Field
  interpolateGetTemplate : String → String → Except String String

/-- Index expression `m[k]` of a Go map of strings: the empty string when
the key is missing. -/
def textOf (m : List (String × String)) (k : String) : String :=
  (m.lookup k).getD ""

/-- Index expression `b.Cfg.TableSchemas[table]`: nil when the key is
missing. -/
def schemaOf (schemas : List (String × Option TableSchema)) (table : String) :
    Option TableSchema :=
  (schemas.lookup table).join

/-- Assignment `b.Cfg.TableSchemas[table] = schema`. -/
def assignSchema : List (String × Option TableSchema) → String → Option TableSchema →
    List (String × Option TableSchema)
  | [], table, schema => [(table, schema)]
  | (t, s) :: rest, table, schema =>
    if t = table then (table, schema) :: rest else (t, s) :: assignSchema rest table schema

/-- Slice expression `columns[lo:hi]` of a slice whose capacity is its
length: a panic unless `lo ≤ hi ≤ len(columns)`. -/
def sliceOf (columns : List String) (lo hi : Nat) : Except Fault (List String) :=
  if lo ≤ hi ∧ hi ≤ columns.length then pure ((columns.drop lo).take (hi - lo))
  else .error Fault.panic

/-- The loop `for i := range columnTypes` of both introspection functions:
the classified type is appended to `dataTypes` and `columnsPrepended[i]` to
`columnNames`; the index expression panics when `i` is out of range. -/
def collectSchema (convert : String → Container) (columnsPrepended : List String) :
    Nat → List String → List Container → List String → Except Fault TableSchema
  | _, [], dataTypes, columnNames => pure { ColumnNames := columnNames, DataTypes := dataTypes }
  | i, dataType :: rest, dataTypes, columnNames => do
    let name ← deref columnsPrepended[i]?
    collectSchema convert columnsPrepended (i + 1) rest (dataTypes ++ [convert dataType])
      (columnNames ++ [name])

/-- Go `(*Backend).getTableSchema`. The result is a panic or the returned
pair `(schema, err)`, as `Except`. -/
def Backend.getTableSchema (b : Backend) (query table : String) :
    Except Fault (Except String TableSchema) :=
  match b.Query query with
  | .error err => pure (.error err)
  | .ok rows =>
    match rows.Columns with
    | .error err => pure (.error err)
    | .ok columns =>
      let columnsPrepended := columns.map (fun column => table ++ "_" ++ column)
      match rows.ColumnTypes with
      | .error err => pure (.error err)
      | .ok columnTypes => do
        let schema ← collectSchema b.ConvertDBSpecificDataType columnsPrepended 0 columnTypes [] []
        pure (.ok schema)

/-- The expression `len(b.Cfg.TableSchemas[table].ColumnNames)`: a nil
dereference when no schema is stored for the table. -/
def columnCount (schemas : List (String × Option TableSchema)) (table : String) :
    Except Fault Nat := do
  let schema ← deref (schemaOf schemas table)
  pure schema.ColumnNames.length

/-- The loop `for _, field := range fields` of
`getTableSchemaWithRelationships`: the next columns, as many as the stored
schema of the related table has, are prefixed with the related table's
name. -/
def prependRelated (schemas : List (String × Option TableSchema)) (columns : List String) :
    List Field → Nat → List String → Except Fault (List String)
  | [], _, columnsPrepended => pure columnsPrepended
  | field :: rest, previousTableIdx, columnsPrepended => do
    let relationship ← deref field.Relationship
    let thisTable := relationship.WithTable
    let count ← columnCount schemas thisTable
    let newTableIdx := previousTableIdx + count
    let currentColumns ← sliceOf columns previousTableIdx newTableIdx
    prependRelated schemas columns rest newTableIdx
      (columnsPrepended ++ currentColumns.map (fun cc => thisTable ++ "_" ++ cc))

/-- Go `(*Backend).getTableSchemaWithRelationships`. -/
def Backend.getTableSchemaWithRelationships (b : Backend) (query table : String) :
    Except Fault (Except String TableSchema) :=
  match b.Query query with
  | .error err => pure (.error err)
  | .ok rows =>
    match rows.Columns with
    | .error err => pure (.error err)
    | .ok columns => do
      let fields := b.relationships table
      let currentColumnsIdx ← columnCount b.TableSchemas table
      let currentColumns ← sliceOf columns 0 currentColumnsIdx
      let columnsPrepended ← prependRelated b.TableSchemas columns fields currentColumnsIdx
        (currentColumns.map (fun cc => table ++ "_" ++ cc))
      match rows.ColumnTypes with
      | .error err => pure (.error err)
      | .ok columnTypes =>
        let schema ← collectSchema b.ConvertDBSpecificDataType columnsPrepended 0 columnTypes [] []
        pure (.ok schema)

/-- The first loop of `SaveTableSchemas`: the schema of every table is
stored under the table's name; the first error ends the function. The
result is the map of schemas and the returned error. -/
def saveSchemas (b : Backend) :
    List String → List (String × Option TableSchema) →
      Except Fault (List (String × Option TableSchema) × Option String)
  | [], schemas => pure (schemas, none)
  | table :: rest, schemas => do
    let query := Sprintf (textOf b.Queries "GetTableSchema") [table]
    match ← b.getTableSchema query table with
    | .error err =>
      pure (assignSchema schemas table none,
        some ("Unable to retrieve columns and data types from table schema: " ++ err))
    | .ok schema => saveSchemas b rest (assignSchema schemas table (some schema))

/-- The second loop of `SaveTableSchemas`: for every table with
relationships the schema of the joined query is stored under
`<table>_relationships`. The error of `interpolateGetTemplate` ends the
function; the error of `getTableSchemaWithRelationships` is assigned to
`err` and not examined. -/
def saveRelationshipSchemas (b : Backend) :
    List String → List (String × Option TableSchema) →
      Except Fault (List (String × Option TableSchema) × Option String)
  | [], schemas => pure (schemas, none)
  | table :: rest, schemas =>
    if b.tableHasRelationships table then
      match b.interpolateGetTemplate (textOf b.Templates "GetTableWithRelationshipsSchema")
          table with
      | .error err =>
        pure (schemas,
          some ("Unable to interpolate queryText to retrieve table schema: " ++ err))
      | .ok queryText => do
        let result ←
          Backend.getTableSchemaWithRelationships { b with TableSchemas := schemas } queryText
            table
        saveRelationshipSchemas b rest
          (assignSchema schemas (Sprintf "%s_relationships" [table]) result.toOption)
    else saveRelationshipSchemas b rest schemas

/-- Go `(*Backend).SaveTableSchemas`: the map of schemas it leaves behind
and the error it returns (`none` is nil). -/
def Backend.SaveTableSchemas (b : Backend) :
    Except Fault (List (String × Option TableSchema) × Option String) := do
  match ← saveSchemas b b.Tables b.TableSchemas with
  | (schemas, some err) => pure (schemas, some err)
  | (schemas, none) => saveRelationshipSchemas b b.Tables schemas

/-- The owner of every column of a joined result: each table of `owners`
owns as many consecutive columns as is given with it. -/
def ownerOfColumns (owners : List (String × Nat)) : List String :=
  owners.flatMap (fun owner => List.replicate owner.2 owner.1)

/-- The related tables of the relationship fields with the numbers of
columns stored for them; `none` when a field has no relationship or a
related table has no stored schema. -/
def relatedOwners (schemas : List (String × Option TableSchema)) :
    List Field → Option (List (String × Nat))
  | [] => some []
  | field :: rest =>
    match field.Relationship with
    | none => none
    | some relationship =>
      match schemaOf schemas relationship.WithTable with
      | none => none
      | some schema =>
        match relatedOwners schemas rest with
        | none => none
        | some owners => some ((relationship.WithTable, schema.ColumnNames.length) :: owners)

/-- The tables of a joined result with the numbers of columns stored for
them: the base table, then the related table of every relationship
field. -/
def joinedOwners (schemas : List (String × Option TableSchema)) (table : String)
    (fields : List Field) : Option (List (String × Nat)) :=
  match schemaOf schemas table with
  | none => none
  | some schema =>
    match relatedOwners schemas fields with
    | none => none
    | some owners => some ((table, schema.ColumnNames.length) :: owners)

/-- The columns of the equipment table, as a driver reports them. -/
def equipmentColumns : List (String × String) := [("id", "INT4"), ("name", "TEXT")]

/-- The columns of the recipes table. -/
def recipesColumns : List (String × String) := [("id", "INT4"), ("equipment_id", "INT4")]

/-- A Postgres backend for the table `equipment`, which has a relationship
to `recipes`. The database answers the schema query of `equipment` and
fails on every other query, as it does when the joined table is missing. -/
def equipmentBackend : Backend :=
  { Tables := ["equipment"], Queries := pgsql.Queries, Templates := pgsql.Templates,
    ConvertDBSpecificDataType := pgsql.convertFromPgsqlDataType,
    Query := fun query =>
      if query = "SELECT * FROM equipment LIMIT 1" then .ok { columns := equipmentColumns }
      else .error "pq: relation does not exist",
    tableHasRelationships := fun table => table == "equipment",
    relationships := fun table => if table = "equipment" then [recipesField] else [],
    interpolateGetTemplate := fun _ table =>
      .ok ("SELECT * FROM " ++ table ++ " AS _" ++ table ++ " LEFT JOIN recipes") }

/-- The backend of `equipmentBackend` after the first loop, with a database
that answers the joined query with the columns of `equipment` only although
a schema of two columns is stored for `recipes` too. -/
def shortJoinBackend : Backend :=
  { equipmentBackend with
    TableSchemas :=
      [ ("equipment", some { ColumnNames := ["equipment_id", "equipment_name"],
                             DataTypes := [Container.NullInt64, Container.NullString] }),
        ("recipes", some { ColumnNames := ["recipes_id", "recipes_equipment_id"],
                           DataTypes := [Container.NullInt64, Container.NullInt64] }) ],
    Query := fun _ => .ok { columns := equipmentColumns } }

/-- The backend of `shortJoinBackend` with a database that answers the
joined query with the columns of `equipment` followed by those of
`recipes`. -/
def fullJoinBackend : Backend :=
  { shortJoinBackend with
    Query := fun _ => .ok { columns := equipmentColumns ++ recipesColumns } }

/-! ## Slices of pointers with nil entries (`descriptor.go`, `util.go`)

The definitions above take a Go slice of pointers (`[]*TypeDescriptor`,
`[]*Field`) as the list of the structs pointed to, which is what the slice
is when none of its entries is nil. The definitions of this section take the
slice as Go has it: an entry is `none` for a nil pointer (a JSON `null` in
the descriptor file), and reading a member through a nil entry panics. -/

/-- Go `descriptor.TypeDescriptor` with `Fields []*Field` as a slice of
pointers. -/
structure Pointer.TypeDescriptor where
  Key : String := ""
  Name : String := ""
  TableName : String := ""
  ColumnAsOptionName : String := ""
  UniqueIdColumn : String := ""
  Fields : List (Option Field) := []
deriving DecidableEq, Repr

/-- Go `descriptor.Descriptor` with `TypeDescriptors []*TypeDescriptor` as
a slice of pointers. -/
structure Pointer.Descriptor where
  Key : String := ""
  Name : String := ""
  Description : String := ""
  TypeDescriptors : List (Option Pointer.TypeDescriptor) := []
deriving DecidableEq, Repr

/-- The loop of `errUniqueIdColumnAndIdColumnDiffer` over the slice of
fields: `field.Key` is read of every entry visited. -/
def Pointer.errUniqueIdColumnAndIdColumnDiffer.loop (td : Pointer.TypeDescriptor) :
    List (Option Field) → Except Fault (Option String)
  | [] => pure none
  | entry :: rest => do
    let field ← deref entry
    if field.Key = "id" ∧ td.UniqueIdColumn ≠ "id" then pure (some (uniqueIdColumnMessage td.Key))
    else Pointer.errUniqueIdColumnAndIdColumnDiffer.loop td rest

/-- Go `errUniqueIdColumnAndIdColumnDiffer` on a pointer: `td.Fields` is
read through `td`. -/
def Pointer.errUniqueIdColumnAndIdColumnDiffer (td : Option Pointer.TypeDescriptor) :
    Except Fault (Option String) := do
  let td ← deref td
  Pointer.errUniqueIdColumnAndIdColumnDiffer.loop td td.Fields

/-- The loop of `errColumnAsOptionNameAndNameColumnDiffer` over the slice of
fields. -/
def Pointer.errColumnAsOptionNameAndNameColumnDiffer.loop (td : Pointer.TypeDescriptor) :
    List (Option Field) → Except Fault (Option String)
  | [] => pure none
  | entry :: rest => do
    let field ← deref entry
    if field.Key = "name" ∧ td.ColumnAsOptionName ≠ "name" then
      pure (some (columnAsOptionNameMessage td.Key))
    else Pointer.errColumnAsOptionNameAndNameColumnDiffer.loop td rest

/-- Go `errColumnAsOptionNameAndNameColumnDiffer` on a pointer. -/
def Pointer.errColumnAsOptionNameAndNameColumnDiffer (td : Option Pointer.TypeDescriptor) :
    Except Fault (Option String) := do
  let td ← deref td
  Pointer.errColumnAsOptionNameAndNameColumnDiffer.loop td td.Fields

/-- The inner loop `for _, field := range td.Fields` of
`performSanityChecks` over the slice of fields: the three checks read
`field.Type` through the entry. -/
def Pointer.checkFields (td : String) : List (Option Field) → Except Fault (Option String)
  | [] => pure none
  | entry :: rest => do
    let field ← deref entry
    match ← checkField field td with
    | some err => pure (some err)
    | none => Pointer.checkFields td rest

/-- The outer loop `for _, td := range descriptor.TypeDescriptors` of
`performSanityChecks` over the slice of type descriptors. -/
def Pointer.checkTypeDescriptors :
    List (Option Pointer.TypeDescriptor) → Except Fault (Option String)
  | [] => pure none
  | entry :: rest => do
    match ← Pointer.errUniqueIdColumnAndIdColumnDiffer entry with
    | some err => pure (some err)
    | none =>
      match ← Pointer.errColumnAsOptionNameAndNameColumnDiffer entry with
      | some err => pure (some err)
      | none =>
        let td ← deref entry
        match ← Pointer.checkFields td.Key td.Fields with
        | some err => pure (some err)
        | none => Pointer.checkTypeDescriptors rest

/-- Go `performSanityChecks` on the descriptor as decoded: `.ok none` is
the nil error, `.ok (some msg)` an error, `.error Fault.panic` a nil
dereference (of a nil entry, of a missing type or of a missing currency). -/
def Pointer.performSanityChecks (descriptor : Pointer.Descriptor) :
    Except Fault (Option String) :=
  Pointer.checkTypeDescriptors descriptor.TypeDescriptors

/-- The loop of `util.GetTypeDescriptorUsingDBTableName` over the slice:
`typeDescriptor.TableName` is read of every entry, and `td` is overwritten
at every match. -/
def Pointer.GetTypeDescriptorUsingDBTableName.loop (tableName : String) :
    List (Option Pointer.TypeDescriptor) → Option Pointer.TypeDescriptor →
      Except Fault (Option Pointer.TypeDescriptor)
  | [], td => pure td
  | entry :: rest, td => do
    let typeDescriptor ← deref entry
    Pointer.GetTypeDescriptorUsingDBTableName.loop tableName rest
      (if tableName = typeDescriptor.TableName then some typeDescriptor else td)

/-- Go `util.GetTypeDescriptorUsingDBTableName` on a slice of pointers; the
result `none` is the nil pointer. -/
def Pointer.GetTypeDescriptorUsingDBTableName
    (typeDescriptors : List (Option Pointer.TypeDescriptor)) (tableName : String) :
    Except Fault (Option Pointer.TypeDescriptor) :=
  Pointer.GetTypeDescriptorUsingDBTableName.loop tableName typeDescriptors none

/-- The loop of `util.TypeDescriptorRelationships` over the slice of
fields: `field.Relationship` is read of every entry. -/
def Pointer.TypeDescriptorRelationships.loop : List (Option Field) → Except Fault (List Field)
  | [] => pure []
  | entry :: rest => do
    let field ← deref entry
    let relationships ← Pointer.TypeDescriptorRelationships.loop rest
    pure (if field.Relationship.isSome then field :: relationships else relationships)

/-- Go `util.TypeDescriptorRelationships` on a pointer. -/
def Pointer.TypeDescriptorRelationships (td : Option Pointer.TypeDescriptor) :
    Except Fault (List Field) := do
  let td ← deref td
  Pointer.TypeDescriptorRelationships.loop td.Fields

/-- The loop of `withRelationshipFieldsOmitted` over the slice of
fields. -/
def Pointer.withRelationshipFieldsOmitted.loop : List (Option Field) → Except Fault (List Field)
  | [] => pure []
  | entry :: rest => do
    let field ← deref entry
    let fields ← Pointer.withRelationshipFieldsOmitted.loop rest
    pure (if field.Relationship.isNone then field :: fields else fields)

/-- Go `withRelationshipFieldsOmitted` on the slice of type descriptors of
the configuration. -/
def Pointer.withRelationshipFieldsOmitted (tds : List (Option Pointer.TypeDescriptor))
    (table : String) : Except Fault (List Field) := do
  let typeDescriptor ← Pointer.GetTypeDescriptorUsingDBTableName tds table
  let typeDescriptor ← deref typeDescriptor
  Pointer.withRelationshipFieldsOmitted.loop typeDescriptor.Fields

/-- The type descriptor as a struct with the fields pointed to. -/
def Pointer.TypeDescriptor.values (td : Pointer.TypeDescriptor) :
    WorkflowConnector.TypeDescriptor :=
  { Key := td.Key, Name := td.Name, TableName := td.TableName,
    ColumnAsOptionName := td.ColumnAsOptionName, UniqueIdColumn := td.UniqueIdColumn,
    Fields := td.Fields.reduceOption }

/-- The descriptor with the type descriptors and fields pointed to. -/
def Pointer.Descriptor.values (descriptor : Pointer.Descriptor) : WorkflowConnector.Descriptor :=
  { Key := descriptor.Key, Name := descriptor.Name, Description := descriptor.Description,
    TypeDescriptors := descriptor.TypeDescriptors.reduceOption.map Pointer.TypeDescriptor.values }

/-- No entry of `Fields` is nil. -/
def Pointer.TypeDescriptor.noNil (td : Pointer.TypeDescriptor) : Bool :=
  td.Fields.all (fun entry => entry.isSome)

/-- No entry of `TypeDescriptors` is nil, and no entry of the `Fields` of
any type descriptor. -/
def Pointer.Descriptor.noNil (descriptor : Pointer.Descriptor) : Bool :=
  descriptor.TypeDescriptors.all (fun entry =>
    match entry with
    | none => false
    | some td => td.noNil)

/-- Every field pointed to has a type and every money type a currency; a
nil entry holds no field and is passed over. -/
def Pointer.Descriptor.hasTypes (descriptor : Pointer.Descriptor) : Bool :=
  descriptor.TypeDescriptors.all (fun entry =>
    match entry with
    | none => true
    | some td => td.Fields.all (fun entry =>
        match entry with
        | none => true
        | some field => field.hasType))

/-- The type descriptor whose `Fields` are pointers to the given fields. -/
def Pointer.TypeDescriptor.ofValues (td : WorkflowConnector.TypeDescriptor) :
    Pointer.TypeDescriptor :=
  { Key := td.Key, Name := td.Name, TableName := td.TableName,
    ColumnAsOptionName := td.ColumnAsOptionName, UniqueIdColumn := td.UniqueIdColumn,
    Fields := td.Fields.map some }

/-- The descriptor whose `TypeDescriptors` are pointers to the given type
descriptors. -/
def Pointer.Descriptor.ofValues (descriptor : WorkflowConnector.Descriptor) :
    Pointer.Descriptor :=
  { Key := descriptor.Key, Name := descriptor.Name, Description := descriptor.Description,
    TypeDescriptors :=
      descriptor.TypeDescriptors.map (fun td => some (Pointer.TypeDescriptor.ofValues td)) }

/-- The descriptor decoded from a file whose array `typeDescriptors` holds
`null` and then one type descriptor with the field `id` and the
`uniqueIdColumn` `uid`: a nil entry before a type descriptor that breaks the id rule. -/
def nilThenIdViolation : Pointer.Descriptor :=
  { TypeDescriptors :=
      [ none,
        some { Key := "t", TableName := "t", UniqueIdColumn := "uid",
               ColumnAsOptionName := "name",
               Fields := [ some { Key := "id", FromColumn := "uid",
                                  Typ := some { Name := "text" } } ] } ] }

/-- A nil entry before a type descriptor that breaks the name rule: the
field keyed `name` while `columnAsOptionName` is `title`. -/
def nilThenNameViolation : Pointer.Descriptor :=
  { TypeDescriptors :=
      [ none,
        some { Key := "t", TableName := "t", UniqueIdColumn := "id",
               ColumnAsOptionName := "title",
               Fields := [ some { Key := "name", FromColumn := "title",
                                  Typ := some { Name := "text" } } ] } ] }

/-- A slice of type descriptors whose second entry is nil. -/
def equipmentThenNil : List (Option Pointer.TypeDescriptor) :=
  [ some { Key := "equipment", TableName := "equipment" }, none ]

/-- An equipment type descriptor whose field slice holds the relationship
field `recipes` and a nil entry. -/
def recipesThenNil : Pointer.TypeDescriptor :=
  { Key := "equipment", TableName := "equipment", ColumnAsOptionName := "name",
    UniqueIdColumn := "id", Fields := [ some recipesField, none ] }

/-! ## Basic facts about results and maps -/

@[simp] theorem ok_bind {ε α β : Type} (a : α) (f : α → Except ε β) :
    (Except.ok a >>= f) = f a := rfl

@[simp] theorem error_bind {ε α β : Type} (e : ε) (f : α → Except ε β) :
    ((Except.error e : Except ε α) >>= f) = Except.error e := rfl

@[simp] theorem pure_eq_ok {ε α : Type} (a : α) : (pure a : Except ε α) = Except.ok a := rfl

theorem GoMap.get_set_self (m : GoMap) (k : String) (v : Value) : (m.set k v).get k = v := by
  induction m with
  | nil => simp [GoMap.set, GoMap.get]
  | cons kv rest ih =>
    obtain ⟨k1, v1⟩ := kv
    by_cases h : k1 = k
    · simp [GoMap.set, GoMap.get, h]
    · simp [GoMap.set, GoMap.get, h, ih]

theorem GoMap.get_set_of_ne (m : GoMap) (k k2 : String) (v : Value) (hne : k ≠ k2) :
    (m.set k v).get k2 = m.get k2 := by
  induction m with
  | nil => simp [GoMap.set, GoMap.get, hne]
  | cons kv rest ih =>
    obtain ⟨k1, v1⟩ := kv
    by_cases h : k1 = k
    · subst h; simp [GoMap.set, GoMap.get, hne]
    · by_cases h2 : k1 = k2
      · subst h2; simp [GoMap.set, GoMap.get, h]
      · simp [GoMap.set, GoMap.get, h, h2, ih]

theorem GoMap.hasKey_set (m : GoMap) (k k2 : String) (v : Value) :
    (m.set k v).hasKey k2 = true ↔ (k = k2 ∨ m.hasKey k2 = true) := by
  induction m with
  | nil => simp [GoMap.set, GoMap.hasKey]
  | cons kv rest ih =>
    obtain ⟨k1, v1⟩ := kv
    by_cases h : k1 = k
    · subst h
      by_cases h2 : k1 = k2 <;> simp [GoMap.set, GoMap.hasKey, h2]
    · by_cases h2 : k1 = k2
      · subst h2; simp [GoMap.set, GoMap.hasKey, h]
      · simp [GoMap.set, GoMap.hasKey, h, h2, ih]

/-! ## One field without relationship -/

theorem rowOf_eq_of_get {queryResults row : GoMap} {table : String}
    (h : queryResults.get table = Value.map row) : rowOf queryResults table = .ok row := by
  simp [rowOf, h, Value.asMap]

theorem buildForFieldTypeText_sets (formatted queryResults : GoMap) (table : String)
    (field : Field) (m : GoMap)
    (h : buildForFieldTypeText formatted queryResults table field = .ok m) :
    ∃ v, m = formatted.set field.Key v := by
  unfold buildForFieldTypeText at h
  cases hrow : rowOf queryResults table with
  | error e => simp [hrow] at h
  | ok row =>
    simp only [hrow, ok_bind] at h
    split at h
    · exact ⟨_, (Except.ok.inj h).symm⟩
    · exact ⟨_, (Except.ok.inj h).symm⟩

theorem buildForFieldTypeOther_sets (formatted queryResults : GoMap) (table : String)
    (field : Field) (m : GoMap)
    (h : buildForFieldTypeOther formatted queryResults table field = .ok m) :
    ∃ v, m = formatted.set field.Key v := by
  unfold buildForFieldTypeOther at h
  cases hrow : rowOf queryResults table with
  | error e => simp [hrow] at h
  | ok row =>
    simp only [hrow, ok_bind] at h
    split at h
    · exact ⟨_, (Except.ok.inj h).symm⟩
    · exact ⟨_, (Except.ok.inj h).symm⟩

theorem buildForFieldTypeDateOrTime_sets (formatted queryResults : GoMap) (table : String)
    (field : Field) (m : GoMap)
    (h : buildForFieldTypeDateOrTime formatted queryResults table field = .ok m) :
    ∃ v, m = formatted.set field.Key v := by
  unfold buildForFieldTypeDateOrTime at h
  cases hrow : rowOf queryResults table with
  | error e => simp [hrow] at h
  | ok row =>
    simp only [hrow, ok_bind] at h
    split at h
    · cases ht : (row.get field.FromColumn).asTime with
      | error e => simp [ht] at h
      | ok t => simp only [ht, ok_bind] at h; exact ⟨_, (Except.ok.inj h).symm⟩
    · exact ⟨_, (Except.ok.inj h).symm⟩

theorem buildForFieldTypeDateTime_sets (formatted queryResults : GoMap) (table : String)
    (field : Field) (m : GoMap)
    (h : buildForFieldTypeDateTime formatted queryResults table field = .ok m) :
    ∃ v, m = formatted.set field.Key v := by
  unfold buildForFieldTypeDateTime at h
  cases hrow : rowOf queryResults table with
  | error e => simp [hrow] at h
  | ok row =>
    simp only [hrow, ok_bind] at h
    split at h
    · cases ht : (row.get field.FromColumn).asTime with
      | error e => simp [ht] at h
      | ok t => simp only [ht, ok_bind] at h; exact ⟨_, (Except.ok.inj h).symm⟩
    · exact ⟨_, (Except.ok.inj h).symm⟩

theorem resultAsWorkflowMoneyType_eq (field : Field) (queryResults row : GoMap) (table : String)
    (typ : WorkflowType) (amount : Amount) (cur : Currency)
    (htyp : field.Typ = some typ) (hamt : typ.Amount = some amount)
    (hcur : typ.Currency = some cur) (hrow : queryResults.get table = Value.map row) :
    resultAsWorkflowMoneyType field queryResults table =
      .ok [("amount", row.get amount.FromColumn), ("currency", currencyByConfiguration cur row)] := by
  simp [resultAsWorkflowMoneyType, htyp, hamt, hcur, deref, rowOf_eq_of_get hrow,
    currencyByConfiguration]

theorem buildForFieldTypeMoney_eq (formatted queryResults row : GoMap) (table : String)
    (field : Field) (typ : WorkflowType) (amount : Amount) (cur : Currency)
    (htyp : field.Typ = some typ) (hamt : typ.Amount = some amount)
    (hcur : typ.Currency = some cur) (hrow : queryResults.get table = Value.map row) :
    buildForFieldTypeMoney formatted queryResults table field =
      .ok (formatted.set field.Key
        (if (row.get amount.FromColumn).isNil = true ∧ (row.get cur.FromColumn).isNil = true
         then Value.null
         else Value.map [("amount", row.get amount.FromColumn),
                         ("currency", currencyByConfiguration cur row)])) := by
  simp only [buildForFieldTypeMoney, htyp, hamt, hcur, deref, rowOf_eq_of_get hrow, ok_bind,
    resultAsWorkflowMoneyType_eq field queryResults row table typ amount cur htyp hamt hcur hrow]
  cases h1 : (row.get amount.FromColumn).isNil <;> cases h2 : (row.get cur.FromColumn).isNil <;> simp

theorem buildForFieldTypeMoney_sets (formatted queryResults : GoMap) (table : String)
    (field : Field) (m : GoMap)
    (h : buildForFieldTypeMoney formatted queryResults table field = .ok m) :
    ∃ v, m = formatted.set field.Key v := by
  unfold buildForFieldTypeMoney at h
  cases htyp : deref field.Typ with
  | error e => simp [htyp] at h
  | ok typ =>
    simp only [htyp, ok_bind] at h
    cases hrow : rowOf queryResults table with
    | error e => simp [hrow] at h
    | ok row =>
      simp only [hrow, ok_bind] at h
      cases hamt : deref typ.Amount with
      | error e => simp [hamt] at h
      | ok amount =>
        simp only [hamt, ok_bind] at h
        cases hcur : deref typ.Currency with
        | error e => simp [hcur] at h
        | ok cur =>
          simp only [hcur, ok_bind] at h
          split at h
          · cases hm : resultAsWorkflowMoneyType field queryResults table with
            | error e => simp [hm] at h
            | ok money => simp only [hm, ok_bind] at h; exact ⟨_, (Except.ok.inj h).symm⟩
          · exact ⟨_, (Except.ok.inj h).symm⟩

theorem without_sets (tds : List TypeDescriptor) (formatted queryResults : GoMap)
    (table : String) (field : Field) (m : GoMap)
    (h : buildResultFromQueryResultsWithoutRelationships tds formatted queryResults table field
          = .ok m) :
    ∃ k v, m = formatted.set k v ∧ (k = "name" ∨ k = "id" ∨ k = field.Key) := by
  unfold buildResultFromQueryResultsWithoutRelationships at h
  cases htd : deref (GetTypeDescriptorUsingDBTableName tds table) with
  | error e => simp [htd] at h
  | ok td =>
    simp only [htd, ok_bind] at h
    split at h
    · cases hrow : rowOf queryResults table with
      | error e => simp [hrow] at h
      | ok row =>
        simp only [hrow, ok_bind] at h
        exact ⟨"name", _, (Except.ok.inj h).symm, Or.inl rfl⟩
    · split at h
      · cases hrow : rowOf queryResults table with
        | error e => simp [hrow] at h
        | ok row =>
          simp only [hrow, ok_bind] at h
          exact ⟨"id", _, (Except.ok.inj h).symm, Or.inr (Or.inl rfl)⟩
      · cases htyp : deref field.Typ with
        | error e => simp [htyp] at h
        | ok typ =>
          simp only [htyp, ok_bind] at h
          split at h
          · obtain ⟨v, hv⟩ := buildForFieldTypeMoney_sets _ _ _ _ _ h
            exact ⟨_, v, hv, Or.inr (Or.inr rfl)⟩
          · split at h
            · obtain ⟨v, hv⟩ := buildForFieldTypeDateTime_sets _ _ _ _ _ h
              exact ⟨_, v, hv, Or.inr (Or.inr rfl)⟩
            · split at h
              · obtain ⟨v, hv⟩ := buildForFieldTypeDateOrTime_sets _ _ _ _ _ h
                exact ⟨_, v, hv, Or.inr (Or.inr rfl)⟩
              · split at h
                · obtain ⟨v, hv⟩ := buildForFieldTypeText_sets _ _ _ _ _ h
                  exact ⟨_, v, hv, Or.inr (Or.inr rfl)⟩
                · obtain ⟨v, hv⟩ := buildForFieldTypeOther_sets _ _ _ _ _ h
                  exact ⟨_, v, hv, Or.inr (Or.inr rfl)⟩

/-! ## Termination of one field without relationship -/

theorem terminates_ok {α : Type} (a : α) : Terminates (Except.ok a : Except Fault α) := by
  simp [Terminates]

theorem terminates_panic {α : Type} : Terminates (Except.error Fault.panic : Except Fault α) := by
  simp [Terminates]

theorem terminates_bind {α β : Type} (x : Except Fault α) (f : α → Except Fault β)
    (hx : Terminates x) (hf : ∀ a, Terminates (f a)) : Terminates (x >>= f) := by
  cases x with
  | error e =>
    simp only [Terminates, error_bind, ne_eq, Except.error.injEq] at hx ⊢
    exact hx
  | ok a => simpa using hf a

theorem terminates_deref {α : Type} (o : Option α) : Terminates (deref o) := by
  cases o <;> simp [deref, Terminates]

theorem terminates_asMap (v : Value) : Terminates v.asMap := by
  cases v <;> simp [Value.asMap, Terminates]

theorem terminates_asMapSlice (v : Value) : Terminates v.asMapSlice := by
  cases v <;> simp [Value.asMapSlice, Terminates]

theorem terminates_asTime (v : Value) : Terminates v.asTime := by
  cases v <;> simp [Value.asTime, Terminates]

theorem terminates_rowOf (queryResults : GoMap) (table : String) :
    Terminates (rowOf queryResults table) := terminates_asMap _

theorem terminates_ite {α : Type} (c : Prop) [Decidable c] (x y : Except Fault α)
    (hx : Terminates x) (hy : Terminates y) : Terminates (if c then x else y) := by
  split <;> assumption

theorem terminates_text (formatted queryResults : GoMap) (table : String) (field : Field) :
    Terminates (buildForFieldTypeText formatted queryResults table field) := by
  unfold buildForFieldTypeText
  refine terminates_bind _ _ (terminates_rowOf _ _) (fun row => ?_)
  split <;> exact terminates_ok _

theorem terminates_other (formatted queryResults : GoMap) (table : String) (field : Field) :
    Terminates (buildForFieldTypeOther formatted queryResults table field) := by
  unfold buildForFieldTypeOther
  refine terminates_bind _ _ (terminates_rowOf _ _) (fun row => ?_)
  split <;> exact terminates_ok _

theorem terminates_dateOrTime (formatted queryResults : GoMap) (table : String)
    (field : Field) :
    Terminates (buildForFieldTypeDateOrTime formatted queryResults table field) := by
  unfold buildForFieldTypeDateOrTime
  refine terminates_bind _ _ (terminates_rowOf _ _) (fun row => ?_)
  split
  · exact terminates_bind _ _ (terminates_asTime _) (fun _ => terminates_ok _)
  · exact terminates_ok _

theorem terminates_dateTime (formatted queryResults : GoMap) (table : String)
    (field : Field) :
    Terminates (buildForFieldTypeDateTime formatted queryResults table field) := by
  unfold buildForFieldTypeDateTime
  refine terminates_bind _ _ (terminates_rowOf _ _) (fun row => ?_)
  split
  · exact terminates_bind _ _ (terminates_asTime _) (fun _ => terminates_ok _)
  · exact terminates_ok _

theorem terminates_moneyType (field : Field) (queryResults : GoMap) (table : String) :
    Terminates (resultAsWorkflowMoneyType field queryResults table) := by
  unfold resultAsWorkflowMoneyType
  refine terminates_bind _ _ (terminates_deref _) (fun typ => ?_)
  refine terminates_bind _ _ (terminates_deref _) (fun cur => ?_)
  refine terminates_bind _ _ (terminates_rowOf _ _) (fun row => ?_)
  exact terminates_bind _ _ (terminates_deref _) (fun _ => terminates_ok _)

theorem terminates_money (formatted queryResults : GoMap) (table : String) (field : Field) :
    Terminates (buildForFieldTypeMoney formatted queryResults table field) := by
  unfold buildForFieldTypeMoney
  refine terminates_bind _ _ (terminates_deref _) (fun typ => ?_)
  refine terminates_bind _ _ (terminates_rowOf _ _) (fun row => ?_)
  refine terminates_bind _ _ (terminates_deref _) (fun amount => ?_)
  refine terminates_bind _ _ (terminates_deref _) (fun cur => ?_)
  split
  · exact terminates_bind _ _ (terminates_moneyType _ _ _) (fun _ => terminates_ok _)
  · exact terminates_ok _

theorem terminates_without (tds : List TypeDescriptor) (formatted queryResults : GoMap)
    (table : String) (field : Field) :
    Terminates
      (buildResultFromQueryResultsWithoutRelationships tds formatted queryResults table field) := by
  unfold buildResultFromQueryResultsWithoutRelationships
  refine terminates_bind _ _ (terminates_deref _) (fun td => ?_)
  split
  · exact terminates_bind _ _ (terminates_rowOf _ _) (fun _ => terminates_ok _)
  · split
    · exact terminates_bind _ _ (terminates_rowOf _ _) (fun _ => terminates_ok _)
    · refine terminates_bind _ _ (terminates_deref _) (fun typ => ?_)
      split
      · exact terminates_money _ _ _ _
      · split
        · exact terminates_dateTime _ _ _ _
        · split
          · exact terminates_dateOrTime _ _ _ _
          · split
            · exact terminates_text _ _ _ _
            · exact terminates_other _ _ _ _

theorem terminates_formatFields (step : GoMap → Field → Except Fault GoMap) :
    ∀ (fields : List Field) (formatted : GoMap),
      (∀ f ∈ fields, ∀ acc, Terminates (step acc f)) →
      Terminates (formatFields step fields formatted)
  | [], _, _ => terminates_ok _
  | f :: rest, formatted, h => by
    unfold formatFields
    exact terminates_bind _ _ (h f (List.mem_cons_self _ _) formatted) (fun acc =>
      terminates_formatFields step rest acc (fun g hg a => h g (List.mem_cons_of_mem _ hg) a))

/-! ## Relationship resolution is one level deep -/

theorem usingField_of_no_relationship (self : FormatFn) (tds : List TypeDescriptor) (ctx : Ctx)
    (formatted queryResults : GoMap) (table : String) (field : Field)
    (h : field.Relationship = none) :
    buildResultFromQueryResultsUsingField self tds ctx formatted queryResults table field =
      buildResultFromQueryResultsWithoutRelationships tds formatted queryResults table field := by
  simp [buildResultFromQueryResultsUsingField, tableHasRelationships, h]

theorem formatField_of_no_relationship (self : FormatFn) (tds : List TypeDescriptor) (ctx : Ctx)
    (formatted queryResults : GoMap) (table route : String) (field : Field)
    (h : field.Relationship = none) (hr : ctx.currentRoute = some route) :
    formatField self tds ctx queryResults table formatted field =
      buildResultFromQueryResultsWithoutRelationships tds formatted queryResults table field := by
  simp [formatField, hr, deref, usingField_of_no_relationship _ _ _ _ _ _ _ h]

theorem formatFields_congr (step1 step2 : GoMap → Field → Except Fault GoMap) :
    ∀ (fields : List Field) (formatted : GoMap),
      (∀ f ∈ fields, ∀ acc, step1 acc f = step2 acc f) →
      formatFields step1 fields formatted = formatFields step2 fields formatted
  | [], _, _ => rfl
  | f :: rest, formatted, h => by
    have h1 : step1 formatted f = step2 formatted f := h f (List.mem_cons_self _ _) formatted
    have h2 : ∀ acc, formatFields step1 rest acc = formatFields step2 rest acc := fun acc =>
      formatFields_congr step1 step2 rest acc (fun g hg a => h g (List.mem_cons_of_mem _ hg) a)
    simp [formatFields, h1, h2]

theorem formatAsAWorkflowType_of_no_relationship (tds : List TypeDescriptor) (fuel : Nat)
    (ctx : Ctx) (queryResults : GoMap) (table route : String) (fields : List Field)
    (h : ∀ f ∈ fields, f.Relationship = none) (hr : ctx.currentRoute = some route) :
    formatAsAWorkflowType tds (fuel + 1) ctx queryResults table fields =
      formatFields (fun formatted field =>
        buildResultFromQueryResultsWithoutRelationships tds formatted queryResults table field)
        fields [] := by
  unfold formatAsAWorkflowType
  exact formatFields_congr _ _ fields [] (fun f hf acc =>
    formatField_of_no_relationship _ tds ctx acc queryResults table route f (h f hf) hr)

theorem formatField_self_irrelevant (self1 self2 : FormatFn) (tds : List TypeDescriptor)
    (ctx : Ctx) (formatted queryResults : GoMap) (table : String) (field : Field)
    (h : field.Relationship = none) :
    formatField self1 tds ctx queryResults table formatted field =
      formatField self2 tds ctx queryResults table formatted field := by
  simp [formatField, usingField_of_no_relationship _ _ _ _ _ _ _ h]

theorem agree_formatAsAWorkflowType (tds : List TypeDescriptor) (fuel1 fuel2 : Nat) :
    AgreeOnScalarFields (formatAsAWorkflowType tds (fuel1 + 1))
      (formatAsAWorkflowType tds (fuel2 + 1)) := by
  intro ctx queryResults table fields h
  unfold formatAsAWorkflowType
  exact formatFields_congr _ _ fields [] (fun f hf acc =>
    formatField_self_irrelevant _ _ tds ctx acc queryResults table f (h f hf))

theorem terminates_formatField_of_no_relationship (self : FormatFn)
    (tds : List TypeDescriptor) (ctx : Ctx) (formatted queryResults : GoMap) (table : String)
    (field : Field) (h : field.Relationship = none) :
    Terminates (formatField self tds ctx queryResults table formatted field) := by
  unfold formatField
  refine terminates_bind _ _ (terminates_deref _) (fun route => ?_)
  rw [usingField_of_no_relationship _ _ _ _ _ _ _ h]
  split <;> exact terminates_without _ _ _ _ _

theorem terminatesOnScalar_formatAsAWorkflowType (tds : List TypeDescriptor) (fuel : Nat) :
    TerminatesOnScalarFields (formatAsAWorkflowType tds (fuel + 1)) := by
  intro ctx queryResults table fields h
  unfold formatAsAWorkflowType
  exact terminates_formatFields _ fields [] (fun f hf acc =>
    terminates_formatField_of_no_relationship _ tds ctx acc queryResults table f (h f hf))

theorem withRelationshipFieldsOmitted_no_relationship (tds : List TypeDescriptor)
    (table : String) (fields : List Field)
    (h : withRelationshipFieldsOmitted tds table = .ok fields) :
    ∀ f ∈ fields, f.Relationship = none := by
  unfold withRelationshipFieldsOmitted at h
  cases htd : deref (GetTypeDescriptorUsingDBTableName tds table) with
  | error e => simp [htd] at h
  | ok td =>
    simp only [htd, ok_bind, pure_eq_ok] at h
    have hf := Except.ok.inj h
    intro f hmem
    rw [← hf] at hmem
    have := (List.mem_filter.mp hmem).2
    simpa using this

theorem denormalizeResultSet_congr (self1 self2 : FormatFn) (tds : List TypeDescriptor)
    (ctx : Ctx) (field : Field) (uniqueIdColumn : String)
    (hagree : AgreeOnScalarFields self1 self2) :
    ∀ rows : List GoMap,
      denormalizeResultSet self1 tds ctx rows field uniqueIdColumn =
        denormalizeResultSet self2 tds ctx rows field uniqueIdColumn
  | [] => rfl
  | r :: rest => by
    unfold denormalizeResultSet
    cases hrel : deref field.Relationship with
    | error e => rfl
    | ok rel =>
      simp only [ok_bind]
      cases hf : withRelationshipFieldsOmitted tds rel.WithTable with
      | error e => rfl
      | ok fields =>
        simp only [ok_bind]
        rw [hagree ctx _ _ fields (withRelationshipFieldsOmitted_no_relationship _ _ _ hf),
          denormalizeResultSet_congr self1 self2 tds ctx field uniqueIdColumn hagree rest]

theorem normalizeResultSet_congr (self1 self2 : FormatFn) (tds : List TypeDescriptor)
    (ctx : Ctx) (field : Field) (uniqueIdColumn : String)
    (hagree : AgreeOnScalarFields self1 self2) :
    ∀ rows : List GoMap,
      normalizeResultSet self1 tds ctx rows field uniqueIdColumn =
        normalizeResultSet self2 tds ctx rows field uniqueIdColumn
  | [] => rfl
  | r :: rest => by
    unfold normalizeResultSet
    cases hrel : deref field.Relationship with
    | error e => rfl
    | ok rel =>
      simp only [ok_bind]
      cases hf : withRelationshipFieldsOmitted tds rel.WithTable with
      | error e => rfl
      | ok fields =>
        simp only [ok_bind]
        rw [hagree ctx _ _ fields (withRelationshipFieldsOmitted_no_relationship _ _ _ hf),
          normalizeResultSet_congr self1 self2 tds ctx field uniqueIdColumn hagree rest]

theorem formatField_congr (self1 self2 : FormatFn) (tds : List TypeDescriptor)
    (ctx : Ctx) (formatted queryResults : GoMap) (table : String) (field : Field)
    (hagree : AgreeOnScalarFields self1 self2) :
    formatField self1 tds ctx queryResults table formatted field =
      formatField self2 tds ctx queryResults table formatted field := by
  have hd := denormalizeResultSet_congr self1 self2 tds ctx field
  have hn := normalizeResultSet_congr self1 self2 tds ctx field
  simp only [formatField, buildResultFromQueryResultsUsingField,
    buildAndRecursivelyResolveRelationships, relationshipKindIsOneToMany,
    relationshipKindIsXToOne, hd _ hagree, hn _ hagree]

/-- The budget beyond two calls is never used. -/
theorem formatAsAWorkflowType_fuel (tds : List TypeDescriptor) (fuel : Nat) (ctx : Ctx)
    (queryResults : GoMap) (table : String) (fields : List Field) :
    formatAsAWorkflowType tds (fuel + 2) ctx queryResults table fields =
      formatAsAWorkflowType tds 2 ctx queryResults table fields := by
  show formatFields _ fields [] = formatFields _ fields []
  exact formatFields_congr _ _ fields [] (fun f _ acc =>
    formatField_congr _ _ tds ctx acc queryResults table f
      (agree_formatAsAWorkflowType tds fuel 0))

theorem terminates_bind_of_eq {α β : Type} (x : Except Fault α) (f : α → Except Fault β)
    (hx : Terminates x) (hf : ∀ a, x = .ok a → Terminates (f a)) : Terminates (x >>= f) := by
  cases x with
  | error e =>
    simp only [Terminates, error_bind, ne_eq, Except.error.injEq] at hx ⊢
    exact hx
  | ok a => simpa using hf a rfl

theorem terminates_withRelationshipFieldsOmitted (tds : List TypeDescriptor) (table : String) :
    Terminates (withRelationshipFieldsOmitted tds table) := by
  unfold withRelationshipFieldsOmitted
  exact terminates_bind _ _ (terminates_deref _) (fun _ => terminates_ok _)

theorem terminates_denormalizeResultSet (self : FormatFn) (tds : List TypeDescriptor)
    (ctx : Ctx) (field : Field) (uniqueIdColumn : String)
    (hself : TerminatesOnScalarFields self) :
    ∀ rows : List GoMap,
      Terminates (denormalizeResultSet self tds ctx rows field uniqueIdColumn)
  | [] => terminates_ok _
  | r :: rest => by
    unfold denormalizeResultSet
    refine terminates_bind _ _ (terminates_deref _) (fun rel => ?_)
    refine terminates_bind_of_eq _ _ (terminates_withRelationshipFieldsOmitted _ _)
      (fun fields hf => ?_)
    refine terminates_bind _ _
      (hself ctx _ _ fields (withRelationshipFieldsOmitted_no_relationship _ _ _ hf))
      (fun obj => ?_)
    exact terminates_bind _ _
      (terminates_denormalizeResultSet self tds ctx field uniqueIdColumn hself rest)
      (fun _ => terminates_ok _)

theorem terminates_normalizeResultSet (self : FormatFn) (tds : List TypeDescriptor)
    (ctx : Ctx) (field : Field) (uniqueIdColumn : String)
    (hself : TerminatesOnScalarFields self) :
    ∀ rows : List GoMap,
      Terminates (normalizeResultSet self tds ctx rows field uniqueIdColumn)
  | [] => terminates_ok _
  | r :: rest => by
    unfold normalizeResultSet
    refine terminates_bind _ _ (terminates_deref _) (fun rel => ?_)
    refine terminates_bind_of_eq _ _ (terminates_withRelationshipFieldsOmitted _ _)
      (fun fields hf => ?_)
    refine terminates_bind _ _
      (hself ctx _ _ fields (withRelationshipFieldsOmitted_no_relationship _ _ _ hf))
      (fun obj => ?_)
    exact terminates_bind _ _
      (terminates_normalizeResultSet self tds ctx field uniqueIdColumn hself rest)
      (fun _ => terminates_ok _)

theorem terminates_relatedResultsOf (queryResults : GoMap) (table : String) (field : Field) :
    Terminates (relatedResultsOf queryResults table field) := by
  unfold relatedResultsOf
  refine terminates_bind _ _ (terminates_rowOf _ _) (fun row => ?_)
  refine terminates_bind _ _ (terminates_asMap _) (fun fieldKey => ?_)
  exact terminates_bind _ _ (terminates_deref _) (fun _ => terminates_asMapSlice _)

theorem terminates_relatedTablesResultSetNotEmpty (queryResults : GoMap) (table : String)
    (field : Field) : Terminates (relatedTablesResultSetNotEmpty queryResults table field) := by
  unfold relatedTablesResultSetNotEmpty
  exact terminates_bind _ _ (terminates_relatedResultsOf _ _ _) (fun _ => terminates_ok _)

theorem terminates_relationshipKindIsOneToMany (self : FormatFn) (tds : List TypeDescriptor)
    (ctx : Ctx) (formatted queryResults : GoMap) (table : String) (field : Field)
    (hself : TerminatesOnScalarFields self) :
    Terminates (relationshipKindIsOneToMany self tds ctx formatted queryResults table field) := by
  unfold relationshipKindIsOneToMany
  refine terminates_bind _ _ (terminates_deref _) (fun rel => ?_)
  refine terminates_bind _ _ (terminates_relatedTablesResultSetNotEmpty _ _ _) (fun b => ?_)
  split
  · refine terminates_bind _ _ (terminates_relatedResultsOf _ _ _) (fun rows => ?_)
    refine terminates_bind _ _ (terminates_deref _) (fun d => ?_)
    refine terminates_bind _ _ (terminates_deref _) (fun td => ?_)
    split
    · exact terminates_bind _ _ (terminates_denormalizeResultSet _ _ _ _ _ hself _)
        (fun _ => terminates_ok _)
    · exact terminates_bind _ _ (terminates_normalizeResultSet _ _ _ _ _ hself _)
        (fun _ => terminates_ok _)
  · exact terminates_ok _

theorem terminates_relationshipKindIsXToOne (self : FormatFn) (tds : List TypeDescriptor)
    (ctx : Ctx) (formatted queryResults : GoMap) (table : String) (field : Field)
    (hself : TerminatesOnScalarFields self) :
    Terminates (relationshipKindIsXToOne self tds ctx formatted queryResults table field) := by
  unfold relationshipKindIsXToOne
  refine terminates_bind _ _ (terminates_deref _) (fun rel => ?_)
  refine terminates_bind _ _ (terminates_relatedTablesResultSetNotEmpty _ _ _) (fun b => ?_)
  split
  · refine terminates_bind _ _ (terminates_relatedResultsOf _ _ _) (fun rows => ?_)
    refine terminates_bind _ _ (terminates_deref _) (fun d => ?_)
    refine terminates_bind _ _ (terminates_deref _) (fun td => ?_)
    split
    · refine terminates_bind _ _ (terminates_denormalizeResultSet _ _ _ _ _ hself _)
        (fun _ => ?_)
      exact terminates_bind _ _ (terminates_deref _) (fun _ => terminates_ok _)
    · refine terminates_bind _ _ (terminates_normalizeResultSet _ _ _ _ _ hself _)
        (fun _ => ?_)
      exact terminates_bind _ _ (terminates_deref _) (fun _ => terminates_ok _)
  · exact terminates_ok _

theorem terminates_tableHasRelationships (queryResults : GoMap) (table : String)
    (field : Field) : Terminates (tableHasRelationships queryResults table field) := by
  unfold tableHasRelationships
  split
  · exact terminates_ok _
  · exact terminates_bind _ _ (terminates_rowOf _ _) (fun _ => terminates_ok _)

theorem terminates_formatField (self : FormatFn) (tds : List TypeDescriptor) (ctx : Ctx)
    (formatted queryResults : GoMap) (table : String) (field : Field)
    (hself : TerminatesOnScalarFields self) :
    Terminates (formatField self tds ctx queryResults table formatted field) := by
  unfold formatField
  refine terminates_bind _ _ (terminates_deref _) (fun route => ?_)
  split
  · exact terminates_without _ _ _ _ _
  · unfold buildResultFromQueryResultsUsingField
    refine terminates_bind _ _ (terminates_tableHasRelationships _ _ _) (fun b => ?_)
    split
    · unfold buildAndRecursivelyResolveRelationships
      refine terminates_bind _ _ (terminates_deref _) (fun rel => ?_)
      split
      · exact terminates_relationshipKindIsOneToMany _ _ _ _ _ _ _ hself
      · split
        · exact terminates_relationshipKindIsXToOne _ _ _ _ _ _ _ hself
        · exact terminates_ok _
    · exact terminates_without _ _ _ _ _

/-- With a budget of two calls the formatter never runs out of budget. -/
theorem formatAsAWorkflowType_terminates (tds : List TypeDescriptor) (fuel : Nat) (ctx : Ctx)
    (queryResults : GoMap) (table : String) (fields : List Field) :
    Terminates (formatAsAWorkflowType tds (fuel + 2) ctx queryResults table fields) := by
  show Terminates (formatFields _ fields [])
  exact terminates_formatFields _ fields [] (fun f _ acc =>
    terminates_formatField _ tds ctx acc queryResults table f
      (terminatesOnScalar_formatAsAWorkflowType tds fuel))

/-! ## Keys and values written by fields without relationship -/

theorem deref_eq_ok {α : Type} {o : Option α} {a : α} (h : o = some a) : deref o = .ok a := by
  simp [deref, h]

theorem without_cases (tds : List TypeDescriptor) (formatted queryResults : GoMap)
    (table : String) (field : Field) (td : TypeDescriptor) (m : GoMap)
    (htd : GetTypeDescriptorUsingDBTableName tds table = some td)
    (h : buildResultFromQueryResultsWithoutRelationships tds formatted queryResults table field
          = .ok m) :
    (field.FromColumn = td.ColumnAsOptionName ∧ ∃ row, rowOf queryResults table = .ok row ∧
        m = formatted.set "name" (stringify (row.get field.FromColumn))) ∨
    (field.FromColumn ≠ td.ColumnAsOptionName ∧ field.FromColumn = td.UniqueIdColumn ∧
        ∃ row, rowOf queryResults table = .ok row ∧
        m = formatted.set "id" (stringify (row.get field.FromColumn))) ∨
    (field.FromColumn ≠ td.ColumnAsOptionName ∧ field.FromColumn ≠ td.UniqueIdColumn ∧
        ∃ v, m = formatted.set field.Key v) := by
  unfold buildResultFromQueryResultsWithoutRelationships at h
  simp only [deref_eq_ok htd, ok_bind] at h
  split at h
  · next hopt =>
    cases hrow : rowOf queryResults table with
    | error e => simp [hrow] at h
    | ok row =>
      simp only [hrow, ok_bind] at h
      exact Or.inl ⟨hopt, row, rfl, (Except.ok.inj h).symm⟩
  · next hopt =>
    split at h
    · next huid =>
      cases hrow : rowOf queryResults table with
      | error e => simp [hrow] at h
      | ok row =>
        simp only [hrow, ok_bind] at h
        exact Or.inr (Or.inl ⟨hopt, huid, row, rfl, (Except.ok.inj h).symm⟩)
    · next huid =>
      refine Or.inr (Or.inr ⟨hopt, huid, ?_⟩)
      cases htyp : deref field.Typ with
      | error e => simp [htyp] at h
      | ok typ =>
        simp only [htyp, ok_bind] at h
        split at h
        · exact buildForFieldTypeMoney_sets _ _ _ _ _ h
        · split at h
          · exact buildForFieldTypeDateTime_sets _ _ _ _ _ h
          · split at h
            · exact buildForFieldTypeDateOrTime_sets _ _ _ _ _ h
            · split at h
              · exact buildForFieldTypeText_sets _ _ _ _ _ h
              · exact buildForFieldTypeOther_sets _ _ _ _ _ h

theorem formatFields_keys (step : GoMap → Field → Except Fault GoMap) :
    ∀ (fields : List Field) (acc m : GoMap),
      (∀ f ∈ fields, ∀ a m2, step a f = .ok m2 →
        ∃ k v, m2 = a.set k v ∧ (k = "name" ∨ k = "id" ∨ k = f.Key)) →
      formatFields step fields acc = .ok m →
      ∀ k, m.hasKey k = true →
        acc.hasKey k = true ∨ k = "name" ∨ k = "id" ∨ ∃ f ∈ fields, f.Key = k
  | [], acc, m, _, h, k, hk => by
    simp only [formatFields, pure_eq_ok] at h
    rw [← Except.ok.inj h] at hk
    exact Or.inl hk
  | f :: rest, acc, m, hstep, h, k, hk => by
    unfold formatFields at h
    cases hs : step acc f with
    | error e => simp [hs] at h
    | ok acc2 =>
      simp only [hs, ok_bind] at h
      obtain ⟨k2, v2, hset, hk2⟩ := hstep f (List.mem_cons_self _ _) acc acc2 hs
      have ih := formatFields_keys step rest acc2 m
        (fun g hg a m2 hgm => hstep g (List.mem_cons_of_mem _ hg) a m2 hgm) h k hk
      rcases ih with ih | ih | ih | ⟨g, hg, hgk⟩
      · rw [hset, GoMap.hasKey_set] at ih
        rcases ih with ih | ih
        · subst ih
          rcases hk2 with hk2 | hk2 | hk2
          · exact Or.inr (Or.inl hk2)
          · exact Or.inr (Or.inr (Or.inl hk2))
          · exact Or.inr (Or.inr (Or.inr ⟨f, List.mem_cons_self _ _, hk2.symm⟩))
        · exact Or.inl ih
      · exact Or.inr (Or.inl ih)
      · exact Or.inr (Or.inr (Or.inl ih))
      · exact Or.inr (Or.inr (Or.inr ⟨g, List.mem_cons_of_mem _ hg, hgk⟩))

theorem formatFields_id (tds : List TypeDescriptor) (queryResults row : GoMap)
    (table : String) (td : TypeDescriptor)
    (htd : GetTypeDescriptorUsingDBTableName tds table = some td)
    (hrow : queryResults.get table = Value.map row)
    (hne : td.UniqueIdColumn ≠ td.ColumnAsOptionName) :
    ∀ (fields : List Field) (acc m : GoMap),
      (∀ f ∈ fields, f.Key = "id" → f.FromColumn = td.UniqueIdColumn) →
      formatFields (fun formatted field =>
        buildResultFromQueryResultsWithoutRelationships tds formatted queryResults table field)
        fields acc = .ok m →
      ((∃ f ∈ fields, f.FromColumn = td.UniqueIdColumn) ∨
        acc.get "id" = stringify (row.get td.UniqueIdColumn)) →
      m.get "id" = stringify (row.get td.UniqueIdColumn)
  | [], acc, m, _, h, hex => by
    simp only [formatFields, pure_eq_ok] at h
    rw [← Except.ok.inj h]
    rcases hex with ⟨f, hf, _⟩ | hacc
    · exact absurd hf (List.not_mem_nil _)
    · exact hacc
  | f :: rest, acc, m, hkey, h, hex => by
    unfold formatFields at h
    cases hs : buildResultFromQueryResultsWithoutRelationships tds acc queryResults table f with
    | error e => simp [hs] at h
    | ok acc2 =>
      simp only [hs, ok_bind] at h
      refine formatFields_id tds queryResults row table td htd hrow hne rest acc2 m
        (fun g hg => hkey g (List.mem_cons_of_mem _ hg)) h ?_
      have hrow2 := rowOf_eq_of_get hrow
      rcases without_cases tds acc queryResults table f td acc2 htd hs with
        ⟨hopt, r, hr, hm⟩ | ⟨_, huid, r, hr, hm⟩ | ⟨_, huid, v, hm⟩
      · have hnid : f.FromColumn ≠ td.UniqueIdColumn := fun hc => hne (hc.symm.trans hopt)
        rcases hex with ⟨g, hg, hgu⟩ | hacc
        · rcases List.mem_cons.mp hg with hgf | hgr
          · exact absurd (hgf ▸ hgu) hnid
          · exact Or.inl ⟨g, hgr, hgu⟩
        · right
          rw [hm, GoMap.get_set_of_ne _ _ _ _ (by decide)]
          exact hacc
      · right
        rw [hr] at hrow2
        have hrr : r = row := Except.ok.inj hrow2
        rw [hm, GoMap.get_set_self, hrr, huid]
      · have hk : f.Key ≠ "id" := fun hc => huid (hkey f (List.mem_cons_self _ _) hc)
        rcases hex with ⟨g, hg, hgu⟩ | hacc
        · rcases List.mem_cons.mp hg with hgf | hgr
          · exact absurd (hgf ▸ hgu) huid
          · exact Or.inl ⟨g, hgr, hgu⟩
        · right
          rw [hm, GoMap.get_set_of_ne _ _ _ _ hk]
          exact hacc

theorem dateTime_ok_of_fits (formatted queryResults row : GoMap) (table : String)
    (field : Field) (hrow : queryResults.get table = Value.map row)
    (hfit : ((row.get field.FromColumn).isNil || (row.get field.FromColumn).isTime) = true) :
    (∃ m, buildForFieldTypeDateTime formatted queryResults table field = .ok m) ∧
    (∃ m, buildForFieldTypeDateOrTime formatted queryResults table field = .ok m) := by
  have hrow2 := rowOf_eq_of_get hrow
  unfold buildForFieldTypeDateTime buildForFieldTypeDateOrTime
  simp only [hrow2, ok_bind]
  cases hv : row.get field.FromColumn with
  | time t => exact ⟨⟨_, rfl⟩, ⟨_, rfl⟩⟩
  | null => exact ⟨⟨_, rfl⟩, ⟨_, rfl⟩⟩
  | int64 _ => simp [hv, Value.isNil, Value.isTime] at hfit
  | float64 _ => simp [hv, Value.isNil, Value.isTime] at hfit
  | str _ => simp [hv, Value.isNil, Value.isTime] at hfit
  | bool _ => simp [hv, Value.isNil, Value.isTime] at hfit
  | map _ => simp [hv, Value.isNil, Value.isTime] at hfit
  | slice _ => simp [hv, Value.isNil, Value.isTime] at hfit
  | mapSlice _ => simp [hv, Value.isNil, Value.isTime] at hfit

theorem text_other_ok (formatted queryResults row : GoMap) (table : String)
    (field : Field) (hrow : queryResults.get table = Value.map row) :
    (∃ m, buildForFieldTypeText formatted queryResults table field = .ok m) ∧
    (∃ m, buildForFieldTypeOther formatted queryResults table field = .ok m) := by
  have hrow2 := rowOf_eq_of_get hrow
  unfold buildForFieldTypeText buildForFieldTypeOther
  simp only [hrow2, ok_bind]
  cases (row.get field.FromColumn).isNil <;> exact ⟨⟨_, rfl⟩, ⟨_, rfl⟩⟩

theorem without_ok_of_fits (tds : List TypeDescriptor) (formatted queryResults row : GoMap)
    (table : String) (field : Field) (td : TypeDescriptor)
    (htd : GetTypeDescriptorUsingDBTableName tds table = some td)
    (hrow : queryResults.get table = Value.map row)
    (hfit : rowFitsField td row field = true) :
    ∃ m, buildResultFromQueryResultsWithoutRelationships tds formatted queryResults table field
          = .ok m := by
  have hrow2 := rowOf_eq_of_get hrow
  unfold buildResultFromQueryResultsWithoutRelationships
  simp only [deref_eq_ok htd, ok_bind]
  by_cases hopt : field.FromColumn = td.ColumnAsOptionName
  · rw [if_pos hopt, hrow2]; exact ⟨_, rfl⟩
  · rw [if_neg hopt]
    by_cases huid : field.FromColumn = td.UniqueIdColumn
    · rw [if_pos huid, hrow2]; exact ⟨_, rfl⟩
    · rw [if_neg huid]
      have h1 : (field.FromColumn == td.ColumnAsOptionName) = false := by simp [hopt]
      have h2 : (field.FromColumn == td.UniqueIdColumn) = false := by simp [huid]
      cases htyp : field.Typ with
      | none => simp [rowFitsField, h1, h2, htyp] at hfit
      | some typ =>
        simp only [rowFitsField, h1, h2, htyp, Bool.false_or] at hfit
        simp only [deref, ok_bind]
        by_cases hmoney : typ.Name = "money"
        · rw [if_pos hmoney]
          rw [if_pos hmoney] at hfit
          simp only [Bool.and_eq_true, Option.isSome_iff_exists] at hfit
          obtain ⟨⟨amount, hamt⟩, ⟨cur, hcur⟩⟩ := hfit
          exact ⟨_, buildForFieldTypeMoney_eq formatted queryResults row table field typ amount
            cur htyp hamt hcur hrow⟩
        · rw [if_neg hmoney]
          rw [if_neg hmoney] at hfit
          by_cases hdt : typ.Kind = "datetime"
          · rw [if_pos hdt]
            rw [if_pos (Or.inl hdt)] at hfit
            exact (dateTime_ok_of_fits formatted queryResults row table field hrow hfit).1
          · rw [if_neg hdt]
            by_cases hd : typ.Kind = "date" ∨ typ.Kind = "time"
            · rw [if_pos hd]
              rw [if_pos (Or.inr hd)] at hfit
              exact (dateTime_ok_of_fits formatted queryResults row table field hrow hfit).2
            · rw [if_neg hd]
              by_cases ht : typ.Name = "text"
              · rw [if_pos ht]
                exact (text_other_ok formatted queryResults row table field hrow).1
              · rw [if_neg ht]
                exact (text_other_ok formatted queryResults row table field hrow).2

theorem formatFields_ok_of_fits (tds : List TypeDescriptor) (queryResults row : GoMap)
    (table : String) (td : TypeDescriptor)
    (htd : GetTypeDescriptorUsingDBTableName tds table = some td)
    (hrow : queryResults.get table = Value.map row) :
    ∀ (fields : List Field) (acc : GoMap),
      (∀ f ∈ fields, rowFitsField td row f = true) →
      ∃ m, formatFields (fun formatted field =>
        buildResultFromQueryResultsWithoutRelationships tds formatted queryResults table field)
        fields acc = .ok m
  | [], acc, _ => ⟨acc, rfl⟩
  | f :: rest, acc, hfit => by
    obtain ⟨acc2, h2⟩ := without_ok_of_fits tds acc queryResults row table f td htd hrow
      (hfit f (List.mem_cons_self _ _))
    obtain ⟨m, hm⟩ := formatFields_ok_of_fits tds queryResults row table td htd hrow rest acc2
      (fun g hg => hfit g (List.mem_cons_of_mem _ hg))
    exact ⟨m, by simp [formatFields, h2, hm]⟩

/-! ## C1 – C3: the exported collection formatter and normalized ids -/

/-- C1, the code at the claim's input: for the empty result list and every
context, descriptor and encoder, `formatting.Standard` returns the text of
an empty object, and so does the exported `formatting.GetCollection`, which
is a `standardFormatter` value; the unexported `getCollectionFormatter`,
which no exported variable refers to, is the one returning the text of an
empty sequence. -/
theorem getCollection_format_empty (marshalIndent : Marshal) (tds : List TypeDescriptor)
    (fuel : Nat) (ctx : Ctx) :
    Standard.Format marshalIndent tds fuel ctx [] = .ok (.ok "\x7b\x7d") ∧
    GetCollection.Format marshalIndent tds fuel ctx [] = .ok (.ok "\x7b\x7d") ∧
    getCollectionFormatter.Format marshalIndent tds fuel ctx [] = .ok (.ok "[]") :=
  ⟨rfl, rfl, rfl⟩

/-- C2, the code at a failing input: on the GetCollection route the
exported `formatting.GetCollection` formats the oven row of the test
descriptor to one object that contains the key `recipes` of the equipment
type descriptor's relationship field (with value nil), whatever the
denormalize flag is; `getCollectionFormatter` would emit a sequence whose
object has no such key. -/
theorem getCollection_route_keeps_relationship_key (marshalIndent : Marshal) (fuel : Nat)
    (denormalize : Option String) :
    GetCollection.Format marshalIndent testTypeDescriptors (fuel + 1)
        { table := some "equipment", currentRoute := some "GetCollection",
          denormalize := denormalize }
        [Value.map [("equipment", Value.map ovenRow)]] =
      .ok (marshalIndent (Value.map (ovenFormatted ++ [("recipes", Value.null)]))) ∧
    recipesField ∈ commonEquipmentDescriptorFields ∧
    recipesField.Relationship.isSome = true ∧
    GoMap.hasKey (ovenFormatted ++ [("recipes", Value.null)]) recipesField.Key = true ∧
    getCollectionFormatter.Format marshalIndent testTypeDescriptors (fuel + 1)
        { table := some "equipment", currentRoute := some "GetCollection",
          denormalize := denormalize }
        [Value.map [("equipment", Value.map ovenRow)]] =
      .ok (marshalIndent (Value.slice [Value.map ovenFormatted])) ∧
    GoMap.hasKey ovenFormatted recipesField.Key = false := by
  refine ⟨rfl, by decide, rfl, by decide, rfl, by decide⟩

/-- C3, the code at a failing input: the recipes type descriptor maps the
field `recipeId` to its unique-id column `recipe_id`; the related row with
`recipe_id = 7` is formatted to an object that holds the id under the key
`id`, and `normalizeResultSet` looks the object up under `recipe_id`, so
the normalized list is `[nil]` and not `["7"]`. -/
theorem normalizeResultSet_loses_renamed_id (fuel : Nat) :
    formatAsAWorkflowType recipeIdTypeDescriptors (fuel + 1) (getSingleCtx "equipment")
        [("recipes", Value.map recipeIdRow)] "recipes"
        [ { Key := "recipeId", FromColumn := "recipe_id", Typ := some { Name := "text" } },
          { Key := "name", FromColumn := "name", Typ := some { Name := "text" } } ] =
      .ok [("id", Value.str "7"), ("name", Value.str "Bread")] ∧
    normalizeResultSet (formatAsAWorkflowType recipeIdTypeDescriptors (fuel + 1))
        recipeIdTypeDescriptors (getSingleCtx "equipment") [recipeIdRow] recipesField
        "recipe_id" = .ok [Value.null] ∧
    stringify (recipeIdRow.get "recipe_id") = Value.str "7" ∧
    relationshipKindIsOneToMany (formatAsAWorkflowType recipeIdTypeDescriptors (fuel + 1))
        recipeIdTypeDescriptors (getSingleCtx "equipment") []
        [("equipment", Value.map [("recipes",
            Value.map [("recipes", Value.mapSlice [recipeIdRow])])])]
        "equipment" recipesField = .ok [("recipes", Value.slice [Value.null])] :=
  ⟨rfl, rfl, rfl, rfl⟩

/-! ## C7 – C10: id column, money and the oven example -/

/-- C7: in the table `people` the column `id` is both `uniqueIdColumn` and
`columnAsOptionName`; the descriptor passes `performSanityChecks`. The
field mapped to that column is formatted under the key `name` only: the
formatted row has no key `id`, so its `id` entry is not the stringified
column value `"7"` that the comment in the `uniqueIdColumn` case of
`buildResultFromQueryResultsWithoutRelationships` says Workflow Accelerator
expects. -/
theorem unique_id_column_emitted_as_name :
    performSanityChecks { TypeDescriptors := sameColumnTypeDescriptors } = .ok none ∧
    (∀ fuel : Nat, formatAsAWorkflowType sameColumnTypeDescriptors (fuel + 1)
        { table := some "people", currentRoute := some "GetSingle", denormalize := some "" }
        [("people", Value.map [("id", Value.int64 7)])] "people"
        [{ Key := "id", FromColumn := "id", Typ := some { Name := "text" } }] =
      .ok [("name", Value.str "7")]) ∧
    formatField (formatAsAWorkflowType sameColumnTypeDescriptors 1) sameColumnTypeDescriptors
        { table := some "people", currentRoute := some "GetSingle", denormalize := some "" }
        [("people", Value.map [("id", Value.int64 7)])] "people" []
        { Key := "id", FromColumn := "id", Typ := some { Name := "text" } } =
      .ok [("name", Value.str "7")] ∧
    GoMap.hasKey [("name", Value.str "7")] "id" = false ∧
    stringify (GoMap.get [("id", Value.int64 7)] "id") = Value.str "7" ∧
    GoMap.get [("name", Value.str "7")] "id" ≠
      stringify (GoMap.get [("id", Value.int64 7)] "id") := by
  refine ⟨rfl, fun _ => rfl, rfl, by decide, rfl, ?_⟩
  simp [GoMap.get, stringify, sprintfD]

/-- One step of the loop of `formatAsAWorkflowType`: for every type
descriptor and every field without relationship whose `fromColumn` equals
the descriptor's `uniqueIdColumn` and differs from its
`columnAsOptionName`, formatting the field on any route sets the key `id`
to `stringify(row[fromColumn])` and changes no other key. -/
theorem id_field_emits_id (self : FormatFn) (tds : List TypeDescriptor) (ctx : Ctx)
    (formatted queryResults row : GoMap) (table route : String) (field : Field)
    (td : TypeDescriptor)
    (htd : GetTypeDescriptorUsingDBTableName tds table = some td)
    (hrow : queryResults.get table = Value.map row)
    (hroute : ctx.currentRoute = some route)
    (hrel : field.Relationship = none)
    (hid : field.FromColumn = td.UniqueIdColumn)
    (hne : field.FromColumn ≠ td.ColumnAsOptionName) :
    formatField self tds ctx queryResults table formatted field =
      .ok (formatted.set "id" (stringify (row.get field.FromColumn))) ∧
    (formatted.set "id" (stringify (row.get field.FromColumn))).get "id" =
      stringify (row.get field.FromColumn) ∧
    ∀ k, k ≠ "id" →
      (formatted.set "id" (stringify (row.get field.FromColumn))).get k = formatted.get k := by
  refine ⟨?_, GoMap.get_set_self _ _ _, fun k hk => GoMap.get_set_of_ne _ _ _ _ (Ne.symm hk)⟩
  rw [formatField_of_no_relationship self tds ctx formatted queryResults table route field
    hrel hroute]
  unfold buildResultFromQueryResultsWithoutRelationships
  simp only [deref_eq_ok htd, ok_bind, if_neg hne, if_pos hid, rowOf_eq_of_get hrow, pure_eq_ok]

/-- Example: the field `id` of the equipment type descriptor on the oven row. -/
theorem id_field_emits_id_example :
    formatField (formatAsAWorkflowType testTypeDescriptors 1) testTypeDescriptors
        (getSingleCtx "equipment") [("equipment", Value.map ovenRow)] "equipment" []
        { Key := "id", Name := "ID", FromColumn := "id", Typ := some { Name := "text" } } =
      .ok (GoMap.set [] "id" (stringify (ovenRow.get "id"))) :=
  (id_field_emits_id (formatAsAWorkflowType testTypeDescriptors 1) testTypeDescriptors
    (getSingleCtx "equipment") [] [("equipment", Value.map ovenRow)] ovenRow "equipment"
    "GetSingle" { Key := "id", Name := "ID", FromColumn := "id", Typ := some { Name := "text" } }
    { Key := "equipment", Name := "Equipment", TableName := "equipment",
      ColumnAsOptionName := "name", UniqueIdColumn := "id",
      Fields := commonEquipmentDescriptorFields }
    rfl rfl rfl rfl rfl (by decide)).1

/-- C8, counterexample: a money field whose currency is configured to come
from the column `price_currency`, formatted from a row that holds the amount
but no value in that column, gets the currency nil, whereas the first
available source in the specification's order is the literal `EUR`. -/
theorem money_currency_counterexample :
    buildForFieldTypeMoney [] [("goods", Value.map [("price", Value.int64 500)])] "goods"
        priceField =
      .ok [("price", Value.map [("amount", Value.int64 500), ("currency", Value.null)])] ∧
    currencyByAvailability { Key := "priceCurrency", FromColumn := "price_currency" }
        [("price", Value.int64 500)] = Value.str "EUR" ∧
    Value.null ≠ currencyByAvailability { Key := "priceCurrency", FromColumn := "price_currency" }
        [("price", Value.int64 500)] := by
  refine ⟨rfl, rfl, ?_⟩
  show Value.null ≠ Value.str "EUR"
  simp

/-- C8, amended: for every money field formatted from a row in which the
amount is present, the emitted currency is selected by configuration: the
row value of `Currency.fromColumn` when that column is configured (nil when
the row holds no value there), otherwise the static `Currency.value` when
it is non-empty, otherwise the literal `EUR`. It is the first available
source of the specification whenever `Currency.fromColumn` is not
configured or the row holds a value in it. -/
theorem money_currency_by_configuration (formatted queryResults row : GoMap) (table : String)
    (field : Field) (typ : WorkflowType) (amount : Amount) (cur : Currency)
    (htyp : field.Typ = some typ) (hamt : typ.Amount = some amount)
    (hcur : typ.Currency = some cur) (hrow : queryResults.get table = Value.map row)
    (hpresent : (row.get amount.FromColumn).isNil = false) :
    buildForFieldTypeMoney formatted queryResults table field =
      .ok (formatted.set field.Key (Value.map
        [("amount", row.get amount.FromColumn),
         ("currency",
            if cur.FromColumn = "" then
              if cur.Value = "" then Value.str "EUR" else Value.str cur.Value
            else row.get cur.FromColumn)])) ∧
    ((cur.FromColumn = "" ∨ (row.get cur.FromColumn).isNil = false) →
      currencyByConfiguration cur row = currencyByAvailability cur row) := by
  constructor
  · rw [buildForFieldTypeMoney_eq formatted queryResults row table field typ amount cur htyp
      hamt hcur hrow]
    simp [hpresent, currencyByConfiguration]
  · intro h
    unfold currencyByConfiguration currencyByAvailability
    by_cases hc : cur.FromColumn = ""
    · simp only [hc, ne_eq, not_true_eq_false, false_and, if_false, if_true]
      by_cases hv : cur.Value = "" <;> simp [hv]
    · rcases h with h | h
      · exact absurd h hc
      · simp [hc, h]

/-- C8, witness: the field `acquisitionCost` (static currency EUR) on the oven row. -/
theorem money_currency_by_configuration_witness :
    buildForFieldTypeMoney [] [("equipment", Value.map ovenRow)] "equipment"
        { Key := "acquisitionCost",
          Typ := some { Name := "money",
                        Amount := some { Key := "acquisitionCost", FromColumn := "acquisition_cost" },
                        Currency := some { Value := "EUR" } } } =
      .ok [("acquisitionCost",
            Value.map [("amount", Value.int64 500), ("currency", Value.str "EUR")])] :=
  (money_currency_by_configuration [] [("equipment", Value.map ovenRow)] ovenRow "equipment"
    { Key := "acquisitionCost",
      Typ := some { Name := "money",
                    Amount := some { Key := "acquisitionCost", FromColumn := "acquisition_cost" },
                    Currency := some { Value := "EUR" } } }
    { Name := "money",
      Amount := some { Key := "acquisitionCost", FromColumn := "acquisition_cost" },
      Currency := some { Value := "EUR" } }
    { Key := "acquisitionCost", FromColumn := "acquisition_cost" } { Value := "EUR" }
    rfl rfl rfl rfl rfl).1

/-- C9: for a money field with its amount and currency sub-mappings and a
row of the table, `buildForFieldTypeMoney` returns the accumulated result
with the field's key set, and the value set is nil if and only if the row
holds no value in both `Amount.fromColumn` and `Currency.fromColumn`;
otherwise it is an object with exactly the two entries `amount` and
`currency`, the amount being the row's value unchanged. -/
theorem money_nil_iff_both_absent (formatted queryResults row : GoMap) (table : String)
    (field : Field) (typ : WorkflowType) (amount : Amount) (cur : Currency)
    (htyp : field.Typ = some typ) (hamt : typ.Amount = some amount)
    (hcur : typ.Currency = some cur) (hrow : queryResults.get table = Value.map row) :
    ∃ v, buildForFieldTypeMoney formatted queryResults table field =
        .ok (formatted.set field.Key v) ∧
      (formatted.set field.Key v).get field.Key = v ∧
      (v = Value.null ↔
        (row.get amount.FromColumn = Value.null ∧ row.get cur.FromColumn = Value.null)) ∧
      (¬(row.get amount.FromColumn = Value.null ∧ row.get cur.FromColumn = Value.null) →
        ∃ currency, v = Value.map [("amount", row.get amount.FromColumn),
                                   ("currency", currency)]) := by
  have hnil : ∀ x : Value, x.isNil = true ↔ x = Value.null := by
    intro x; cases x <;> simp [Value.isNil]
  refine ⟨_, buildForFieldTypeMoney_eq formatted queryResults row table field typ amount cur
    htyp hamt hcur hrow, GoMap.get_set_self _ _ _, ?_, ?_⟩
  · by_cases h : (row.get amount.FromColumn).isNil = true ∧
        (row.get cur.FromColumn).isNil = true
    · rw [if_pos h]
      exact ⟨fun _ => ⟨(hnil _).mp h.1, (hnil _).mp h.2⟩, fun _ => rfl⟩
    · rw [if_neg h]
      exact ⟨fun hv => (by cases hv),
        fun hb => absurd ⟨(hnil _).mpr hb.1, (hnil _).mpr hb.2⟩ h⟩
  · intro hb
    have h : ¬((row.get amount.FromColumn).isNil = true ∧
        (row.get cur.FromColumn).isNil = true) :=
      fun h => hb ⟨(hnil _).mp h.1, (hnil _).mp h.2⟩
    rw [if_neg h]
    exact ⟨_, rfl⟩

/-- C9, witness: a price of 500 whose currency column holds no value. -/
theorem money_nil_iff_both_absent_witness :
    ∃ v, buildForFieldTypeMoney [] [("goods", Value.map [("price", Value.int64 500)])] "goods"
        priceField = .ok (GoMap.set [] priceField.Key v) ∧
      (v = Value.null ↔
        (GoMap.get [("price", Value.int64 500)] "price" = Value.null ∧
          GoMap.get [("price", Value.int64 500)] "price_currency" = Value.null)) := by
  obtain ⟨v, h1, _, h3, _⟩ := money_nil_iff_both_absent []
    [("goods", Value.map [("price", Value.int64 500)])] [("price", Value.int64 500)] "goods"
    priceField
    { Name := "money", Amount := some { Key := "price", FromColumn := "price" },
      Currency := some { Key := "priceCurrency", FromColumn := "price_currency" } }
    { Key := "price", FromColumn := "price" }
    { Key := "priceCurrency", FromColumn := "price_currency" } rfl rfl rfl rfl
  exact ⟨v, h1, h3⟩

/-- C10: formatting the single equipment row `id 1, name Oven,
acquisition_cost 500, purchase_date 2020-01-02 (midnight UTC)` of the table
with `uniqueIdColumn` `id` and `columnAsOptionName` `name` against the
fields id, name, acquisitionCost (money, static currency EUR) and
purchaseDate (date) yields, on every route and with any call budget, exactly
the object with `id` `"1"`, `name` `"Oven"`, `acquisitionCost` of amount
500 and currency `"EUR"`, and `purchaseDate` `"2020-01-02T00:00:00.000Z"`. -/
theorem format_oven (fuel : Nat) (route : String) (table denormalize : Option String) :
    formatAsAWorkflowType testTypeDescriptors (fuel + 1)
      { table := table, currentRoute := some route, denormalize := denormalize }
      [("equipment", Value.map ovenRow)] "equipment" ovenFields =
    .ok [("id", Value.str "1"), ("name", Value.str "Oven"),
         ("acquisitionCost",
            Value.map [("amount", Value.int64 500), ("currency", Value.str "EUR")]),
         ("purchaseDate", Value.str "2020-01-02T00:00:00.000Z")] := by
  rw [formatAsAWorkflowType_of_no_relationship testTypeDescriptors fuel _ _ _ route ovenFields
    (by decide) rfl]
  rfl

/-! ## C4 – C6: relationship resolution -/

theorem withRelationshipFieldsOmitted_eq (tds : List TypeDescriptor) (table : String)
    (td : TypeDescriptor) (htd : GetTypeDescriptorUsingDBTableName tds table = some td) :
    withRelationshipFieldsOmitted tds table =
      .ok (td.Fields.filter (fun field => field.Relationship.isNone)) := by
  simp [withRelationshipFieldsOmitted, deref_eq_ok htd]

theorem mem_filter_isNone {fields : List Field} {f : Field}
    (h : f ∈ fields.filter (fun field => field.Relationship.isNone)) :
    f ∈ fields ∧ f.Relationship = none := by
  have := List.mem_filter.mp h
  exact ⟨this.1, by simpa using this.2⟩

theorem get_singleton (k : String) (v : Value) : GoMap.get [(k, v)] k = v := by
  simp [GoMap.get]

/-- Formatting one related row whose type descriptor names its unique-id
column `id`: the object is returned and holds the stringified id. -/
theorem related_row_id (tds : List TypeDescriptor) (fuel : Nat) (ctx : Ctx) (route : String)
    (withTable : String) (td : TypeDescriptor) (r : GoMap)
    (hroute : ctx.currentRoute = some route)
    (htd : GetTypeDescriptorUsingDBTableName tds withTable = some td)
    (huid : td.UniqueIdColumn = "id") (hopt : td.ColumnAsOptionName ≠ "id")
    (hmap : ∃ f ∈ td.Fields, f.Relationship = none ∧ f.FromColumn = "id")
    (hkey : ∀ f ∈ td.Fields, f.Relationship = none → f.Key = "id" → f.FromColumn = "id")
    (hfit : ∀ f ∈ td.Fields, f.Relationship = none → rowFitsField td r f = true) :
    ∃ obj, formatAsAWorkflowType tds (fuel + 1) ctx [(withTable, Value.map r)] withTable
        (td.Fields.filter (fun field => field.Relationship.isNone)) = .ok obj ∧
      obj.get "id" = stringify (r.get "id") := by
  have hnorel : ∀ f ∈ td.Fields.filter (fun field => field.Relationship.isNone),
      f.Relationship = none := fun f hf => (mem_filter_isNone hf).2
  rw [formatAsAWorkflowType_of_no_relationship tds fuel ctx _ withTable route _ hnorel hroute]
  obtain ⟨obj, hobj⟩ := formatFields_ok_of_fits tds [(withTable, Value.map r)] r withTable td
    htd (get_singleton _ _) (td.Fields.filter (fun field => field.Relationship.isNone)) []
    (fun f hf => hfit f (mem_filter_isNone hf).1 (mem_filter_isNone hf).2)
  refine ⟨obj, hobj, ?_⟩
  have hne : td.UniqueIdColumn ≠ td.ColumnAsOptionName := by
    rw [huid]; exact fun h => hopt h.symm
  have := formatFields_id tds [(withTable, Value.map r)] r withTable td htd (get_singleton _ _)
    hne (td.Fields.filter (fun field => field.Relationship.isNone)) [] obj
    (fun f hf hk => by rw [huid]; exact hkey f (mem_filter_isNone hf).1 (mem_filter_isNone hf).2 hk)
    hobj
    (Or.inl (by
      obtain ⟨f, hf, hrel, hcol⟩ := hmap
      exact ⟨f, List.mem_filter.mpr ⟨hf, by simp [hrel]⟩, by rw [huid]; exact hcol⟩))
  rw [huid] at this
  exact this

theorem normalizeResultSet_ids (tds : List TypeDescriptor) (fuel : Nat) (ctx : Ctx)
    (route : String) (field : Field) (rel : Relationship) (td : TypeDescriptor)
    (hrel : field.Relationship = some rel)
    (hroute : ctx.currentRoute = some route)
    (htd : GetTypeDescriptorUsingDBTableName tds rel.WithTable = some td)
    (huid : td.UniqueIdColumn = "id") (hopt : td.ColumnAsOptionName ≠ "id")
    (hmap : ∃ f ∈ td.Fields, f.Relationship = none ∧ f.FromColumn = "id")
    (hkey : ∀ f ∈ td.Fields, f.Relationship = none → f.Key = "id" → f.FromColumn = "id") :
    ∀ rows : List GoMap,
      (∀ r ∈ rows, ∀ f ∈ td.Fields, f.Relationship = none → rowFitsField td r f = true) →
      normalizeResultSet (formatAsAWorkflowType tds (fuel + 1)) tds ctx rows field "id" =
        .ok (rows.map (fun r => stringify (r.get "id")))
  | [], _ => rfl
  | r :: rest, hfit => by
    obtain ⟨obj, hobj, hid⟩ := related_row_id tds fuel ctx route rel.WithTable td r hroute htd
      huid hopt hmap hkey (hfit r (List.mem_cons_self _ _))
    have ih := normalizeResultSet_ids tds fuel ctx route field rel td hrel hroute htd huid hopt
      hmap hkey rest (fun r2 hr2 => hfit r2 (List.mem_cons_of_mem _ hr2))
    unfold normalizeResultSet
    simp only [deref_eq_ok hrel, ok_bind, withRelationshipFieldsOmitted_eq tds _ td htd, hobj,
      ih, pure_eq_ok, hid, List.map_cons]

/-- C4, counterexample: the oven of the test descriptor joined with exactly
one recipe (id 7), denormalize unset, on the route `GetSingle`: the loop
body of `formatAsAWorkflowType` sends the oneToMany field `recipes` through
`buildAndRecursivelyResolveRelationships` to the oneToMany resolver, and the
key `recipes` is formatted as the one-element sequence `["7"]`, which is
not the stringified unique id `"7"` itself. -/
theorem oneToMany_single_row_counterexample :
    ∃ m, relationshipKindIsOneToMany (formatAsAWorkflowType testTypeDescriptors 1)
        testTypeDescriptors (getSingleCtx "equipment") []
        (ovenWithRecipes [recipeRow 7 "Bread"]) "equipment" recipesField = .ok m ∧
      buildAndRecursivelyResolveRelationships (formatAsAWorkflowType testTypeDescriptors 1)
        testTypeDescriptors (getSingleCtx "equipment") []
        (ovenWithRecipes [recipeRow 7 "Bread"]) "equipment" recipesField = .ok m ∧
      formatField (formatAsAWorkflowType testTypeDescriptors 1) testTypeDescriptors
        (getSingleCtx "equipment") (ovenWithRecipes [recipeRow 7 "Bread"]) "equipment" []
        recipesField = .ok m ∧
      m.get "recipes" = Value.slice [Value.str "7"] ∧
      stringify ((recipeRow 7 "Bread").get "id") = Value.str "7" ∧
      m.get "recipes" ≠ stringify ((recipeRow 7 "Bread").get "id") := by
  refine ⟨[("recipes", Value.slice [Value.str "7"])], rfl, rfl, rfl, rfl, rfl, ?_⟩
  show Value.slice [Value.str "7"] ≠ Value.str "7"
  simp

/-- The oneToMany resolver: a relationship field whose related-row list is
empty is formatted as an empty sequence under the field's key. With the
denormalize flag unset, a related type descriptor whose unique-id column is
named `id` (mapped by a field, distinct from the option-name column, no
other field keyed `id`) and rows that fit its fields, the key is formatted
as the sequence of the related rows' stringified unique ids; with exactly
one related row this is a one-element sequence holding that row's
stringified unique id, not an embedded object and not the bare id. -/
theorem oneToMany_formats_sequence (tds : List TypeDescriptor) (fuel : Nat) (ctx : Ctx)
    (formatted queryResults : GoMap) (table : String) (field : Field) (rel : Relationship)
    (rows : List GoMap)
    (hrel : field.Relationship = some rel)
    (hrows : relatedResultsOf queryResults table field = .ok rows) :
    (rows = [] →
      relationshipKindIsOneToMany (formatAsAWorkflowType tds (fuel + 1)) tds ctx formatted
        queryResults table field = .ok (formatted.set field.Key (Value.slice []))) ∧
    (∀ (td : TypeDescriptor) (route : String),
      ctx.denormalize = some "" → ctx.currentRoute = some route →
      GetTypeDescriptorUsingDBTableName tds rel.WithTable = some td →
      td.UniqueIdColumn = "id" → td.ColumnAsOptionName ≠ "id" →
      (∃ f ∈ td.Fields, f.Relationship = none ∧ f.FromColumn = "id") →
      (∀ f ∈ td.Fields, f.Relationship = none → f.Key = "id" → f.FromColumn = "id") →
      (∀ r ∈ rows, ∀ f ∈ td.Fields, f.Relationship = none → rowFitsField td r f = true) →
      relationshipKindIsOneToMany (formatAsAWorkflowType tds (fuel + 1)) tds ctx formatted
          queryResults table field =
        .ok (formatted.set field.Key
          (Value.slice (rows.map (fun r => stringify (r.get td.UniqueIdColumn))))) ∧
      ∀ r, rows = [r] →
        relationshipKindIsOneToMany (formatAsAWorkflowType tds (fuel + 1)) tds ctx formatted
          queryResults table field =
        .ok (formatted.set field.Key (Value.slice [stringify (r.get td.UniqueIdColumn)]))) := by
  constructor
  · intro hempty
    subst hempty
    simp [relationshipKindIsOneToMany, deref_eq_ok hrel, relatedTablesResultSetNotEmpty, hrows]
  · intro td route hden hroute htd huid hopt hmap hkey hfit
    have hmain : relationshipKindIsOneToMany (formatAsAWorkflowType tds (fuel + 1)) tds ctx
        formatted queryResults table field =
        .ok (formatted.set field.Key
          (Value.slice (rows.map (fun r => stringify (r.get td.UniqueIdColumn))))) := by
      cases rows with
      | nil =>
        simp [relationshipKindIsOneToMany, deref_eq_ok hrel, relatedTablesResultSetNotEmpty,
          hrows]
      | cons r rest =>
        have hn := normalizeResultSet_ids tds fuel ctx route field rel td hrel hroute htd huid
          hopt hmap hkey (r :: rest) hfit
        simp only [relationshipKindIsOneToMany, deref_eq_ok hrel, ok_bind,
          relatedTablesResultSetNotEmpty, hrows, pure_eq_ok, List.length_cons,
          deref_eq_ok hden, deref_eq_ok htd, huid, hn, clientWantsDenormalizedResultSet]
        simp
    refine ⟨hmain, fun r hr => ?_⟩
    rw [hmain, hr]
    rfl

theorem xToOne_value (self : FormatFn) (tds : List TypeDescriptor) (ctx : Ctx)
    (formatted queryResults : GoMap) (table : String) (field : Field) (rel : Relationship)
    (r : GoMap) (rest : List GoMap) (m : GoMap)
    (hrel : field.Relationship = some rel)
    (hrows : relatedResultsOf queryResults table field = .ok (r :: rest))
    (h : relationshipKindIsXToOne self tds ctx formatted queryResults table field = .ok m) :
    ∃ td d fields obj,
      GetTypeDescriptorUsingDBTableName tds rel.WithTable = some td ∧
      ctx.denormalize = some d ∧
      withRelationshipFieldsOmitted tds rel.WithTable = .ok fields ∧
      self ctx [(rel.WithTable, Value.map r)] rel.WithTable fields = .ok obj ∧
      m = formatted.set field.Key
        (if clientWantsDenormalizedResultSet d = true then Value.map obj
         else obj.get td.UniqueIdColumn) := by
  simp only [relationshipKindIsXToOne, deref_eq_ok hrel, ok_bind,
    relatedTablesResultSetNotEmpty, hrows, pure_eq_ok, List.length_cons] at h
  simp only [Nat.zero_lt_succ, decide_True, if_true, gt_iff_lt] at h
  cases hd : ctx.denormalize with
  | none => simp [hd, deref] at h
  | some d =>
    cases htd : GetTypeDescriptorUsingDBTableName tds rel.WithTable with
    | none => simp [hd, htd, deref] at h
    | some td =>
      simp only [hd, htd, deref, ok_bind] at h
      cases hf : withRelationshipFieldsOmitted tds rel.WithTable with
      | error e =>
        simp [denormalizeResultSet, normalizeResultSet, deref_eq_ok hrel, hf] at h
      | ok fields =>
        cases hobj : self ctx [(rel.WithTable, Value.map r)] rel.WithTable fields with
        | error e =>
          simp [denormalizeResultSet, normalizeResultSet, deref_eq_ok hrel, hf, hobj] at h
        | ok obj =>
          refine ⟨td, d, fields, obj, rfl, rfl, rfl, hobj, ?_⟩
          by_cases hc : clientWantsDenormalizedResultSet d = true
          · simp only [hc, if_true] at h ⊢
            cases hrest : denormalizeResultSet self tds ctx rest field td.UniqueIdColumn with
            | error e =>
              simp [denormalizeResultSet, deref_eq_ok hrel, hf, hobj, hrest] at h
            | ok results =>
              simp [denormalizeResultSet, hrel, hf, hobj, hrest, deref] at h
              exact h.symm
          · simp only [hc, if_false] at h ⊢
            cases hrest : normalizeResultSet self tds ctx rest field td.UniqueIdColumn with
            | error e =>
              simp [normalizeResultSet, deref_eq_ok hrel, hf, hobj, hrest] at h
            | ok results =>
              simp [normalizeResultSet, hrel, hf, hobj, hrest, deref] at h
              exact h.symm

theorem oneToMany_xToOne_link (self : FormatFn) (tds : List TypeDescriptor) (ctx : Ctx)
    (formatted queryResults : GoMap) (table : String) (field : Field) (rel : Relationship)
    (r : GoMap) (rest : List GoMap)
    (hrel : field.Relationship = some rel)
    (hrows : relatedResultsOf queryResults table field = .ok (r :: rest)) :
    relationshipKindIsXToOne self tds ctx formatted queryResults table field =
      (relationshipKindIsOneToMany self tds ctx formatted queryResults table field >>= fun m =>
        firstElement (m.get field.Key) >>= fun v => pure (formatted.set field.Key v)) := by
  simp only [relationshipKindIsXToOne, relationshipKindIsOneToMany, deref_eq_ok hrel, ok_bind,
    relatedTablesResultSetNotEmpty, hrows, pure_eq_ok, List.length_cons]
  simp only [Nat.zero_lt_succ, decide_True, if_true, gt_iff_lt]
  cases hd : deref ctx.denormalize with
  | error e => rfl
  | ok d =>
    simp only [ok_bind]
    cases htd : deref (GetTypeDescriptorUsingDBTableName tds rel.WithTable) with
    | error e => rfl
    | ok td =>
      simp only [ok_bind]
      by_cases hc : clientWantsDenormalizedResultSet d = true
      · simp only [hc, if_true]
        cases hres : denormalizeResultSet self tds ctx (r :: rest) field td.UniqueIdColumn with
        | error e => rfl
        | ok results =>
          cases results with
          | nil => simp [deref, GoMap.get_set_self, firstElement]
          | cons x xs => simp [deref, GoMap.get_set_self, firstElement]
      · simp only [hc, if_false]
        cases hres : normalizeResultSet self tds ctx (r :: rest) field td.UniqueIdColumn with
        | error e => rfl
        | ok results =>
          cases results with
          | nil => simp [deref, GoMap.get_set_self, firstElement]
          | cons x xs => simp [deref, GoMap.get_set_self, firstElement]

/-- C5: for a relationship field of kind manyToOne or oneToOne the
resolution is `relationshipKindIsXToOne`. With zero related rows it sets
the field's key to nil. With related rows `r :: rest` it is the oneToMany
resolution of the same inputs followed by taking the first element of the
list formatted under the field's key (the formatted object when
denormalized, the id entry when normalized); and whenever two runs that
share the first related row both return, they set the same value, so no
later row influences it. -/
theorem xToOne_is_first_of_oneToMany (self : FormatFn) (tds : List TypeDescriptor) (ctx : Ctx)
    (formatted queryResults : GoMap) (table : String) (field : Field) (rel : Relationship)
    (hrel : field.Relationship = some rel)
    (hkind : rel.Kind = "manyToOne" ∨ rel.Kind = "oneToOne") :
    buildAndRecursivelyResolveRelationships self tds ctx formatted queryResults table field =
      relationshipKindIsXToOne self tds ctx formatted queryResults table field ∧
    (relatedResultsOf queryResults table field = .ok [] →
      relationshipKindIsXToOne self tds ctx formatted queryResults table field =
        .ok (formatted.set field.Key Value.null)) ∧
    (∀ r rest, relatedResultsOf queryResults table field = .ok (r :: rest) →
      relationshipKindIsXToOne self tds ctx formatted queryResults table field =
        (relationshipKindIsOneToMany self tds ctx formatted queryResults table field >>=
          fun m => firstElement (m.get field.Key) >>=
          fun v => pure (formatted.set field.Key v))) ∧
    (∀ (queryResults2 : GoMap) (r : GoMap) (rest rest2 : List GoMap) (m m2 : GoMap),
      relatedResultsOf queryResults table field = .ok (r :: rest) →
      relatedResultsOf queryResults2 table field = .ok (r :: rest2) →
      relationshipKindIsXToOne self tds ctx formatted queryResults table field = .ok m →
      relationshipKindIsXToOne self tds ctx formatted queryResults2 table field = .ok m2 →
      m.get field.Key = m2.get field.Key) := by
  refine ⟨?_, ?_, ?_, ?_⟩
  · have hne : rel.Kind ≠ "oneToMany" := by
      rcases hkind with h | h <;> rw [h] <;> decide
    simp [buildAndRecursivelyResolveRelationships, deref_eq_ok hrel, hne, hkind]
  · intro hrows
    simp [relationshipKindIsXToOne, deref_eq_ok hrel, relatedTablesResultSetNotEmpty, hrows]
  · intro r rest hrows
    exact oneToMany_xToOne_link self tds ctx formatted queryResults table field rel r rest hrel
      hrows
  · intro queryResults2 r rest rest2 m m2 hrows hrows2 hm hm2
    obtain ⟨td, d, fields, obj, htd, hd, hf, hobj, hval⟩ :=
      xToOne_value self tds ctx formatted queryResults table field rel r rest m hrel hrows hm
    obtain ⟨td2, d2, fields2, obj2, htd2, hd2, hf2, hobj2, hval2⟩ :=
      xToOne_value self tds ctx formatted queryResults2 table field rel r rest2 m2 hrel hrows2
        hm2
    rw [htd] at htd2
    rw [hd] at hd2
    rw [hf] at hf2
    cases htd2
    cases hd2
    cases hf2
    rw [hobj] at hobj2
    cases hobj2
    rw [hval, hval2]

/-- C5, witness: a recipe of the test descriptor joined with two equipment rows. -/
theorem xToOne_is_first_of_oneToMany_witness :
    relationshipKindIsXToOne (formatAsAWorkflowType testTypeDescriptors 1) testTypeDescriptors
        (getSingleCtx "recipes") [] (recipeWithEquipment [ovenRow, ovenRow]) "recipes"
        equipmentField =
      (relationshipKindIsOneToMany (formatAsAWorkflowType testTypeDescriptors 1)
          testTypeDescriptors (getSingleCtx "recipes") []
          (recipeWithEquipment [ovenRow, ovenRow]) "recipes" equipmentField >>=
        fun m => firstElement (m.get equipmentField.Key) >>=
        fun v => pure (GoMap.set [] equipmentField.Key v)) :=
  (xToOne_is_first_of_oneToMany (formatAsAWorkflowType testTypeDescriptors 1)
    testTypeDescriptors (getSingleCtx "recipes") [] (recipeWithEquipment [ovenRow, ovenRow])
    "recipes" equipmentField
    { Kind := "manyToOne", WithTable := "equipment", LocalTableUniqueIdColumn := "equipment_id",
      ForeignTableUniqueIdColumn := "id" }
    rfl (Or.inl rfl)).2.2.1 ovenRow [ovenRow] rfl

theorem formatAsAWorkflowType_scalar_ok (tds : List TypeDescriptor) (fuel : Nat) (ctx : Ctx)
    (queryResults : GoMap) (table : String) (fields : List Field) (obj : GoMap)
    (hnorel : ∀ f ∈ fields, f.Relationship = none)
    (h : formatAsAWorkflowType tds (fuel + 1) ctx queryResults table fields = .ok obj) :
    formatFields (fun formatted field =>
      buildResultFromQueryResultsWithoutRelationships tds formatted queryResults table field)
      fields [] = .ok obj := by
  cases hroute : ctx.currentRoute with
  | some route =>
    rw [← formatAsAWorkflowType_of_no_relationship tds fuel ctx queryResults table route fields
      hnorel hroute]
    exact h
  | none =>
    cases fields with
    | nil => exact h
    | cons f rest =>
      simp [formatAsAWorkflowType, formatFields, formatField, hroute, deref] at h

theorem denormalizeResultSet_objects (tds : List TypeDescriptor) (fuel : Nat) (ctx : Ctx)
    (field : Field) (uniqueIdColumn : String) (rel : Relationship) (td : TypeDescriptor)
    (hrel : field.Relationship = some rel)
    (htd : GetTypeDescriptorUsingDBTableName tds rel.WithTable = some td) :
    ∀ (rows : List GoMap) (objs : List GoMap),
      denormalizeResultSet (formatAsAWorkflowType tds (fuel + 1)) tds ctx rows field
        uniqueIdColumn = .ok objs →
      ∀ obj ∈ objs, ∃ r ∈ rows,
        formatFields (fun formatted f =>
          buildResultFromQueryResultsWithoutRelationships tds formatted
            [(rel.WithTable, Value.map r)] rel.WithTable f)
          (td.Fields.filter (fun f => f.Relationship.isNone)) [] = .ok obj
  | [], objs, h, obj, hobj => by
    simp only [denormalizeResultSet, pure_eq_ok] at h
    rw [← Except.ok.inj h] at hobj
    exact absurd hobj (List.not_mem_nil _)
  | r :: rest, objs, h, obj, hobj => by
    unfold denormalizeResultSet at h
    simp only [deref_eq_ok hrel, ok_bind, withRelationshipFieldsOmitted_eq tds _ td htd] at h
    cases hfirst : formatAsAWorkflowType tds (fuel + 1) ctx [(rel.WithTable, Value.map r)]
        rel.WithTable (td.Fields.filter (fun f => f.Relationship.isNone)) with
    | error e => simp [hfirst] at h
    | ok first =>
      simp only [hfirst, ok_bind] at h
      cases hrest : denormalizeResultSet (formatAsAWorkflowType tds (fuel + 1)) tds ctx rest
          field uniqueIdColumn with
      | error e => simp [hrest] at h
      | ok others =>
        simp only [hrest, ok_bind, pure_eq_ok] at h
        rw [← Except.ok.inj h] at hobj
        rcases List.mem_cons.mp hobj with heq | hmem
        · refine ⟨r, List.mem_cons_self _ _, ?_⟩
          rw [heq]
          exact formatAsAWorkflowType_scalar_ok tds fuel ctx _ _ _ first
            (fun f hf => (mem_filter_isNone hf).2) hfirst
        · obtain ⟨r2, hr2, hfmt⟩ := denormalizeResultSet_objects tds fuel ctx field
            uniqueIdColumn rel td hrel htd rest others hrest obj hmem
          exact ⟨r2, List.mem_cons_of_mem _ hr2, hfmt⟩

theorem hasKey_nil (k : String) : GoMap.hasKey [] k = false := rfl

/-- C6, counterexample: the recipes type descriptor declares the key
`equipment` for a column field and for the relationship to the equipment
table; the object embedded for a related recipes row contains the key
`equipment`, which is the key of a relationship field. -/
theorem embedded_object_counterexample :
    ∃ obj, denormalizeResultSet (formatAsAWorkflowType clashTypeDescriptors 1)
        clashTypeDescriptors
        { table := some "equipment", currentRoute := some "GetSingle",
          denormalize := some "true" }
        [recipeRow 7 "Bread"] recipesField "id" = .ok [obj] ∧
      GetTypeDescriptorUsingDBTableName clashTypeDescriptors "recipes" =
        some { Key := "recipes", TableName := "recipes", ColumnAsOptionName := "name",
               UniqueIdColumn := "id",
               Fields := [ { Key := "id", FromColumn := "id", Typ := some { Name := "text" } },
                           { Key := "equipment", FromColumn := "equipment_id",
                             Typ := some { Name := "text" } },
                           equipmentField ] } ∧
      equipmentField.Relationship.isSome = true ∧
      obj.hasKey equipmentField.Key = true :=
  ⟨[("id", Value.str "7"), ("equipment", Value.str "1")], rfl, rfl, rfl, by decide⟩

/-- C6, amended: relationship resolution is one level deep for every
descriptor, cyclic ones included. Every object embedded by
`denormalizeResultSet` is the result of formatting one related row with the
related type descriptor's fields that carry no relationship, by the
relationship-free rule only; each of its keys is `id`, `name` or the key of
such a field, so it contains the key of a relationship field only if that
key is also one of these. `formatAsAWorkflowType` never exhausts a budget
of two nested calls, and a larger budget does not change its result. -/
theorem denormalize_one_level (tds : List TypeDescriptor) (fuel : Nat) (ctx : Ctx)
    (rows : List GoMap) (field : Field) (uniqueIdColumn : String) (rel : Relationship)
    (td : TypeDescriptor) (objs : List GoMap)
    (hrel : field.Relationship = some rel)
    (htd : GetTypeDescriptorUsingDBTableName tds rel.WithTable = some td)
    (h : denormalizeResultSet (formatAsAWorkflowType tds (fuel + 1)) tds ctx rows field
          uniqueIdColumn = .ok objs) :
    (∀ obj ∈ objs, ∃ r ∈ rows,
      formatFields (fun formatted f =>
        buildResultFromQueryResultsWithoutRelationships tds formatted
          [(rel.WithTable, Value.map r)] rel.WithTable f)
        (td.Fields.filter (fun f => f.Relationship.isNone)) [] = .ok obj) ∧
    (∀ obj ∈ objs, ∀ k, obj.hasKey k = true →
      k = "id" ∨ k = "name" ∨ ∃ f ∈ td.Fields, f.Relationship = none ∧ f.Key = k) ∧
    (∀ g ∈ td.Fields, g.Relationship.isSome = true → g.Key ≠ "id" → g.Key ≠ "name" →
      (∀ f ∈ td.Fields, f.Relationship = none → f.Key ≠ g.Key) →
      ∀ obj ∈ objs, obj.hasKey g.Key = false) ∧
    (∀ (n : Nat) (queryResults : GoMap) (table : String) (fields : List Field),
      formatAsAWorkflowType tds (n + 2) ctx queryResults table fields =
        formatAsAWorkflowType tds 2 ctx queryResults table fields ∧
      Terminates (formatAsAWorkflowType tds (n + 2) ctx queryResults table fields)) := by
  have hobjs := denormalizeResultSet_objects tds fuel ctx field uniqueIdColumn rel td hrel htd
    rows objs h
  have hkeys : ∀ obj ∈ objs, ∀ k, obj.hasKey k = true →
      k = "id" ∨ k = "name" ∨ ∃ f ∈ td.Fields, f.Relationship = none ∧ f.Key = k := by
    intro obj hobj k hk
    obtain ⟨r, _, hfmt⟩ := hobjs obj hobj
    have := formatFields_keys _ (td.Fields.filter (fun f => f.Relationship.isNone)) [] obj
      (fun f _ a m2 hm2 => without_sets tds a _ _ f m2 hm2) hfmt k hk
    rcases this with h0 | h1 | h2 | ⟨f, hf, hfk⟩
    · rw [hasKey_nil] at h0
      cases h0
    · exact Or.inr (Or.inl h1)
    · exact Or.inl h2
    · exact Or.inr (Or.inr ⟨f, (mem_filter_isNone hf).1, (mem_filter_isNone hf).2, hfk⟩)
  refine ⟨hobjs, hkeys, ?_, ?_⟩
  · intro g _ _ hgid hgname hclash obj hobj
    cases hk : obj.hasKey g.Key with
    | false => rfl
    | true =>
      rcases hkeys obj hobj g.Key hk with h1 | h2 | ⟨f, hf, hfrel, hfk⟩
      · exact absurd h1 hgid
      · exact absurd h2 hgname
      · exact absurd hfk (hclash f hf hfrel)
  · intro n queryResults table fields
    exact ⟨formatAsAWorkflowType_fuel tds n ctx queryResults table fields,
      formatAsAWorkflowType_terminates tds n ctx queryResults table fields⟩

/-- C6, witness: the recipe embedded for the oven of the test descriptor has no key
`equipment`. -/
theorem denormalize_one_level_witness :
    denormalizeResultSet (formatAsAWorkflowType testTypeDescriptors 1) testTypeDescriptors
        { table := some "equipment", currentRoute := some "GetSingle",
          denormalize := some "true" }
        [recipeRow 7 "Bread"] recipesField "id" =
      .ok [[("id", Value.str "7"), ("name", Value.str "Bread"),
            ("instructions", Value.str "Knead"), ("equipmentId", Value.str "1")]] ∧
    GoMap.hasKey [("id", Value.str "7"), ("name", Value.str "Bread"),
                  ("instructions", Value.str "Knead"), ("equipmentId", Value.str "1")]
      equipmentField.Key = false :=
  ⟨rfl, (denormalize_one_level testTypeDescriptors 0
    { table := some "equipment", currentRoute := some "GetSingle", denormalize := some "true" }
    [recipeRow 7 "Bread"] recipesField "id"
    { Kind := "oneToMany", WithTable := "recipes", LocalTableUniqueIdColumn := "id",
      ForeignTableUniqueIdColumn := "equipment_id" }
    { Key := "recipes", Name := "Recipes", TableName := "recipes", ColumnAsOptionName := "name",
      UniqueIdColumn := "id", Fields := commonRecipesDescriptorFields }
    [[("id", Value.str "7"), ("name", Value.str "Bread"),
      ("instructions", Value.str "Knead"), ("equipmentId", Value.str "1")]]
    rfl rfl rfl).2.2.1 equipmentField (by decide) rfl (by decide) (by decide) (by decide)
    _ (List.mem_singleton.mpr rfl)⟩

/-! ## Descriptor validation: acceptance and rejection -/

theorem errUniqueId_loop_none_iff (td : TypeDescriptor) :
    ∀ fields : List Field,
      errUniqueIdColumnAndIdColumnDiffer.loop td fields = none ↔
        ¬((∃ f ∈ fields, f.Key = "id") ∧ td.UniqueIdColumn ≠ "id")
  | [] => by simp [errUniqueIdColumnAndIdColumnDiffer.loop]
  | field :: rest => by
    have ih := errUniqueId_loop_none_iff td rest
    unfold errUniqueIdColumnAndIdColumnDiffer.loop
    by_cases h : field.Key = "id" ∧ td.UniqueIdColumn ≠ "id"
    · rw [if_pos h]
      simp only [reduceCtorEq, false_iff, not_not]
      exact ⟨⟨field, List.mem_cons_self _ _, h.1⟩, h.2⟩
    · rw [if_neg h, ih]
      constructor
      · rintro hrest ⟨⟨f, hf, hk⟩, huid⟩
        rcases List.mem_cons.mp hf with heq | hmem
        · exact h ⟨heq ▸ hk, huid⟩
        · exact hrest ⟨⟨f, hmem, hk⟩, huid⟩
      · rintro hall ⟨⟨f, hf, hk⟩, huid⟩
        exact hall ⟨⟨f, List.mem_cons_of_mem _ hf, hk⟩, huid⟩

theorem errUniqueId_none_iff (td : TypeDescriptor) :
    errUniqueIdColumnAndIdColumnDiffer td = none ↔
      ((∃ f ∈ td.Fields, f.Key = "id") → td.UniqueIdColumn = "id") := by
  unfold errUniqueIdColumnAndIdColumnDiffer
  rw [errUniqueId_loop_none_iff]
  constructor
  · intro h hex
    by_contra hne
    exact h ⟨hex, hne⟩
  · rintro h ⟨hex, hne⟩
    exact hne (h hex)

theorem errName_loop_none_iff (td : TypeDescriptor) :
    ∀ fields : List Field,
      errColumnAsOptionNameAndNameColumnDiffer.loop td fields = none ↔
        ¬((∃ f ∈ fields, f.Key = "name") ∧ td.ColumnAsOptionName ≠ "name")
  | [] => by simp [errColumnAsOptionNameAndNameColumnDiffer.loop]
  | field :: rest => by
    have ih := errName_loop_none_iff td rest
    unfold errColumnAsOptionNameAndNameColumnDiffer.loop
    by_cases h : field.Key = "name" ∧ td.ColumnAsOptionName ≠ "name"
    · rw [if_pos h]
      simp only [reduceCtorEq, false_iff, not_not]
      exact ⟨⟨field, List.mem_cons_self _ _, h.1⟩, h.2⟩
    · rw [if_neg h, ih]
      constructor
      · rintro hrest ⟨⟨f, hf, hk⟩, huid⟩
        rcases List.mem_cons.mp hf with heq | hmem
        · exact h ⟨heq ▸ hk, huid⟩
        · exact hrest ⟨⟨f, hmem, hk⟩, huid⟩
      · rintro hall ⟨⟨f, hf, hk⟩, huid⟩
        exact hall ⟨⟨f, List.mem_cons_of_mem _ hf, hk⟩, huid⟩

theorem errName_none_iff (td : TypeDescriptor) :
    errColumnAsOptionNameAndNameColumnDiffer td = none ↔
      ((∃ f ∈ td.Fields, f.Key = "name") → td.ColumnAsOptionName = "name") := by
  unfold errColumnAsOptionNameAndNameColumnDiffer
  rw [errName_loop_none_iff]
  constructor
  · intro h hex
    by_contra hne
    exact h ⟨hex, hne⟩
  · rintro h ⟨hex, hne⟩
    exact hne (h hex)

theorem checkFields_cons (td : String) (field : Field) (rest : List Field) :
    checkFields td (field :: rest) =
      (checkField field td >>= fun r =>
        match r with
        | some err => pure (some err)
        | none => checkFields td rest) := by
  rw [checkFields]

theorem checkFields_none_iff (td : String) :
    ∀ fields : List Field,
      checkFields td fields = .ok none ↔ ∀ f ∈ fields, checkField f td = .ok none
  | [] => by simp [checkFields]
  | field :: rest => by
    have ih := checkFields_none_iff td rest
    rw [checkFields_cons]
    cases hc : checkField field td with
    | error e => simp [hc]
    | ok r =>
      cases r with
      | some err => simp [hc]
      | none => simp [hc, ih]

theorem checkTypeDescriptors_none_iff :
    ∀ tds : List TypeDescriptor,
      checkTypeDescriptors tds = .ok none ↔
        ∀ td ∈ tds, errUniqueIdColumnAndIdColumnDiffer td = none ∧
          errColumnAsOptionNameAndNameColumnDiffer td = none ∧
          checkFields td.Key td.Fields = .ok none
  | [] => by simp [checkTypeDescriptors]
  | td :: rest => by
    have ih := checkTypeDescriptors_none_iff rest
    rw [checkTypeDescriptors]
    cases h1 : errUniqueIdColumnAndIdColumnDiffer td with
    | some err => simp [h1]
    | none =>
      cases h2 : errColumnAsOptionNameAndNameColumnDiffer td with
      | some err => simp [h1, h2]
      | none =>
        cases h3 : checkFields td.Key td.Fields with
        | error e => simp [h1, h2, h3]
        | ok r =>
          cases r with
          | some err => simp [h1, h2, h3]
          | none => simp [h1, h2, h3, ih]

theorem checkField_of_typ (field : Field) (td : String) (typ : WorkflowType)
    (htyp : field.Typ = some typ) :
    checkField field td =
      (if typ.Name = "money" then
        match typ.Currency with
        | none => .error Fault.panic
        | some cur =>
          if cur.Value ≠ "" ∧ cur.FromColumn ≠ "" then .ok (some (currencyMessage td field.Key))
          else .ok none
      else if field.Relationship = none ∧ field.FromColumn = "" then
        .ok (some (fromColumnMessage typ.Name))
      else if typ.Name = "" then .ok (some (typeNameMessage field.Key))
      else .ok none) := by
  unfold checkField errCurrencyHasDefaultValue errFromColumnPropertyIsMissing
    errTypeNameIsMissing
  simp only [deref_eq_ok htyp, ok_bind]
  by_cases hm : typ.Name = "money"
  · have hne : typ.Name ≠ "" := by rw [hm]; decide
    simp only [hm, if_true, ne_eq, not_true_eq_false, false_and, if_false, pure_eq_ok, ok_bind]
    cases hc : typ.Currency with
    | none => simp [deref]
    | some cur =>
      simp only [deref, ok_bind]
      by_cases hb : ¬cur.Value = "" ∧ ¬cur.FromColumn = ""
      · simp [hb]
      · simp only [hb, if_false, ok_bind]
        have : ¬("money" = "") := by decide
        simp [this]
  · simp only [hm, if_false, ne_eq, not_false_eq_true, true_and, pure_eq_ok, ok_bind]
    by_cases hr : field.Relationship = none
    · by_cases hf : field.FromColumn = ""
      · simp [hr, hf]
      · by_cases hn : typ.Name = "" <;> simp [hr, hf, hn]
    · by_cases hn : typ.Name = "" <;> simp [hr, hn]

theorem checkField_none_of_no_typ (field : Field) (td : String) (htyp : field.Typ = none) :
    checkField field td = .error Fault.panic := by
  simp [checkField, errCurrencyHasDefaultValue, htyp, deref]

/-- What acceptance of one field means. -/
theorem checkField_none_iff (field : Field) (td : String) :
    checkField field td = .ok none ↔
      ∃ typ, field.Typ = some typ ∧ typ.Name ≠ "" ∧
        (typ.Name = "money" →
          ∃ cur, typ.Currency = some cur ∧ ¬(cur.Value ≠ "" ∧ cur.FromColumn ≠ "")) ∧
        (typ.Name ≠ "money" → field.Relationship = none → field.FromColumn ≠ "") := by
  cases htyp : field.Typ with
  | none => simp [checkField_none_of_no_typ field td htyp]
  | some typ =>
    rw [checkField_of_typ field td typ htyp]
    constructor
    · intro h
      refine ⟨typ, rfl, ?_⟩
      by_cases hm : typ.Name = "money"
      · rw [if_pos hm] at h
        cases hc : typ.Currency with
        | none => simp [hc] at h
        | some cur =>
          rw [hc] at h
          by_cases hb : cur.Value ≠ "" ∧ cur.FromColumn ≠ ""
          · simp [hb] at h
          · exact ⟨by rw [hm]; decide, fun _ => ⟨cur, rfl, hb⟩, fun h2 => absurd hm h2⟩
      · rw [if_neg hm] at h
        by_cases hr : field.Relationship = none ∧ field.FromColumn = ""
        · rw [if_pos hr] at h
          simp at h
        · rw [if_neg hr] at h
          by_cases hn : typ.Name = ""
          · rw [if_pos hn] at h
            simp at h
          · exact ⟨hn, fun h2 => absurd h2 hm, fun _ hrel hcol => hr ⟨hrel, hcol⟩⟩
    · rintro ⟨typ2, htyp2, hn, hmoney, hcol⟩
      cases htyp2
      by_cases hm : typ.Name = "money"
      · obtain ⟨cur, hc, hb⟩ := hmoney hm
        rw [if_pos hm, hc]
        simp only
        rw [if_neg hb]
      · have hr : ¬(field.Relationship = none ∧ field.FromColumn = "") :=
          fun h => hcol hm h.1 h.2
        rw [if_neg hm, if_neg hr, if_neg hn]

theorem checkField_returns (field : Field) (td : String)
    (h : ∃ typ, field.Typ = some typ ∧ (typ.Name = "money" → ∃ cur, typ.Currency = some cur)) :
    ∃ r, checkField field td = .ok r := by
  obtain ⟨typ, htyp, hcur⟩ := h
  rw [checkField_of_typ field td typ htyp]
  by_cases hm : typ.Name = "money"
  · obtain ⟨cur, hc⟩ := hcur hm
    simp only [hm, if_true, hc]
    split <;> exact ⟨_, rfl⟩
  · simp only [hm, if_false]
    split
    · exact ⟨_, rfl⟩
    · split <;> exact ⟨_, rfl⟩

theorem checkFields_returns (td : String) :
    ∀ fields : List Field,
      (∀ f ∈ fields, ∃ typ, f.Typ = some typ ∧
        (typ.Name = "money" → ∃ cur, typ.Currency = some cur)) →
      ∃ r, checkFields td fields = .ok r
  | [], _ => ⟨none, rfl⟩
  | field :: rest, h => by
    obtain ⟨r, hr⟩ := checkField_returns field td (h field (List.mem_cons_self _ _))
    obtain ⟨r2, hr2⟩ := checkFields_returns td rest
      (fun f hf => h f (List.mem_cons_of_mem _ hf))
    rw [checkFields_cons, hr]
    cases r with
    | some err => exact ⟨some err, rfl⟩
    | none => exact ⟨r2, hr2⟩

theorem checkTypeDescriptors_returns :
    ∀ tds : List TypeDescriptor,
      (∀ td ∈ tds, ∀ f ∈ td.Fields, ∃ typ, f.Typ = some typ ∧
        (typ.Name = "money" → ∃ cur, typ.Currency = some cur)) →
      ∃ r, checkTypeDescriptors tds = .ok r
  | [], _ => ⟨none, rfl⟩
  | td :: rest, h => by
    obtain ⟨r, hr⟩ := checkFields_returns td.Key td.Fields (h td (List.mem_cons_self _ _))
    obtain ⟨r2, hr2⟩ := checkTypeDescriptors_returns rest
      (fun t ht => h t (List.mem_cons_of_mem _ ht))
    rw [checkTypeDescriptors]
    cases h1 : errUniqueIdColumnAndIdColumnDiffer td with
    | some err => exact ⟨some err, rfl⟩
    | none =>
      cases h2 : errColumnAsOptionNameAndNameColumnDiffer td with
      | some err => exact ⟨some err, rfl⟩
      | none =>
        simp only [hr, ok_bind]
        cases r with
        | some err => exact ⟨some err, rfl⟩
        | none => exact ⟨r2, hr2⟩

/-- A descriptor whose fields all have types is accepted or rejected with
an error; it is rejected as soon as one of the checks fails somewhere. -/
theorem hasType_iff (field : Field) :
    field.hasType = true ↔
      ∃ typ, field.Typ = some typ ∧ (typ.Name = "money" → ∃ cur, typ.Currency = some cur) := by
  unfold Field.hasType
  cases htyp : field.Typ with
  | none => simp
  | some typ =>
    simp only [Bool.or_eq_true, bne_iff_ne, ne_eq, Option.isSome_iff_exists, Option.some.injEq,
      exists_eq_left']
    constructor
    · rintro (h | h) hm
      · exact absurd hm h
      · exact h
    · intro h
      by_cases hm : typ.Name = "money"
      · exact Or.inr (h hm)
      · exact Or.inl hm

theorem performSanityChecks_rejects (descriptor : Descriptor) (hwf : descriptor.HasTypes)
    (hbad : ¬∀ td ∈ descriptor.TypeDescriptors,
      errUniqueIdColumnAndIdColumnDiffer td = none ∧
      errColumnAsOptionNameAndNameColumnDiffer td = none ∧
      checkFields td.Key td.Fields = .ok none) :
    ∃ msg, performSanityChecks descriptor = .ok (some msg) := by
  obtain ⟨r, hr⟩ := checkTypeDescriptors_returns descriptor.TypeDescriptors
    (fun td htd f hf => (hasType_iff f).mp (hwf td htd f hf))
  cases r with
  | some msg => exact ⟨msg, hr⟩
  | none => exact absurd ((checkTypeDescriptors_none_iff _).mp hr) hbad

theorem checkFields_append (td : String) (rest : List Field) :
    ∀ before : List Field, checkFields td before = .ok none →
      checkFields td (before ++ rest) = checkFields td rest
  | [], _ => rfl
  | field :: before, h => by
    have hall := (checkFields_none_iff td (field :: before)).mp h
    have h1 := hall field (List.mem_cons_self _ _)
    have h2 := (checkFields_none_iff td before).mpr
      (fun f hf => hall f (List.mem_cons_of_mem _ hf))
    rw [List.cons_append, checkFields_cons, h1]
    exact checkFields_append td rest before h2

theorem checkTypeDescriptors_append (rest : List TypeDescriptor) :
    ∀ before : List TypeDescriptor, checkTypeDescriptors before = .ok none →
      checkTypeDescriptors (before ++ rest) = checkTypeDescriptors rest
  | [], _ => rfl
  | td :: before, h => by
    have hall := (checkTypeDescriptors_none_iff (td :: before)).mp h
    obtain ⟨h1, h2, h3⟩ := hall td (List.mem_cons_self _ _)
    have h4 := (checkTypeDescriptors_none_iff before).mpr
      (fun t ht => hall t (List.mem_cons_of_mem _ ht))
    rw [List.cons_append, checkTypeDescriptors]
    simp only [h1, h2, h3, ok_bind]
    exact checkTypeDescriptors_append rest before h4

theorem namesKey_chars (msg key : String) (h : NamesKey msg key) :
    ∀ c ∈ key.data, c ∈ msg.data := by
  obtain ⟨pre, post, hmsg⟩ := h
  intro c hc
  rw [hmsg, String.data_append, String.data_append]
  exact List.mem_append_left _ (List.mem_append_right _ hc)

theorem testDescriptor_hasTypes : testDescriptor.HasTypes := by
  unfold Descriptor.HasTypes
  decide

/-! ## C15 – C20: the rules of `performSanityChecks` -/

/-- The id rule on a descriptor given by its type descriptors and fields
(no nil entry): when each field has a type and each money type has a
currency, if `performSanityChecks` returns no error then every
type descriptor containing a field with key `id` has `uniqueIdColumn` equal
to `id`, and every descriptor with a type descriptor violating this is
rejected with an error. -/
theorem id_rule_enforced (descriptor : Descriptor) (hwf : descriptor.HasTypes) :
    (performSanityChecks descriptor = .ok none →
      ∀ td ∈ descriptor.TypeDescriptors,
        (∃ f ∈ td.Fields, f.Key = "id") → td.UniqueIdColumn = "id") ∧
    ((∃ td ∈ descriptor.TypeDescriptors,
        (∃ f ∈ td.Fields, f.Key = "id") ∧ td.UniqueIdColumn ≠ "id") →
      ∃ msg, performSanityChecks descriptor = .ok (some msg)) := by
  constructor
  · intro hacc td htd
    exact (errUniqueId_none_iff td).mp
      (((checkTypeDescriptors_none_iff _).mp hacc) td htd).1
  · rintro ⟨td, htd, hex, hne⟩
    refine performSanityChecks_rejects descriptor hwf (fun hall => ?_)
    exact hne ((errUniqueId_none_iff td).mp (hall td htd).1 hex)

/-- Example: the descriptor of the test suite is accepted and its
equipment type descriptor, which has a field keyed `id`, names its
unique-id column `id`. -/
theorem id_rule_enforced_example :
    testDescriptor.HasTypes ∧ performSanityChecks testDescriptor = .ok none ∧
    ∀ td ∈ testDescriptor.TypeDescriptors,
      (∃ f ∈ td.Fields, f.Key = "id") → td.UniqueIdColumn = "id" :=
  ⟨testDescriptor_hasTypes, rfl, (id_rule_enforced testDescriptor testDescriptor_hasTypes).1 rfl⟩

/-- The name rule on a descriptor given by its type descriptors and fields
(no nil entry): when each field has a type and each money type has a
currency, `performSanityChecks` rejects the descriptor with an
error whenever some type descriptor contains a field with key `name` while
its `columnAsOptionName` differs from `name`, and every accepted descriptor
has `columnAsOptionName` equal to `name` in each type descriptor having
such a field. -/
theorem name_rule_enforced (descriptor : Descriptor) (hwf : descriptor.HasTypes) :
    ((∃ td ∈ descriptor.TypeDescriptors,
        (∃ f ∈ td.Fields, f.Key = "name") ∧ td.ColumnAsOptionName ≠ "name") →
      ∃ msg, performSanityChecks descriptor = .ok (some msg)) ∧
    (performSanityChecks descriptor = .ok none →
      ∀ td ∈ descriptor.TypeDescriptors,
        (∃ f ∈ td.Fields, f.Key = "name") → td.ColumnAsOptionName = "name") := by
  constructor
  · rintro ⟨td, htd, hex, hne⟩
    refine performSanityChecks_rejects descriptor hwf (fun hall => ?_)
    exact hne ((errName_none_iff td).mp (hall td htd).2.1 hex)
  · intro hacc td htd
    exact (errName_none_iff td).mp
      (((checkTypeDescriptors_none_iff _).mp hacc) td htd).2.1

/-- Example: a descriptor whose only type descriptor has a field keyed
`name` and the option-name column `title` is rejected with the message of
the name rule. -/
theorem name_rule_enforced_example :
    performSanityChecks
        { TypeDescriptors :=
            [ { Key := "t", TableName := "t", UniqueIdColumn := "id",
                ColumnAsOptionName := "title",
                Fields := [ { Key := "name", FromColumn := "title",
                              Typ := some { Name := "text" } } ] } ] } =
      .ok (some (columnAsOptionNameMessage "t")) ∧
    ∃ msg, performSanityChecks
        { TypeDescriptors :=
            [ { Key := "t", TableName := "t", UniqueIdColumn := "id",
                ColumnAsOptionName := "title",
                Fields := [ { Key := "name", FromColumn := "title",
                              Typ := some { Name := "text" } } ] } ] } = .ok (some msg) :=
  ⟨rfl, (name_rule_enforced
    { TypeDescriptors :=
        [ { Key := "t", TableName := "t", UniqueIdColumn := "id", ColumnAsOptionName := "title",
            Fields := [ { Key := "name", FromColumn := "title",
                          Typ := some { Name := "text" } } ] } ] }
    (by unfold Descriptor.HasTypes; decide)).1
    ⟨_, List.mem_singleton.mpr rfl, ⟨_, List.mem_singleton.mpr rfl, rfl⟩, by decide⟩⟩

/-- C17, counterexample: the descriptor, which has no nil entry, breaks the
id rule in its type descriptor `t` and the currency rule in the money field
`budget`. The error
returned is the one of the id rule, found first, and its message does not
contain the key `budget` of the offending money field. -/
theorem currency_message_counterexample :
    performSanityChecks twoViolationsDescriptor = .ok (some (uniqueIdColumnMessage "t")) ∧
    (Pointer.Descriptor.ofValues twoViolationsDescriptor).noNil = true ∧
    (Pointer.Descriptor.ofValues twoViolationsDescriptor).hasTypes = true ∧
    Pointer.performSanityChecks (Pointer.Descriptor.ofValues twoViolationsDescriptor) =
      .ok (some (uniqueIdColumnMessage "t")) ∧
    ¬NamesKey (uniqueIdColumnMessage "t") "budget" := by
  refine ⟨rfl, by decide, by decide, rfl, fun h => ?_⟩
  have hg := namesKey_chars _ _ h 'g' (by decide)
  revert hg
  decide

/-- The currency rule on a descriptor given by its type descriptors and
fields (no nil entry): for every descriptor in which each field has a type
and each money type has a currency, and which contains a money field whose
`Currency.value` and `Currency.fromColumn` are both non-empty,
`performSanityChecks` returns an error. The error is the one of the first
failing check: when the type descriptors before the field's one are
accepted, the id rule and the name rule of its type descriptor pass and the
fields before it pass, the message is the one of the currency rule, which
contains the type descriptor's key and the field's key. -/
theorem currency_rule_rejects (descriptor : Descriptor) (td : TypeDescriptor) (field : Field)
    (typ : WorkflowType) (cur : Currency)
    (htd : td ∈ descriptor.TypeDescriptors) (hf : field ∈ td.Fields)
    (htyp : field.Typ = some typ) (hm : typ.Name = "money") (hc : typ.Currency = some cur)
    (hv : cur.Value ≠ "") (hcol : cur.FromColumn ≠ "") :
    (descriptor.HasTypes → ∃ msg, performSanityChecks descriptor = .ok (some msg)) ∧
    (∀ (before after : List TypeDescriptor) (fbefore fafter : List Field),
      descriptor.TypeDescriptors = before ++ td :: after →
      td.Fields = fbefore ++ field :: fafter →
      checkTypeDescriptors before = .ok none →
      errUniqueIdColumnAndIdColumnDiffer td = none →
      errColumnAsOptionNameAndNameColumnDiffer td = none →
      checkFields td.Key fbefore = .ok none →
      performSanityChecks descriptor = .ok (some (currencyMessage td.Key field.Key))) ∧
    NamesKey (currencyMessage td.Key field.Key) field.Key ∧
    NamesKey (currencyMessage td.Key field.Key) td.Key := by
  have hfield : checkField field td.Key = .ok (some (currencyMessage td.Key field.Key)) := by
    rw [checkField_of_typ field td.Key typ htyp, if_pos hm, hc]
    simp only
    rw [if_pos ⟨hv, hcol⟩]
  refine ⟨fun hwf => ?_, ?_, ?_, ?_⟩
  · refine performSanityChecks_rejects descriptor hwf (fun hall => ?_)
    have := (checkFields_none_iff td.Key td.Fields).mp (hall td htd).2.2 field hf
    rw [hfield] at this
    cases this
  · intro before after fbefore fafter htds hfields hbefore h1 h2 h3
    unfold performSanityChecks
    rw [htds, checkTypeDescriptors_append _ before hbefore, checkTypeDescriptors]
    simp only [h1, h2]
    rw [hfields, checkFields_append _ _ fbefore h3, checkFields_cons, hfield]
    rfl
  · exact ⟨"Unable to parse descriptor.json: " ++ td.Key ++ ".",
      " specifies a default currency value" ++
        "*and* a fromColumn. You must specify *only* one.", by
      simp [currencyMessage, String.append_assoc]⟩
  · exact ⟨"Unable to parse descriptor.json: ", "." ++ field.Key ++
      " specifies a default currency value" ++
        "*and* a fromColumn. You must specify *only* one.", by
      simp [currencyMessage, String.append_assoc]⟩

/-- Example: a single money field `budget` with both currency sources set
is rejected with the message of the currency rule. -/
theorem currency_rule_rejects_example :
    performSanityChecks
        { TypeDescriptors :=
            [ { Key := "t", TableName := "t", UniqueIdColumn := "id",
                ColumnAsOptionName := "name",
                Fields := [ { Key := "budget",
                              Typ := some { Name := "money",
                                            Currency := some { Value := "EUR",
                                                               FromColumn := "cur" } } } ] } ] } =
      .ok (some (currencyMessage "t" "budget")) :=
  (currency_rule_rejects
    { TypeDescriptors :=
        [ { Key := "t", TableName := "t", UniqueIdColumn := "id", ColumnAsOptionName := "name",
            Fields := [ { Key := "budget",
                          Typ := some { Name := "money",
                                        Currency := some { Value := "EUR",
                                                           FromColumn := "cur" } } } ] } ] }
    { Key := "t", TableName := "t", UniqueIdColumn := "id", ColumnAsOptionName := "name",
      Fields := [ { Key := "budget",
                    Typ := some { Name := "money",
                                  Currency := some { Value := "EUR", FromColumn := "cur" } } } ] }
    { Key := "budget",
      Typ := some { Name := "money", Currency := some { Value := "EUR", FromColumn := "cur" } } }
    { Name := "money", Currency := some { Value := "EUR", FromColumn := "cur" } }
    { Value := "EUR", FromColumn := "cur" }
    (List.mem_singleton.mpr rfl) (List.mem_singleton.mpr rfl) rfl rfl rfl (by decide)
    (by decide)).2.1 [] [] [] [] rfl rfl rfl rfl rfl rfl

/-- C18, counterexample: a descriptor whose money field `cost` sets neither
`Currency.value` nor `Currency.fromColumn` is accepted. -/
theorem currency_neither_counterexample :
    performSanityChecks noCurrencyDescriptor = .ok none ∧
    ∃ td ∈ noCurrencyDescriptor.TypeDescriptors, ∃ f ∈ td.Fields, ∃ typ cur,
      f.Typ = some typ ∧ typ.Name = "money" ∧ typ.Currency = some cur ∧
      cur.Value = "" ∧ cur.FromColumn = "" :=
  ⟨rfl, _, List.mem_singleton.mpr rfl, _, List.mem_singleton.mpr rfl, _, _, rfl, rfl, rfl, rfl,
    rfl⟩

/-- C18, amended: every descriptor accepted by `performSanityChecks` has, for
each money field, a currency sub-mapping with at most one of
`Currency.value` and `Currency.fromColumn` non-empty; a descriptor with a
money field setting both is never accepted, while a money field setting
neither is allowed. -/
theorem currency_at_most_one (descriptor : Descriptor) :
    (performSanityChecks descriptor = .ok none →
      ∀ td ∈ descriptor.TypeDescriptors, ∀ f ∈ td.Fields, ∀ typ, f.Typ = some typ →
        typ.Name = "money" →
        ∃ cur, typ.Currency = some cur ∧ ¬(cur.Value ≠ "" ∧ cur.FromColumn ≠ "")) ∧
    ((∃ td ∈ descriptor.TypeDescriptors, ∃ f ∈ td.Fields, ∃ typ cur, f.Typ = some typ ∧
        typ.Name = "money" ∧ typ.Currency = some cur ∧ cur.Value ≠ "" ∧ cur.FromColumn ≠ "") →
      performSanityChecks descriptor ≠ .ok none) := by
  have hmain : performSanityChecks descriptor = .ok none →
      ∀ td ∈ descriptor.TypeDescriptors, ∀ f ∈ td.Fields, ∀ typ, f.Typ = some typ →
        typ.Name = "money" →
        ∃ cur, typ.Currency = some cur ∧ ¬(cur.Value ≠ "" ∧ cur.FromColumn ≠ "") := by
    intro hacc td htd f hf typ htyp hm
    have hfield := (checkFields_none_iff td.Key td.Fields).mp
      (((checkTypeDescriptors_none_iff _).mp hacc) td htd).2.2 f hf
    obtain ⟨typ2, htyp2, _, hmoney, _⟩ := (checkField_none_iff f td.Key).mp hfield
    rw [htyp] at htyp2
    cases htyp2
    exact hmoney hm
  refine ⟨hmain, ?_⟩
  rintro ⟨td, htd, f, hf, typ, cur, htyp, hm, hc, hv, hcol⟩ hacc
  obtain ⟨cur2, hc2, hnot⟩ := hmain hacc td htd f hf typ htyp hm
  rw [hc] at hc2
  cases hc2
  exact hnot ⟨hv, hcol⟩

/-- C18, witness: the money field `acquisitionCost` of the accepted test
descriptor sets the static currency only. -/
theorem currency_at_most_one_witness :
    performSanityChecks testDescriptor = .ok none ∧
    ∀ td ∈ testDescriptor.TypeDescriptors, ∀ f ∈ td.Fields, ∀ typ, f.Typ = some typ →
      typ.Name = "money" →
      ∃ cur, typ.Currency = some cur ∧ ¬(cur.Value ≠ "" ∧ cur.FromColumn ≠ "") :=
  ⟨rfl, (currency_at_most_one testDescriptor).1 rfl⟩

/-- C19, the code at a failing input: the second field of the descriptor is
a text field without relationship and without `fromColumn`, yet
`performSanityChecks` does not return an error: it dereferences the missing
type of the first field and panics. -/
theorem fromColumn_rule_panics :
    performSanityChecks missingTypeDescriptor = .error Fault.panic ∧
    ∃ td ∈ missingTypeDescriptor.TypeDescriptors, ∃ f ∈ td.Fields, ∃ typ,
      f.Typ = some typ ∧ typ.Name ≠ "money" ∧ f.Relationship = none ∧ f.FromColumn = "" :=
  ⟨rfl, _, List.mem_singleton.mpr rfl,
    { Key := "b", Typ := some { Name := "text" } }, by decide, _, rfl, by decide, rfl, rfl⟩

/-- C20, the code at a failing input: the first field of the descriptor
declares no type and the second a type whose name is empty, yet
`performSanityChecks` does not return an error: the first check
dereferences the missing type and panics. A descriptor with only a field of
empty type name is rejected with the message of the type-name rule. -/
theorem typeName_rule_panics :
    performSanityChecks untypedFieldDescriptor = .error Fault.panic ∧
    (∃ td ∈ untypedFieldDescriptor.TypeDescriptors, ∃ f ∈ td.Fields, f.Typ = none) ∧
    (∃ td ∈ untypedFieldDescriptor.TypeDescriptors, ∃ f ∈ td.Fields, ∃ typ,
      f.Typ = some typ ∧ typ.Name = "") ∧
    performSanityChecks emptyTypeNameDescriptor = .ok (some (typeNameMessage "a")) :=
  ⟨rfl, ⟨_, List.mem_singleton.mpr rfl, { Key := "a", FromColumn := "a" }, by decide, rfl⟩,
    ⟨_, List.mem_singleton.mpr rfl, { Key := "b", FromColumn := "b", Typ := some { } },
      by decide, _, rfl, rfl⟩, rfl⟩

/-- What acceptance means for the fromColumn rule and the type-name rule:
every field of an accepted descriptor has a non-empty type name, and a
non-empty `fromColumn` unless it is a money field or carries a relationship;
among descriptors whose fields all have types, one that breaks either rule
is rejected with an error. -/
theorem accepted_fields (descriptor : Descriptor) :
    (performSanityChecks descriptor = .ok none →
      ∀ td ∈ descriptor.TypeDescriptors, ∀ f ∈ td.Fields,
        ∃ typ, f.Typ = some typ ∧ typ.Name ≠ "" ∧
          (typ.Name ≠ "money" → f.Relationship = none → f.FromColumn ≠ "")) ∧
    (descriptor.HasTypes →
      (∃ td ∈ descriptor.TypeDescriptors, ∃ f ∈ td.Fields, ∃ typ, f.Typ = some typ ∧
        (typ.Name = "" ∨
          (typ.Name ≠ "money" ∧ f.Relationship = none ∧ f.FromColumn = ""))) →
      ∃ msg, performSanityChecks descriptor = .ok (some msg)) := by
  constructor
  · intro hacc td htd f hf
    have hfield := (checkFields_none_iff td.Key td.Fields).mp
      (((checkTypeDescriptors_none_iff _).mp hacc) td htd).2.2 f hf
    obtain ⟨typ, htyp, hn, _, hcol⟩ := (checkField_none_iff f td.Key).mp hfield
    exact ⟨typ, htyp, hn, hcol⟩
  · rintro hwf ⟨td, htd, f, hf, typ, htyp, hbad⟩
    refine performSanityChecks_rejects descriptor hwf (fun hall => ?_)
    have hfield := (checkFields_none_iff td.Key td.Fields).mp (hall td htd).2.2 f hf
    obtain ⟨typ2, htyp2, hn, _, hcol⟩ := (checkField_none_iff f td.Key).mp hfield
    rw [htyp] at htyp2
    cases htyp2
    rcases hbad with h | ⟨h1, h2, h3⟩
    · exact hn h
    · exact hcol h1 h2 h3

/-! ## C11 – C14: scalar fields, dates and option projection -/

/-- Text fields and fields of any other type: a field that is neither the
option-name nor the unique-id column, not money, and not of kind datetime,
date or time is emitted under its key, with nil when the row holds no value,
with `stringify` of the value for a text field and with the value itself
otherwise. -/
theorem text_and_other_fields (tds : List TypeDescriptor) (formatted queryResults row : GoMap)
    (table : String) (field : Field) (td : TypeDescriptor) (typ : WorkflowType)
    (htd : GetTypeDescriptorUsingDBTableName tds table = some td)
    (hrow : queryResults.get table = Value.map row)
    (hopt : field.FromColumn ≠ td.ColumnAsOptionName)
    (huid : field.FromColumn ≠ td.UniqueIdColumn)
    (htyp : field.Typ = some typ) (hmoney : typ.Name ≠ "money")
    (hkind : typ.Kind ≠ "datetime" ∧ typ.Kind ≠ "date" ∧ typ.Kind ≠ "time") :
    buildResultFromQueryResultsWithoutRelationships tds formatted queryResults table field =
      .ok (formatted.set field.Key
        (if (row.get field.FromColumn).isNil = true then Value.null
         else if typ.Name = "text" then stringify (row.get field.FromColumn)
         else row.get field.FromColumn)) := by
  have hrow2 := rowOf_eq_of_get hrow
  have hd : ¬(typ.Kind = "date" ∨ typ.Kind = "time") := fun h => h.elim hkind.2.1 hkind.2.2
  unfold buildResultFromQueryResultsWithoutRelationships
  simp only [deref_eq_ok htd, deref_eq_ok htyp, ok_bind, if_neg hopt, if_neg huid,
    if_neg hmoney, if_neg hkind.1, if_neg hd]
  by_cases ht : typ.Name = "text"
  · simp only [if_pos ht, buildForFieldTypeText, hrow2, ok_bind]
    cases (row.get field.FromColumn).isNil <;> simp
  · simp only [if_neg ht, buildForFieldTypeOther, hrow2, ok_bind]
    cases (row.get field.FromColumn).isNil <;> simp

/-- C11, the code at a failing input: the text field `active` is mapped to
a boolean column; the row holds the non-nil scalar `true` there, and the
field is emitted with nil instead of a string, because `stringify` has no
case for booleans. The field `verified` of another type emits the value
unchanged, and a column without value is emitted as nil. -/
theorem text_field_of_boolean :
    flagsRow.get "active" = Value.bool true ∧
    buildResultFromQueryResultsWithoutRelationships flagsTypeDescriptors []
        [("users", Value.map flagsRow)] "users"
        { Key := "active", FromColumn := "active", Typ := some { Name := "text" } } =
      .ok [("active", Value.null)] ∧
    buildResultFromQueryResultsWithoutRelationships flagsTypeDescriptors []
        [("users", Value.map flagsRow)] "users"
        { Key := "verified", FromColumn := "verified", Typ := some { Name := "boolean" } } =
      .ok [("verified", Value.bool true)] ∧
    buildResultFromQueryResultsWithoutRelationships flagsTypeDescriptors []
        [("users", Value.map [])] "users"
        { Key := "active", FromColumn := "active", Typ := some { Name := "text" } } =
      .ok [("active", Value.null)] :=
  ⟨rfl, rfl, rfl, rfl⟩

/-- C12: for every timestamp `t` held by the column of a date- or time-kind
field, `buildForFieldTypeDateOrTime` emits the wall-clock fields of `t` in
the zone of `t`: the text starts with the local calendar date of `t`, it is
the same for every timestamp showing the same wall clock, and no conversion
to UTC takes place; 2006-01-02T00:00:00+01:00 is emitted as
`2006-01-02T00:00:00.000Z`, whereas its conversion to UTC would read
`2006-01-01T23:00:00.000Z`. -/
theorem dateOrTime_keeps_wall_clock (formatted queryResults row : GoMap) (table : String)
    (field : Field) (t : Time)
    (hrow : queryResults.get table = Value.map row)
    (hv : row.get field.FromColumn = Value.time t) :
    buildForFieldTypeDateOrTime formatted queryResults table field =
      .ok (formatted.set field.Key (Value.str t.formatMillisZ)) ∧
    (∃ rest, t.formatMillisZ =
      appendInt t.date.1 4 ++ "-" ++ appendInt t.date.2.1 2 ++ "-" ++ appendInt t.date.2.2 2 ++
        rest) ∧
    (∀ t2 : Time, t2.wallSec = t.wallSec → t2.nsec = t.nsec →
      t2.formatMillisZ = t.formatMillisZ) ∧
    januarySecondCET.formatMillisZ = "2006-01-02T00:00:00.000Z" ∧
    januarySecondCET.UTC.formatMillisZ = "2006-01-01T23:00:00.000Z" := by
  refine ⟨?_, ?_, ?_, by decide, by decide⟩
  · simp [buildForFieldTypeDateOrTime, rowOf_eq_of_get hrow, hv, Value.isNil, Value.asTime]
  · exact ⟨"T" ++ appendInt t.clock.1 2 ++ ":" ++ appendInt t.clock.2.1 2 ++ ":" ++
      appendInt t.clock.2.2 2 ++ "." ++ String.mk ((padZeros t.nsec 9).toList.take 3) ++ "Z",
      by simp [Time.formatMillisZ, String.append_assoc]⟩
  · intro t2 hw hn
    simp [Time.formatMillisZ, Time.date, Time.clock, hw, hn]

/-- C12, witness: a purchase date of 2006-01-02T00:00:00+01:00. -/
theorem dateOrTime_keeps_wall_clock_witness :
    buildForFieldTypeDateOrTime []
        [("equipment", Value.map [("purchase_date", Value.time januarySecondCET)])] "equipment"
        { Key := "purchaseDate", FromColumn := "purchase_date",
          Typ := some { Name := "date", Kind := "date" } } =
      .ok (GoMap.set [] "purchaseDate" (Value.str januarySecondCET.formatMillisZ)) ∧
    januarySecondCET.formatMillisZ = "2006-01-02T00:00:00.000Z" :=
  ⟨(dateOrTime_keeps_wall_clock []
      [("equipment", Value.map [("purchase_date", Value.time januarySecondCET)])]
      [("purchase_date", Value.time januarySecondCET)] "equipment"
      { Key := "purchaseDate", FromColumn := "purchase_date",
        Typ := some { Name := "date", Kind := "date" } }
      januarySecondCET rfl rfl).1, by decide⟩

theorem stringifyAll_rows (tableName : String) :
    ∀ rows : List GoMap,
      stringifyAll tableName (rows.map Value.map) =
        .ok (rows.map (fun r => stringify (r.get tableName)))
  | [] => rfl
  | r :: rest => by
    simp [stringifyAll, Value.asMap, stringifyAll_rows tableName rest]

theorem subsetForPerformance_eq (xs : List Value) : subsetForPerformance xs = xs.take 42 := by
  unfold subsetForPerformance
  split
  · rfl
  · exact (List.take_of_length_le (by omega)).symm

/-- C13: for every result list of `n` rows the collection-as-options
formatter encodes exactly `min n 42` entries, the `i`-th entry being
`stringify` of the `i`-th row's entry under the table name, in the original
order (for `n = 0` it returns the text of the empty sequence);
`subsetForPerformance` returns its input unchanged when it has at most 42
elements and its first 42 elements otherwise. -/
theorem options_capped (marshalIndent : Marshal) (tds : List TypeDescriptor) (fuel : Nat)
    (ctx : Ctx) (tableName : String) (rows : List GoMap)
    (htable : ctx.table = some tableName) :
    GetCollectionAsOptions.Format marshalIndent tds fuel ctx (rows.map Value.map) =
      .ok (if rows.length = 0 then .ok "[]"
           else marshalIndent (Value.slice
             ((rows.map (fun r => stringify (r.get tableName))).take 42))) ∧
    ((rows.map (fun r => stringify (r.get tableName))).take 42).length = min rows.length 42 ∧
    (∀ (i : Nat) (r : GoMap), i < 42 → rows[i]? = some r →
      ((rows.map (fun r => stringify (r.get tableName))).take 42)[i]? =
        some (stringify (r.get tableName))) ∧
    (∀ xs : List Value, (xs.length ≤ 42 → subsetForPerformance xs = xs) ∧
      (42 < xs.length → subsetForPerformance xs = xs.take 42)) := by
  refine ⟨?_, ?_, ?_, ?_⟩
  · simp only [GetCollectionAsOptions, Formatter.Format, getCollectionAsOptionsFormatter.Format,
      deref_eq_ok htable, ok_bind, List.length_map, stringifyAll_rows, pure_eq_ok,
      subsetForPerformance_eq]
    split <;> rfl
  · simp [List.length_take, Nat.min_comm]
  · intro i r hi hr
    rw [List.getElem?_take_of_lt hi, List.getElem?_map, hr]
    rfl
  · intro xs
    constructor
    · intro h
      rw [subsetForPerformance_eq, List.take_of_length_le h]
    · intro _
      exact subsetForPerformance_eq xs

/-- C13, witness: one hundred option rows of the equipment table are
reduced to 42 entries. -/
theorem options_capped_witness :
    (((optionRows "equipment" 100).map
      (fun r => stringify (r.get "equipment"))).take 42).length = 42 := by
  have h := (options_capped (fun _ => .ok "") [] 0
    { table := some "equipment", currentRoute := some "GetCollectionAsOptions" } "equipment"
    (optionRows "equipment" 100) rfl).2.1
  have hl : (optionRows "equipment" 100).length = 100 := rfl
  rw [h, hl]
  rfl

/-- C14, the code at a failing input: `stringify` returns nil for the
non-nil boolean `true`, and in an `id`, `name` map the boolean entry
becomes nil while the key is kept. For integers, floats, strings and
timestamps it returns a string, for nil it returns nil, and maps are
converted entry by entry. -/
theorem stringify_boolean :
    stringify (Value.bool true) = Value.null ∧
    stringify (Value.map [("id", Value.int64 1), ("name", Value.bool true)]) =
      Value.map [("id", Value.str "1"), ("name", Value.null)] ∧
    (∀ i, stringify (Value.int64 i) = Value.str (sprintfD i)) ∧
    (∀ f, stringify (Value.float64 f) = Value.str (sprintfF f)) ∧
    (∀ s, stringify (Value.str s) = Value.str s) ∧
    (∀ t : Time, stringify (Value.time t) = Value.str t.String) ∧
    stringify Value.null = Value.null ∧
    (∀ kvs, stringify (Value.map kvs) = Value.map (stringifyEntries kvs)) :=
  ⟨rfl, rfl, fun _ => rfl, fun _ => rfl, fun _ => rfl, fun _ => rfl, rfl, fun _ => rfl⟩

/-! ## C21 – C25: fail-fast validation, loading and lookups -/

theorem firstFailure_append (l1 l2 : List (Except Fault (Option String))) :
    firstFailure (l1 ++ l2) =
      (match firstFailure l1 with
       | .ok none => firstFailure l2
       | outcome => outcome) := by
  induction l1 with
  | nil => simp [firstFailure]
  | cons c rest ih =>
    cases c with
    | error e => simp [firstFailure]
    | ok r =>
      cases r with
      | none => simpa [firstFailure] using ih
      | some msg => simp [firstFailure]

theorem firstFailure_passed (pre : List (Except Fault (Option String)))
    (h : ∀ x ∈ pre, x = .ok none) : firstFailure pre = .ok none := by
  induction pre with
  | nil => rfl
  | cons c rest ih =>
    rw [h c (List.mem_cons_self _ _)]
    simpa [firstFailure] using ih (fun x hx => h x (List.mem_cons_of_mem _ hx))

theorem checkField_eq_firstFailure (field : Field) (td : String) :
    checkField field td = firstFailure (fieldChecks td field) := by
  unfold checkField fieldChecks
  cases h1 : errCurrencyHasDefaultValue field td with
  | error e => simp [firstFailure]
  | ok r1 =>
    cases r1 with
    | some msg => simp [firstFailure]
    | none =>
      cases h2 : errFromColumnPropertyIsMissing field with
      | error e => simp [firstFailure]
      | ok r2 =>
        cases r2 with
        | some msg => simp [firstFailure]
        | none =>
          cases h3 : errTypeNameIsMissing field with
          | error e => simp [firstFailure]
          | ok r3 => cases r3 <;> simp [firstFailure]

theorem checkFields_eq_firstFailure (td : String) :
    ∀ fields : List Field,
      checkFields td fields = firstFailure (fields.flatMap (fieldChecks td))
  | [] => rfl
  | field :: rest => by
    rw [checkFields_cons, List.flatMap_cons, firstFailure_append,
      ← checkField_eq_firstFailure, ← checkFields_eq_firstFailure td rest]
    cases checkField field td with
    | error e => rfl
    | ok r => cases r <;> rfl

theorem checkTypeDescriptors_eq_firstFailure :
    ∀ tds : List TypeDescriptor,
      checkTypeDescriptors tds = firstFailure (tds.flatMap typeDescriptorChecks)
  | [] => rfl
  | td :: rest => by
    rw [checkTypeDescriptors, List.flatMap_cons, firstFailure_append,
      ← checkTypeDescriptors_eq_firstFailure rest]
    unfold typeDescriptorChecks
    cases h1 : errUniqueIdColumnAndIdColumnDiffer td with
    | some msg => simp [firstFailure]
    | none =>
      cases h2 : errColumnAsOptionNameAndNameColumnDiffer td with
      | some msg => simp [firstFailure]
      | none =>
        have hf := checkFields_eq_firstFailure td.Key td.Fields
        simp only [List.cons_append, List.nil_append, firstFailure, List.append_eq]
        rw [← hf]
        cases checkFields td.Key td.Fields with
        | error e => rfl
        | ok r => cases r <;> rfl

/-- C21: `performSanityChecks` is fail-fast. Its outcome is the outcome of
the first check that does not pass, the checks being taken in traversal
order: type descriptors in list order and, within one, the id rule, the
name rule, then for each field in declaration order the currency rule, the
fromColumn rule and the type-name rule. Hence, once the checks before a
failing check pass, the outcome is that of the failing check whatever the
later checks examine. -/
theorem performSanityChecks_fail_fast :
    (∀ descriptor : Descriptor,
      performSanityChecks descriptor = firstFailure (allChecks descriptor)) ∧
    (∀ (pre rest : List (Except Fault (Option String))) (c : Except Fault (Option String)),
      (∀ x ∈ pre, x = .ok none) → c ≠ .ok none → firstFailure (pre ++ c :: rest) = c) := by
  constructor
  · intro descriptor
    exact checkTypeDescriptors_eq_firstFailure descriptor.TypeDescriptors
  · intro pre rest c hpre hc
    rw [firstFailure_append, firstFailure_passed pre hpre]
    cases c with
    | error e => rfl
    | ok r =>
      cases r with
      | none => exact absurd rfl hc
      | some msg => rfl

/-- C21, witness: the descriptor breaks the id rule and, in a later check,
the currency rule; the error returned is the one of the id rule. -/
theorem performSanityChecks_fail_fast_witness :
    performSanityChecks twoViolationsDescriptor = .ok (some (uniqueIdColumnMessage "t")) ∧
    firstFailure ([] ++ (.ok (some (uniqueIdColumnMessage "t")) ::
        (allChecks twoViolationsDescriptor).drop 1)) =
      .ok (some (uniqueIdColumnMessage "t")) :=
  ⟨rfl, performSanityChecks_fail_fast.2 [] ((allChecks twoViolationsDescriptor).drop 1)
    (.ok (some (uniqueIdColumnMessage "t"))) (fun _ h => absurd h (List.not_mem_nil _))
    (by simp)⟩

/-- C22: the descriptor of the test suite, with the type descriptors
equipment and recipes built from `commonEquipmentDescriptorFields` and
`commonRecipesDescriptorFields` (a static-currency money field, a date
field and the two relationship fields without `fromColumn`), is accepted by
`performSanityChecks` with no error. -/
theorem test_descriptor_accepted :
    performSanityChecks testDescriptor = .ok none ∧
    testDescriptor.TypeDescriptors.map (fun td => (td.Key, td.Fields)) =
      [("equipment", commonEquipmentDescriptorFields),
       ("recipes", commonRecipesDescriptorFields)] :=
  ⟨rfl, rfl⟩

/-- C23, the code at a failing input: the decoded descriptor is valid and
its type descriptor has no field keyed `id`; `ParseDescriptorFile` returns
it as decoded, so the returned type descriptor still has no field keyed
`id`, although the comment on the function promises to add one. -/
theorem parseDescriptorFile_adds_no_id (content : String) :
    ParseDescriptorFile (fun _ => .ok (some noIdFieldDescriptor)) (.ok content) =
      .ok noIdFieldDescriptor ∧
    performSanityChecks noIdFieldDescriptor = .ok none ∧
    (noIdFieldDescriptor.TypeDescriptors.all
      (fun td => td.Fields.all (fun f => f.Key != "id"))) = true :=
  ⟨rfl, rfl, by decide⟩

theorem lookup_foldl_some (tableName : String) :
    ∀ (tds : List TypeDescriptor) (init : Option TypeDescriptor),
      tds.foldl (fun td typeDescriptor =>
          if tableName = typeDescriptor.TableName then some typeDescriptor else td) init =
        match GetTypeDescriptorUsingDBTableName tds tableName with
        | some td => some td
        | none => init := by
  intro tds
  induction tds using List.reverseRecOn with
  | nil => intro init; rfl
  | append_singleton rest last ih =>
    intro init
    unfold GetTypeDescriptorUsingDBTableName at ih ⊢
    rw [List.foldl_append, List.foldl_append]
    simp only [List.foldl_cons, List.foldl_nil]
    by_cases h : tableName = last.TableName
    · simp [h]
    · simp only [h, if_false]
      exact ih init

theorem lookup_append_singleton (tds : List TypeDescriptor) (last : TypeDescriptor)
    (tableName : String) :
    GetTypeDescriptorUsingDBTableName (tds ++ [last]) tableName =
      if tableName = last.TableName then some last
      else GetTypeDescriptorUsingDBTableName tds tableName := by
  unfold GetTypeDescriptorUsingDBTableName
  rw [List.foldl_append]
  rfl

theorem lookup_none_iff (tableName : String) :
    ∀ tds : List TypeDescriptor,
      GetTypeDescriptorUsingDBTableName tds tableName = none ↔
        ∀ td ∈ tds, td.TableName ≠ tableName := by
  intro tds
  induction tds using List.reverseRecOn with
  | nil => simp [GetTypeDescriptorUsingDBTableName]
  | append_singleton rest last ih =>
    rw [lookup_append_singleton]
    by_cases h : tableName = last.TableName
    · simp only [h, if_true, reduceCtorEq, false_iff, not_forall]
      exact ⟨last, by simp, by simp⟩
    · rw [if_neg h, ih]
      constructor
      · intro hall td htd
        rcases List.mem_append.mp htd with hm | hm
        · exact hall td hm
        · rw [List.mem_singleton.mp hm]
          exact fun hc => h hc.symm
      · intro hall td htd
        exact hall td (List.mem_append_left _ htd)

theorem lookup_some_iff (tableName : String) (td : TypeDescriptor) :
    ∀ tds : List TypeDescriptor,
      GetTypeDescriptorUsingDBTableName tds tableName = some td ↔
        ∃ pre post, tds = pre ++ td :: post ∧ td.TableName = tableName ∧
          ∀ t ∈ post, t.TableName ≠ tableName := by
  intro tds
  induction tds using List.reverseRecOn with
  | nil => simp [GetTypeDescriptorUsingDBTableName]
  | append_singleton rest last ih =>
    rw [lookup_append_singleton]
    by_cases h : tableName = last.TableName
    · rw [if_pos h]
      constructor
      · intro hs
        cases hs
        exact ⟨rest, [], rfl, h.symm, fun _ hm => absurd hm (List.not_mem_nil _)⟩
      · rintro ⟨pre, post, heq, hname, hpost⟩
        rcases List.eq_nil_or_concat post with hp | ⟨init, x, hp⟩
        · subst hp
          have := List.append_inj_right' heq rfl
          cases this
          rfl
        · subst hp
          rw [List.concat_eq_append] at heq hpost
          rw [← List.cons_append, ← List.append_assoc] at heq
          have hx := List.append_inj_right' heq rfl
          cases hx
          exact absurd h.symm (hpost last (by simp))
    · rw [if_neg h, ih]
      constructor
      · rintro ⟨pre, post, heq, hname, hpost⟩
        refine ⟨pre, post ++ [last], by simp [heq], hname, ?_⟩
        intro t ht
        rcases List.mem_append.mp ht with hm | hm
        · exact hpost t hm
        · rw [List.mem_singleton.mp hm]
          exact fun hc => h hc.symm
      · rintro ⟨pre, post, heq, hname, hpost⟩
        rcases List.eq_nil_or_concat post with hp | ⟨init, x, hp⟩
        · subst hp
          have := List.append_inj_right' heq rfl
          cases this
          exact absurd hname.symm h
        · subst hp
          rw [List.concat_eq_append] at heq hpost
          rw [← List.cons_append, ← List.append_assoc] at heq
          have hx := List.append_inj_right' heq rfl
          have hl := List.append_inj_left' heq rfl
          cases hx
          exact ⟨pre, init, hl, hname, fun t ht => hpost t (List.mem_append_left _ ht)⟩

/-- The lookup on a list of type descriptors (a slice without nil entry):
for every table name,
`GetTypeDescriptorUsingDBTableName` returns the type descriptor at the
greatest index whose `TableName` equals the name: the list splits into a
part before it and a part after it in which no table name matches; it
returns nil exactly when no element matches. -/
theorem lookup_returns_last_match (tds : List TypeDescriptor) (tableName : String) :
    (GetTypeDescriptorUsingDBTableName tds tableName = none ↔
      ∀ td ∈ tds, td.TableName ≠ tableName) ∧
    (∀ td, GetTypeDescriptorUsingDBTableName tds tableName = some td ↔
      ∃ pre post, tds = pre ++ td :: post ∧ td.TableName = tableName ∧
        ∀ t ∈ post, t.TableName ≠ tableName) ∧
    (∀ td, GetTypeDescriptorUsingDBTableName tds tableName = some td →
      ∃ i, tds[i]? = some td ∧ td.TableName = tableName ∧
        ∀ (j : Nat) (t : TypeDescriptor), i < j → tds[j]? = some t →
          t.TableName ≠ tableName) := by
  refine ⟨lookup_none_iff tableName tds, fun td => lookup_some_iff tableName td tds, ?_⟩
  intro td h
  obtain ⟨pre, post, heq, hname, hpost⟩ := (lookup_some_iff tableName td tds).mp h
  refine ⟨pre.length, ?_, hname, ?_⟩
  · rw [heq, List.getElem?_append_right (Nat.le_refl _), Nat.sub_self]
    exact List.getElem?_cons_zero
  intro j t hij hj
  rw [heq, List.getElem?_append_right (by omega)] at hj
  have hpos : 0 < j - pre.length := by omega
  obtain ⟨k, hk⟩ := Nat.exists_eq_succ_of_ne_zero (Nat.pos_iff_ne_zero.mp hpos)
  rw [hk, List.getElem?_cons_succ] at hj
  exact hpost t (List.getElem?_mem hj)

/-- Example: with two type descriptors for the table `equipment` the second
one is returned. -/
theorem lookup_returns_last_match_example :
    GetTypeDescriptorUsingDBTableName
        [ { Key := "first", TableName := "equipment" },
          { Key := "second", TableName := "equipment" },
          { Key := "third", TableName := "recipes" } ] "equipment" =
      some { Key := "second", TableName := "equipment" } ∧
    ∃ pre post, ([ { Key := "first", TableName := "equipment" },
                   { Key := "second", TableName := "equipment" },
                   { Key := "third", TableName := "recipes" } ] : List TypeDescriptor) =
        pre ++ { Key := "second", TableName := "equipment" } :: post ∧
      ({ Key := "second", TableName := "equipment" } : TypeDescriptor).TableName = "equipment" ∧
      ∀ t ∈ post, t.TableName ≠ "equipment" :=
  ⟨rfl, ((lookup_returns_last_match
    [ { Key := "first", TableName := "equipment" },
      { Key := "second", TableName := "equipment" },
      { Key := "third", TableName := "recipes" } ] "equipment").2.1
    { Key := "second", TableName := "equipment" }).mp rfl⟩

/-- The relationship fields of a type descriptor given by its fields (a
slice without nil entry): `TypeDescriptorRelationships` returns
exactly the fields whose `Relationship` is set and
`withRelationshipFieldsOmitted` (for the type descriptor's table) exactly
the remaining fields, both in declaration order; the two results partition
the field list. -/
theorem relationship_fields_partition (tds : List TypeDescriptor) (table : String)
    (td : TypeDescriptor)
    (htd : GetTypeDescriptorUsingDBTableName tds table = some td) :
    (∀ f, f ∈ TypeDescriptorRelationships td ↔ f ∈ td.Fields ∧ f.Relationship ≠ none) ∧
    (TypeDescriptorRelationships td).Sublist td.Fields ∧
    ∃ omitted, withRelationshipFieldsOmitted tds table = .ok omitted ∧
      (∀ f, f ∈ omitted ↔ f ∈ td.Fields ∧ f.Relationship = none) ∧
      omitted.Sublist td.Fields ∧
      (∀ f ∈ td.Fields, (f ∈ TypeDescriptorRelationships td ∧ f ∉ omitted) ∨
        (f ∉ TypeDescriptorRelationships td ∧ f ∈ omitted)) ∧
      (TypeDescriptorRelationships td).length + omitted.length = td.Fields.length ∧
      List.Perm (TypeDescriptorRelationships td ++ omitted) td.Fields := by
  have hrel : ∀ f, f ∈ TypeDescriptorRelationships td ↔
      f ∈ td.Fields ∧ f.Relationship ≠ none := by
    intro f
    simp [TypeDescriptorRelationships, List.mem_filter, Option.isSome_iff_ne_none]
  have hom : ∀ f, f ∈ td.Fields.filter (fun field => field.Relationship.isNone) ↔
      f ∈ td.Fields ∧ f.Relationship = none := by
    intro f
    simp [List.mem_filter]
  have hperm : List.Perm (TypeDescriptorRelationships td ++
      td.Fields.filter (fun field => field.Relationship.isNone)) td.Fields := by
    have h := List.filter_append_perm (fun field : Field => field.Relationship.isSome) td.Fields
    have hnot : (fun field : Field => !field.Relationship.isSome) =
        (fun field : Field => field.Relationship.isNone) := by
      funext field
      cases field.Relationship <;> rfl
    simp only [hnot] at h
    exact h
  refine ⟨hrel, List.filter_sublist _, _, withRelationshipFieldsOmitted_eq tds table td htd,
    hom, List.filter_sublist _, ?_, ?_, hperm⟩
  · intro f hf
    by_cases h : f.Relationship = none
    · exact Or.inr ⟨fun hc => ((hrel f).mp hc).2 h, (hom f).mpr ⟨hf, h⟩⟩
    · exact Or.inl ⟨(hrel f).mpr ⟨hf, h⟩, fun hc => h ((hom f).mp hc).2⟩
  · have := hperm.length_eq
    rw [List.length_append] at this
    exact this

/-- Example: the equipment type descriptor of the test suite has the
relationship field `recipes` and four other fields. -/
theorem relationship_fields_partition_example :
    TypeDescriptorRelationships
        { Key := "equipment", Name := "Equipment", TableName := "equipment",
          ColumnAsOptionName := "name", UniqueIdColumn := "id",
          Fields := commonEquipmentDescriptorFields } = [recipesField] ∧
    withRelationshipFieldsOmitted testTypeDescriptors "equipment" = .ok ovenFields ∧
    ∃ omitted, withRelationshipFieldsOmitted testTypeDescriptors "equipment" = .ok omitted ∧
      List.Perm (TypeDescriptorRelationships
        { Key := "equipment", Name := "Equipment", TableName := "equipment",
          ColumnAsOptionName := "name", UniqueIdColumn := "id",
          Fields := commonEquipmentDescriptorFields } ++ omitted)
        commonEquipmentDescriptorFields := by
  refine ⟨rfl, rfl, ?_⟩
  obtain ⟨omitted, h1, _, _, _, _, h6⟩ := (relationship_fields_partition testTypeDescriptors
    "equipment"
    { Key := "equipment", Name := "Equipment", TableName := "equipment",
      ColumnAsOptionName := "name", UniqueIdColumn := "id",
      Fields := commonEquipmentDescriptorFields } rfl).2.2
  exact ⟨omitted, h1, h6⟩

/-! ## C26 – C28: type classification -/

/-- C26: `convertFromSqliteDataType("DOUBLE PRECISION")` returns the float
container and `ConvertFromSqlserverDataType("MONEY")` returns the float
container. -/
theorem classify_double_precision_and_money :
    sqlite.convertFromSqliteDataType "DOUBLE PRECISION" = Container.NullFloat64 ∧
    sqlserver.ConvertFromSqlserverDataType "MONEY" = Container.NullFloat64 := by
  constructor <;> decide

theorem toUpperRune_idem (c : Char) : toUpperRune (toUpperRune c) = toUpperRune c := by
  by_cases h : 97 ≤ c.toNat ∧ c.toNat ≤ 122
  · have hc : toUpperRune c = Char.ofNat (c.toNat - 32) := by simp [toUpperRune, h]
    rw [hc]
    obtain ⟨n, hn, hl, hu⟩ : ∃ n, c.toNat = n ∧ 97 ≤ n ∧ n ≤ 122 := ⟨_, rfl, h.1, h.2⟩
    rw [hn]
    interval_cases n <;> decide
  · by_cases h1 : c.toNat = 0x131
    · have hc : toUpperRune c = 'I' := by simp [toUpperRune, h1]
      rw [hc]
      decide
    · by_cases h2 : c.toNat = 0x17F
      · have hc : toUpperRune c = 'S' := by simp [toUpperRune, h2]
        rw [hc]
        decide
      · have hc : toUpperRune c = c := by simp [toUpperRune, h, h1, h2]
        rw [hc, hc]

theorem toUpperRune_toLowerRune (c : Char) (hascii : c.toNat < 128) :
    toUpperRune (toLowerRune c) = toUpperRune c := by
  by_cases h : 65 ≤ c.toNat ∧ c.toNat ≤ 90
  · have hc : toLowerRune c = Char.ofNat (c.toNat + 32) := by simp [toLowerRune, h]
    have hself : c = Char.ofNat c.toNat := (Char.ofNat_toNat c).symm
    rw [hc]
    obtain ⟨n, hn, hl, hu⟩ : ∃ n, c.toNat = n ∧ 65 ≤ n ∧ n ≤ 90 := ⟨_, rfl, h.1, h.2⟩
    rw [hself, hn]
    interval_cases n <;> decide
  · have hc : toLowerRune c = c := by
      unfold toLowerRune
      rw [if_neg h, if_neg (by omega), if_neg (by omega)]
    rw [hc]

theorem ToUpper_idem (s : String) : ToUpper (ToUpper s) = ToUpper s := by
  simp only [ToUpper, List.map_map]
  exact congrArg String.mk (List.map_congr_left (fun c _ => toUpperRune_idem c))

theorem ToUpper_ToLower (s : String) (hascii : ∀ c ∈ s.data, c.toNat < 128) :
    ToUpper (ToLower s) = ToUpper s := by
  simp only [ToUpper, ToLower, List.map_map]
  exact congrArg String.mk
    (List.map_congr_left (fun c hc => toUpperRune_toLowerRune c (hascii c hc)))

theorem isOfDataType_congr (ts : List String) (s1 s2 : String) (h : ToUpper s1 = ToUpper s2) :
    isOfDataType ts s1 = isOfDataType ts s2 := by
  induction ts with
  | nil => rfl
  | cons t rest ih => simp [isOfDataType, h, ih]

theorem classifyChain_congr (cases : List (List String × Container)) (dflt : Container)
    (s1 s2 : String) (h : ToUpper s1 = ToUpper s2) :
    classifyChain cases dflt s1 = classifyChain cases dflt s2 := by
  induction cases with
  | nil => rfl
  | cons c rest ih =>
    obtain ⟨family, container⟩ := c
    simp [classifyChain, isOfDataType_congr family s1 s2 h, ih]

theorem sqlite_eq_chain (s : String) :
    sqlite.convertFromSqliteDataType s = classifyChain sqlite.cases Container.NullString s := rfl

theorem sqlserver_eq_chain (s : String) :
    sqlserver.ConvertFromSqlserverDataType s =
      classifyChain sqlserver.cases Container.NullString s := rfl

theorem startsWithChars_iff (s t : List Char) : startsWithChars s t = true ↔ t <+: s := by
  induction t generalizing s with
  | nil => simp [startsWithChars]
  | cons d t ih =>
    cases s with
    | nil => simp [startsWithChars]
    | cons c s =>
      simp only [startsWithChars, Bool.and_eq_true, beq_iff_eq, ih, List.cons_prefix_cons]
      constructor
      · rintro ⟨h1, h2⟩
        exact ⟨h1.symm, h2⟩
      · rintro ⟨h1, h2⟩
        exact ⟨h1.symm, h2⟩

theorem isOfDataType_iff (ts : List String) (s : String) :
    isOfDataType ts s = true ↔ ∃ t ∈ ts, t.data <+: (ToUpper s).data := by
  induction ts with
  | nil => simp [isOfDataType]
  | cons t rest ih =>
    by_cases h : startsWith (ToUpper s) t = true
    · have hp := (startsWithChars_iff _ _).mp h
      simp only [isOfDataType, h, if_true, true_iff]
      exact ⟨t, List.mem_cons_self _ _, hp⟩
    · have hp : ¬ t.data <+: (ToUpper s).data := fun hp => h ((startsWithChars_iff _ _).mpr hp)
      have hf : startsWith (ToUpper s) t = false := by simpa using h
      rw [isOfDataType, hf]
      simp only [Bool.false_eq_true, if_false]
      rw [ih]
      constructor
      · rintro ⟨u, hu, hpu⟩
        exact ⟨u, List.mem_cons_of_mem _ hu, hpu⟩
      · rintro ⟨u, hu, hpu⟩
        rcases List.mem_cons.mp hu with hu | hu
        · subst hu
          exact absurd hpu hp
        · exact ⟨u, hu, hpu⟩

theorem ToUpper_append (s x : String) : ToUpper (s ++ x) = ToUpper s ++ ToUpper x := by
  apply String.ext
  simp [ToUpper]

theorem isOfDataType_append_of_true (ts : List String) (name x : String)
    (h : isOfDataType ts name = true) :
    isOfDataType ts (name ++ x) = true := by
  rw [isOfDataType_iff] at h ⊢
  obtain ⟨t, ht, hp⟩ := h
  refine ⟨t, ht, ?_⟩
  rw [ToUpper_append, String.data_append]
  exact hp.trans (List.prefix_append _ _)

theorem isOfDataType_append_of_false (ts : List String) (name x : String)
    (hup : ToUpper name = name) (h : isOfDataType ts name = false)
    (hext : extendsTo ts name = false) :
    isOfDataType ts (name ++ x) = false := by
  rw [Bool.eq_false_iff] at h ⊢
  intro hx
  apply h
  rw [isOfDataType_iff] at hx ⊢
  obtain ⟨t, ht, hp⟩ := hx
  refine ⟨t, ht, ?_⟩
  rw [ToUpper_append, String.data_append, hup] at hp
  rw [hup]
  rcases List.prefix_or_prefix_of_prefix hp (List.prefix_append name.data (ToUpper x).data) with
    h1 | h1
  · exact h1
  · by_contra hn
    have hany : extendsTo ts name = true := by
      simp only [extendsTo, List.any_eq_true, Bool.and_eq_true, Bool.not_eq_true',
        Bool.eq_false_iff]
      exact ⟨t, ht, (startsWithChars_iff _ _).mpr h1,
        fun hs => hn ((startsWithChars_iff _ _).mp hs)⟩
    rw [hext] at hany
    exact Bool.false_ne_true hany

theorem classifyChain_append (cases : List (List String × Container)) (dflt : Container)
    (name x : String) (hup : ToUpper name = name)
    (hst : stableUnderSuffix cases name = true) :
    classifyChain cases dflt (name ++ x) = classifyChain cases dflt name := by
  induction cases with
  | nil => rfl
  | cons c rest ih =>
    obtain ⟨family, container⟩ := c
    by_cases h : isOfDataType family name = true
    · simp [classifyChain, h, isOfDataType_append_of_true family name x h]
    · have hf : isOfDataType family name = false := by simpa using h
      simp only [stableUnderSuffix, hf, Bool.false_eq_true, if_false, Bool.and_eq_true,
        Bool.not_eq_true'] at hst
      simp [classifyChain, hf, isOfDataType_append_of_false family name x hup hf hst.1,
        ih hst.2]

theorem sqlite_names_stable :
    ∀ name ∈ familyNames sqlite.cases,
      ToUpper name = name ∧ stableUnderSuffix sqlite.cases name = true := by
  decide

theorem sqlserver_names_stable :
    ∀ name ∈ familyNames sqlserver.cases,
      ToUpper name = name ∧ stableUnderSuffix sqlserver.cases name = true := by
  decide

theorem classifyChain_default_or_matched (cases : List (List String × Container))
    (dflt : Container) (s : String) :
    classifyChain cases dflt s = dflt ∨ isOfDataType (familyNames cases) s = true := by
  induction cases with
  | nil => exact Or.inl rfl
  | cons c rest ih =>
    obtain ⟨family, container⟩ := c
    by_cases h : isOfDataType family s = true
    · right
      rw [isOfDataType_iff] at h ⊢
      obtain ⟨t, ht, hp⟩ := h
      refine ⟨t, ?_, hp⟩
      simp only [familyNames, List.flatMap_cons, List.mem_append]
      exact Or.inl ht
    · have hf : isOfDataType family s = false := by simpa using h
      rcases ih with ih | ih
      · left
        simp only [classifyChain, hf, Bool.false_eq_true, if_false]
        exact ih
      · right
        rw [isOfDataType_iff] at ih ⊢
        obtain ⟨t, ht, hp⟩ := ih
        refine ⟨t, ?_, hp⟩
        simp only [familyNames, List.flatMap_cons, List.mem_append] at ht ⊢
        exact Or.inr ht

theorem classifyChain_mem (cases : List (List String × Container)) (dflt : Container)
    (s : String) :
    classifyChain cases dflt s = dflt ∨ classifyChain cases dflt s ∈ cases.map (fun c => c.2) := by
  induction cases with
  | nil => exact Or.inl rfl
  | cons c rest ih =>
    obtain ⟨family, container⟩ := c
    by_cases h : isOfDataType family s = true
    · right
      simp only [classifyChain, h, if_true, List.map_cons]
      exact List.mem_cons_self _ _
    · have hf : isOfDataType family s = false := by simpa using h
      rcases ih with ih | ih
      · left
        simp only [classifyChain, hf, Bool.false_eq_true, if_false]
        exact ih
      · right
        simp only [classifyChain, hf, Bool.false_eq_true, if_false, List.map_cons]
        exact List.mem_cons_of_mem _ ih

theorem pgsql_unlisted (s : String) (h : s ∉ pgsql.listed) :
    pgsql.convertFromPgsqlDataType s = Container.NullString := by
  have hne : ∀ name ∈ pgsql.listed, ¬ s = name := fun name hn he => h (he ▸ hn)
  unfold pgsql.convertFromPgsqlDataType
  rw [if_neg (hne "CHAR" (by decide)),
    if_neg (hne "VARCHAR" (by decide)),
    if_neg (hne "TEXT" (by decide)),
    if_neg (hne "BYTEA" (by decide)),
    if_neg (hne "INT2" (by decide)),
    if_neg (hne "INT4" (by decide)),
    if_neg (hne "INT8" (by decide)),
    if_neg (hne "NUMERIC" (by decide)),
    if_neg (hne "MONEY" (by decide)),
    if_neg (hne "TIMESTAMP" (by decide)),
    if_neg (hne "TIMESTAMPTZ" (by decide)),
    if_neg (hne "DATE" (by decide)),
    if_neg (hne "TIME" (by decide)),
    if_neg (hne "TIMETZ" (by decide)),
    if_neg (hne "BOOL" (by decide))]

theorem pgsql_container (s : String) :
    pgsql.convertFromPgsqlDataType s ∈
      [Container.NullInt64, Container.NullFloat64, Container.NullString, Container.NullTime] ∨
    s = "BOOL" := by
  by_cases h : s ∈ pgsql.listed
  · simp only [pgsql.listed, List.mem_cons, List.mem_singleton, List.mem_nil_iff,
      or_false] at h
    rcases h with h | h | h | h | h | h | h | h | h | h | h | h | h | h | h <;> subst h <;>
      first | (left; decide) | (right; rfl)
  · left
    rw [pgsql_unlisted s h]
    decide

/-- C27 counterexample: the Postgres classifier maps `INT4` to the integer
container but its lower-case spelling `int4` to the string container, and
`NUMERIC` to the float container but `NUMERIC(10,2)` to the string
container; the SQLite classifier maps the name `İNT` (with U+0130) to the
string container but its lower-case form `int` to the integer container. -/
theorem classify_not_case_insensitive_prefix :
    pgsql.convertFromPgsqlDataType "INT4" = Container.NullInt64 ∧
    pgsql.convertFromPgsqlDataType (ToLower "INT4") = Container.NullString ∧
    pgsql.convertFromPgsqlDataType "NUMERIC" = Container.NullFloat64 ∧
    pgsql.convertFromPgsqlDataType ("NUMERIC" ++ "(10,2)") = Container.NullString ∧
    sqlite.convertFromSqliteDataType (String.mk [Char.ofNat 0x130, 'N', 'T']) =
      Container.NullString ∧
    sqlite.convertFromSqliteDataType (ToLower (String.mk [Char.ofNat 0x130, 'N', 'T'])) =
      Container.NullInt64 := by
  refine ⟨?_, ?_, ?_, ?_, ?_, ?_⟩ <;> decide

/-- C27 (amended): the SQLite and SQL Server classifiers depend on the
upper-cased name only, so `classify(s) = classify(ToUpper s)` for every
name, and `classify(t) = classify(ToLower t)` for every ASCII name; a suffix
appended to a listed family name of these two backends does not change its
classification; the Postgres classifier is an exact match, every name it
has no case for is classified as String. -/
theorem classify_upper_prefix_match (s t x lite server : String)
    (hascii : ∀ c ∈ t.data, c.toNat < 128)
    (hlite : lite ∈ familyNames sqlite.cases)
    (hserver : server ∈ familyNames sqlserver.cases) :
    sqlite.convertFromSqliteDataType s = sqlite.convertFromSqliteDataType (ToUpper s) ∧
    sqlserver.ConvertFromSqlserverDataType s =
      sqlserver.ConvertFromSqlserverDataType (ToUpper s) ∧
    sqlite.convertFromSqliteDataType t = sqlite.convertFromSqliteDataType (ToLower t) ∧
    sqlserver.ConvertFromSqlserverDataType t =
      sqlserver.ConvertFromSqlserverDataType (ToLower t) ∧
    sqlite.convertFromSqliteDataType (lite ++ x) = sqlite.convertFromSqliteDataType lite ∧
    sqlserver.ConvertFromSqlserverDataType (server ++ x) =
      sqlserver.ConvertFromSqlserverDataType server ∧
    (pgsql.convertFromPgsqlDataType s = Container.NullString ∨ s ∈ pgsql.listed) := by
  refine ⟨?_, ?_, ?_, ?_, ?_, ?_, ?_⟩
  · exact classifyChain_congr sqlite.cases Container.NullString _ _ (ToUpper_idem s).symm
  · exact classifyChain_congr sqlserver.cases Container.NullString _ _ (ToUpper_idem s).symm
  · exact classifyChain_congr sqlite.cases Container.NullString _ _
      (ToUpper_ToLower t hascii).symm
  · exact classifyChain_congr sqlserver.cases Container.NullString _ _
      (ToUpper_ToLower t hascii).symm
  · exact classifyChain_append sqlite.cases Container.NullString _ _
      (sqlite_names_stable lite hlite).1 (sqlite_names_stable lite hlite).2
  · exact classifyChain_append sqlserver.cases Container.NullString _ _
      (sqlserver_names_stable server hserver).1 (sqlserver_names_stable server hserver).2
  · by_cases h : s ∈ pgsql.listed
    · exact Or.inr h
    · exact Or.inl (pgsql_unlisted s h)

theorem classify_upper_prefix_match_witness :
    (String.toList "Int").all (fun c => decide (c.toNat < 128)) = true ∧
    "NUMERIC" ∈ familyNames sqlite.cases ∧
    "DECIMAL" ∈ familyNames sqlserver.cases ∧
    sqlite.convertFromSqliteDataType "Integer" =
      sqlite.convertFromSqliteDataType (ToUpper "Integer") ∧
    sqlserver.ConvertFromSqlserverDataType "Integer" =
      sqlserver.ConvertFromSqlserverDataType (ToUpper "Integer") ∧
    sqlite.convertFromSqliteDataType "Int" = sqlite.convertFromSqliteDataType (ToLower "Int") ∧
    sqlserver.ConvertFromSqlserverDataType "Int" =
      sqlserver.ConvertFromSqlserverDataType (ToLower "Int") ∧
    sqlite.convertFromSqliteDataType ("NUMERIC" ++ "(10,2)") =
      sqlite.convertFromSqliteDataType "NUMERIC" ∧
    sqlserver.ConvertFromSqlserverDataType ("DECIMAL" ++ "(10,2)") =
      sqlserver.ConvertFromSqlserverDataType "DECIMAL" ∧
    (pgsql.convertFromPgsqlDataType "Integer" = Container.NullString ∨
      "Integer" ∈ pgsql.listed) :=
  ⟨by decide, by decide, by decide,
    classify_upper_prefix_match "Integer" "Int" "(10,2)" "NUMERIC" "DECIMAL"
      (by decide) (by decide) (by decide)⟩

/-- C28 counterexample: the Postgres classifier returns the boolean
container for `BOOL`, which is none of Integer, Float, String and
Timestamp. -/
theorem classify_bool_not_canonical :
    pgsql.convertFromPgsqlDataType "BOOL" = Container.NullBool ∧
    (pgsql.convertFromPgsqlDataType "BOOL").isCanonical = false := by
  constructor <;> decide

/-- C28 (amended): the SQLite and SQL Server classifiers return one of the
four containers Integer, Float, String, Timestamp for every name, the
Postgres classifier does so for every name but `BOOL`; under each of the
three a name matching no family entry is classified as String. -/
theorem classify_total_with_default (s : String) :
    sqlite.convertFromSqliteDataType s ∈
      [Container.NullInt64, Container.NullFloat64, Container.NullString, Container.NullTime] ∧
    sqlserver.ConvertFromSqlserverDataType s ∈
      [Container.NullInt64, Container.NullFloat64, Container.NullString, Container.NullTime] ∧
    (pgsql.convertFromPgsqlDataType s ∈
      [Container.NullInt64, Container.NullFloat64, Container.NullString, Container.NullTime] ∨
      s = "BOOL") ∧
    (sqlite.convertFromSqliteDataType s = Container.NullString ∨
      isOfDataType (familyNames sqlite.cases) s = true) ∧
    (sqlserver.ConvertFromSqlserverDataType s = Container.NullString ∨
      isOfDataType (familyNames sqlserver.cases) s = true) ∧
    (pgsql.convertFromPgsqlDataType s = Container.NullString ∨ s ∈ pgsql.listed) := by
  refine ⟨?_, ?_, pgsql_container s,
    classifyChain_default_or_matched sqlite.cases Container.NullString s,
    classifyChain_default_or_matched sqlserver.cases Container.NullString s, ?_⟩
  · rcases classifyChain_mem sqlite.cases Container.NullString s with h | h
    · rw [sqlite_eq_chain, h]; decide
    · rw [sqlite_eq_chain]
      revert h
      generalize classifyChain sqlite.cases Container.NullString s = c
      cases c <;> decide
  · rcases classifyChain_mem sqlserver.cases Container.NullString s with h | h
    · rw [sqlserver_eq_chain, h]; decide
    · rw [sqlserver_eq_chain]
      revert h
      generalize classifyChain sqlserver.cases Container.NullString s = c
      cases c <;> decide
  · by_cases h : s ∈ pgsql.listed
    · exact Or.inr h
    · exact Or.inl (pgsql_unlisted s h)

/-! ## C29: placeholder syntax of the templates -/

set_option maxRecDepth 100000 in
theorem sqlite_uses_question : usesOnly Placeholder.question sqlite.QueryTemplates = true := by
  decide

theorem pgsql_uses_dollar :
    usesOnly Placeholder.dollar pgsql.Queries = true ∧
    usesOnly Placeholder.dollar pgsql.Templates = true := by
  constructor <;> decide

set_option maxRecDepth 100000 in
theorem sqlserver_uses_atP_elsewhere :
    usesOnly Placeholder.atP
      (sqlserver.QueryTemplates.filter (fun t => t.1 != "DeleteSingle")) = true := by
  decide

set_option maxRecDepth 100000 in
theorem sqlserver_not_only_atP : usesOnly Placeholder.atP sqlserver.QueryTemplates = false := by
  decide

set_option maxRecDepth 100000 in
theorem sqlserver_placeholders_of_siblings :
    (sqlserver.QueryTemplates.lookup "GetSingleAsOption").map placeholders =
      some [Placeholder.atP] ∧
    (sqlserver.QueryTemplates.lookup "UpdateSingle").map placeholders =
      some [Placeholder.atP, Placeholder.atP, Placeholder.atP] ∧
    (sqlite.QueryTemplates.lookup "DeleteSingle").map placeholders =
      some [Placeholder.question] :=
  ⟨rfl, rfl, rfl⟩

/-- C29: the SQL Server template `DeleteSingle` has the placeholder `?`,
not `@pN`, so the SQL Server templates do not use `@pN` only; every other
SQL Server template uses `@pN` only, the SQLite templates use `?` only and
the Postgres queries and templates `$N` only. -/
theorem sqlserver_deleteSingle_uses_question :
    sqlserver.QueryTemplates.lookup "DeleteSingle" =
      some ("DELETE FROM \"\x7b\x7b.TableName\x7d\x7d\" WHERE " ++
        "\"\x7b\x7b.UniqueIDColumn\x7d\x7d\" = ?") ∧
    (sqlserver.QueryTemplates.lookup "DeleteSingle").map placeholders =
      some [Placeholder.question] ∧
    usesOnly Placeholder.atP sqlserver.QueryTemplates = false ∧
    usesOnly Placeholder.atP
      (sqlserver.QueryTemplates.filter (fun t => t.1 != "DeleteSingle")) = true ∧
    usesOnly Placeholder.question sqlite.QueryTemplates = true ∧
    usesOnly Placeholder.dollar pgsql.Queries = true ∧
    usesOnly Placeholder.dollar pgsql.Templates = true :=
  ⟨rfl, rfl, sqlserver_not_only_atP, sqlserver_uses_atP_elsewhere, sqlite_uses_question,
    pgsql_uses_dollar.1, pgsql_uses_dollar.2⟩

/-! ## C30: values in the rendered text -/

theorem sqlite_template_source :
    sqlite.QueryTemplates.lookup "GetCollectionAsOptionsWithParams" =
      some (Node.sourceList sqlite.getCollectionAsOptionsWithParams) := rfl

theorem sqlserver_template_source :
    sqlserver.QueryTemplates.lookup "GetCollectionAsOptionsWithParams" =
      some (Node.sourceList sqlserver.getCollectionAsOptionsWithParams) := rfl

theorem agreeOnNames_eq (c1 c2 : RenderContext) (h : c1.agreeOnNames c2 = true) :
    c2 = { c1 with ParamsWithValues := c2.ParamsWithValues } := by
  cases c1
  cases c2
  simp only [RenderContext.agreeOnNames, Bool.and_eq_true, decide_eq_true_eq,
    RenderContext.mk.injEq] at h
  simp only [RenderContext.mk.injEq]
  obtain ⟨⟨h1, h2, h3, h4, h5, h6, h7, _⟩, _⟩ := h
  exact ⟨h1.symm, h2.symm, h3.symm, h4.symm, h5.symm, h6.symm, h7.symm, trivial⟩

theorem sqlite_render_ignores_params (c : RenderContext) (params : List (String × String)) :
    render sqlite.getCollectionAsOptionsWithParams { c with ParamsWithValues := params } =
      render sqlite.getCollectionAsOptionsWithParams c := rfl

theorem sqlite_render_ignores_values (c1 c2 : RenderContext)
    (h : c1.agreeOnNames c2 = true) :
    render sqlite.getCollectionAsOptionsWithParams c1 =
      render sqlite.getCollectionAsOptionsWithParams c2 := by
  rw [agreeOnNames_eq c1 c2 h]
  exact (sqlite_render_ignores_params c1 c2.ParamsWithValues).symm

/-- C30: two contexts that agree on all names and differ only in the value
of the extra equality filter `name` render to different SQL text under the
SQL Server template `GetCollectionAsOptionsWithParams`, which copies the
value between quotes into the text; under the SQLite template of the same
name they render to the same text. -/
theorem sqlserver_filter_value_in_sql_text :
    (filterContext "oven").agreeOnNames (filterContext "x\x27 OR \x271\x27=\x271") = true ∧
    render sqlserver.getCollectionAsOptionsWithParams (filterContext "oven") =
      .ok ("SELECT \"id\", \"name\" FROM \"equipment\" WHERE CAST (\"name\" AS TEXT) " ++
        "LIKE @p1 AND \"name\" = \x27oven\x27") ∧
    render sqlserver.getCollectionAsOptionsWithParams
        (filterContext "x\x27 OR \x271\x27=\x271") =
      .ok ("SELECT \"id\", \"name\" FROM \"equipment\" WHERE CAST (\"name\" AS TEXT) " ++
        "LIKE @p1 AND \"name\" = \x27x\x27 OR \x271\x27=\x271\x27") ∧
    render sqlserver.getCollectionAsOptionsWithParams (filterContext "oven") ≠
      render sqlserver.getCollectionAsOptionsWithParams
        (filterContext "x\x27 OR \x271\x27=\x271") ∧
    render sqlite.getCollectionAsOptionsWithParams (filterContext "oven") =
      render sqlite.getCollectionAsOptionsWithParams
        (filterContext "x\x27 OR \x271\x27=\x271") := by
  refine ⟨by decide, rfl, rfl, ?_, rfl⟩
  intro h
  have hlen := congrArg (fun r => r.toOption.map String.length) h
  exact absurd hlen (by decide)

/-! ## C36: the exported collection formatter is the standard formatter -/

/-- C36: `GetCollection` and `Standard` are the same formatter value, so
for every encoder, descriptor, context and result list their `Format`
methods return the same bytes and the same error (and panic alike); no
exported formatter is a `getCollectionFormatter`. -/
theorem getCollection_is_standard (marshalIndent : Marshal) (tds : List TypeDescriptor)
    (fuel : Nat) (ctx : Ctx) (results : List Value) :
    GetCollection.Format marshalIndent tds fuel ctx results =
      Standard.Format marshalIndent tds fuel ctx results ∧
    GetCollection.Format marshalIndent tds fuel ctx results =
      standardFormatter.Format marshalIndent tds fuel ctx results ∧
    GetCollection = Standard ∧
    Formatter.getCollectionFormatter ∉ exportedFormatters :=
  ⟨rfl, rfl, rfl, by decide⟩

/-! ## C38, C39: what validation guarantees -/

theorem accepted_money_has_currency (descriptor : Descriptor)
    (hacc : performSanityChecks descriptor = .ok none) :
    ∀ td ∈ descriptor.TypeDescriptors, ∀ f ∈ td.Fields, ∀ typ, f.Typ = some typ →
      typ.Name = "money" → ∃ cur, typ.Currency = some cur := by
  intro td htd f hf typ htyp hm
  have hfield := (checkFields_none_iff td.Key td.Fields).mp
    (((checkTypeDescriptors_none_iff _).mp hacc) td htd).2.2 f hf
  obtain ⟨typ2, htyp2, _, hcur, _⟩ := (checkField_none_iff f td.Key).mp hfield
  rw [htyp] at htyp2
  cases htyp2
  obtain ⟨cur, hc, _⟩ := hcur hm
  exact ⟨cur, hc⟩

/-- C38, the code at a failing input: the descriptor is accepted by
`performSanityChecks` although its money field `cost` has no `amount`
object; formatting a row of the table dereferences the missing object in
`buildForFieldTypeMoney` and panics, and so does
`resultAsWorkflowMoneyType`. -/
theorem accepted_money_field_without_amount :
    performSanityChecks noAmountDescriptor = .ok none ∧
    noAmountDescriptor.TypeDescriptors.map (fun td => (td.TableName, td.Fields)) =
      [ ("item", [ { Key := "id", FromColumn := "id", Typ := some { Name := "text" } },
                   costWithoutAmountField ]) ] ∧
    (costWithoutAmountField.Typ.map (fun typ => (typ.Name, typ.Amount, typ.Currency))) =
      some ("money", none, some { Value := "EUR" }) ∧
    buildForFieldTypeMoney [] itemRow "item" costWithoutAmountField = .error Fault.panic ∧
    resultAsWorkflowMoneyType costWithoutAmountField itemRow "item" = .error Fault.panic ∧
    formatAsAWorkflowType noAmountDescriptor.TypeDescriptors 2
      { table := some "item", currentRoute := some "GetSingle", denormalize := some "" }
      itemRow "item"
      [ { Key := "id", FromColumn := "id", Typ := some { Name := "text" } },
        costWithoutAmountField ] = .error Fault.panic :=
  ⟨rfl, rfl, rfl, rfl, rfl, rfl⟩

/-- C39, the code at failing inputs: on a descriptor with a field that
declares no `type` object and on a descriptor whose money type declares no
`currency` object `performSanityChecks` returns neither nil nor an error,
it fails with a nil dereference. -/
theorem performSanityChecks_not_total :
    performSanityChecks untypedFieldDescriptor = .error Fault.panic ∧
    performSanityChecks moneyWithoutCurrencyDescriptor = .error Fault.panic ∧
    (untypedFieldDescriptor.TypeDescriptors.any
      (fun td => td.Fields.any (fun f => f.Typ.isNone))) = true ∧
    (moneyWithoutCurrencyDescriptor.TypeDescriptors.any
      (fun td => td.Fields.any (fun f =>
        f.Typ.any (fun typ => typ.Name == "money" && typ.Currency.isNone)))) = true :=
  ⟨rfl, rfl, by decide, by decide⟩

/-! ## C34: scanning a value that is not a timestamp -/

/-- C34, the code at a failing input: `NullTime.Scan` returns the nil error
for every value; for the string `2020-01-02`, a non-nil value that is not a
timestamp, it stores the zero time with `Valid = false` (the state for
NULL) and returns nil. -/
theorem nullTime_scan_returns_nil (nt : NullTime) (value : Value) :
    (nt.Scan value).2 = none ∧
    nt.Scan (Value.str "2020-01-02") = ({ Time := Time.zero, Valid := false }, none) ∧
    nt.Scan Value.null = ({ Time := Time.zero, Valid := false }, none) ∧
    (Value.str "2020-01-02").isNil = false ∧ (Value.str "2020-01-02").isTime = false := by
  refine ⟨?_, rfl, rfl, rfl, rfl⟩
  cases value <;> rfl

/-! ## C32: form-encoded request data -/

theorem parseFormLoop_many :
    ∀ (form : List (String × List String)) (data : GoMap),
      (∀ e ∈ form, e.2 ≠ []) → (∃ e ∈ form, e.2.length > 1) →
      parseFormURLEncoded.loop form data = .ok (.error ErrCardinalityMany)
  | [], _, _, h => by
    obtain ⟨e, he, _⟩ := h
    exact absurd he (List.not_mem_nil _)
  | (k, v) :: rest, data, hne, h => by
    unfold parseFormURLEncoded.loop
    by_cases hv : v.length > 1
    · rw [if_pos hv]
      rfl
    · rw [if_neg hv]
      have hrest : ∃ e ∈ rest, e.2.length > 1 := by
        obtain ⟨e, he, hlen⟩ := h
        rcases List.mem_cons.mp he with h1 | h1
        · subst h1
          exact absurd hlen hv
        · exact ⟨e, h1, hlen⟩
      cases v with
      | nil => exact absurd rfl (hne (k, []) (List.mem_cons_self _ _))
      | cons first others =>
        simp only [List.head?_cons, deref, ok_bind]
        exact parseFormLoop_many rest _ (fun e he => hne e (List.mem_cons_of_mem _ he)) hrest

theorem parseFormLoop_single :
    ∀ (form : List (String × List String)) (data : GoMap),
      (form.map (fun e => e.1)).Nodup → (∀ e ∈ form, e.2.length = 1) →
      ∃ out, parseFormURLEncoded.loop form data = .ok (.ok out) ∧
        (∀ k v, (k, [v]) ∈ form → out.get k = Value.str v) ∧
        (∀ k, k ∉ form.map (fun e => e.1) → out.get k = data.get k) ∧
        (∀ k, out.hasKey k = true ↔ (k ∈ form.map (fun e => e.1) ∨ data.hasKey k = true))
  | [], data, _, _ => by
    refine ⟨data, rfl, ?_, fun _ _ => rfl, ?_⟩
    · intro k v h
      exact absurd h (List.not_mem_nil _)
    · intro k
      simp
  | (k, v) :: rest, data, hnd, hone => by
    have hlen := hone (k, v) (List.mem_cons_self _ _)
    obtain ⟨first, hv⟩ : ∃ first, v = [first] := List.length_eq_one.mp hlen
    subst hv
    rw [List.map_cons, List.nodup_cons] at hnd
    obtain ⟨out, hout, hget, hframe, hkeys⟩ := parseFormLoop_single rest
      (data.set k (Value.str first)) hnd.2 (fun e he => hone e (List.mem_cons_of_mem _ he))
    refine ⟨out, ?_, ?_, ?_, ?_⟩
    · unfold parseFormURLEncoded.loop
      simp only [List.length_singleton, gt_iff_lt, lt_self_iff_false, if_false, List.head?_cons,
        deref, ok_bind]
      exact hout
    · intro k2 v2 hmem
      rcases List.mem_cons.mp hmem with h1 | h1
      · have hk : k2 = k := congrArg Prod.fst h1
        have hv2 : [v2] = [first] := congrArg Prod.snd h1
        rw [hk, hframe k hnd.1, GoMap.get_set_self, List.singleton_inj.mp hv2]
      · exact hget k2 v2 h1
    · intro k2 hk2
      rw [List.map_cons, List.mem_cons, not_or] at hk2
      rw [hframe k2 hk2.2, GoMap.get_set_of_ne _ _ _ _ (fun h => hk2.1 h.symm)]
    · intro k2
      rw [hkeys k2, GoMap.hasKey_set, List.map_cons, List.mem_cons]
      constructor
      · rintro (h | h | h)
        · exact Or.inl (Or.inr h)
        · exact Or.inl (Or.inl h.symm)
        · exact Or.inr h
      · rintro ((h | h) | h)
        · exact Or.inr (Or.inl h.symm)
        · exact Or.inl h
        · exact Or.inr (Or.inr h)

theorem wellFormedForm_iff (form : List (String × List String)) :
    wellFormedForm form = true ↔
      (form.map (fun e => e.1)).Nodup ∧ ∀ e ∈ form, e.2 ≠ [] := by
  simp [wellFormedForm, List.all_eq_true]

theorem parseFormLoop_result (form order : List (String × List String))
    (hwf : wellFormedForm form = true) (hperm : order.Perm form) :
    ((∃ e ∈ form, e.2.length > 1) →
      parseFormURLEncoded.loop order [] = .ok (.error ErrCardinalityMany)) ∧
    ((∀ e ∈ form, e.2.length = 1) →
      ∃ data, parseFormURLEncoded.loop order [] = .ok (.ok data) ∧
        (∀ k v, (k, [v]) ∈ form → data.get k = Value.str v) ∧
        (∀ k, data.hasKey k = true ↔ k ∈ form.map (fun e => e.1))) := by
  obtain ⟨hnd, hne⟩ := (wellFormedForm_iff form).mp hwf
  constructor
  · rintro ⟨e, he, hlen⟩
    exact parseFormLoop_many order [] (fun e2 he2 => hne e2 (hperm.mem_iff.mp he2))
      ⟨e, hperm.mem_iff.mpr he, hlen⟩
  · intro hone
    have hnd2 : (order.map (fun e => e.1)).Nodup := ((hperm.map _).nodup_iff).mpr hnd
    obtain ⟨out, hout, hget, _, hkeys⟩ := parseFormLoop_single order [] hnd2
      (fun e he => hone e (hperm.mem_iff.mp he))
    refine ⟨out, hout, fun k v h => hget k v (hperm.mem_iff.mpr h), fun k => ?_⟩
    rw [hkeys k, (hperm.map (fun e => e.1)).mem_iff]
    simp [GoMap.hasKey]

/-- C32 counterexample: in the empty form every key carries exactly one
value, yet `parseFormURLEncoded` returns an error and no data instead of the
empty map, in both packages. -/
theorem parseFormURLEncoded_empty_form :
    (({ } : Request).Form.all (fun e => e.2.length == 1)) = true ∧
    util.parseFormURLEncoded { } = .ok (.error "Unable to parse the request body:\n\n") ∧
    (({ } : Request).PostForm.all (fun e => e.2.length == 1)) = true ∧
    backend.parseFormURLEncoded { } = .ok (.error ErrPostFormEmpty) :=
  ⟨rfl, rfl, rfl, rfl⟩

/-- C32 (amended): for a form that `ParseForm` accepted (every key once,
with at least one value) and every order `order` in which `range` visits its
entries: when some key carries more than one value, `parseFormURLEncoded`
(of either package) returns `ErrCardinalityMany` and no data; when the form
is not empty and every key carries exactly one value, it returns a map that
holds each key's value under the key and has no other key. -/
theorem parseFormURLEncoded_cardinality (form order : List (String × List String))
    (body : String) (hwf : wellFormedForm form = true) (hperm : order.Perm form) :
    ((∃ e ∈ form, e.2.length > 1) →
      util.parseFormURLEncoded { Form := order, Body := body } =
        .ok (.error ErrCardinalityMany) ∧
      backend.parseFormURLEncoded { PostForm := order, Body := body } =
        .ok (.error ErrCardinalityMany)) ∧
    (form ≠ [] → (∀ e ∈ form, e.2.length = 1) →
      ∃ data,
        util.parseFormURLEncoded { Form := order, Body := body } = .ok (.ok data) ∧
        backend.parseFormURLEncoded { PostForm := order, Body := body } = .ok (.ok data) ∧
        (∀ k v, (k, [v]) ∈ form → data.get k = Value.str v) ∧
        (∀ k, data.hasKey k = true ↔ k ∈ form.map (fun e => e.1))) := by
  have hloop := parseFormLoop_result form order hwf hperm
  have hlen : form ≠ [] → ¬ order.length = 0 := by
    intro hne h0
    rw [hperm.length_eq] at h0
    exact hne (List.length_eq_zero.mp h0)
  constructor
  · intro hmany
    have hne : form ≠ [] := by
      obtain ⟨e, he, _⟩ := hmany
      exact List.ne_nil_of_mem he
    have h := hloop.1 hmany
    constructor
    · show (if order.length = 0 then _ else parseFormURLEncoded.loop order []) = _
      rw [if_neg (hlen hne)]
      exact h
    · show (if order.length = 0 then _ else parseFormURLEncoded.loop order []) = _
      rw [if_neg (hlen hne)]
      exact h
  · intro hne hone
    obtain ⟨data, hdata, hget, hkeys⟩ := hloop.2 hone
    refine ⟨data, ?_, ?_, hget, hkeys⟩
    · show (if order.length = 0 then _ else parseFormURLEncoded.loop order []) = _
      rw [if_neg (hlen hne)]
      exact hdata
    · show (if order.length = 0 then _ else parseFormURLEncoded.loop order []) = _
      rw [if_neg (hlen hne)]
      exact hdata

/-- C32, witness: the form `name=Oven&tag=a&tag=b` gives `ErrCardinalityMany`
whether `tag` or `name` is visited first, and the form `name=Oven&id=1`
visited as `id`, `name` gives the map with both entries. -/
theorem parseFormURLEncoded_cardinality_witness :
    wellFormedForm [("name", ["Oven"]), ("tag", ["a", "b"])] = true ∧
    util.parseFormURLEncoded { Form := [("tag", ["a", "b"]), ("name", ["Oven"])] } =
      .ok (.error ErrCardinalityMany) ∧
    backend.parseFormURLEncoded { PostForm := [("tag", ["a", "b"]), ("name", ["Oven"])] } =
      .ok (.error ErrCardinalityMany) ∧
    util.parseFormURLEncoded { Form := [("name", ["Oven"]), ("tag", ["a", "b"])] } =
      .ok (.error ErrCardinalityMany) ∧
    util.parseFormURLEncoded { Form := [("id", ["1"]), ("name", ["Oven"])] } =
      .ok (.ok [("id", Value.str "1"), ("name", Value.str "Oven")]) :=
  ⟨by decide,
    ((parseFormURLEncoded_cardinality [("name", ["Oven"]), ("tag", ["a", "b"])]
      [("tag", ["a", "b"]), ("name", ["Oven"])] "" (by decide)
      (List.Perm.swap _ _ _)).1 ⟨("tag", ["a", "b"]), by decide, by decide⟩).1,
    ((parseFormURLEncoded_cardinality [("name", ["Oven"]), ("tag", ["a", "b"])]
      [("tag", ["a", "b"]), ("name", ["Oven"])] "" (by decide)
      (List.Perm.swap _ _ _)).1 ⟨("tag", ["a", "b"]), by decide, by decide⟩).2,
    rfl, rfl⟩

/-! ## C40: denormalized output is selected by presence of the flag -/

theorem normalizeResultSet_eq_ids (self : FormatFn) (tds : List TypeDescriptor) (ctx : Ctx)
    (field : Field) (uniqueIdColumn : String) :
    ∀ rows : List GoMap,
      normalizeResultSet self tds ctx rows field uniqueIdColumn =
        (denormalizeResultSet self tds ctx rows field uniqueIdColumn).map
          (fun objs => objs.map (fun obj => obj.get uniqueIdColumn))
  | [] => rfl
  | r :: rest => by
    have ih := normalizeResultSet_eq_ids self tds ctx field uniqueIdColumn rest
    unfold normalizeResultSet denormalizeResultSet
    cases hrel : deref field.Relationship with
    | error e => rfl
    | ok relationship =>
      simp only [ok_bind]
      cases hf : withRelationshipFieldsOmitted tds relationship.WithTable with
      | error e => rfl
      | ok fields =>
        simp only [ok_bind]
        cases hobj : self ctx [(relationship.WithTable, Value.map r)] relationship.WithTable
            fields with
        | error e => rfl
        | ok obj =>
          simp only [ok_bind, ih]
          cases hrest : denormalizeResultSet self tds ctx rest field uniqueIdColumn with
          | error e => rfl
          | ok objs => rfl

theorem clientWantsDenormalizedResultSet_iff (queryValue : String) :
    clientWantsDenormalizedResultSet queryValue = true ↔ queryValue ≠ "" := by
  simp [clientWantsDenormalizedResultSet]

/-- C40: `clientWantsDenormalizedResultSet` is true for every non-empty
flag string, `false` and `0` included, and false only for the empty string.
For a relationship field with related rows, the related rows formatted as
objects (`denormalizeResultSet`) are embedded under the field's key exactly
when the flag is not empty: all of them for oneToMany, the first for
manyToOne and oneToOne; when the flag is empty only each object's entry
under the unique-id column is emitted in its place. -/
theorem denormalized_iff_flag_present (self : FormatFn) (tds : List TypeDescriptor) (ctx : Ctx)
    (formatted queryResults : GoMap) (table : String) (field : Field) (rel : Relationship)
    (td : TypeDescriptor) (d : String) (r : GoMap) (rest : List GoMap)
    (hrel : field.Relationship = some rel)
    (hd : ctx.denormalize = some d)
    (htd : GetTypeDescriptorUsingDBTableName tds rel.WithTable = some td)
    (hrows : relatedResultsOf queryResults table field = .ok (r :: rest)) :
    (clientWantsDenormalizedResultSet d = true ↔ d ≠ "") ∧
    clientWantsDenormalizedResultSet "false" = true ∧
    clientWantsDenormalizedResultSet "0" = true ∧
    clientWantsDenormalizedResultSet "" = false ∧
    (d ≠ "" →
      relationshipKindIsOneToMany self tds ctx formatted queryResults table field =
        (denormalizeResultSet self tds ctx (r :: rest) field td.UniqueIdColumn).map
          (fun objs => formatted.set field.Key (Value.mapSlice objs)) ∧
      relationshipKindIsXToOne self tds ctx formatted queryResults table field =
        (denormalizeResultSet self tds ctx (r :: rest) field td.UniqueIdColumn >>= fun objs =>
          (deref objs.head?).map (fun obj => formatted.set field.Key (Value.map obj)))) ∧
    (d = "" →
      relationshipKindIsOneToMany self tds ctx formatted queryResults table field =
        (denormalizeResultSet self tds ctx (r :: rest) field td.UniqueIdColumn).map
          (fun objs => formatted.set field.Key
            (Value.slice (objs.map (fun obj => obj.get td.UniqueIdColumn)))) ∧
      relationshipKindIsXToOne self tds ctx formatted queryResults table field =
        (denormalizeResultSet self tds ctx (r :: rest) field td.UniqueIdColumn >>= fun objs =>
          (deref objs.head?).map
            (fun obj => formatted.set field.Key (obj.get td.UniqueIdColumn)))) := by
  refine ⟨clientWantsDenormalizedResultSet_iff d, rfl, rfl, rfl, ?_, ?_⟩
  · intro hne
    have hc : clientWantsDenormalizedResultSet d = true :=
      (clientWantsDenormalizedResultSet_iff d).mpr hne
    constructor
    · simp only [relationshipKindIsOneToMany, deref_eq_ok hrel, ok_bind,
        relatedTablesResultSetNotEmpty, hrows, pure_eq_ok, List.length_cons, deref_eq_ok hd,
        deref_eq_ok htd, hc]
      simp only [Nat.zero_lt_succ, decide_True, if_true, gt_iff_lt]
      cases denormalizeResultSet self tds ctx (r :: rest) field td.UniqueIdColumn <;> rfl
    · simp only [relationshipKindIsXToOne, deref_eq_ok hrel, ok_bind,
        relatedTablesResultSetNotEmpty, hrows, pure_eq_ok, List.length_cons, deref_eq_ok hd,
        deref_eq_ok htd, hc]
      simp only [Nat.zero_lt_succ, decide_True, if_true, gt_iff_lt]
      cases denormalizeResultSet self tds ctx (r :: rest) field td.UniqueIdColumn with
      | error e => rfl
      | ok objs => cases objs <;> rfl
  · intro he
    have hc : clientWantsDenormalizedResultSet d = false := by
      rw [he]; rfl
    constructor
    · simp only [relationshipKindIsOneToMany, deref_eq_ok hrel, ok_bind,
        relatedTablesResultSetNotEmpty, hrows, pure_eq_ok, List.length_cons, deref_eq_ok hd,
        deref_eq_ok htd, hc]
      simp only [Nat.zero_lt_succ, decide_True, if_true, gt_iff_lt, Bool.false_eq_true,
        if_false]
      rw [normalizeResultSet_eq_ids]
      cases denormalizeResultSet self tds ctx (r :: rest) field td.UniqueIdColumn <;> rfl
    · simp only [relationshipKindIsXToOne, deref_eq_ok hrel, ok_bind,
        relatedTablesResultSetNotEmpty, hrows, pure_eq_ok, List.length_cons, deref_eq_ok hd,
        deref_eq_ok htd, hc]
      simp only [Nat.zero_lt_succ, decide_True, if_true, gt_iff_lt, Bool.false_eq_true,
        if_false]
      rw [normalizeResultSet_eq_ids]
      cases denormalizeResultSet self tds ctx (r :: rest) field td.UniqueIdColumn with
      | error e => rfl
      | ok objs => cases objs <;> rfl

/-- C40, witness: with the flag `false` the recipe of the oven is embedded
as an object. -/
theorem denormalized_iff_flag_present_witness :
    "false" ≠ "" ∧
    (relationshipKindIsOneToMany (formatAsAWorkflowType testTypeDescriptors 1)
        testTypeDescriptors
        { table := some "equipment", currentRoute := some "GetSingle",
          denormalize := some "false" }
        [] (ovenWithRecipes [recipeRow 7 "Bread"]) "equipment" recipesField =
      (denormalizeResultSet (formatAsAWorkflowType testTypeDescriptors 1) testTypeDescriptors
        { table := some "equipment", currentRoute := some "GetSingle",
          denormalize := some "false" }
        [recipeRow 7 "Bread"] recipesField "id").map
        (fun objs => GoMap.set [] recipesField.Key (Value.mapSlice objs))) ∧
    ∃ objs, relationshipKindIsOneToMany (formatAsAWorkflowType testTypeDescriptors 1)
        testTypeDescriptors
        { table := some "equipment", currentRoute := some "GetSingle",
          denormalize := some "false" }
        [] (ovenWithRecipes [recipeRow 7 "Bread"]) "equipment" recipesField =
      .ok [("recipes", Value.mapSlice objs)] :=
  ⟨by decide,
    ((denormalized_iff_flag_present (formatAsAWorkflowType testTypeDescriptors 1)
      testTypeDescriptors
      { table := some "equipment", currentRoute := some "GetSingle",
        denormalize := some "false" }
      [] (ovenWithRecipes [recipeRow 7 "Bread"]) "equipment" recipesField
      { Kind := "oneToMany", WithTable := "recipes", LocalTableUniqueIdColumn := "id",
        ForeignTableUniqueIdColumn := "equipment_id" }
      { Key := "recipes", Name := "Recipes", TableName := "recipes",
        ColumnAsOptionName := "name", UniqueIdColumn := "id",
        Fields := commonRecipesDescriptorFields }
      "false" (recipeRow 7 "Bread") [] rfl rfl rfl rfl).2.2.2.2.1 (by decide)).1,
    ⟨_, rfl⟩⟩

/-! ## C37: one key per formatting step -/

theorem oneToMany_sets (self : FormatFn) (tds : List TypeDescriptor) (ctx : Ctx)
    (formatted queryResults : GoMap) (table : String) (field : Field) (m : GoMap)
    (h : relationshipKindIsOneToMany self tds ctx formatted queryResults table field = .ok m) :
    ∃ v, m = formatted.set field.Key v := by
  unfold relationshipKindIsOneToMany at h
  cases hrel : deref field.Relationship with
  | error e => simp [hrel] at h
  | ok rel =>
    simp only [hrel, ok_bind] at h
    cases hne : relatedTablesResultSetNotEmpty queryResults table field with
    | error e => simp [hne] at h
    | ok b =>
      simp only [hne, ok_bind] at h
      cases b with
      | false => exact ⟨_, (Except.ok.inj h).symm⟩
      | true =>
        simp only [if_true] at h
        cases hrows : relatedResultsOf queryResults table field with
        | error e => simp [hrows] at h
        | ok rows =>
          simp only [hrows, ok_bind] at h
          cases hd : deref ctx.denormalize with
          | error e => simp [hd] at h
          | ok d =>
            simp only [hd, ok_bind] at h
            cases htd : deref (GetTypeDescriptorUsingDBTableName tds rel.WithTable) with
            | error e => simp [htd] at h
            | ok td =>
              simp only [htd, ok_bind] at h
              split at h
              · cases hres : denormalizeResultSet self tds ctx rows field td.UniqueIdColumn with
                | error e => simp [hres] at h
                | ok results =>
                  simp only [hres, ok_bind] at h
                  exact ⟨_, (Except.ok.inj h).symm⟩
              · cases hres : normalizeResultSet self tds ctx rows field td.UniqueIdColumn with
                | error e => simp [hres] at h
                | ok results =>
                  simp only [hres, ok_bind] at h
                  exact ⟨_, (Except.ok.inj h).symm⟩

theorem xToOne_sets (self : FormatFn) (tds : List TypeDescriptor) (ctx : Ctx)
    (formatted queryResults : GoMap) (table : String) (field : Field) (m : GoMap)
    (h : relationshipKindIsXToOne self tds ctx formatted queryResults table field = .ok m) :
    ∃ v, m = formatted.set field.Key v := by
  unfold relationshipKindIsXToOne at h
  cases hrel : deref field.Relationship with
  | error e => simp [hrel] at h
  | ok rel =>
    simp only [hrel, ok_bind] at h
    cases hne : relatedTablesResultSetNotEmpty queryResults table field with
    | error e => simp [hne] at h
    | ok b =>
      simp only [hne, ok_bind] at h
      cases b with
      | false => exact ⟨_, (Except.ok.inj h).symm⟩
      | true =>
        simp only [if_true] at h
        cases hrows : relatedResultsOf queryResults table field with
        | error e => simp [hrows] at h
        | ok rows =>
          simp only [hrows, ok_bind] at h
          cases hd : deref ctx.denormalize with
          | error e => simp [hd] at h
          | ok d =>
            simp only [hd, ok_bind] at h
            cases htd : deref (GetTypeDescriptorUsingDBTableName tds rel.WithTable) with
            | error e => simp [htd] at h
            | ok td =>
              simp only [htd, ok_bind] at h
              split at h
              · cases hres : denormalizeResultSet self tds ctx rows field td.UniqueIdColumn with
                | error e => simp [hres] at h
                | ok results =>
                  simp only [hres, ok_bind] at h
                  cases hfirst : deref results.head? with
                  | error e => simp [hfirst] at h
                  | ok first =>
                    simp only [hfirst, ok_bind] at h
                    exact ⟨_, (Except.ok.inj h).symm⟩
              · cases hres : normalizeResultSet self tds ctx rows field td.UniqueIdColumn with
                | error e => simp [hres] at h
                | ok results =>
                  simp only [hres, ok_bind] at h
                  cases hfirst : deref results.head? with
                  | error e => simp [hfirst] at h
                  | ok first =>
                    simp only [hfirst, ok_bind] at h
                    exact ⟨_, (Except.ok.inj h).symm⟩

theorem resolve_sets_or_empties (self : FormatFn) (tds : List TypeDescriptor) (ctx : Ctx)
    (formatted queryResults : GoMap) (table : String) (field : Field) (m : GoMap)
    (h : buildAndRecursivelyResolveRelationships self tds ctx formatted queryResults table field
          = .ok m) :
    (∃ v, m = formatted.set field.Key v) ∨
    (∃ rel, field.Relationship = some rel ∧ rel.Kind ≠ "oneToMany" ∧ rel.Kind ≠ "manyToOne" ∧
      rel.Kind ≠ "oneToOne" ∧ m = []) := by
  unfold buildAndRecursivelyResolveRelationships at h
  cases hrel : field.Relationship with
  | none => simp [hrel, deref] at h
  | some rel =>
    simp only [deref_eq_ok hrel, ok_bind] at h
    by_cases h1 : rel.Kind = "oneToMany"
    · rw [if_pos h1] at h
      exact Or.inl (oneToMany_sets self tds ctx formatted queryResults table field m h)
    · rw [if_neg h1] at h
      by_cases h2 : rel.Kind = "manyToOne" ∨ rel.Kind = "oneToOne"
      · rw [if_pos h2] at h
        exact Or.inl (xToOne_sets self tds ctx formatted queryResults table field m h)
      · rw [if_neg h2] at h
        rw [not_or] at h2
        exact Or.inr ⟨rel, rfl, h1, h2.1, h2.2, (Except.ok.inj h).symm⟩

theorem set_frame (formatted : GoMap) (key : String) (v : Value) :
    (∀ k, k ≠ key → (formatted.set key v).get k = formatted.get k) ∧
    (∀ k, k ≠ key → (formatted.set key v).hasKey k = formatted.hasKey k) := by
  constructor
  · intro k hk
    exact GoMap.get_set_of_ne formatted key k v (fun h => hk h.symm)
  · intro k hk
    rw [Bool.eq_iff_iff, GoMap.hasKey_set]
    constructor
    · rintro (h | h)
      · exact absurd h.symm hk
      · exact h
    · exact fun h => Or.inr h

/-- C37: a formatting step that returns either sets one key of the
accumulated result, `id`, `name` or the field's own key, and leaves the
value and the presence of every other key as they were, or the field is a
relationship field of a kind other than oneToMany, manyToOne and oneToOne
that is resolved (the route is not `GetCollection` and the row has a value
under the field's key), and then the step returns the empty map. For such a
kind `buildAndRecursivelyResolveRelationships` returns the empty map
whatever was accumulated before. -/
theorem formatField_changes_one_key (self : FormatFn) (tds : List TypeDescriptor) (ctx : Ctx)
    (queryResults : GoMap) (table : String) (formatted : GoMap) (field : Field) (m : GoMap)
    (h : formatField self tds ctx queryResults table formatted field = .ok m) :
    ((∃ key v, (key = "id" ∨ key = "name" ∨ key = field.Key) ∧ m = formatted.set key v ∧
        (∀ k, k ≠ key → m.get k = formatted.get k) ∧
        (∀ k, k ≠ key → m.hasKey k = formatted.hasKey k)) ∨
      (∃ rel, field.Relationship = some rel ∧ rel.Kind ≠ "oneToMany" ∧
        rel.Kind ≠ "manyToOne" ∧ rel.Kind ≠ "oneToOne" ∧
        ctx.currentRoute ≠ some "GetCollection" ∧
        tableHasRelationships queryResults table field = .ok true ∧ m = [])) ∧
    (∀ rel, field.Relationship = some rel → rel.Kind ≠ "oneToMany" →
      rel.Kind ≠ "manyToOne" → rel.Kind ≠ "oneToOne" →
      ∀ accumulated : GoMap,
        buildAndRecursivelyResolveRelationships self tds ctx accumulated queryResults table
          field = .ok []) := by
  constructor
  · have hwithout : ∀ m2,
        buildResultFromQueryResultsWithoutRelationships tds formatted queryResults table field
          = .ok m2 →
        ∃ key v, (key = "id" ∨ key = "name" ∨ key = field.Key) ∧ m2 = formatted.set key v ∧
          (∀ k, k ≠ key → m2.get k = formatted.get k) ∧
          (∀ k, k ≠ key → m2.hasKey k = formatted.hasKey k) := by
      intro m2 h2
      obtain ⟨key, v, hm, hkey⟩ := without_sets tds formatted queryResults table field m2 h2
      refine ⟨key, v, ?_, hm, ?_, ?_⟩
      · rcases hkey with hk | hk | hk
        · exact Or.inr (Or.inl hk)
        · exact Or.inl hk
        · exact Or.inr (Or.inr hk)
      · rw [hm]; exact (set_frame formatted key v).1
      · rw [hm]; exact (set_frame formatted key v).2
    unfold formatField at h
    cases hroute : ctx.currentRoute with
    | none => simp [hroute, deref] at h
    | some route =>
      simp only [hroute, deref, ok_bind] at h
      by_cases hr : route = "GetCollection"
      · rw [if_pos hr] at h
        exact Or.inl (hwithout m h)
      · rw [if_neg hr] at h
        unfold buildResultFromQueryResultsUsingField at h
        cases hhas : tableHasRelationships queryResults table field with
        | error e => simp [hhas] at h
        | ok b =>
          simp only [hhas, ok_bind] at h
          cases b with
          | false =>
            simp only [Bool.false_eq_true, if_false] at h
            exact Or.inl (hwithout m h)
          | true =>
            simp only [if_true] at h
            rcases resolve_sets_or_empties self tds ctx formatted queryResults table field m h
              with ⟨v, hv⟩ | ⟨rel, hrel, h1, h2, h3, hm⟩
            · refine Or.inl ⟨field.Key, v, Or.inr (Or.inr rfl), hv, ?_, ?_⟩
              · rw [hv]; exact (set_frame formatted field.Key v).1
              · rw [hv]; exact (set_frame formatted field.Key v).2
            · refine Or.inr ⟨rel, hrel, h1, h2, h3, ?_, rfl, hm⟩
              intro hc
              exact hr (Option.some.inj hc)
  · intro rel hrel h1 h2 h3 accumulated
    unfold buildAndRecursivelyResolveRelationships
    simp only [deref_eq_ok hrel, ok_bind]
    rw [if_neg h1, if_neg (not_or.mpr ⟨h2, h3⟩)]
    rfl

/-- C37, witness: the step for the field `name` of the oven adds the key
`name` to an accumulated result holding `id`; the step for a relationship
field of kind `manyToMany` returns the empty map. -/
theorem formatField_changes_one_key_witness :
    formatField (formatAsAWorkflowType testTypeDescriptors 1) testTypeDescriptors
        (getSingleCtx "equipment") [("equipment", Value.map ovenRow)] "equipment"
        [("id", Value.str "1")]
        { Key := "name", FromColumn := "name", Typ := some { Name := "text" } } =
      .ok [("id", Value.str "1"), ("name", Value.str "Oven")] ∧
    ((∃ key v, (key = "id" ∨ key = "name" ∨
          key = ({ Key := "name", FromColumn := "name",
                   Typ := some { Name := "text" } } : Field).Key) ∧
        [("id", Value.str "1"), ("name", Value.str "Oven")] =
          GoMap.set [("id", Value.str "1")] key v ∧
        (∀ k, k ≠ key → GoMap.get [("id", Value.str "1"), ("name", Value.str "Oven")] k =
          GoMap.get [("id", Value.str "1")] k) ∧
        (∀ k, k ≠ key → GoMap.hasKey [("id", Value.str "1"), ("name", Value.str "Oven")] k =
          GoMap.hasKey [("id", Value.str "1")] k)) ∨
      (∃ rel, ({ Key := "name", FromColumn := "name",
                 Typ := some { Name := "text" } } : Field).Relationship = some rel ∧
        rel.Kind ≠ "oneToMany" ∧ rel.Kind ≠ "manyToOne" ∧ rel.Kind ≠ "oneToOne" ∧
        (getSingleCtx "equipment").currentRoute ≠ some "GetCollection" ∧
        tableHasRelationships [("equipment", Value.map ovenRow)] "equipment"
          { Key := "name", FromColumn := "name", Typ := some { Name := "text" } } = .ok true ∧
        [("id", Value.str "1"), ("name", Value.str "Oven")] = [])) ∧
    formatField (formatAsAWorkflowType testTypeDescriptors 1) testTypeDescriptors
        (getSingleCtx "equipment")
        [("equipment", Value.map (ovenRow ++ [("recipes", Value.map [])]))] "equipment"
        [("id", Value.str "1")] unknownKindField = .ok [] :=
  ⟨rfl,
    (formatField_changes_one_key (formatAsAWorkflowType testTypeDescriptors 1)
      testTypeDescriptors (getSingleCtx "equipment") [("equipment", Value.map ovenRow)]
      "equipment" [("id", Value.str "1")]
      { Key := "name", FromColumn := "name", Typ := some { Name := "text" } }
      [("id", Value.str "1"), ("name", Value.str "Oven")] rfl).1,
    rfl⟩

/-! ## C31: join clauses of the rendered templates -/

set_option maxRecDepth 100000 in
theorem join_templates_source :
    sqlite.QueryTemplates.lookup "GetSingle" = some (Node.sourceList sqlite.getSingle) ∧
    sqlite.QueryTemplates.lookup "GetTableWithRelationshipsSchema" =
      some (Node.sourceList sqlite.getTableWithRelationshipsSchema) ∧
    sqlserver.QueryTemplates.lookup "GetSingle" = some (Node.sourceList sqlserver.getSingle) ∧
    sqlserver.QueryTemplates.lookup "GetTableWithRelationshipsSchema" =
      some (Node.sourceList sqlserver.getTableWithRelationshipsSchema) :=
  ⟨rfl, rfl, rfl, rfl⟩

/-- C31, the code at a failing input: for the equipment table with its one
relationship field `recipes`, taken from the descriptor, the SQL Server
templates `GetSingle` and `GetTableWithRelationshipsSchema` do not render:
they read the members `ForeignTableUniqueIDColumn` and
`LocalTableUniqueIDColumn`, which `descriptor.Relationship` does not have
(its members are `ForeignTableUniqueIdColumn` and
`LocalTableUniqueIdColumn`). The SQLite templates render the join clause on
the same context, and without relationship fields the SQL Server template
renders. -/
theorem sqlserver_join_templates_fail :
    joinContext.Relations =
      TypeDescriptorRelationships
        { Key := "equipment", Name := "Equipment", TableName := "equipment",
          ColumnAsOptionName := "name", UniqueIdColumn := "id",
          Fields := commonEquipmentDescriptorFields } ∧
    render sqlserver.getSingle joinContext =
      .error (ExecError.cannotEvaluateField "ForeignTableUniqueIDColumn") ∧
    render sqlserver.getTableWithRelationshipsSchema joinContext =
      .error (ExecError.cannotEvaluateField "ForeignTableUniqueIDColumn") ∧
    render sqlite.getSingle joinContext =
      .ok ("SELECT * FROM \"equipment\" AS \"_equipment\"" ++
        "   LEFT JOIN \"recipes\"   ON \"recipes\".\"equipment_id\"   = \"_equipment\".\"id\"" ++
        " WHERE \"_equipment\".\"id\" = ?") ∧
    render sqlite.getTableWithRelationshipsSchema joinContext =
      .ok ("SELECT * FROM \"equipment\" AS \"_equipment\" " ++
        " LEFT JOIN \"recipes\" ON \"recipes\".\"equipment_id\" = \"_equipment\".\"id\"" ++
        " LIMIT 1") ∧
    render sqlserver.getSingle { joinContext with Relations := [] } =
      .ok "SELECT * FROM \"equipment\" AS \"_equipment\" WHERE \"_equipment\".\"id\" = @p1" :=
  ⟨rfl, rfl, rfl, rfl, rfl, rfl⟩

/-! ### What the join templates render in general -/

theorem join_body_ok (c : RenderContext) (gap : String) (f : Field) (rel : Relationship)
    (vars : List (String × Data)) (hrel : f.Relationship = some rel) :
    Node.execList c.toData
        (leftJoinNodes gap "ForeignTableUniqueIdColumn" "LocalTableUniqueIdColumn")
        f.toData vars = .ok (joinClause gap c.TableName rel) := by
  simp [leftJoinNodes, Node.execList, Node.exec, Pipe.eval, Data.path, Data.field, Field.toData,
    hrel, Relationship.toData, RenderContext.toData, List.lookup, Data.print, joinClause,
    String.append_assoc]

theorem foldl_append_string (l : List String) :
    ∀ a : String, List.foldl (fun r s => r ++ s) a l =
      a ++ List.foldl (fun r s => r ++ s) "" l := by
  induction l with
  | nil => intro a; simp
  | cons x rest ih =>
    intro a
    rw [List.foldl_cons, ih (a ++ x), List.foldl_cons, ih ("" ++ x)]
    simp [String.append_assoc]

theorem string_join_cons (s : String) (l : List String) :
    String.join (s :: l) = s ++ String.join l := by
  simp only [String.join, List.foldl_cons]
  rw [foldl_append_string l ("" ++ s)]
  simp

theorem join_loop_ok (c : RenderContext) (gap : String) (vars : List (String × Data)) :
    ∀ (rels : List Field) (i : Nat) (acc : String),
      (∀ f ∈ rels, f.Relationship ≠ none) →
      (indexed i (rels.map Field.toData)).foldlM
        (fun out item =>
          match Node.execList c.toData
              (leftJoinNodes gap "ForeignTableUniqueIdColumn" "LocalTableUniqueIdColumn")
              item.2 (bindLoopVars none item vars) with
          | .ok s => Except.ok (out ++ s)
          | .error e => .error e)
        acc =
      (.ok (acc ++ String.join ((rels.filterMap (fun f => f.Relationship)).map
        (joinClause gap c.TableName))) : Except ExecError String)
  | [], _, acc, _ => by
    simp [indexed, List.foldlM, String.join, pure, Except.pure]
  | f :: rest, i, acc, h => by
    cases hrel : f.Relationship with
    | none => exact absurd hrel (h f (List.mem_cons_self _ _))
    | some rel =>
      have ih := join_loop_ok c gap vars rest (i + 1) (acc ++ joinClause gap c.TableName rel)
        (fun g hg => h g (List.mem_cons_of_mem _ hg))
      simp only [List.map_cons, indexed, List.foldlM_cons, bindLoopVars,
        join_body_ok c gap f rel vars hrel, List.filterMap_cons, hrel]
      simp only [bind, Except.bind]
      simp only [bindLoopVars] at ih
      rw [ih, string_join_cons, String.append_assoc]

theorem sqlite_getSingle_renders (c : RenderContext)
    (hrels : ∀ f ∈ c.Relations, f.Relationship ≠ none) :
    render sqlite.getSingle c =
      .ok ("SELECT * FROM \"" ++ c.TableName ++ "\" AS \"_" ++ c.TableName ++ "\"" ++
        String.join ((c.Relations.filterMap (fun f => f.Relationship)).map
          (joinClause "   " c.TableName)) ++
        " WHERE \"_" ++ c.TableName ++ "\".\"" ++ c.UniqueIdColumn ++ "\" = ?") := by
  have hloop := join_loop_ok c "   " [] c.Relations 0 "" hrels
  have hrange : Node.exec c.toData
      (Node.range none (Pipe.field ["Relations"])
        (leftJoinNodes "   " "ForeignTableUniqueIdColumn" "LocalTableUniqueIdColumn"))
      c.toData [] =
      .ok (String.join ((c.Relations.filterMap (fun f => f.Relationship)).map
        (joinClause "   " c.TableName))) := by
    rw [show (String.join ((c.Relations.filterMap (fun f => f.Relationship)).map
        (joinClause "   " c.TableName))) = "" ++ String.join ((c.Relations.filterMap
          (fun f => f.Relationship)).map (joinClause "   " c.TableName)) from
      (String.empty_append _).symm]
    exact hloop
  simp only [render, execute, sqlite.getSingle, Node.execList, hrange]
  simp [Node.exec, Pipe.eval, Data.path, Data.field, RenderContext.toData, List.lookup,
    Data.print, String.append_assoc]

theorem sqlite_schema_renders (c : RenderContext)
    (hrels : ∀ f ∈ c.Relations, f.Relationship ≠ none) :
    render sqlite.getTableWithRelationshipsSchema c =
      .ok ("SELECT * FROM \"" ++ c.TableName ++ "\" AS \"_" ++ c.TableName ++ "\" " ++
        String.join ((c.Relations.filterMap (fun f => f.Relationship)).map
          (joinClause " " c.TableName)) ++ " LIMIT 1") := by
  have hloop := join_loop_ok c " " [] c.Relations 0 "" hrels
  have hrange : Node.exec c.toData
      (Node.range none (Pipe.field ["Relations"])
        (leftJoinNodes " " "ForeignTableUniqueIdColumn" "LocalTableUniqueIdColumn"))
      c.toData [] =
      .ok (String.join ((c.Relations.filterMap (fun f => f.Relationship)).map
        (joinClause " " c.TableName))) := by
    rw [show (String.join ((c.Relations.filterMap (fun f => f.Relationship)).map
        (joinClause " " c.TableName))) = "" ++ String.join ((c.Relations.filterMap
          (fun f => f.Relationship)).map (joinClause " " c.TableName)) from
      (String.empty_append _).symm]
    exact hloop
  simp only [render, execute, sqlite.getTableWithRelationshipsSchema, Node.execList, hrange]
  simp [Node.exec, Pipe.eval, Data.path, Data.field, RenderContext.toData, List.lookup,
    Data.print, String.append_assoc]

theorem sqlserver_join_body_fails (c : RenderContext) (gap : String) (f : Field)
    (rel : Relationship) (vars : List (String × Data)) (hrel : f.Relationship = some rel) :
    Node.execList c.toData
        (leftJoinNodes gap "ForeignTableUniqueIDColumn" "LocalTableUniqueIDColumn")
        f.toData vars = .error (ExecError.cannotEvaluateField "ForeignTableUniqueIDColumn") := by
  simp [leftJoinNodes, Node.execList, Node.exec, Pipe.eval, Data.path, Data.field, Field.toData,
    hrel, Relationship.toData, List.lookup, Data.print]

theorem sqlserver_joins_never_render (c : RenderContext) (f : Field) (rest : List Field)
    (rel : Relationship) (hrels : c.Relations = f :: rest) (hrel : f.Relationship = some rel) :
    render sqlserver.getSingle c =
      .error (ExecError.cannotEvaluateField "ForeignTableUniqueIDColumn") ∧
    render sqlserver.getTableWithRelationshipsSchema c =
      .error (ExecError.cannotEvaluateField "ForeignTableUniqueIDColumn") := by
  have hrange : ∀ gap, Node.exec c.toData
      (Node.range none (Pipe.field ["Relations"])
        (leftJoinNodes gap "ForeignTableUniqueIDColumn" "LocalTableUniqueIDColumn"))
      c.toData [] = .error (ExecError.cannotEvaluateField "ForeignTableUniqueIDColumn") := by
    intro gap
    have hlist : Pipe.eval c.toData c.toData [] (Pipe.field ["Relations"]) =
        .ok (Data.list (c.Relations.map Field.toData)) := by
      simp [Pipe.eval, Data.path, Data.field, RenderContext.toData, List.lookup]
    simp only [Node.exec, hlist, hrels, List.map_cons, Data.iterations, indexed,
      List.foldlM_cons, bindLoopVars, sqlserver_join_body_fails c gap f rel [] hrel]
    simp [bind, Except.bind]
  constructor
  · simp only [render, execute, sqlserver.getSingle, Node.execList, hrange]
    simp [Node.exec, Pipe.eval, Data.path, Data.field, RenderContext.toData, List.lookup,
      Data.print]
  · simp only [render, execute, sqlserver.getTableWithRelationshipsSchema, Node.execList,
      hrange]
    simp [Node.exec, Pipe.eval, Data.path, Data.field, RenderContext.toData, List.lookup,
      Data.print]

/-! ## C33: table introspection returns parallel lists -/

theorem collectSchema_ok (convert : String → Container) (columnsPrepended : List String) :
    ∀ (columnTypes : List String) (i : Nat) (dataTypes : List Container)
      (columnNames : List String),
      i + columnTypes.length ≤ columnsPrepended.length →
      collectSchema convert columnsPrepended i columnTypes dataTypes columnNames =
        .ok { ColumnNames := columnNames ++ (columnsPrepended.drop i).take columnTypes.length,
              DataTypes := dataTypes ++ columnTypes.map convert }
  | [], i, dataTypes, columnNames, _ => by
    simp [collectSchema, pure_eq_ok]
  | dataType :: rest, i, dataTypes, columnNames, h => by
    have hi : i < columnsPrepended.length := by
      simp only [List.length_cons] at h
      omega
    have ih := collectSchema_ok convert columnsPrepended rest (i + 1)
      (dataTypes ++ [convert dataType]) (columnNames ++ [columnsPrepended[i]])
      (by simp only [List.length_cons] at h; omega)
    unfold collectSchema
    rw [List.getElem?_eq_getElem hi]
    simp only [deref, ok_bind, ih, List.length_cons, List.map_cons, List.append_assoc,
      List.singleton_append]
    rw [List.drop_eq_getElem_cons hi, List.take_succ_cons]

theorem zipWith_replicate_append (f : String → String → String) (t : String)
    (os : List String) :
    ∀ (n : Nat) (cs : List String), n ≤ cs.length →
      List.zipWith f (List.replicate n t ++ os) cs =
        (cs.take n).map (f t) ++ List.zipWith f os (cs.drop n)
  | 0, cs, _ => by simp
  | n + 1, [], h => by simp at h
  | n + 1, c :: cs, h => by
    have ih := zipWith_replicate_append f t os n cs (by simpa using h)
    simp [List.replicate_succ, ih]

theorem prependRelated_ok (schemas : List (String × Option TableSchema))
    (columns : List String) :
    ∀ (fields : List Field) (owners : List (String × Nat)) (prev : Nat) (acc : List String),
      relatedOwners schemas fields = some owners →
      prev + (owners.map (fun o => o.2)).sum ≤ columns.length →
      prependRelated schemas columns fields prev acc =
        .ok (acc ++ List.zipWith (fun o c => o ++ "_" ++ c) (ownerOfColumns owners)
          (columns.drop prev))
  | [], owners, prev, acc, hown, _ => by
    simp only [relatedOwners, Option.some.injEq] at hown
    subst hown
    simp [prependRelated, ownerOfColumns, pure_eq_ok]
  | field :: rest, owners, prev, acc, hown, hlen => by
    unfold relatedOwners at hown
    cases hrel : field.Relationship with
    | none => simp [hrel] at hown
    | some rel =>
      simp only [hrel] at hown
      cases hs : schemaOf schemas rel.WithTable with
      | none => simp [hs] at hown
      | some schema =>
        simp only [hs] at hown
        cases hmore : relatedOwners schemas rest with
        | none => simp [hmore] at hown
        | some more =>
          simp only [hmore, Option.some.injEq] at hown
          subst hown
          simp only [List.map_cons, List.sum_cons] at hlen
          have ih := prependRelated_ok schemas columns rest more
            (prev + schema.ColumnNames.length)
            (acc ++ ((columns.drop prev).take schema.ColumnNames.length).map
              (fun cc => rel.WithTable ++ "_" ++ cc)) hmore (by omega)
          have hslice : sliceOf columns prev (prev + schema.ColumnNames.length) =
              .ok ((columns.drop prev).take schema.ColumnNames.length) := by
            unfold sliceOf
            rw [if_pos ⟨by omega, by omega⟩, Nat.add_sub_cancel_left]
            rfl
          unfold prependRelated
          simp only [hrel, deref, ok_bind, columnCount, hs, pure_eq_ok, hslice, ih]
          have hz := zipWith_replicate_append (fun o c => o ++ "_" ++ c) rel.WithTable
            (ownerOfColumns more) schema.ColumnNames.length (columns.drop prev)
            (by rw [List.length_drop]; omega)
          simp only [ownerOfColumns, List.flatMap_cons] at hz ⊢
          rw [hz, List.drop_drop, List.append_assoc]

theorem ownerOfColumns_length (owners : List (String × Nat)) :
    (ownerOfColumns owners).length = (owners.map (fun o => o.2)).sum := by
  induction owners with
  | nil => rfl
  | cons o rest ih =>
    simp only [ownerOfColumns, List.flatMap_cons, List.length_append, List.length_replicate,
      List.map_cons, List.sum_cons] at ih ⊢
    rw [ih]

theorem getTableSchema_ok (b : Backend) (query table : String) (rows : Rows)
    (hq : b.Query query = .ok rows) (hc : rows.columnsError = none)
    (ht : rows.columnTypesError = none) :
    b.getTableSchema query table =
      .ok (.ok { ColumnNames := rows.columns.map (fun column => table ++ "_" ++ column.1),
                 DataTypes := rows.columns.map
                   (fun column => b.ConvertDBSpecificDataType column.2) }) := by
  unfold Backend.getTableSchema
  simp only [hq, Rows.Columns, hc, Rows.ColumnTypes, ht]
  rw [collectSchema_ok _ _ _ 0 [] [] (by simp)]
  simp only [List.length_map, List.drop_zero, List.nil_append, List.map_map, ok_bind,
    pure_eq_ok]
  rw [List.take_of_length_le (by simp)]
  rfl

theorem getTableSchemaWithRelationships_ok (b : Backend) (query table : String) (rows : Rows)
    (owners : List (String × Nat))
    (hq : b.Query query = .ok rows) (hc : rows.columnsError = none)
    (ht : rows.columnTypesError = none)
    (hown : joinedOwners b.TableSchemas table (b.relationships table) = some owners)
    (hlen : (owners.map (fun o => o.2)).sum = rows.columns.length) :
    b.getTableSchemaWithRelationships query table =
      .ok (.ok { ColumnNames := List.zipWith (fun o c => o ++ "_" ++ c) (ownerOfColumns owners)
                   (rows.columns.map (fun column => column.1)),
                 DataTypes := rows.columns.map
                   (fun column => b.ConvertDBSpecificDataType column.2) }) := by
  unfold joinedOwners at hown
  cases hs : schemaOf b.TableSchemas table with
  | none => simp [hs] at hown
  | some schema =>
    simp only [hs] at hown
    cases hmore : relatedOwners b.TableSchemas (b.relationships table) with
    | none => simp [hmore] at hown
    | some more =>
      simp only [hmore, Option.some.injEq] at hown
      subst hown
      simp only [List.map_cons, List.sum_cons] at hlen
      have hcols : (rows.columns.map (fun column => column.1)).length = rows.columns.length :=
        List.length_map _ _
      have hslice : sliceOf (rows.columns.map (fun column => column.1)) 0
          schema.ColumnNames.length =
          .ok ((rows.columns.map (fun column => column.1)).take schema.ColumnNames.length) := by
        unfold sliceOf
        rw [if_pos ⟨Nat.zero_le _, by omega⟩]
        rfl
      have hrelated := prependRelated_ok b.TableSchemas
        (rows.columns.map (fun column => column.1)) (b.relationships table) more
        schema.ColumnNames.length
        (((rows.columns.map (fun column => column.1)).take schema.ColumnNames.length).map
          (fun cc => table ++ "_" ++ cc)) hmore (by omega)
      have hz := zipWith_replicate_append (fun o c => o ++ "_" ++ c) table
        (ownerOfColumns more) schema.ColumnNames.length
        (rows.columns.map (fun column => column.1)) (by omega)
      have hall : ownerOfColumns ((table, schema.ColumnNames.length) :: more) =
          List.replicate schema.ColumnNames.length table ++ ownerOfColumns more := by
        simp [ownerOfColumns, List.flatMap_cons]
      rw [← hall] at hz
      rw [← hz] at hrelated
      have hplen : (List.zipWith (fun o c => o ++ "_" ++ c)
          (ownerOfColumns ((table, schema.ColumnNames.length) :: more))
          (rows.columns.map (fun column => column.1))).length = rows.columns.length := by
        rw [List.length_zipWith, ownerOfColumns_length, hcols]
        simp only [List.map_cons, List.sum_cons]
        omega
      unfold Backend.getTableSchemaWithRelationships
      simp only [hq, Rows.Columns, hc, Rows.ColumnTypes, ht, columnCount, hs, deref, ok_bind,
        pure_eq_ok, hslice, hrelated]
      rw [collectSchema_ok _ _ _ 0 [] [] (by rw [hplen]; simp)]
      simp only [List.length_map, List.drop_zero, List.nil_append, List.map_map, ok_bind,
        pure_eq_ok]
      rw [List.take_of_length_le (by rw [hplen])]
      rfl

/-- C33 counterexample: with schemas of two columns stored for `equipment`
and for `recipes`, `getTableSchemaWithRelationships` panics when the driver
reports two columns for the joined query (slice bounds out of range) and
when it reports five (index out of range), and it panics when no schema is
stored for the related table (nil dereference). -/
theorem introspection_out_of_range :
    shortJoinBackend.getTableSchemaWithRelationships "q" "equipment" = .error Fault.panic ∧
    Backend.getTableSchemaWithRelationships
      { shortJoinBackend with
        Query := fun _ =>
          .ok { columns := equipmentColumns ++ recipesColumns ++ [("extra", "TEXT")] } }
      "q" "equipment" = .error Fault.panic ∧
    Backend.getTableSchemaWithRelationships
      { fullJoinBackend with
        TableSchemas :=
          [ ("equipment", some { ColumnNames := ["equipment_id", "equipment_name"],
                                 DataTypes := [Container.NullInt64, Container.NullString] }) ] }
      "q" "equipment" = .error Fault.panic :=
  ⟨rfl, rfl, rfl⟩

/-- C33 (amended): for every table and every column list reported by the
driver, `getTableSchema` returns a column-name list and a column-type list
of equal length, the i-th name being the table's name, `_` and the i-th
column name, the i-th type the classifier applied to the i-th native type
name. `getTableSchemaWithRelationships` does so when a schema is stored for
the table and for the related table of every relationship field and the
driver reports as many columns as these schemas have together; the i-th
name then is the owning table's name, `_` and the i-th column name, the
tables owning the columns in the order base table, related tables. -/
theorem introspection_parallel_lists (b : Backend) (plainQuery joinQuery table : String)
    (plainRows joinRows : Rows) (owners : List (String × Nat))
    (hplain : b.Query plainQuery = .ok plainRows)
    (hpc : plainRows.columnsError = none) (hpt : plainRows.columnTypesError = none)
    (hjoin : b.Query joinQuery = .ok joinRows)
    (hjc : joinRows.columnsError = none) (hjt : joinRows.columnTypesError = none)
    (hown : joinedOwners b.TableSchemas table (b.relationships table) = some owners)
    (hlen : (owners.map (fun o => o.2)).sum = joinRows.columns.length) :
    ∃ plain joined,
      b.getTableSchema plainQuery table = .ok (.ok plain) ∧
      plain.ColumnNames = plainRows.columns.map (fun column => table ++ "_" ++ column.1) ∧
      plain.DataTypes =
        plainRows.columns.map (fun column => b.ConvertDBSpecificDataType column.2) ∧
      plain.ColumnNames.length = plain.DataTypes.length ∧
      b.getTableSchemaWithRelationships joinQuery table = .ok (.ok joined) ∧
      joined.ColumnNames =
        List.zipWith (fun o c => o ++ "_" ++ c) (ownerOfColumns owners)
          (joinRows.columns.map (fun column => column.1)) ∧
      joined.DataTypes =
        joinRows.columns.map (fun column => b.ConvertDBSpecificDataType column.2) ∧
      joined.ColumnNames.length = joined.DataTypes.length ∧
      joined.ColumnNames.length = joinRows.columns.length := by
  refine ⟨_, _, getTableSchema_ok b plainQuery table plainRows hplain hpc hpt, rfl, rfl, ?_,
    getTableSchemaWithRelationships_ok b joinQuery table joinRows owners hjoin hjc hjt hown hlen,
    rfl, rfl, ?_, ?_⟩
  · simp
  · simp only [List.length_zipWith, ownerOfColumns_length, hlen, List.length_map, Nat.min_self]
  · simp only [List.length_zipWith, ownerOfColumns_length, hlen, List.length_map, Nat.min_self]

/-- C33, witness: the equipment table with its relationship to recipes,
two columns each. -/
theorem introspection_parallel_lists_witness :
    joinedOwners fullJoinBackend.TableSchemas "equipment"
      (fullJoinBackend.relationships "equipment") = some [("equipment", 2), ("recipes", 2)] ∧
    ∃ plain joined,
      fullJoinBackend.getTableSchema "q" "equipment" = .ok (.ok plain) ∧
      plain.ColumnNames =
        (equipmentColumns ++ recipesColumns).map (fun column => "equipment" ++ "_" ++ column.1) ∧
      plain.DataTypes =
        (equipmentColumns ++ recipesColumns).map
          (fun column => pgsql.convertFromPgsqlDataType column.2) ∧
      plain.ColumnNames.length = plain.DataTypes.length ∧
      fullJoinBackend.getTableSchemaWithRelationships "q" "equipment" = .ok (.ok joined) ∧
      joined.ColumnNames =
        List.zipWith (fun o c => o ++ "_" ++ c)
          (ownerOfColumns [("equipment", 2), ("recipes", 2)])
          ((equipmentColumns ++ recipesColumns).map (fun column => column.1)) ∧
      joined.DataTypes =
        (equipmentColumns ++ recipesColumns).map
          (fun column => pgsql.convertFromPgsqlDataType column.2) ∧
      joined.ColumnNames.length = joined.DataTypes.length ∧
      joined.ColumnNames.length = (equipmentColumns ++ recipesColumns).length :=
  ⟨rfl, introspection_parallel_lists fullJoinBackend "q" "q" "equipment"
    { columns := equipmentColumns ++ recipesColumns }
    { columns := equipmentColumns ++ recipesColumns } [("equipment", 2), ("recipes", 2)]
    rfl rfl rfl rfl rfl rfl rfl rfl⟩

theorem joined_names_of_example :
    fullJoinBackend.getTableSchemaWithRelationships "q" "equipment" =
      .ok (.ok { ColumnNames :=
                   ["equipment_id", "equipment_name", "recipes_id", "recipes_equipment_id"],
                 DataTypes := [Container.NullInt64, Container.NullString, Container.NullInt64,
                   Container.NullInt64] }) := rfl

/-! ## C35: errors of `SaveTableSchemas` -/

theorem saveSchemas_reports (b : Backend) :
    ∀ (tables : List String) (schemas out : List (String × Option TableSchema))
      (err : Option String),
      (∃ table ∈ tables, ∃ e,
        b.getTableSchema (Sprintf (textOf b.Queries "GetTableSchema") [table]) table =
          .ok (.error e)) →
      saveSchemas b tables schemas = .ok (out, err) → err ≠ none
  | [], _, _, _, h, _ => by
    obtain ⟨table, hmem, _⟩ := h
    exact absurd hmem (List.not_mem_nil _)
  | table :: rest, schemas, out, err, h, hres => by
    unfold saveSchemas at hres
    cases hget : b.getTableSchema (Sprintf (textOf b.Queries "GetTableSchema") [table]) table with
    | error f => simp [hget, error_bind] at hres
    | ok r =>
      simp only [hget, ok_bind] at hres
      cases r with
      | error e =>
        simp only [pure_eq_ok, Except.ok.injEq, Prod.mk.injEq] at hres
        rw [← hres.2]
        exact Option.some_ne_none _
      | ok schema =>
        simp only at hres
        obtain ⟨t, hmem, e, ht⟩ := h
        rcases List.mem_cons.mp hmem with h1 | h1
        · subst h1
          rw [hget] at ht
          cases ht
        · exact saveSchemas_reports b rest _ out err ⟨t, h1, e, ht⟩ hres

theorem saveRelationshipSchemas_reports (b : Backend) :
    ∀ (tables : List String) (schemas out : List (String × Option TableSchema))
      (err : Option String),
      (∃ table ∈ tables, b.tableHasRelationships table = true ∧ ∃ e,
        b.interpolateGetTemplate (textOf b.Templates "GetTableWithRelationshipsSchema") table =
          .error e) →
      saveRelationshipSchemas b tables schemas = .ok (out, err) → err ≠ none
  | [], _, _, _, h, _ => by
    obtain ⟨table, hmem, _⟩ := h
    exact absurd hmem (List.not_mem_nil _)
  | table :: rest, schemas, out, err, h, hres => by
    unfold saveRelationshipSchemas at hres
    by_cases hhas : b.tableHasRelationships table = true
    · rw [if_pos hhas] at hres
      cases hint : b.interpolateGetTemplate
          (textOf b.Templates "GetTableWithRelationshipsSchema") table with
      | error e =>
        simp only [hint, pure_eq_ok, Except.ok.injEq, Prod.mk.injEq] at hres
        rw [← hres.2]
        exact Option.some_ne_none _
      | ok queryText =>
        simp only [hint] at hres
        cases hget : Backend.getTableSchemaWithRelationships
            { b with TableSchemas := schemas } queryText table with
        | error f => simp [hget, error_bind] at hres
        | ok r =>
          simp only [hget, ok_bind] at hres
          obtain ⟨t, hmem, hrel, e, ht⟩ := h
          rcases List.mem_cons.mp hmem with h1 | h1
          · subst h1
            rw [hint] at ht
            cases ht
          · exact saveRelationshipSchemas_reports b rest _ out err ⟨t, h1, hrel, e, ht⟩ hres
    · rw [if_neg hhas] at hres
      obtain ⟨t, hmem, hrel, e, ht⟩ := h
      rcases List.mem_cons.mp hmem with h1 | h1
      · subst h1
        exact absurd hrel hhas
      · exact saveRelationshipSchemas_reports b rest _ out err ⟨t, h1, hrel, e, ht⟩ hres

/-- C35, the code at a failing input: the database answers the schema query
of `equipment` and fails on the joined query of the relationships pass;
`getTableSchemaWithRelationships` returns that error, yet `SaveTableSchemas`
returns nil and leaves a nil schema under `equipment_relationships`. A
failure of the plain pass and a failure of the template interpolation are
returned as errors. -/
theorem saveTableSchemas_swallows_join_error :
    Backend.getTableSchemaWithRelationships
      { equipmentBackend with
        TableSchemas :=
          [ ("equipment", some { ColumnNames := ["equipment_id", "equipment_name"],
                                 DataTypes := [Container.NullInt64, Container.NullString] }) ] }
      "SELECT * FROM equipment AS _equipment LEFT JOIN recipes" "equipment" =
      .ok (.error "pq: relation does not exist") ∧
    equipmentBackend.SaveTableSchemas =
      .ok ([ ("equipment", some { ColumnNames := ["equipment_id", "equipment_name"],
                                  DataTypes := [Container.NullInt64, Container.NullString] }),
             ("equipment_relationships", none) ], none) ∧
    Backend.SaveTableSchemas { equipmentBackend with Query := fun _ => .error "bad connection" } =
      .ok ([("equipment", none)],
        some "Unable to retrieve columns and data types from table schema: bad connection") ∧
    Backend.SaveTableSchemas
      { equipmentBackend with interpolateGetTemplate := fun _ _ => .error "unexpected EOF" } =
      .ok ([ ("equipment", some { ColumnNames := ["equipment_id", "equipment_name"],
                                  DataTypes := [Container.NullInt64, Container.NullString] }) ],
        some "Unable to interpolate queryText to retrieve table schema: unexpected EOF") :=
  ⟨rfl, rfl, rfl, rfl⟩

/-! ## Slices of pointers: agreement with the lists of values

On a slice without nil entry the functions of the section on slices of
pointers return what the functions on lists of values return on the structs
pointed to; on a slice with a nil entry that they visit they panic. -/
theorem pointer_errUniqueId_loop (td : Pointer.TypeDescriptor) :
    ∀ fields : List (Option Field), fields.all (fun entry => entry.isSome) = true →
      Pointer.errUniqueIdColumnAndIdColumnDiffer.loop td fields =
        .ok (errUniqueIdColumnAndIdColumnDiffer.loop td.values fields.reduceOption)
  | [], _ => rfl
  | none :: rest, h => by simp at h
  | some field :: rest, h => by
    have ih := pointer_errUniqueId_loop td rest (by simpa using h)
    unfold Pointer.errUniqueIdColumnAndIdColumnDiffer.loop
    simp only [deref, ok_bind, List.reduceOption_cons_of_some,
      errUniqueIdColumnAndIdColumnDiffer.loop, ih, pure_eq_ok]
    by_cases hc : field.Key = "id" ∧ td.UniqueIdColumn ≠ "id"
    · rw [if_pos hc, if_pos (by exact hc)]
      rfl
    · rw [if_neg hc, if_neg (by exact hc)]
      rfl

theorem pointer_errName_loop (td : Pointer.TypeDescriptor) :
    ∀ fields : List (Option Field), fields.all (fun entry => entry.isSome) = true →
      Pointer.errColumnAsOptionNameAndNameColumnDiffer.loop td fields =
        .ok (errColumnAsOptionNameAndNameColumnDiffer.loop td.values fields.reduceOption)
  | [], _ => rfl
  | none :: rest, h => by simp at h
  | some field :: rest, h => by
    have ih := pointer_errName_loop td rest (by simpa using h)
    unfold Pointer.errColumnAsOptionNameAndNameColumnDiffer.loop
    simp only [deref, ok_bind, List.reduceOption_cons_of_some,
      errColumnAsOptionNameAndNameColumnDiffer.loop, ih, pure_eq_ok]
    by_cases hc : field.Key = "name" ∧ td.ColumnAsOptionName ≠ "name"
    · rw [if_pos hc, if_pos (by exact hc)]
      rfl
    · rw [if_neg hc, if_neg (by exact hc)]
      rfl

theorem pointer_checkFields (td : String) :
    ∀ fields : List (Option Field), fields.all (fun entry => entry.isSome) = true →
      Pointer.checkFields td fields = checkFields td fields.reduceOption
  | [], _ => rfl
  | none :: rest, h => by simp at h
  | some field :: rest, h => by
    have ih := pointer_checkFields td rest (by simpa using h)
    unfold Pointer.checkFields
    simp only [deref, ok_bind, List.reduceOption_cons_of_some, ih]
    rw [checkFields]

theorem pointer_checkTypeDescriptors :
    ∀ tds : List (Option Pointer.TypeDescriptor),
      tds.all (fun entry => match entry with | none => false | some td => td.noNil) = true →
      Pointer.checkTypeDescriptors tds =
        checkTypeDescriptors (tds.reduceOption.map Pointer.TypeDescriptor.values)
  | [], _ => rfl
  | none :: rest, h => by simp at h
  | some td :: rest, h => by
    simp only [List.all_cons, Bool.and_eq_true] at h
    have ih := pointer_checkTypeDescriptors rest h.2
    have hf : td.Fields.all (fun entry => entry.isSome) = true := h.1
    unfold Pointer.checkTypeDescriptors
    simp only [Pointer.errUniqueIdColumnAndIdColumnDiffer,
      Pointer.errColumnAsOptionNameAndNameColumnDiffer, deref, ok_bind,
      pointer_errUniqueId_loop td td.Fields hf, pointer_errName_loop td td.Fields hf,
      pointer_checkFields td.Key td.Fields hf, ih, List.reduceOption_cons_of_some, List.map_cons]
    rw [checkTypeDescriptors]
    rfl

theorem pointer_performSanityChecks_eq (descriptor : Pointer.Descriptor)
    (hnil : descriptor.noNil = true) :
    Pointer.performSanityChecks descriptor = performSanityChecks descriptor.values :=
  pointer_checkTypeDescriptors descriptor.TypeDescriptors hnil

/-! ### Acceptance visits every entry -/

theorem pointer_errUniqueId_loop_none (td : Pointer.TypeDescriptor) :
    ∀ fields : List (Option Field),
      Pointer.errUniqueIdColumnAndIdColumnDiffer.loop td fields = .ok none →
      fields.all (fun entry => entry.isSome) = true
  | [], _ => rfl
  | none :: rest, h => by
    simp [Pointer.errUniqueIdColumnAndIdColumnDiffer.loop, deref] at h
  | some field :: rest, h => by
    unfold Pointer.errUniqueIdColumnAndIdColumnDiffer.loop at h
    simp only [deref, ok_bind] at h
    by_cases hc : field.Key = "id" ∧ td.UniqueIdColumn ≠ "id"
    · rw [if_pos hc] at h
      cases h
    · rw [if_neg hc] at h
      simpa using pointer_errUniqueId_loop_none td rest h

theorem pointer_checkFields_none (td : String) :
    ∀ fields : List (Option Field), Pointer.checkFields td fields = .ok none →
      fields.all (fun entry => entry.isSome) = true
  | [], _ => rfl
  | none :: rest, h => by
    simp [Pointer.checkFields, deref] at h
  | some field :: rest, h => by
    unfold Pointer.checkFields at h
    simp only [deref, ok_bind] at h
    cases hf : checkField field td with
    | error e => simp [hf] at h
    | ok r =>
      cases r with
      | some err => simp [hf] at h
      | none =>
        simp only [hf, ok_bind] at h
        simpa using pointer_checkFields_none td rest h

theorem pointer_checkTypeDescriptors_none :
    ∀ tds : List (Option Pointer.TypeDescriptor),
      Pointer.checkTypeDescriptors tds = .ok none →
      tds.all (fun entry => match entry with
        | none => false
        | some td => td.noNil) = true
  | [], _ => rfl
  | none :: rest, h => by
    simp [Pointer.checkTypeDescriptors, Pointer.errUniqueIdColumnAndIdColumnDiffer, deref] at h
  | some td :: rest, h => by
    unfold Pointer.checkTypeDescriptors at h
    simp only [Pointer.errUniqueIdColumnAndIdColumnDiffer,
      Pointer.errColumnAsOptionNameAndNameColumnDiffer, deref, ok_bind] at h
    cases h1 : Pointer.errUniqueIdColumnAndIdColumnDiffer.loop td td.Fields with
    | error e => simp [h1] at h
    | ok r1 =>
      cases r1 with
      | some err => simp [h1] at h
      | none =>
        simp only [h1, ok_bind] at h
        cases h2 : Pointer.errColumnAsOptionNameAndNameColumnDiffer.loop td td.Fields with
        | error e => simp [h2] at h
        | ok r2 =>
          cases r2 with
          | some err => simp [h2] at h
          | none =>
            simp only [h2, ok_bind] at h
            cases h3 : Pointer.checkFields td.Key td.Fields with
            | error e => simp [h3] at h
            | ok r3 =>
              cases r3 with
              | some err => simp [h3] at h
              | none =>
                simp only [h3, ok_bind] at h
                have ih := pointer_checkTypeDescriptors_none rest h
                have hf := pointer_errUniqueId_loop_none td td.Fields h1
                rw [List.all_cons, ih, Bool.and_true]
                exact hf

theorem pointer_accepted_noNil (descriptor : Pointer.Descriptor)
    (h : Pointer.performSanityChecks descriptor = .ok none) : descriptor.noNil = true :=
  pointer_checkTypeDescriptors_none descriptor.TypeDescriptors h

/-! ### The checks stop at the first error -/

theorem pointer_checkFields_append (td : String) (rest : List (Option Field)) :
    ∀ before : List (Option Field), Pointer.checkFields td before = .ok none →
      Pointer.checkFields td (before ++ rest) = Pointer.checkFields td rest
  | [], _ => rfl
  | none :: before, h => by
    simp [Pointer.checkFields, deref] at h
  | some field :: before, h => by
    unfold Pointer.checkFields at h
    simp only [deref, ok_bind] at h
    cases hf : checkField field td with
    | error e => simp [hf] at h
    | ok r =>
      cases r with
      | some err => simp [hf] at h
      | none =>
        simp only [hf, ok_bind] at h
        rw [List.cons_append, Pointer.checkFields]
        simp only [deref, ok_bind, hf]
        exact pointer_checkFields_append td rest before h

theorem pointer_checkTypeDescriptors_append (rest : List (Option Pointer.TypeDescriptor)) :
    ∀ before : List (Option Pointer.TypeDescriptor),
      Pointer.checkTypeDescriptors before = .ok none →
      Pointer.checkTypeDescriptors (before ++ rest) = Pointer.checkTypeDescriptors rest
  | [], _ => rfl
  | none :: before, h => by
    simp [Pointer.checkTypeDescriptors, Pointer.errUniqueIdColumnAndIdColumnDiffer, deref] at h
  | some td :: before, h => by
    unfold Pointer.checkTypeDescriptors at h
    simp only [Pointer.errUniqueIdColumnAndIdColumnDiffer,
      Pointer.errColumnAsOptionNameAndNameColumnDiffer, deref, ok_bind] at h
    cases h1 : Pointer.errUniqueIdColumnAndIdColumnDiffer.loop td td.Fields with
    | error e => simp [h1] at h
    | ok r1 =>
      cases r1 with
      | some err => simp [h1] at h
      | none =>
        simp only [h1, ok_bind] at h
        cases h2 : Pointer.errColumnAsOptionNameAndNameColumnDiffer.loop td td.Fields with
        | error e => simp [h2] at h
        | ok r2 =>
          cases r2 with
          | some err => simp [h2] at h
          | none =>
            simp only [h2, ok_bind] at h
            cases h3 : Pointer.checkFields td.Key td.Fields with
            | error e => simp [h3] at h
            | ok r3 =>
              cases r3 with
              | some err => simp [h3] at h
              | none =>
                simp only [h3, ok_bind] at h
                rw [List.cons_append, Pointer.checkTypeDescriptors]
                simp only [Pointer.errUniqueIdColumnAndIdColumnDiffer,
                  Pointer.errColumnAsOptionNameAndNameColumnDiffer, deref, ok_bind, h1, h2, h3]
                exact pointer_checkTypeDescriptors_append rest before h

/-! ### Membership and types under `values` -/

theorem reduceOption_map_some {α : Type} :
    ∀ l : List (Option α), l.all (fun entry => entry.isSome) = true →
      l.reduceOption.map some = l
  | [], _ => rfl
  | none :: rest, h => by simp at h
  | some a :: rest, h => by
    rw [List.reduceOption_cons_of_some, List.map_cons,
      reduceOption_map_some rest (by simpa using h)]

theorem pointer_field_mem_values {td : Pointer.TypeDescriptor} {field : Field}
    (h : some field ∈ td.Fields) : field ∈ td.values.Fields :=
  List.reduceOption_mem_iff.mpr h

theorem pointer_mem_values {descriptor : Pointer.Descriptor} {td : Pointer.TypeDescriptor}
    (h : some td ∈ descriptor.TypeDescriptors) : td.values ∈ descriptor.values.TypeDescriptors :=
  List.mem_map.mpr ⟨td, List.reduceOption_mem_iff.mpr h, rfl⟩

theorem pointer_hasTypes_values (descriptor : Pointer.Descriptor)
    (h : descriptor.hasTypes = true) : descriptor.values.HasTypes := by
  intro tdv htdv field hfield
  obtain ⟨td, htd, rfl⟩ := List.mem_map.mp htdv
  have htd2 : some td ∈ descriptor.TypeDescriptors := List.reduceOption_mem_iff.mp htd
  have hf2 : some field ∈ td.Fields := List.reduceOption_mem_iff.mp hfield
  have h1 := List.all_eq_true.mp h (some td) htd2
  exact List.all_eq_true.mp h1 (some field) hf2

/-! ### The lookup by table name over a slice of pointers -/

theorem pointer_lookup_loop_panics (tableName : String) :
    ∀ (tds : List (Option Pointer.TypeDescriptor)) (acc : Option Pointer.TypeDescriptor),
      none ∈ tds →
      Pointer.GetTypeDescriptorUsingDBTableName.loop tableName tds acc = .error Fault.panic
  | [], _, h => absurd h (List.not_mem_nil _)
  | none :: rest, acc, _ => rfl
  | some td :: rest, acc, h => by
    rw [Pointer.GetTypeDescriptorUsingDBTableName.loop]
    simp only [deref, ok_bind]
    refine pointer_lookup_loop_panics tableName rest _ ?_
    rcases List.mem_cons.mp h with h | h
    · cases h
    · exact h

theorem pointer_lookup_loop_spec (tableName : String) :
    ∀ (tds : List (Option Pointer.TypeDescriptor)) (acc : Option Pointer.TypeDescriptor),
      tds.all (fun entry => entry.isSome) = true →
      ∃ result, Pointer.GetTypeDescriptorUsingDBTableName.loop tableName tds acc = .ok result ∧
        ((∃ pre td post, tds = pre ++ some td :: post ∧ td.TableName = tableName ∧
            (∀ t, some t ∈ post → t.TableName ≠ tableName) ∧ result = some td) ∨
          ((∀ t, some t ∈ tds → t.TableName ≠ tableName) ∧ result = acc))
  | [], acc, _ => ⟨acc, rfl, Or.inr ⟨fun _ h => absurd h (List.not_mem_nil _), rfl⟩⟩
  | none :: rest, acc, h => by simp at h
  | some td :: rest, acc, h => by
    obtain ⟨result, hres, hcase⟩ := pointer_lookup_loop_spec tableName rest
      (if tableName = td.TableName then some td else acc) (by simpa using h)
    refine ⟨result, ?_, ?_⟩
    · rw [Pointer.GetTypeDescriptorUsingDBTableName.loop]
      simp only [deref, ok_bind]
      exact hres
    · rcases hcase with ⟨pre, t, post, heq, hname, hpost, hr⟩ | ⟨hnone, hr⟩
      · exact Or.inl ⟨some td :: pre, t, post, by rw [heq]; rfl, hname, hpost, hr⟩
      · by_cases hm : tableName = td.TableName
        · rw [if_pos hm] at hr
          exact Or.inl ⟨[], td, rest, rfl, hm.symm, hnone, hr⟩
        · rw [if_neg hm] at hr
          refine Or.inr ⟨fun t ht => ?_, hr⟩
          rcases List.mem_cons.mp ht with ht | ht
          · cases ht
            exact fun hc => hm hc.symm
          · exact hnone t ht

theorem pointer_last_match_unique {tableName : String}
    {pre pre2 post post2 : List (Option Pointer.TypeDescriptor)}
    {td td2 : Pointer.TypeDescriptor}
    (heq : pre ++ some td :: post = pre2 ++ some td2 :: post2)
    (hname : td.TableName = tableName) (hname2 : td2.TableName = tableName)
    (hpost : ∀ t, some t ∈ post → t.TableName ≠ tableName)
    (hpost2 : ∀ t, some t ∈ post2 → t.TableName ≠ tableName) : td = td2 := by
  rcases List.append_eq_append_iff.mp heq with ⟨a, _, ha⟩ | ⟨c, _, hc⟩
  · cases a with
    | nil =>
      simp only [List.nil_append, List.cons.injEq, Option.some.injEq] at ha
      exact ha.1
    | cons x a =>
      simp only [List.cons_append, List.cons.injEq] at ha
      exact absurd hname2 (hpost td2 (by rw [ha.2]; simp))
  · cases c with
    | nil =>
      simp only [List.nil_append, List.cons.injEq, Option.some.injEq] at hc
      exact hc.1.symm
    | cons x c =>
      simp only [List.cons_append, List.cons.injEq] at hc
      exact absurd hname (hpost2 td (by rw [hc.2]; simp))

/-! ### Relationship fields over a slice of pointers -/

theorem pointer_relationships_loop :
    ∀ fields : List (Option Field), fields.all (fun entry => entry.isSome) = true →
      Pointer.TypeDescriptorRelationships.loop fields =
        .ok (fields.reduceOption.filter (fun field => field.Relationship.isSome))
  | [], _ => rfl
  | none :: rest, h => by simp at h
  | some field :: rest, h => by
    rw [Pointer.TypeDescriptorRelationships.loop]
    simp only [deref, ok_bind, pointer_relationships_loop rest (by simpa using h), pure_eq_ok,
      List.reduceOption_cons_of_some, List.filter_cons]

theorem pointer_omitted_loop :
    ∀ fields : List (Option Field), fields.all (fun entry => entry.isSome) = true →
      Pointer.withRelationshipFieldsOmitted.loop fields =
        .ok (fields.reduceOption.filter (fun field => field.Relationship.isNone))
  | [], _ => rfl
  | none :: rest, h => by simp at h
  | some field :: rest, h => by
    rw [Pointer.withRelationshipFieldsOmitted.loop]
    simp only [deref, ok_bind, pointer_omitted_loop rest (by simpa using h), pure_eq_ok,
      List.reduceOption_cons_of_some, List.filter_cons]

theorem pointer_relationships_loop_panics :
    ∀ fields : List (Option Field), none ∈ fields →
      Pointer.TypeDescriptorRelationships.loop fields = .error Fault.panic
  | [], h => absurd h (List.not_mem_nil _)
  | none :: rest, _ => rfl
  | some field :: rest, h => by
    have hrest : none ∈ rest := by
      rcases List.mem_cons.mp h with h | h
      · cases h
      · exact h
    rw [Pointer.TypeDescriptorRelationships.loop]
    simp only [deref, ok_bind, pointer_relationships_loop_panics rest hrest, error_bind]

theorem pointer_omitted_loop_panics :
    ∀ fields : List (Option Field), none ∈ fields →
      Pointer.withRelationshipFieldsOmitted.loop fields = .error Fault.panic
  | [], h => absurd h (List.not_mem_nil _)
  | none :: rest, _ => rfl
  | some field :: rest, h => by
    have hrest : none ∈ rest := by
      rcases List.mem_cons.mp h with h | h
      · cases h
      · exact h
    rw [Pointer.withRelationshipFieldsOmitted.loop]
    simp only [deref, ok_bind, pointer_omitted_loop_panics rest hrest, error_bind]

theorem mem_none_of_not_all {α : Type} :
    ∀ l : List (Option α), l.all (fun entry => entry.isSome) = false → none ∈ l
  | [], h => by simp at h
  | none :: rest, _ => List.mem_cons_self _ _
  | some a :: rest, h => List.mem_cons_of_mem _ (mem_none_of_not_all rest (by simpa using h))

theorem filter_partition_facts (fields : List Field) :
    (∀ f, f ∈ fields.filter (fun field => field.Relationship.isSome) ↔
      f ∈ fields ∧ f.Relationship ≠ none) ∧
    (∀ f, f ∈ fields.filter (fun field => field.Relationship.isNone) ↔
      f ∈ fields ∧ f.Relationship = none) ∧
    List.Perm (fields.filter (fun field => field.Relationship.isSome) ++
      fields.filter (fun field => field.Relationship.isNone)) fields := by
  refine ⟨fun f => ?_, fun f => ?_, ?_⟩
  · simp [List.mem_filter, Option.isSome_iff_ne_none]
  · simp [List.mem_filter]
  · have h := List.filter_append_perm (fun field : Field => field.Relationship.isSome) fields
    have hnot : (fun field : Field => !field.Relationship.isSome) =
        (fun field : Field => field.Relationship.isNone) := by
      funext field
      cases field.Relationship <;> rfl
    simp only [hnot] at h
    exact h

/-! ## C15 – C17: the rules of `performSanityChecks` on the descriptor as decoded -/

/-- C15, counterexample: the array `typeDescriptors` holds `null` and then a
type descriptor that has a field keyed `id` while its `uniqueIdColumn` is
`uid`; every field has a type. `performSanityChecks` reads `td.Fields`
through the nil entry and panics: no error is returned. -/
theorem id_rule_nil_entry_counterexample :
    nilThenIdViolation.hasTypes = true ∧
    (∃ td, some td ∈ nilThenIdViolation.TypeDescriptors ∧
      (∃ field, some field ∈ td.Fields ∧ field.Key = "id") ∧ td.UniqueIdColumn ≠ "id") ∧
    Pointer.performSanityChecks nilThenIdViolation = .error Fault.panic ∧
    ¬∃ msg, Pointer.performSanityChecks nilThenIdViolation = .ok (some msg) := by
  refine ⟨by decide, ⟨_, List.mem_cons_of_mem _ (List.mem_singleton.mpr rfl),
    ⟨_, List.mem_singleton.mpr rfl, rfl⟩, by decide⟩, rfl, ?_⟩
  rintro ⟨msg, h⟩
  have h2 : (Except.error Fault.panic : Except Fault (Option String)) = .ok (some msg) := h
  cases h2

/-- C15, amended: for every descriptor without nil entry in
`typeDescriptors` and in the `fields` of its type descriptors, in which each
field has a type and each money type has a currency, `performSanityChecks`
returns; if it returns no error then every type descriptor containing a
field with key `id` has `uniqueIdColumn` equal to `id`, and every such
descriptor with a type descriptor violating this is rejected with an
error. -/
theorem id_rule_enforced_without_nil (descriptor : Pointer.Descriptor)
    (hnil : descriptor.noNil = true) (hwf : descriptor.hasTypes = true) :
    (∃ result, Pointer.performSanityChecks descriptor = .ok result) ∧
    (Pointer.performSanityChecks descriptor = .ok none →
      ∀ td, some td ∈ descriptor.TypeDescriptors →
        (∃ field, some field ∈ td.Fields ∧ field.Key = "id") → td.UniqueIdColumn = "id") ∧
    ((∃ td, some td ∈ descriptor.TypeDescriptors ∧
        (∃ field, some field ∈ td.Fields ∧ field.Key = "id") ∧ td.UniqueIdColumn ≠ "id") →
      ∃ msg, Pointer.performSanityChecks descriptor = .ok (some msg)) := by
  rw [pointer_performSanityChecks_eq descriptor hnil]
  have hv := pointer_hasTypes_values descriptor hwf
  refine ⟨?_, ?_, ?_⟩
  · exact checkTypeDescriptors_returns _
      (fun td htd f hf => (hasType_iff f).mp (hv td htd f hf))
  · rintro hacc td htd ⟨field, hf, hk⟩
    exact (errUniqueId_none_iff td.values).mp
      (((checkTypeDescriptors_none_iff _).mp hacc) td.values (pointer_mem_values htd)).1
      ⟨field, pointer_field_mem_values hf, hk⟩
  · rintro ⟨td, htd, ⟨field, hf, hk⟩, hne⟩
    refine performSanityChecks_rejects descriptor.values hv (fun hall => ?_)
    exact hne ((errUniqueId_none_iff td.values).mp
      (hall td.values (pointer_mem_values htd)).1 ⟨field, pointer_field_mem_values hf, hk⟩)

/-- C15, witness: the descriptor of the test suite, decoded without nil
entry, is accepted and its type descriptors with a field keyed `id` name
their unique-id column `id`. -/
theorem id_rule_enforced_without_nil_witness :
    (Pointer.Descriptor.ofValues testDescriptor).noNil = true ∧
    (Pointer.Descriptor.ofValues testDescriptor).hasTypes = true ∧
    Pointer.performSanityChecks (Pointer.Descriptor.ofValues testDescriptor) = .ok none ∧
    ∀ td, some td ∈ (Pointer.Descriptor.ofValues testDescriptor).TypeDescriptors →
      (∃ field, some field ∈ td.Fields ∧ field.Key = "id") → td.UniqueIdColumn = "id" :=
  ⟨by decide, by decide, rfl,
    (id_rule_enforced_without_nil (Pointer.Descriptor.ofValues testDescriptor) (by decide)
      (by decide)).2.1 rfl⟩

/-- C16, counterexample: the array `typeDescriptors` holds `null` and then a
type descriptor that has a field keyed `name` while its
`columnAsOptionName` is `title`; every field has a type.
`performSanityChecks` panics on the nil entry: the descriptor is not
rejected with an error. -/
theorem name_rule_nil_entry_counterexample :
    nilThenNameViolation.hasTypes = true ∧
    (∃ td, some td ∈ nilThenNameViolation.TypeDescriptors ∧
      (∃ field, some field ∈ td.Fields ∧ field.Key = "name") ∧
      td.ColumnAsOptionName ≠ "name") ∧
    Pointer.performSanityChecks nilThenNameViolation = .error Fault.panic ∧
    ¬∃ msg, Pointer.performSanityChecks nilThenNameViolation = .ok (some msg) := by
  refine ⟨by decide, ⟨_, List.mem_cons_of_mem _ (List.mem_singleton.mpr rfl),
    ⟨_, List.mem_singleton.mpr rfl, rfl⟩, by decide⟩, rfl, ?_⟩
  rintro ⟨msg, h⟩
  have h2 : (Except.error Fault.panic : Except Fault (Option String)) = .ok (some msg) := h
  cases h2

/-- C16, amended: for every descriptor without nil entry in
`typeDescriptors` and in the `fields` of its type descriptors, in which each
field has a type and each money type has a currency, `performSanityChecks`
returns; it rejects the descriptor with an error whenever some type
descriptor contains a field with key `name` while its `columnAsOptionName`
differs from `name`, and every accepted descriptor has `columnAsOptionName`
equal to `name` in each type descriptor having such a field. -/
theorem name_rule_enforced_without_nil (descriptor : Pointer.Descriptor)
    (hnil : descriptor.noNil = true) (hwf : descriptor.hasTypes = true) :
    (∃ result, Pointer.performSanityChecks descriptor = .ok result) ∧
    ((∃ td, some td ∈ descriptor.TypeDescriptors ∧
        (∃ field, some field ∈ td.Fields ∧ field.Key = "name") ∧
        td.ColumnAsOptionName ≠ "name") →
      ∃ msg, Pointer.performSanityChecks descriptor = .ok (some msg)) ∧
    (Pointer.performSanityChecks descriptor = .ok none →
      ∀ td, some td ∈ descriptor.TypeDescriptors →
        (∃ field, some field ∈ td.Fields ∧ field.Key = "name") →
        td.ColumnAsOptionName = "name") := by
  rw [pointer_performSanityChecks_eq descriptor hnil]
  have hv := pointer_hasTypes_values descriptor hwf
  refine ⟨?_, ?_, ?_⟩
  · exact checkTypeDescriptors_returns _
      (fun td htd f hf => (hasType_iff f).mp (hv td htd f hf))
  · rintro ⟨td, htd, ⟨field, hf, hk⟩, hne⟩
    refine performSanityChecks_rejects descriptor.values hv (fun hall => ?_)
    exact hne ((errName_none_iff td.values).mp
      (hall td.values (pointer_mem_values htd)).2.1 ⟨field, pointer_field_mem_values hf, hk⟩)
  · rintro hacc td htd ⟨field, hf, hk⟩
    exact (errName_none_iff td.values).mp
      (((checkTypeDescriptors_none_iff _).mp hacc) td.values (pointer_mem_values htd)).2.1
      ⟨field, pointer_field_mem_values hf, hk⟩

/-- C16, witness: the type descriptor of `nilThenNameViolation` alone, a
slice without nil entry, is rejected with the message of the name rule. -/
theorem name_rule_enforced_without_nil_witness :
    Pointer.Descriptor.noNil { TypeDescriptors := nilThenNameViolation.TypeDescriptors.tail } =
      true ∧
    Pointer.Descriptor.hasTypes
      { TypeDescriptors := nilThenNameViolation.TypeDescriptors.tail } = true ∧
    Pointer.performSanityChecks { TypeDescriptors := nilThenNameViolation.TypeDescriptors.tail } =
      .ok (some (columnAsOptionNameMessage "t")) ∧
    ∃ msg, Pointer.performSanityChecks
      { TypeDescriptors := nilThenNameViolation.TypeDescriptors.tail } = .ok (some msg) :=
  ⟨by decide, by decide, rfl,
    (name_rule_enforced_without_nil { TypeDescriptors := nilThenNameViolation.TypeDescriptors.tail }
      (by decide) (by decide)).2.1
      ⟨_, List.mem_singleton.mpr rfl, ⟨_, List.mem_singleton.mpr rfl, rfl⟩, by decide⟩⟩

/-- C17, amended: for every descriptor which contains a money field whose
`Currency.value` and `Currency.fromColumn` are both non-empty, which has no
nil entry in `typeDescriptors` and in the `fields` of its type descriptors,
and in which each field has a type and each money type a currency,
`performSanityChecks` returns an error. The error is the one of the first
failing check: when the type descriptors before the field's one are
accepted, the id rule and the name rule of its type descriptor pass and the
fields before it pass, the message is the one of the currency rule, which
contains the type descriptor's key and the field's key; the type
descriptors after the field's one are not read. -/
theorem currency_rule_rejects_without_nil (descriptor : Pointer.Descriptor)
    (td : Pointer.TypeDescriptor) (field : Field) (typ : WorkflowType) (cur : Currency)
    (htd : some td ∈ descriptor.TypeDescriptors) (hf : some field ∈ td.Fields)
    (htyp : field.Typ = some typ) (hm : typ.Name = "money") (hc : typ.Currency = some cur)
    (hv : cur.Value ≠ "") (hcol : cur.FromColumn ≠ "") :
    (descriptor.noNil = true → descriptor.hasTypes = true →
      ∃ msg, Pointer.performSanityChecks descriptor = .ok (some msg)) ∧
    (∀ (before after : List (Option Pointer.TypeDescriptor))
        (fbefore fafter : List (Option Field)),
      descriptor.TypeDescriptors = before ++ some td :: after →
      td.Fields = fbefore ++ some field :: fafter →
      Pointer.checkTypeDescriptors before = .ok none →
      Pointer.errUniqueIdColumnAndIdColumnDiffer (some td) = .ok none →
      Pointer.errColumnAsOptionNameAndNameColumnDiffer (some td) = .ok none →
      Pointer.checkFields td.Key fbefore = .ok none →
      Pointer.performSanityChecks descriptor = .ok (some (currencyMessage td.Key field.Key))) ∧
    NamesKey (currencyMessage td.Key field.Key) field.Key ∧
    NamesKey (currencyMessage td.Key field.Key) td.Key := by
  have hfield : checkField field td.Key = .ok (some (currencyMessage td.Key field.Key)) := by
    rw [checkField_of_typ field td.Key typ htyp, if_pos hm, hc]
    simp only
    rw [if_pos ⟨hv, hcol⟩]
  refine ⟨fun hnil hwf => ?_, ?_, ?_, ?_⟩
  · rw [pointer_performSanityChecks_eq descriptor hnil]
    refine performSanityChecks_rejects descriptor.values (pointer_hasTypes_values descriptor hwf)
      (fun hall => ?_)
    have := (checkFields_none_iff td.values.Key td.values.Fields).mp
      (hall td.values (pointer_mem_values htd)).2.2 field (pointer_field_mem_values hf)
    rw [show td.values.Key = td.Key from rfl, hfield] at this
    cases this
  · intro before after fbefore fafter htds hfields hbefore h1 h2 h3
    unfold Pointer.performSanityChecks
    rw [htds, pointer_checkTypeDescriptors_append _ before hbefore, Pointer.checkTypeDescriptors]
    simp only [h1, h2, ok_bind, deref]
    rw [hfields, pointer_checkFields_append _ _ fbefore h3, Pointer.checkFields]
    simp only [deref, ok_bind, hfield]
    rfl
  · exact ⟨"Unable to parse descriptor.json: " ++ td.Key ++ ".",
      " specifies a default currency value" ++
        "*and* a fromColumn. You must specify *only* one.", by
      simp [currencyMessage, String.append_assoc]⟩
  · exact ⟨"Unable to parse descriptor.json: ", "." ++ field.Key ++
      " specifies a default currency value" ++
        "*and* a fromColumn. You must specify *only* one.", by
      simp [currencyMessage, String.append_assoc]⟩

/-- C17, witness: a single money field `budget` with both currency sources
set is rejected with the message of the currency rule, also when a nil
entry follows its type descriptor. -/
theorem currency_rule_rejects_without_nil_witness :
    Pointer.performSanityChecks
        { TypeDescriptors :=
            [ some { Key := "t", TableName := "t", UniqueIdColumn := "id",
                     ColumnAsOptionName := "name",
                     Fields := [ some { Key := "budget",
                                        Typ := some { Name := "money",
                                                      Currency := some { Value := "EUR",
                                                                         FromColumn := "cur" } } } ] },
              none ] } =
      .ok (some (currencyMessage "t" "budget")) :=
  (currency_rule_rejects_without_nil
    { TypeDescriptors :=
        [ some { Key := "t", TableName := "t", UniqueIdColumn := "id",
                 ColumnAsOptionName := "name",
                 Fields := [ some { Key := "budget",
                                    Typ := some { Name := "money",
                                                  Currency := some { Value := "EUR",
                                                                     FromColumn := "cur" } } } ] },
          none ] }
    { Key := "t", TableName := "t", UniqueIdColumn := "id", ColumnAsOptionName := "name",
      Fields := [ some { Key := "budget",
                         Typ := some { Name := "money",
                                       Currency := some { Value := "EUR",
                                                          FromColumn := "cur" } } } ] }
    { Key := "budget",
      Typ := some { Name := "money", Currency := some { Value := "EUR", FromColumn := "cur" } } }
    { Name := "money", Currency := some { Value := "EUR", FromColumn := "cur" } }
    { Value := "EUR", FromColumn := "cur" }
    (List.mem_cons_self _ _) (List.mem_singleton.mpr rfl) rfl rfl rfl (by decide)
    (by decide)).2.1 [] [none] [] [] rfl rfl rfl rfl rfl rfl

/-! ## C24, C25: the lookups on slices of pointers -/

/-- C24, counterexample: on the slice holding the type descriptor of the
table `equipment` and then a nil entry, the lookup of `equipment` panics
(it reads `TableName` through the nil entry) although an element matches;
on the slice holding only a nil entry, where no element matches, it panics
instead of returning nil. -/
theorem lookup_nil_entry_counterexample :
    (∃ td, some td ∈ equipmentThenNil ∧ td.TableName = "equipment") ∧
    Pointer.GetTypeDescriptorUsingDBTableName equipmentThenNil "equipment" =
      .error Fault.panic ∧
    (∀ td, some td ∈ [(none : Option Pointer.TypeDescriptor)] → td.TableName ≠ "equipment") ∧
    Pointer.GetTypeDescriptorUsingDBTableName [none] "equipment" = .error Fault.panic ∧
    Pointer.GetTypeDescriptorUsingDBTableName [none] "equipment" ≠ .ok none := by
  refine ⟨⟨_, List.mem_cons_self _ _, rfl⟩, rfl, ?_, rfl, ?_⟩
  · intro td h
    simp at h
  · intro h
    have h2 : (Except.error Fault.panic : Except Fault (Option Pointer.TypeDescriptor)) =
        .ok none := h
    cases h2

/-- C24, amended: for every slice of type descriptors without nil entry and
every table name, `GetTypeDescriptorUsingDBTableName` returns; it returns
the type descriptor at the greatest index whose `TableName` equals the
name (the slice splits into a part before it and a part after it in which
no table name matches), and it returns nil exactly when no element
matches. On a slice with a nil entry it panics. -/
theorem lookup_returns_last_match_without_nil (tds : List (Option Pointer.TypeDescriptor))
    (tableName : String) :
    (tds.all (fun entry => entry.isSome) = true →
      (∃ result, Pointer.GetTypeDescriptorUsingDBTableName tds tableName = .ok result) ∧
      (Pointer.GetTypeDescriptorUsingDBTableName tds tableName = .ok none ↔
        ∀ td, some td ∈ tds → td.TableName ≠ tableName) ∧
      (∀ td, Pointer.GetTypeDescriptorUsingDBTableName tds tableName = .ok (some td) ↔
        ∃ pre post, tds = pre ++ some td :: post ∧ td.TableName = tableName ∧
          ∀ t, some t ∈ post → t.TableName ≠ tableName) ∧
      (∀ td, Pointer.GetTypeDescriptorUsingDBTableName tds tableName = .ok (some td) →
        ∃ i, tds[i]? = some (some td) ∧ td.TableName = tableName ∧
          ∀ (j : Nat) (t : Pointer.TypeDescriptor), i < j → tds[j]? = some (some t) →
            t.TableName ≠ tableName)) ∧
    (none ∈ tds → Pointer.GetTypeDescriptorUsingDBTableName tds tableName = .error Fault.panic) := by
  refine ⟨fun hnil => ?_, fun h => pointer_lookup_loop_panics tableName tds none h⟩
  obtain ⟨result, hres, hcase⟩ := pointer_lookup_loop_spec tableName tds none hnil
  have hdef : Pointer.GetTypeDescriptorUsingDBTableName tds tableName = .ok result := hres
  have hsome : ∀ td, Pointer.GetTypeDescriptorUsingDBTableName tds tableName = .ok (some td) ↔
      ∃ pre post, tds = pre ++ some td :: post ∧ td.TableName = tableName ∧
        ∀ t, some t ∈ post → t.TableName ≠ tableName := by
    intro td
    rw [hdef]
    rcases hcase with ⟨pre, t, post, heq, hname, hpost, hr⟩ | ⟨hnone, hr⟩
    · subst hr
      constructor
      · intro h
        have ht : t = td := Option.some.inj (Except.ok.inj h)
        subst ht
        exact ⟨pre, post, heq, hname, hpost⟩
      · rintro ⟨pre2, post2, heq2, hname2, hpost2⟩
        have := pointer_last_match_unique (heq.symm.trans heq2) hname hname2 hpost hpost2
        rw [this]
    · subst hr
      constructor
      · intro h
        cases h
      · rintro ⟨pre2, post2, heq2, hname2, _⟩
        exact absurd hname2 (hnone td (by rw [heq2]; simp))
  refine ⟨⟨result, hdef⟩, ?_, hsome, ?_⟩
  · rw [hdef]
    rcases hcase with ⟨pre, t, post, heq, hname, hpost, hr⟩ | ⟨hnone, hr⟩
    · subst hr
      constructor
      · intro h
        cases h
      · intro hall
        exact absurd hname (hall t (by rw [heq]; simp))
    · subst hr
      exact ⟨fun _ => hnone, fun _ => rfl⟩
  · intro td h
    obtain ⟨pre, post, heq, hname, hpost⟩ := (hsome td).mp h
    refine ⟨pre.length, ?_, hname, ?_⟩
    · rw [heq, List.getElem?_append_right (Nat.le_refl _), Nat.sub_self]
      exact List.getElem?_cons_zero
    intro j t hij hj
    rw [heq, List.getElem?_append_right (by omega)] at hj
    have hpos : 0 < j - pre.length := by omega
    obtain ⟨k, hk⟩ := Nat.exists_eq_succ_of_ne_zero (Nat.pos_iff_ne_zero.mp hpos)
    rw [hk, List.getElem?_cons_succ] at hj
    exact hpost t (List.getElem?_mem hj)

/-- C24, witness: with two type descriptors for the table `equipment` the
second one is returned. -/
theorem lookup_returns_last_match_without_nil_witness :
    Pointer.GetTypeDescriptorUsingDBTableName
        [ some { Key := "first", TableName := "equipment" },
          some { Key := "second", TableName := "equipment" },
          some { Key := "third", TableName := "recipes" } ] "equipment" =
      .ok (some { Key := "second", TableName := "equipment" }) ∧
    ∃ pre post, ([ some { Key := "first", TableName := "equipment" },
                   some { Key := "second", TableName := "equipment" },
                   some { Key := "third", TableName := "recipes" } ] :
                 List (Option Pointer.TypeDescriptor)) =
        pre ++ some { Key := "second", TableName := "equipment" } :: post ∧
      ({ Key := "second", TableName := "equipment" } : Pointer.TypeDescriptor).TableName =
        "equipment" ∧
      ∀ t, some t ∈ post → t.TableName ≠ "equipment" :=
  ⟨rfl, ((((lookup_returns_last_match_without_nil
    [ some { Key := "first", TableName := "equipment" },
      some { Key := "second", TableName := "equipment" },
      some { Key := "third", TableName := "recipes" } ] "equipment").1 (by decide)).2.2.1)
    { Key := "second", TableName := "equipment" }).mp rfl⟩

/-- C25, counterexample: the field slice of the type descriptor holds the
relationship field `recipes` and then a nil entry. Both functions read
`Relationship` through the nil entry and panic: neither returns a list of
fields. A nil type descriptor makes `TypeDescriptorRelationships` panic as
well. -/
theorem relationship_fields_nil_entry_counterexample :
    Pointer.GetTypeDescriptorUsingDBTableName [some recipesThenNil] "equipment" =
      .ok (some recipesThenNil) ∧
    Pointer.TypeDescriptorRelationships (some recipesThenNil) = .error Fault.panic ∧
    Pointer.withRelationshipFieldsOmitted [some recipesThenNil] "equipment" =
      .error Fault.panic ∧
    Pointer.TypeDescriptorRelationships none = .error Fault.panic :=
  ⟨rfl, rfl, rfl, rfl⟩

/-- C25, amended: for every type descriptor found by the lookup of its
table whose field slice has no nil entry, `TypeDescriptorRelationships`
returns exactly the fields whose `Relationship` is set and
`withRelationshipFieldsOmitted` (for the type descriptor's table) exactly
the remaining fields, both in declaration order; the two results partition
the field slice. When the field slice has a nil entry both panic. -/
theorem relationship_fields_partition_without_nil (tds : List (Option Pointer.TypeDescriptor))
    (table : String) (td : Pointer.TypeDescriptor)
    (htd : Pointer.GetTypeDescriptorUsingDBTableName tds table = .ok (some td)) :
    (td.noNil = true →
      ∃ relationships omitted,
        Pointer.TypeDescriptorRelationships (some td) = .ok relationships ∧
        Pointer.withRelationshipFieldsOmitted tds table = .ok omitted ∧
        relationships =
          td.Fields.reduceOption.filter (fun field => field.Relationship.isSome) ∧
        omitted = td.Fields.reduceOption.filter (fun field => field.Relationship.isNone) ∧
        td.Fields.reduceOption.map some = td.Fields ∧
        (∀ f, f ∈ relationships ↔ some f ∈ td.Fields ∧ f.Relationship ≠ none) ∧
        (relationships.map some).Sublist td.Fields ∧
        (∀ f, f ∈ omitted ↔ some f ∈ td.Fields ∧ f.Relationship = none) ∧
        (omitted.map some).Sublist td.Fields ∧
        (∀ f, some f ∈ td.Fields → (f ∈ relationships ∧ f ∉ omitted) ∨
          (f ∉ relationships ∧ f ∈ omitted)) ∧
        relationships.length + omitted.length = td.Fields.length ∧
        List.Perm ((relationships ++ omitted).map some) td.Fields) ∧
    (td.noNil = false →
      Pointer.TypeDescriptorRelationships (some td) = .error Fault.panic ∧
      Pointer.withRelationshipFieldsOmitted tds table = .error Fault.panic) := by
  have hrelEq : Pointer.TypeDescriptorRelationships (some td) =
      Pointer.TypeDescriptorRelationships.loop td.Fields := rfl
  have homEq : Pointer.withRelationshipFieldsOmitted tds table =
      Pointer.withRelationshipFieldsOmitted.loop td.Fields := by
    simp only [Pointer.withRelationshipFieldsOmitted, htd, ok_bind, deref]
  constructor
  · intro hnil
    have hmap := reduceOption_map_some td.Fields hnil
    obtain ⟨hrel, hom, hperm⟩ := filter_partition_facts td.Fields.reduceOption
    have hrel2 : ∀ f, f ∈ td.Fields.reduceOption.filter (fun field => field.Relationship.isSome) ↔
        some f ∈ td.Fields ∧ f.Relationship ≠ none := fun f => by
      rw [hrel f, List.reduceOption_mem_iff]
    have hom2 : ∀ f, f ∈ td.Fields.reduceOption.filter (fun field => field.Relationship.isNone) ↔
        some f ∈ td.Fields ∧ f.Relationship = none := fun f => by
      rw [hom f, List.reduceOption_mem_iff]
    refine ⟨_, _, hrelEq.trans (pointer_relationships_loop td.Fields hnil),
      homEq.trans (pointer_omitted_loop td.Fields hnil), rfl, rfl, hmap, hrel2, ?_, hom2, ?_, ?_,
      ?_, ?_⟩
    · have h := (List.filter_sublist (p := fun field : Field => field.Relationship.isSome)
        td.Fields.reduceOption).map some
      rw [hmap] at h
      exact h
    · have h := (List.filter_sublist (p := fun field : Field => field.Relationship.isNone)
        td.Fields.reduceOption).map some
      rw [hmap] at h
      exact h
    · intro f hf
      by_cases h : f.Relationship = none
      · exact Or.inr ⟨fun hc => ((hrel2 f).mp hc).2 h, (hom2 f).mpr ⟨hf, h⟩⟩
      · exact Or.inl ⟨(hrel2 f).mpr ⟨hf, h⟩, fun hc => h ((hom2 f).mp hc).2⟩
    · have h1 := hperm.length_eq
      have h2 := congrArg List.length hmap
      rw [List.length_map] at h2
      rw [List.length_append] at h1
      omega
    · have h := hperm.map some
      rw [hmap] at h
      exact h
  · intro hnil
    have hmem := mem_none_of_not_all td.Fields hnil
    exact ⟨hrelEq.trans (pointer_relationships_loop_panics td.Fields hmem),
      homEq.trans (pointer_omitted_loop_panics td.Fields hmem)⟩

/-- C25, witness: the equipment type descriptor of the test suite has the
relationship field `recipes` and four other fields. -/
theorem relationship_fields_partition_without_nil_witness :
    Pointer.GetTypeDescriptorUsingDBTableName
        (Pointer.Descriptor.ofValues testDescriptor).TypeDescriptors "equipment" =
      .ok (some (Pointer.TypeDescriptor.ofValues
        { Key := "equipment", Name := "Equipment", TableName := "equipment",
          ColumnAsOptionName := "name", UniqueIdColumn := "id",
          Fields := commonEquipmentDescriptorFields })) ∧
    Pointer.TypeDescriptorRelationships
        (some (Pointer.TypeDescriptor.ofValues
          { Key := "equipment", Name := "Equipment", TableName := "equipment",
            ColumnAsOptionName := "name", UniqueIdColumn := "id",
            Fields := commonEquipmentDescriptorFields })) = .ok [recipesField] ∧
    Pointer.withRelationshipFieldsOmitted
        (Pointer.Descriptor.ofValues testDescriptor).TypeDescriptors "equipment" =
      .ok ovenFields ∧
    ∃ relationships omitted,
      Pointer.TypeDescriptorRelationships
        (some (Pointer.TypeDescriptor.ofValues
          { Key := "equipment", Name := "Equipment", TableName := "equipment",
            ColumnAsOptionName := "name", UniqueIdColumn := "id",
            Fields := commonEquipmentDescriptorFields })) = .ok relationships ∧
      Pointer.withRelationshipFieldsOmitted
        (Pointer.Descriptor.ofValues testDescriptor).TypeDescriptors "equipment" =
        .ok omitted ∧
      List.Perm ((relationships ++ omitted).map some)
        (commonEquipmentDescriptorFields.map some) := by
  refine ⟨rfl, rfl, rfl, ?_⟩
  obtain ⟨relationships, omitted, h1, h2, _, _, _, _, _, _, _, _, _, h12⟩ :=
    (relationship_fields_partition_without_nil
      (Pointer.Descriptor.ofValues testDescriptor).TypeDescriptors "equipment"
      (Pointer.TypeDescriptor.ofValues
        { Key := "equipment", Name := "Equipment", TableName := "equipment",
          ColumnAsOptionName := "name", UniqueIdColumn := "id",
          Fields := commonEquipmentDescriptorFields }) rfl).1 (by decide)
  exact ⟨relationships, omitted, h1, h2, h12⟩

/-! ## C4: oneToMany fields through the dispatcher -/

theorem tableHasRelationships_of_related (queryResults : GoMap) (table : String) (field : Field)
    (rel : Relationship) (rows : List GoMap)
    (hrel : field.Relationship = some rel)
    (hrows : relatedResultsOf queryResults table field = .ok rows) :
    tableHasRelationships queryResults table field = .ok true := by
  unfold relatedResultsOf at hrows
  unfold tableHasRelationships
  rw [hrel]
  cases hrow : rowOf queryResults table with
  | error e => simp [hrow] at hrows
  | ok row =>
    simp only [hrow, ok_bind] at hrows ⊢
    cases hv : row.get field.Key with
    | map m => rfl
    | null => simp [hv, Value.asMap] at hrows
    | int64 _ => simp [hv, Value.asMap] at hrows
    | float64 _ => simp [hv, Value.asMap] at hrows
    | str _ => simp [hv, Value.asMap] at hrows
    | time _ => simp [hv, Value.asMap] at hrows
    | bool _ => simp [hv, Value.asMap] at hrows
    | slice _ => simp [hv, Value.asMap] at hrows
    | mapSlice _ => simp [hv, Value.asMap] at hrows

theorem dispatch_oneToMany (self : FormatFn) (tds : List TypeDescriptor) (ctx : Ctx)
    (formatted queryResults : GoMap) (table : String) (field : Field) (rel : Relationship)
    (hrel : field.Relationship = some rel) (hkind : rel.Kind = "oneToMany") :
    buildAndRecursivelyResolveRelationships self tds ctx formatted queryResults table field =
      relationshipKindIsOneToMany self tds ctx formatted queryResults table field := by
  unfold buildAndRecursivelyResolveRelationships
  simp only [deref_eq_ok hrel, ok_bind]
  rw [if_pos hkind]

theorem formatField_oneToMany (self : FormatFn) (tds : List TypeDescriptor) (ctx : Ctx)
    (formatted queryResults : GoMap) (table route : String) (field : Field) (rel : Relationship)
    (rows : List GoMap)
    (hrel : field.Relationship = some rel) (hkind : rel.Kind = "oneToMany")
    (hrows : relatedResultsOf queryResults table field = .ok rows)
    (hroute : ctx.currentRoute = some route) (hne : route ≠ "GetCollection") :
    formatField self tds ctx queryResults table formatted field =
      relationshipKindIsOneToMany self tds ctx formatted queryResults table field := by
  unfold formatField
  simp only [deref_eq_ok hroute, ok_bind]
  rw [if_neg hne]
  unfold buildResultFromQueryResultsUsingField
  simp only [tableHasRelationships_of_related queryResults table field rel rows hrel hrows,
    ok_bind]
  exact dispatch_oneToMany self tds ctx formatted queryResults table field rel hrel hkind

theorem slice_ne_stringify (x v : Value) : Value.slice [x] ≠ stringify v := by
  cases v <;> simp [stringify]

/-- C4, amended: a field whose relationship kind is `oneToMany` is sent by
`buildAndRecursivelyResolveRelationships`, and on every route other than
`GetCollection` by the loop body of `formatAsAWorkflowType`, to the
oneToMany resolver. When its related-row list is empty it is formatted as
an empty sequence under the field's key. With the denormalize flag unset, a
related type descriptor whose unique-id column is named `id` (mapped by a
field, distinct from the option-name column, no other field keyed `id`) and
rows that fit its fields, the key is formatted as the sequence of the
related rows' stringified unique ids; with exactly one related row this is
a one-element sequence holding that row's stringified unique id, which is
neither the bare id nor an embedded object. -/
theorem oneToMany_field_formats_sequence (tds : List TypeDescriptor) (fuel : Nat) (ctx : Ctx)
    (formatted queryResults : GoMap) (table : String) (field : Field) (rel : Relationship)
    (rows : List GoMap)
    (hrel : field.Relationship = some rel) (hkind : rel.Kind = "oneToMany")
    (hrows : relatedResultsOf queryResults table field = .ok rows) :
    (rows = [] →
      buildAndRecursivelyResolveRelationships (formatAsAWorkflowType tds (fuel + 1)) tds ctx
        formatted queryResults table field = .ok (formatted.set field.Key (Value.slice [])) ∧
      ∀ route, ctx.currentRoute = some route → route ≠ "GetCollection" →
        formatField (formatAsAWorkflowType tds (fuel + 1)) tds ctx queryResults table formatted
          field = .ok (formatted.set field.Key (Value.slice []))) ∧
    (∀ (td : TypeDescriptor) (route : String),
      ctx.denormalize = some "" → ctx.currentRoute = some route →
      GetTypeDescriptorUsingDBTableName tds rel.WithTable = some td →
      td.UniqueIdColumn = "id" → td.ColumnAsOptionName ≠ "id" →
      (∃ f ∈ td.Fields, f.Relationship = none ∧ f.FromColumn = "id") →
      (∀ f ∈ td.Fields, f.Relationship = none → f.Key = "id" → f.FromColumn = "id") →
      (∀ r ∈ rows, ∀ f ∈ td.Fields, f.Relationship = none → rowFitsField td r f = true) →
      buildAndRecursivelyResolveRelationships (formatAsAWorkflowType tds (fuel + 1)) tds ctx
          formatted queryResults table field =
        .ok (formatted.set field.Key
          (Value.slice (rows.map (fun r => stringify (r.get td.UniqueIdColumn))))) ∧
      (route ≠ "GetCollection" →
        formatField (formatAsAWorkflowType tds (fuel + 1)) tds ctx queryResults table formatted
            field =
          .ok (formatted.set field.Key
            (Value.slice (rows.map (fun r => stringify (r.get td.UniqueIdColumn)))))) ∧
      ∀ r, rows = [r] →
        buildAndRecursivelyResolveRelationships (formatAsAWorkflowType tds (fuel + 1)) tds ctx
            formatted queryResults table field =
          .ok (formatted.set field.Key (Value.slice [stringify (r.get td.UniqueIdColumn)])) ∧
        (formatted.set field.Key (Value.slice [stringify (r.get td.UniqueIdColumn)])).get
            field.Key = Value.slice [stringify (r.get td.UniqueIdColumn)] ∧
        Value.slice [stringify (r.get td.UniqueIdColumn)] ≠ stringify (r.get td.UniqueIdColumn) ∧
        ∀ obj : GoMap, Value.slice [stringify (r.get td.UniqueIdColumn)] ≠ Value.map obj) := by
  have hseq := oneToMany_formats_sequence tds fuel ctx formatted queryResults table field rel
    rows hrel hrows
  have hdisp := dispatch_oneToMany (formatAsAWorkflowType tds (fuel + 1)) tds ctx formatted
    queryResults table field rel hrel hkind
  constructor
  · intro hempty
    refine ⟨hdisp.trans (hseq.1 hempty), fun route hroute hne => ?_⟩
    rw [formatField_oneToMany (formatAsAWorkflowType tds (fuel + 1)) tds ctx formatted
      queryResults table route field rel rows hrel hkind hrows hroute hne]
    exact hseq.1 hempty
  · intro td route hden hroute htd huid hopt hmap hkey hfit
    obtain ⟨hall, hone⟩ := hseq.2 td route hden hroute htd huid hopt hmap hkey hfit
    refine ⟨hdisp.trans hall, fun hne => ?_, fun r hr => ?_⟩
    · rw [formatField_oneToMany (formatAsAWorkflowType tds (fuel + 1)) tds ctx formatted
        queryResults table route field rel rows hrel hkind hrows hroute hne]
      exact hall
    · refine ⟨hdisp.trans (hone r hr), GoMap.get_set_self _ _ _, slice_ne_stringify _ _, ?_⟩
      intro obj h
      cases h

/-- C4, witness: the oven of the test descriptor joined with one recipe, on
the route `GetSingle`. -/
theorem oneToMany_field_formats_sequence_witness :
    recipesField.Relationship =
      some { Kind := "oneToMany", WithTable := "recipes", LocalTableUniqueIdColumn := "id",
             ForeignTableUniqueIdColumn := "equipment_id" } ∧
    buildAndRecursivelyResolveRelationships (formatAsAWorkflowType testTypeDescriptors 1)
        testTypeDescriptors (getSingleCtx "equipment") []
        (ovenWithRecipes [recipeRow 7 "Bread"]) "equipment" recipesField =
      .ok (GoMap.set [] "recipes" (Value.slice [stringify ((recipeRow 7 "Bread").get "id")])) ∧
    formatField (formatAsAWorkflowType testTypeDescriptors 1) testTypeDescriptors
        (getSingleCtx "equipment") (ovenWithRecipes [recipeRow 7 "Bread"]) "equipment" []
        recipesField =
      .ok (GoMap.set [] "recipes" (Value.slice [stringify ((recipeRow 7 "Bread").get "id")])) := by
  obtain ⟨h1, h2, h3⟩ := (oneToMany_field_formats_sequence testTypeDescriptors 0
    (getSingleCtx "equipment") [] (ovenWithRecipes [recipeRow 7 "Bread"]) "equipment"
    recipesField
    { Kind := "oneToMany", WithTable := "recipes", LocalTableUniqueIdColumn := "id",
      ForeignTableUniqueIdColumn := "equipment_id" }
    [recipeRow 7 "Bread"] rfl rfl rfl).2
    { Key := "recipes", Name := "Recipes", TableName := "recipes", ColumnAsOptionName := "name",
      UniqueIdColumn := "id", Fields := commonRecipesDescriptorFields }
    "GetSingle" rfl rfl rfl rfl (by decide) (by decide) (by decide) (by decide)
  exact ⟨rfl, (h3 (recipeRow 7 "Bread") rfl).1, h2 (by decide)⟩

end WorkflowConnector
